import Mathlib

/-!
# NSWING: the nested shallow-water solver of `nswing.c`

A shallow embedding of the solver kernels of `src/nswing.c` and theorems about them.

Conventions of the embedding.

* A C `double` (and `float`) is a rational number: arithmetic is exact, there is no rounding,
  no NaN and no infinity. Division is the division of `ℚ`.
* A C array `double *a` is a total function `Nat → ℚ` from the index to the stored value; a store
  `a[i] = v` is `Function.update a i v`. The per-level members of `struct nestContainer`
  (`double *etad[10]`, ...) are functions of the level first and of the cell index second.
  Distinct members are distinct allocations.
* `int` flags that the code only tests for truth (`do_linear`, `out_velocity_x`, ...) are `Bool`.
  Grid sizes and indices (`nx`, `ny`, `nm`, `row`, `col`, `ij`) are natural numbers: the embedding
  describes grids whose cell count fits the `unsigned int` index of the C code. Expressions that
  the C code evaluates in signed arithmetic and that can be negative (`hdr.nx - jupe - 1`) are
  computed in `Int`.
* A `for` loop is a left fold of its body over the list of the values of the loop variable.
* `sqrt`, `pow` (libm) and the file-scope variable `EPS4` are taken from an `Env` record.
-/

namespace NSWING

/-! ## Constants (`#define`s of nswing.c) -/

/-- NORMAL_GRAV: Moritz 1980 IGF value for gravity at 45 degrees latitude. -/
def NORMAL_GRAV : ℚ := 9806199203 / 1000000000
/-- EPS12 is 1e-12. -/
def EPS12 : ℚ := 1 / 1000000000000
/-- EPS10 is 1e-10. -/
def EPS10 : ℚ := 1 / 10000000000
/-- EPS6 is 1e-6. -/
def EPS6 : ℚ := 1 / 1000000
/-- EPS5 is 1e-5. -/
def EPS5 : ℚ := 1 / 100000
/-- EPS4_ is 1e-4, the default of the file-scope variable EPS4. -/
def EPS4_ : ℚ := 1 / 10000
/-- EPS3 is 1e-3. -/
def EPS3 : ℚ := 1 / 1000
/-- EPS2 is 1e-2. -/
def EPS2 : ℚ := 1 / 100
/-- EPS1 is 1e-1. -/
def EPS1 : ℚ := 1 / 10
/-- MAXRUNUP: do not waste time computing flood above this altitude. -/
def MAXRUNUP : ℚ := -50
/-- V_LIMIT: upper limit of maximum velocity. -/
def V_LIMIT : ℚ := 20

/-- What the kernels take from outside `struct nestContainer`: the libm functions `sqrt` and
`pow`, and the file-scope variable `EPS4` (1e-4 unless changed on the command line). -/
structure Env where
  sqrt : ℚ → ℚ
  pow : ℚ → ℚ → ℚ
  EPS4 : ℚ

/-! ## Data model -/

/-- The C `struct grd_header`. -/
structure grd_header where
  nx : Nat
  ny : Nat
  nm : Nat
  x_inc : ℚ
  y_inc : ℚ
  x_min : ℚ
  x_max : ℚ
  y_min : ℚ
  y_max : ℚ
  z_min : ℚ
  z_max : ℚ

/-- The C `struct nestContainer` (the members the solver kernels use). -/
structure nestContainer where
  do_upscale : Bool
  do_long_beach : Bool
  do_short_beach : Bool
  do_linear : Bool
  do_max_level : Bool
  do_max_velocity : Bool
  do_Coriolis : Bool
  out_velocity_x : Bool
  out_velocity_y : Bool
  isGeog : Bool
  writeLevel : Nat
  bnc_border : Nat → Int
  level : Nat → Int
  LLrow : Nat → Int
  LLcol : Nat → Int
  ULrow : Nat → Int
  ULcol : Nat → Int
  URrow : Nat → Int
  URcol : Nat → Int
  LRrow : Nat → Int
  LRcol : Nat → Int
  incRatio : Nat → Int
  long_beach : Nat → Nat → Int
  short_beach : Nat → Nat → Int
  wmax : Nat → ℚ
  vmax : Nat → ℚ
  run_jump_time : ℚ
  manning_depth : ℚ
  manning : Nat → ℚ
  dt : Nat → ℚ
  bat : Nat → Nat → ℚ
  fluxm_a : Nat → Nat → ℚ
  fluxm_d : Nat → Nat → ℚ
  fluxn_a : Nat → Nat → ℚ
  fluxn_d : Nat → Nat → ℚ
  htotal_a : Nat → Nat → ℚ
  htotal_d : Nat → Nat → ℚ
  vex : Nat → Nat → ℚ
  vey : Nat → Nat → ℚ
  etaa : Nat → Nat → ℚ
  etad : Nat → Nat → ℚ
  r0 : Nat → Nat → ℚ
  r1m : Nat → Nat → ℚ
  r1n : Nat → Nat → ℚ
  r2m : Nat → Nat → ℚ
  r2n : Nat → Nat → ℚ
  r3m : Nat → Nat → ℚ
  r3n : Nat → Nat → ℚ
  r4m : Nat → Nat → ℚ
  r4n : Nat → Nat → ℚ
  time_h : ℚ
  hdr : Nat → grd_header

/-- The loop `for (i = lo; i < hi; i++) body(i)`, as a state transformer. -/
def forRange {σ : Type} (lo hi : Nat) (body : Nat → σ → σ) (s : σ) : σ :=
  (List.range' lo (hi - lo)).foldl (fun acc i => body i acc) s

/-- The store `a[lev][ij] = v` into a per-level array. -/
def store (a : Nat → Nat → ℚ) (lev ij : Nat) (v : ℚ) : Nat → Nat → ℚ :=
  Function.update a lev (Function.update (a lev) ij v)

/-- The store `a[lev][ij] = v` into a per-level array of `short`. -/
def storeS (a : Nat → Nat → Int) (lev ij : Nat) (v : Int) : Nat → Nat → Int :=
  Function.update a lev (Function.update (a lev) ij v)

/-- The call `memset(a[lev], 0, nm * sizeof(double))`. -/
def memset0 (a : Nat → Nat → ℚ) (lev nm : Nat) : Nat → Nat → ℚ :=
  Function.update a lev (fun k => if k < nm then 0 else a lev k)

/-- The call `memcpy(dst[lev], src[lev], nm * sizeof(double))`. -/
def memcpy (dst src : Nat → Nat → ℚ) (lev nm : Nat) : Nat → Nat → ℚ :=
  Function.update dst lev (fun k => if k < nm then src lev k else dst lev k)

/-! ## Mass conservation -/

/-- The new elevation `zzz` that `mass` computes at cell `c = (row, col)` (nswing.c 3799-3800,
with `rm1` of line 3795). -/
def mass_zzz (nest : nestContainer) (lev : Nat) (c : Nat × Nat) : ℚ :=
  let dtdx := nest.dt lev / (nest.hdr lev).x_inc
  let dtdy := nest.dt lev / (nest.hdr lev).y_inc
  let ij := c.1 * (nest.hdr lev).nx + c.2
  let rm1 := if c.1 = 0 then 0 else (nest.hdr lev).nx
  let cm1 := if c.2 = 0 then 0 else 1
  nest.etaa lev ij - dtdx * (nest.fluxm_a lev ij - nest.fluxm_a lev (ij - cm1))
    - dtdy * (nest.fluxn_a lev ij - nest.fluxn_a lev (ij - rm1))

/-- The values `mass` computes at cell `c = (row, col)` (nswing.c 3798-3821) from the arrays
it only reads: the new `(etad, htotal_d, long_beach, short_beach)` entries of the cell, given
the old ones; an entry that the branch taken does not assign keeps its old value. -/
def mass_val (nest : nestContainer) (lev : Nat) (c : Nat × Nat) (old : ℚ × ℚ × Int × Int) :
    ℚ × ℚ × Int × Int :=
  let ij := c.1 * (nest.hdr lev).nx + c.2
  if nest.bat lev ij > MAXRUNUP then
    let zzz := mass_zzz nest lev c
    let dd := zzz + nest.bat lev ij
    (if dd > EPS10 then zzz else -nest.bat lev ij,
     if dd > EPS10 then dd else 0,
     if nest.do_long_beach ∧ lev = nest.writeLevel ∧ nest.bat lev ij > 0 ∧ dd < EPS1 then 1
       else old.2.2.1,
     if nest.do_short_beach ∧ lev = nest.writeLevel ∧ nest.bat lev ij < 0 ∧ zzz > EPS1 then 1
       else old.2.2.2)
  else
    (-nest.bat lev ij, old.2.1, old.2.2.1, old.2.2.2)

/-- The four entries of cell `k` that `mass` and `mass_sp` may write. -/
def mass_get (lev : Nat) (s : nestContainer) (k : Nat) : ℚ × ℚ × Int × Int :=
  (s.etad lev k, s.htotal_d lev k, s.long_beach lev k, s.short_beach lev k)

/-- The body of the inner loop of `mass` (nswing.c 3796-3823) at cell `(row, col)`: the
entries of the cell are replaced by the values of `mass_val`. -/
def mass_cell (lev row col : Nat) (nest : nestContainer) : nestContainer :=
  let ij := row * (nest.hdr lev).nx + col
  let v := mass_val nest lev (row, col) (mass_get lev nest ij)
  { nest with etad := store nest.etad lev ij v.1,
              htotal_d := store nest.htotal_d lev ij v.2.1,
              long_beach := storeS nest.long_beach lev ij v.2.2.1,
              short_beach := storeS nest.short_beach lev ij v.2.2.2 }

/-- The C function `mass` (nswing.c 3778-3825): non linear continuity equation, cartesian
coordinates. -/
def mass (nest : nestContainer) (lev : Nat) : nestContainer :=
  forRange 0 (nest.hdr lev).ny (fun row s =>
    forRange 0 (nest.hdr lev).nx (fun col s => mass_cell lev row col s) s) nest

/-! ## Loops over the cells of a grid -/


/-- The cells `(row, col)` visited by two nested loops, in the order of the visit. -/
def cells (r0 r1 c0 c1 : Nat) : List (Nat × Nat) :=
  (List.range' r0 (r1 - r0)).flatMap fun r => (List.range' c0 (c1 - c0)).map fun c => (r, c)

/-- The container with the arrays `mass` and `mass_sp` write blanked: what is left is what
they only read. -/
def mass_ro (nest : nestContainer) : nestContainer :=
  { nest with etad := fun _ _ => 0, htotal_d := fun _ _ => 0,
              long_beach := fun _ _ => 0, short_beach := fun _ _ => 0 }

/-- Reference definition of the Cartesian continuity step (specification 4.3): the new
elevation `z` of cell `(col, row)` before clamping, the west and south neighbours being
replaced by the cell itself in column 0 and in row 0. -/
def mass_ref_z (nest : nestContainer) (lev row col : Nat) : ℚ :=
  let nx := (nest.hdr lev).nx
  let M := fun (i j : Nat) => nest.fluxm_a lev (j * nx + i)
  let N := fun (i j : Nat) => nest.fluxn_a lev (j * nx + i)
  let dtdx := nest.dt lev / (nest.hdr lev).x_inc
  let dtdy := nest.dt lev / (nest.hdr lev).y_inc
  nest.etaa lev (row * nx + col)
    - dtdx * (M col row - (if col = 0 then M col row else M (col - 1) row))
    - dtdy * (N col row - (if row = 0 then N col row else N col (row - 1)))

/-- Reference definition: `eta_d` of the cell after the Cartesian continuity step. -/
def mass_ref_eta (nest : nestContainer) (lev row col : Nat) : ℚ :=
  let b := nest.bat lev (row * (nest.hdr lev).nx + col)
  let z := mass_ref_z nest lev row col
  if b > -50 then (if z + b > 1 / 10000000000 then z else -b) else -b

/-- Reference definition: `h_total_d` of the cell after the Cartesian continuity step. -/
def mass_ref_h (nest : nestContainer) (lev row col : Nat) : ℚ :=
  let b := nest.bat lev (row * (nest.hdr lev).nx + col)
  let z := mass_ref_z nest lev row col
  if b > -50 then (if z + b > 1 / 10000000000 then z + b else 0)
  else nest.htotal_d lev (row * (nest.hdr lev).nx + col)

/-- The new elevation `etan` that `mass_sp` computes at cell `c = (row, col)` (nswing.c
4486-4490, with `rm1` and `rowm1` of lines 4481-4482). -/
def mass_sp_etan (nest : nestContainer) (lev : Nat) (c : Nat × Nat) : ℚ :=
  let row := c.1
  let ij := c.1 * (nest.hdr lev).nx + c.2
  let rm1 := (if row = 0 then 0 else 1) * (nest.hdr lev).nx
  let rowm1 := (max ((row : Int) - 1) 0).toNat
  let cm1 := if c.2 = 0 then 0 else 1
  let etan := nest.etaa lev ij
               - nest.r2m lev row * (nest.fluxm_a lev ij - nest.fluxm_a lev (ij - cm1))
               - nest.r2n lev row * (nest.fluxn_a lev ij * nest.r1n lev row
               - nest.fluxn_a lev (ij - rm1) * nest.r1n lev rowm1)
  if |etan| < EPS10 then 0 else etan

/-- The values `mass_sp` computes at cell `c = (row, col)` (nswing.c 4485-4510) from the
arrays it only reads: the new `(etad, htotal_d, long_beach, short_beach)` entries of the cell,
given the old ones; an entry that the branch taken does not assign keeps its old value. -/
def mass_sp_val (nest : nestContainer) (lev : Nat) (c : Nat × Nat) (old : ℚ × ℚ × Int × Int) :
    ℚ × ℚ × Int × Int :=
  let ij := c.1 * (nest.hdr lev).nx + c.2
  if nest.bat lev ij > MAXRUNUP then
    let etan := mass_sp_etan nest lev c
    let dd := etan + nest.bat lev ij
    (if dd ≥ EPS10 then etan else -nest.bat lev ij,
     if dd ≥ EPS10 then dd else 0,
     if nest.do_long_beach ∧ lev = nest.writeLevel ∧ nest.bat lev ij > 0 ∧ dd < EPS1 then 1
       else old.2.2.1,
     if nest.do_short_beach ∧ lev = nest.writeLevel ∧ nest.bat lev ij < 0 ∧ dd > EPS1 then 1
       else old.2.2.2)
  else
    (-nest.bat lev ij, old.2.1, old.2.2.1, old.2.2.2)

/-- The body of the inner loop of `mass_sp` (nswing.c 4483-4512) at cell `(row, col)`: the
entries of the cell are replaced by the values of `mass_sp_val`. -/
def mass_sp_cell (lev row col : Nat) (nest : nestContainer) : nestContainer :=
  let ij := row * (nest.hdr lev).nx + col
  let v := mass_sp_val nest lev (row, col) (mass_get lev nest ij)
  { nest with etad := store nest.etad lev ij v.1,
              htotal_d := store nest.htotal_d lev ij v.2.1,
              long_beach := storeS nest.long_beach lev ij v.2.2.1,
              short_beach := storeS nest.short_beach lev ij v.2.2.2 }

/-- The C function `mass_sp` (nswing.c 4472-4514): non linear continuity equation, spherical
coordinates. -/
def mass_sp (nest : nestContainer) (lev : Nat) : nestContainer :=
  forRange 0 (nest.hdr lev).ny (fun row s =>
    forRange 0 (nest.hdr lev).nx (fun col s => mass_sp_cell lev row col s) s) nest

/-- The C function `mass_conservation` (nswing.c 5303-5309). -/
def mass_conservation (nest : nestContainer) (isGeog : Bool) (m : Nat) : nestContainer :=
  if isGeog = false then mass nest m else mass_sp nest m

/-! ## Commit -/

/-- The C function `update` (nswing.c 4022-4027): update eta and fluxes. -/
def update (nest : nestContainer) (lev : Nat) : nestContainer :=
  { nest with etaa := memcpy nest.etaa nest.etad lev (nest.hdr lev).nm,
              fluxm_a := memcpy nest.fluxm_a nest.fluxm_d lev (nest.hdr lev).nm,
              fluxn_a := memcpy nest.fluxn_a nest.fluxn_d lev (nest.hdr lev).nm,
              htotal_a := memcpy nest.htotal_a nest.htotal_d lev (nest.hdr lev).nm }

/-! ## Concrete containers -/

/-- A header with every member zero. -/
def hdr0 : grd_header :=
  { nx := 0, ny := 0, nm := 0, x_inc := 0, y_inc := 0, x_min := 0, x_max := 0,
    y_min := 0, y_max := 0, z_min := 0, z_max := 0 }

/-- A container with every member zero (as `calloc` leaves it), all flags off and the default
`manning_depth`. -/
def nest0 : nestContainer :=
  { do_upscale := false, do_long_beach := false, do_short_beach := false, do_linear := false,
    do_max_level := false, do_max_velocity := false, do_Coriolis := false,
    out_velocity_x := false, out_velocity_y := false, isGeog := false, writeLevel := 0,
    bnc_border := fun _ => 0, level := fun _ => 0,
    LLrow := fun _ => 0, LLcol := fun _ => 0, ULrow := fun _ => 0, ULcol := fun _ => 0,
    URrow := fun _ => 0, URcol := fun _ => 0, LRrow := fun _ => 0, LRcol := fun _ => 0,
    incRatio := fun _ => 0, long_beach := fun _ _ => 0, short_beach := fun _ _ => 0,
    wmax := fun _ => 0, vmax := fun _ => 0, run_jump_time := 0, manning_depth := 8000,
    manning := fun _ => 0, dt := fun _ => 0, bat := fun _ _ => 0,
    fluxm_a := fun _ _ => 0, fluxm_d := fun _ _ => 0, fluxn_a := fun _ _ => 0,
    fluxn_d := fun _ _ => 0, htotal_a := fun _ _ => 0, htotal_d := fun _ _ => 0,
    vex := fun _ _ => 0, vey := fun _ _ => 0, etaa := fun _ _ => 0, etad := fun _ _ => 0,
    r0 := fun _ _ => 0, r1m := fun _ _ => 0, r1n := fun _ _ => 0, r2m := fun _ _ => 0,
    r2n := fun _ _ => 0, r3m := fun _ _ => 0, r3n := fun _ _ => 0, r4m := fun _ _ => 0,
    r4n := fun _ _ => 0, time_h := 0, hdr := fun _ => hdr0 }

/-- A 2 x 2 Cartesian base grid, 10 m deep, with `dt = 1`, unit cell sizes, one unit of
elevation in cell 0 and a flux of 1/4 through the east face of cell 0. -/
def pond2 : nestContainer :=
  { nest0 with
    hdr := fun _ => { hdr0 with nx := 2, ny := 2, nm := 4, x_inc := 1, y_inc := 1 },
    dt := fun _ => 1,
    bat := fun _ _ => 10,
    etaa := fun _ k => if k = 0 then 1 else 0,
    fluxm_a := fun _ k => if k = 0 then 1 / 4 else 0,
    htotal_a := fun _ k => if k = 0 then 11 else 10 }

/-- A 1 x 1 grid whose only cell has zero bathymetry and holds 5e-6 m of water: more than the
depth threshold 1e-10 of `mass`, less than the wet threshold 1e-5. -/
def film1 : nestContainer :=
  { nest0 with
    hdr := fun _ => { hdr0 with nx := 1, ny := 1, nm := 1, x_inc := 1, y_inc := 1 },
    dt := fun _ => 1,
    etaa := fun _ _ => 1 / 200000 }

/-! ## Momentum, cartesian coordinates -/

/-- What one pass of the loop body of a `moment_*` function leaves at a face: `cont` when the
`continue` of a permanently dry cell was taken, `stored` when the statement
`flux_d[ij] = xp` was reached, and the values of the locals `xp`, `valid_vel`, `dd`, `df` at
the label before the velocity is stored. -/
structure FaceOut where
  cont : Bool
  stored : Bool
  xp : ℚ
  valid_vel : Bool
  dd : ℚ
  df : ℚ

/-- The velocity stored at a face (nswing.c 4226, 4411, 4714, 4920): `xp / df` when the velocity is believed
and `dd > EPS3`, else 0. -/
def face_vel (r : FaceOut) : ℚ :=
  if r.valid_vel ∧ r.dd > EPS3 then r.xp / r.df else 0

/-- The block under `#ifdef LIMIT_DISCHARGE` (nswing.c 4211-4221; the macro is defined on
line 140). -/
def limit_discharge (xp dd : ℚ) : ℚ :=
  if |xp| < EPS10 then 0
  else
    let f_limit := V_LIMIT * dd
    if xp > f_limit then f_limit
    else if xp < -f_limit then -f_limit
    else xp

/-- The width `jupe` of the lateral buffer of the linear approximation (nswing.c 4074-4081):
`base` (5 cartesian, 10 spherical) on the base level, 0 on a nested level, 1e6 when
`do_linear` is set. -/
def jupe_of (nest : nestContainer) (lev : Nat) (base : Int) : Int :=
  if nest.do_linear then 1000000 else if lev > 0 then 0 else base

/-- The test `col < jupe || col > (hdr.nx - jupe - 1) || row < jupe || row > (hdr.ny - jupe - 1)`
of the lateral buffer, in signed arithmetic. -/
def in_buffer (hdr : grd_header) (jupe : Int) (row col : Nat) : Prop :=
  (col : Int) < jupe ∨ (col : Int) > (hdr.nx : Int) - jupe - 1 ∨
  (row : Int) < jupe ∨ (row : Int) > (hdr.ny : Int) - jupe - 1

instance (hdr : grd_header) (jupe : Int) (row col : Nat) : Decidable (in_buffer hdr jupe row col) := by
  unfold in_buffer
  infer_instance

/-- The mean depth at a face, `dpa_ij` or `dqa_ij` (nswing.c 4103, 4288, 4587, 4794): the
mean of `htotal_d` and `htotal_a` over the two cells `ij` and `ik` of the face, or 0 when that
mean is not above EPS5. -/
def mean_depth (nest : nestContainer) (lev ij ik : Nat) : ℚ :=
  let d := (nest.htotal_d lev ij + nest.htotal_a lev ij + nest.htotal_d lev ik
             + nest.htotal_a lev ik) * 0.25
  if d > EPS5 then d else 0

/-- The moving boundary classification of `moment_M` (nswing.c 4107-4135) at the face between
`ij` and `ij + cp1`: `none` for the cases with no flux, else `(dd, df, valid_vel)`. -/
def moment_M_wetdry (nest : nestContainer) (lev ij : Nat) (dpa_ij : ℚ) : Option (ℚ × ℚ × Bool) :=
  let bat := nest.bat lev
  let etad := nest.etad lev
  let htotal_d := nest.htotal_d lev
  let cp1 := 1
  if htotal_d ij > EPS5 ∧ htotal_d (ij + cp1) > EPS5 then
    if -bat (ij + cp1) ≥ etad ij then
      some (htotal_d (ij + cp1), htotal_d (ij + cp1), false)
    else if -bat ij ≥ etad (ij + cp1) then
      some (htotal_d ij, htotal_d ij, false)
    else
      let dd := (htotal_d ij + htotal_d (ij + cp1)) * 0.5
      some (if dd < EPS5 then 0 else dd, dpa_ij, true)
  else if htotal_d ij > EPS5 ∧ htotal_d (ij + cp1) < EPS5 ∧ etad ij ≥ etad (ij + cp1) then
    if bat ij > bat (ij + cp1) then
      some (etad ij - etad (ij + cp1), etad ij - etad (ij + cp1), true)
    else
      some (htotal_d ij, htotal_d ij, true)
  else if htotal_d ij < EPS5 ∧ htotal_d (ij + cp1) > EPS5 ∧ etad ij ≤ etad (ij + cp1) then
    if bat ij > bat (ij + cp1) then
      some (htotal_d (ij + cp1), htotal_d (ij + cp1), true)
    else
      some (etad (ij + cp1) - etad ij, etad (ij + cp1) - etad ij, true)
  else none

/-- The convection terms `(advx, advy)` of `moment_M` (nswing.c 4157-4205). -/
def moment_M_adv (nest : nestContainer) (lev row col : Nat) (dpa_ij xqq : ℚ) : ℚ × ℚ :=
  let hdr := nest.hdr lev
  let htotal_a := nest.htotal_a lev
  let htotal_d := nest.htotal_d lev
  let fluxm_a := nest.fluxm_a lev
  let fluxn_a := nest.fluxn_a lev
  let dtdx := nest.dt lev / hdr.x_inc
  let dtdy := nest.dt lev / hdr.y_inc
  let rp1 := if (row : Int) < (hdr.ny : Int) - 1 then hdr.nx else 0
  let rm1 := if row = 0 then 0 else hdr.nx
  let cp1 := 1
  let cp2 := if (col : Int) < (hdr.nx : Int) - 2 then 2 else 1
  let cm1 := if col = 0 then 0 else 1
  let ij := row * hdr.nx + col
  let advx :=
    if fluxm_a ij < 0 then
      let dpa_ij_cp1 := (htotal_d (ij + cp1) + htotal_a (ij + cp1) + htotal_d (ij + cp2)
                          + htotal_a (ij + cp2)) * 0.25
      if dpa_ij_cp1 < EPS3 ∨ htotal_d (ij + cp1) < EPS5 then
        -dtdx * (fluxm_a ij * fluxm_a ij / dpa_ij)
      else
        dtdx * (fluxm_a (ij + cp1) * fluxm_a (ij + cp1) / dpa_ij_cp1
                 - fluxm_a ij * fluxm_a ij / dpa_ij)
    else
      let dpa_ij_cm1 := (htotal_d (ij - cm1) + htotal_a (ij - cm1) + htotal_d ij
                          + htotal_a ij) * 0.25
      if dpa_ij_cm1 < EPS3 ∨ htotal_d ij < EPS5 then
        dtdx * (fluxm_a ij * fluxm_a ij / dpa_ij)
      else
        dtdx * (fluxm_a ij * fluxm_a ij / dpa_ij
                 - fluxm_a (ij - cm1) * fluxm_a (ij - cm1) / dpa_ij_cm1)
  let advy :=
    if xqq < 0 then
      if htotal_d (ij + rp1) < EPS5 ∨ htotal_d (ij + cp1 + rp1) < EPS5 then
        -dtdy * (fluxm_a ij * xqq / dpa_ij)
      else
        let dpa_ij_rp1 := (htotal_d (ij + rp1) + htotal_a (ij + rp1) + htotal_d (ij + cp1 + rp1)
                            + htotal_a (ij + cp1 + rp1)) * 0.25
        if dpa_ij_rp1 < EPS5 then
          -dtdy * (fluxm_a ij * xqq / dpa_ij)
        else
          let xqe := (fluxn_a (ij + rp1) + fluxn_a (ij + cp1 + rp1) + fluxn_a ij
                       + fluxn_a (ij + cp1)) * 0.25
          dtdy * (fluxm_a (ij + rp1) * xqe / dpa_ij_rp1 - fluxm_a ij * xqq / dpa_ij)
    else
      if htotal_d (ij - rm1) < EPS5 ∨ htotal_d (ij + cp1 - rm1) < EPS5 then
        dtdy * (fluxm_a ij * xqq / dpa_ij)
      else
        let dpa_ij_rm1 := (htotal_d (ij - rm1) + htotal_a (ij - rm1) + htotal_d (ij + cp1 - rm1)
                            + htotal_a (ij + cp1 - rm1)) * 0.25
        if dpa_ij_rm1 < EPS5 then
          dtdy * (fluxm_a ij * xqq / dpa_ij)
        else
          let rm2 := if row < 2 then 0 else 2 * hdr.nx
          let xqe := (fluxn_a (ij - rm1) + fluxn_a (ij + cp1 - rm1) + fluxn_a (ij - rm2)
                       + fluxn_a (ij + cp1 - rm2)) * 0.25
          dtdy * (fluxm_a ij * xqq / dpa_ij - fluxm_a (ij - rm1) * xqe / dpa_ij_rm1)
  (advx, advy)

/-- The flux that `moment_M` stores at the face of cell `(row, col)` (nswing.c 4141-4221):
linear terms, Coriolis, convection outside the linear buffer, friction close-out and discharge
limit, from the face depths `dd`, `df` (`df` already raised to its floor) and the mean depth
`dpa_ij`. -/
def moment_M_xp (E : Env) (nest : nestContainer) (lev row col : Nat) (dpa_ij dd df : ℚ) : ℚ :=
  let hdr := nest.hdr lev
  let manning := nest.manning lev
  let bat := nest.bat lev
  let etad := nest.etad lev
  let fluxm_a := nest.fluxm_a lev
  let fluxn_a := nest.fluxn_a lev
  let dtdx := nest.dt lev / hdr.x_inc
  let jupe := jupe_of nest lev 5
  let cte := if manning ≠ 0 then manning * manning * nest.dt lev * 4.9 else 0
  let rm1 := if row = 0 then 0 else hdr.nx
  let cp1 := 1
  let ij := row * hdr.nx + col
  let xqq := (fluxn_a ij + fluxn_a (ij + cp1) + fluxn_a (ij - rm1)
               + fluxn_a (ij + cp1 - rm1)) * 0.25
  let ff := if manning ≠ 0 ∧ bat ij < nest.manning_depth then
              cte * E.sqrt (fluxm_a ij * fluxm_a ij + xqq * xqq) / E.pow df 2.333333
            else 0
  let xp := (1 - ff) * fluxm_a ij - dtdx * NORMAL_GRAV * dd * (etad (ij + cp1) - etad ij)
  let xp := if nest.do_Coriolis then xp + nest.r4m lev row * 2 * xqq else xp
  let xp := if dpa_ij < E.EPS4 ∨ in_buffer hdr jupe row col then xp
            else xp - (moment_M_adv nest lev row col dpa_ij xqq).1
                   - (moment_M_adv nest lev row col dpa_ij xqq).2
  let xp := xp / (ff + 1)
  let xp := limit_discharge xp dd
  xp

/-- One pass of the loop body of `moment_M` (nswing.c 4095-4226) at the face east of cell
`(row, col)`, as a function of the arrays it reads and of the values `dd0`, `df0` that the
locals `dd`, `df` hold on entry (left by the previous pass; indeterminate in the first). -/
def moment_M_face (E : Env) (nest : nestContainer) (lev row col : Nat) (dd0 df0 : ℚ) : FaceOut :=
  let hdr := nest.hdr lev
  let bat := nest.bat lev
  let cp1 := 1
  let ij := row * hdr.nx + col
  if bat ij ≤ MAXRUNUP then
    { cont := true, stored := false, xp := 0, valid_vel := true, dd := dd0, df := df0 }
  else
    let dpa_ij := mean_depth nest lev ij (ij + cp1)
    match moment_M_wetdry nest lev ij dpa_ij with
    | none => { cont := false, stored := false, xp := 0, valid_vel := true, dd := dd0, df := df0 }
    | some (dd, df, valid_vel) =>
      if dd < E.EPS4 then
        { cont := false, stored := false, xp := 0, valid_vel := valid_vel, dd := dd, df := df }
      else
        let df := if df < E.EPS4 then E.EPS4 else df
        { cont := false, stored := true, xp := moment_M_xp E nest lev row col dpa_ij dd df,
          valid_vel := valid_vel, dd := dd, df := df }

/-- The loop body of `moment_M` on the loop state: the container and the locals `dd`, `df`.
`fluxm_d[ij]` is assigned when the pass reaches the store, `vex[ij]` when it does not
`continue` and the velocity is requested on this level (nswing.c 4222-4226). -/
def moment_M_cell (E : Env) (lev row col : Nat) (s : nestContainer × ℚ × ℚ) :
    nestContainer × ℚ × ℚ :=
  let nest := s.1
  let ij := row * (nest.hdr lev).nx + col
  let r := moment_M_face E nest lev row col s.2.1 s.2.2
  ({ nest with
      fluxm_d := if r.stored then store nest.fluxm_d lev ij r.xp else nest.fluxm_d,
      vex := if r.cont = false ∧ nest.out_velocity_x ∧ lev = nest.writeLevel then
               store nest.vex lev ij (face_vel r)
             else nest.vex },
   r.dd, r.df)

/-- The C function `moment_M` (nswing.c 4046-4229). `dd0` and `df0` stand for the indeterminate
initial contents of the uninitialised locals `dd` and `df`. -/
def moment_M (E : Env) (nest : nestContainer) (lev : Nat) (dd0 df0 : ℚ) : nestContainer :=
  let hdr := nest.hdr lev
  let first := if lev > 0 then 1 else 0
  let last := if lev > 0 then 0 else 1
  let nest1 : nestContainer := { nest with fluxm_d := memset0 nest.fluxm_d lev hdr.nm }
  (forRange 0 (hdr.ny - last) (fun row s =>
    forRange first (hdr.nx - 1) (fun col s => moment_M_cell E lev row col s) s)
    (nest1, dd0, df0)).1

/-- The moving boundary classification of `moment_N` (nswing.c 4293-4321) at the face between
`ij` and `ij + rp1`: `none` for the cases with no flux, else `(dd, df, valid_vel)`. -/
def moment_N_wetdry (nest : nestContainer) (lev ij : Nat) (dqa_ij : ℚ) : Option (ℚ × ℚ × Bool) :=
  let bat := nest.bat lev
  let etad := nest.etad lev
  let htotal_d := nest.htotal_d lev
  let rp1 := (nest.hdr lev).nx
  if htotal_d ij > EPS5 ∧ htotal_d (ij + rp1) > EPS5 then
    if -bat (ij + rp1) ≥ etad ij then
      some (htotal_d (ij + rp1), htotal_d (ij + rp1), false)
    else if -bat ij ≥ etad (ij + rp1) then
      some (htotal_d ij, htotal_d ij, false)
    else
      let dd := (htotal_d ij + htotal_d (ij + rp1)) * 0.5
      some (if dd < EPS5 then 0 else dd, dqa_ij, true)
  else if htotal_d ij > EPS5 ∧ htotal_d (ij + rp1) < EPS5 ∧ etad ij > etad (ij + rp1) then
    if bat ij > bat (ij + rp1) then
      some (etad ij - etad (ij + rp1), etad ij - etad (ij + rp1), true)
    else
      some (htotal_d ij, htotal_d ij, true)
  else if htotal_d ij < EPS5 ∧ htotal_d (ij + rp1) > EPS5 ∧ etad (ij + rp1) > etad ij then
    if bat ij > bat (ij + rp1) then
      some (htotal_d (ij + rp1), htotal_d (ij + rp1), true)
    else
      some (etad (ij + rp1) - etad ij, etad (ij + rp1) - etad ij, true)
  else none

/-- The convection terms `(advx, advy)` of `moment_N` (nswing.c 4344-4392). -/
def moment_N_adv (nest : nestContainer) (lev row col : Nat) (dqa_ij xpp : ℚ) : ℚ × ℚ :=
  let hdr := nest.hdr lev
  let htotal_a := nest.htotal_a lev
  let htotal_d := nest.htotal_d lev
  let fluxm_a := nest.fluxm_a lev
  let fluxn_a := nest.fluxn_a lev
  let dtdx := nest.dt lev / hdr.x_inc
  let dtdy := nest.dt lev / hdr.y_inc
  let rp1 := hdr.nx
  let rp2 := if (row : Int) < (hdr.ny : Int) - 2 then 2 * hdr.nx else hdr.nx
  let rm1 := if row = 0 then 0 else hdr.nx
  let cp1 := if (col : Int) < (hdr.nx : Int) - 1 then 1 else 0
  let cm1 := if col = 0 then 0 else 1
  let ij := row * hdr.nx + col
  let advy :=
    if fluxn_a ij < 0 then
      let dqa_ij_rp1 := (htotal_d (ij + rp1) + htotal_a (ij + rp1) + htotal_d (ij + rp2)
                          + htotal_a (ij + rp2)) * 0.25
      if dqa_ij_rp1 < EPS5 ∨ htotal_d (ij + rp1) < EPS5 then
        -dtdy * ((fluxn_a ij * fluxn_a ij) / dqa_ij)
      else
        dtdy * (fluxn_a (ij + rp1) * fluxn_a (ij + rp1) / dqa_ij_rp1
                 - fluxn_a ij * fluxn_a ij / dqa_ij)
    else
      let dqa_ij_rm1 := (htotal_d (ij - rm1) + htotal_a (ij - rm1) + htotal_d ij
                          + htotal_a ij) * 0.25
      if dqa_ij_rm1 < EPS3 ∨ htotal_d ij < EPS5 then
        dtdy * (fluxn_a ij * fluxn_a ij) / dqa_ij
      else
        dtdy * (fluxn_a ij * fluxn_a ij / dqa_ij
                 - fluxn_a (ij - rm1) * fluxn_a (ij - rm1) / dqa_ij_rm1)
  let advx :=
    if xpp < 0 then
      if htotal_d (ij + cp1) < EPS5 ∨ htotal_d (ij + cp1 + rp1) < EPS5 then
        -dtdx * (fluxn_a ij * xpp / dqa_ij)
      else
        let dqa_ij_cp1 := (htotal_d (ij + cp1) + htotal_a (ij + cp1) + htotal_d (ij + rp1 + cp1)
                            + htotal_a (ij + rp1 + cp1)) * 0.25
        if dqa_ij_cp1 < EPS3 then
          -dtdx * (fluxn_a ij * xpp / dqa_ij)
        else
          let xpe := (fluxm_a (ij + cp1) + fluxm_a (ij + cp1 + rp1) + fluxm_a ij
                       + fluxm_a (ij + rp1)) * 0.25
          dtdx * (fluxn_a (ij + cp1) * xpe / dqa_ij_cp1 - fluxn_a ij * xpp / dqa_ij)
    else
      if htotal_d (ij - cm1) < EPS5 ∨ htotal_d (ij - cm1 + rp1) < EPS5 then
        dtdx * (fluxn_a ij * xpp / dqa_ij)
      else
        let dqa_ij_cm1 := (htotal_d (ij - cm1) + htotal_a (ij - cm1) + htotal_d (ij + rp1 - cm1)
                            + htotal_a (ij + rp1 - cm1)) * 0.25
        if dqa_ij_cm1 < EPS3 then
          dtdx * (fluxn_a ij * xpp / dqa_ij)
        else
          let cm2 := if col < 2 then 0 else 2
          let xpe := (fluxm_a (ij - cm1) + fluxm_a (ij - cm1 + rp1) + fluxm_a (ij - cm2)
                       + fluxm_a (ij - cm2 + rp1)) * 0.25
          dtdx * (fluxn_a ij * xpp / dqa_ij - fluxn_a (ij - cm1) * xpe / dqa_ij_cm1)
  (advx, advy)

/-- The flux that `moment_N` stores at the face of cell `(row, col)` (nswing.c 4327-4406):
linear terms, Coriolis, convection outside the linear buffer, friction close-out and discharge
limit, from the face depths `dd`, `df` (`df` already raised to its floor) and the mean depth
`dqa_ij`. -/
def moment_N_xp (E : Env) (nest : nestContainer) (lev row col : Nat) (dqa_ij dd df : ℚ) : ℚ :=
  let hdr := nest.hdr lev
  let manning := nest.manning lev
  let bat := nest.bat lev
  let etad := nest.etad lev
  let fluxm_a := nest.fluxm_a lev
  let fluxn_a := nest.fluxn_a lev
  let dtdy := nest.dt lev / hdr.y_inc
  let jupe := jupe_of nest lev 5
  let cte := if manning ≠ 0 then manning * manning * nest.dt lev * 4.9 else 0
  let rp1 := hdr.nx
  let cm1 := if col = 0 then 0 else 1
  let ij := row * hdr.nx + col
  let xpp := (fluxm_a ij + fluxm_a (ij + rp1) + fluxm_a (ij - cm1)
               + fluxm_a (ij - cm1 + rp1)) * 0.25
  let ff := if manning ≠ 0 ∧ bat ij < nest.manning_depth then
              cte * E.sqrt (fluxn_a ij * fluxn_a ij + xpp * xpp) / E.pow df 2.333333
            else 0
  let xq := (1 - ff) * fluxn_a ij - dtdy * NORMAL_GRAV * dd * (etad (ij + rp1) - etad ij)
  let xq := if nest.do_Coriolis then xq - nest.r4n lev row * 2 * xpp else xq
  let xq := if dqa_ij < E.EPS4 ∨ in_buffer hdr jupe row col then xq
            else xq - (moment_N_adv nest lev row col dqa_ij xpp).1
                   - (moment_N_adv nest lev row col dqa_ij xpp).2
  let xq := xq / (ff + 1)
  let xq := limit_discharge xq dd
  xq

/-- One pass of the loop body of `moment_N` (nswing.c 4281-4411) at the face north of cell
`(row, col)`, as a function of the arrays it reads and of the values `dd0`, `df0` that the
locals `dd`, `df` hold on entry (left by the previous pass; indeterminate in the first). -/
def moment_N_face (E : Env) (nest : nestContainer) (lev row col : Nat) (dd0 df0 : ℚ) : FaceOut :=
  let hdr := nest.hdr lev
  let bat := nest.bat lev
  let rp1 := hdr.nx
  let ij := row * hdr.nx + col
  if bat ij ≤ MAXRUNUP then
    { cont := true, stored := false, xp := 0, valid_vel := true, dd := dd0, df := df0 }
  else
    let dqa_ij := mean_depth nest lev ij (ij + rp1)
    match moment_N_wetdry nest lev ij dqa_ij with
    | none => { cont := false, stored := false, xp := 0, valid_vel := true, dd := dd0, df := df0 }
    | some (dd, df, valid_vel) =>
      if dd < E.EPS4 then
        { cont := false, stored := false, xp := 0, valid_vel := valid_vel, dd := dd, df := df }
      else
        let df := if df < E.EPS4 then E.EPS4 else df
        { cont := false, stored := true, xp := moment_N_xp E nest lev row col dqa_ij dd df,
          valid_vel := valid_vel, dd := dd, df := df }

/-- The loop body of `moment_N` on the loop state: the container and the locals `dd`, `df`.
`fluxn_d[ij]` is assigned when the pass reaches the store, `vey[ij]` when it does not
`continue` and the velocity is requested on this level (nswing.c 4407-4411). -/
def moment_N_cell (E : Env) (lev row col : Nat) (s : nestContainer × ℚ × ℚ) :
    nestContainer × ℚ × ℚ :=
  let nest := s.1
  let ij := row * (nest.hdr lev).nx + col
  let r := moment_N_face E nest lev row col s.2.1 s.2.2
  ({ nest with
      fluxn_d := if r.stored then store nest.fluxn_d lev ij r.xp else nest.fluxn_d,
      vey := if r.cont = false ∧ nest.out_velocity_y ∧ lev = nest.writeLevel then
               store nest.vey lev ij (face_vel r)
             else nest.vey },
   r.dd, r.df)

/-- The C function `moment_N` (nswing.c 4232-4414). `dd0` and `df0` stand for the indeterminate
initial contents of the uninitialised locals `dd` and `df`. -/
def moment_N (E : Env) (nest : nestContainer) (lev : Nat) (dd0 df0 : ℚ) : nestContainer :=
  let hdr := nest.hdr lev
  let first := if lev > 0 then 1 else 0
  let last := if lev > 0 then 0 else 1
  let nest1 : nestContainer := { nest with fluxn_d := memset0 nest.fluxn_d lev hdr.nm }
  (forRange first (hdr.ny - 1) (fun row s =>
    forRange 0 (hdr.nx - last) (fun col s => moment_N_cell E lev row col s) s)
    (nest1, dd0, df0)).1

/-! ## Momentum, spherical coordinates -/

/-- The moving boundary classification of `moment_sp_M` (nswing.c 4591-4619) at the face
between `ij` and `ij + cp1`: `none` for the cases with no flux, else `(dd, df, valid_vel)`. -/
def moment_sp_M_wetdry (nest : nestContainer) (lev ij : Nat) (dpa_ij : ℚ) :
    Option (ℚ × ℚ × Bool) :=
  let bat := nest.bat lev
  let etad := nest.etad lev
  let htotal_d := nest.htotal_d lev
  let cp1 := 1
  if htotal_d ij > EPS5 ∧ htotal_d (ij + cp1) > EPS5 then
    if -bat (ij + cp1) ≥ etad ij then
      some (htotal_d (ij + cp1), htotal_d (ij + cp1), false)
    else if -bat ij ≥ etad (ij + cp1) then
      some (htotal_d ij, htotal_d ij, false)
    else
      let dd := (htotal_d ij + htotal_d (ij + cp1)) * 0.5
      some (if dd < EPS5 then 0 else dd, dpa_ij, true)
  else if htotal_d ij ≥ EPS5 ∧ htotal_d (ij + cp1) < EPS5 ∧ etad ij > etad (ij + cp1) then
    if bat ij > bat (ij + cp1) then
      some (etad ij - etad (ij + cp1), etad ij - etad (ij + cp1), true)
    else
      some (htotal_d ij, htotal_d ij, true)
  else if htotal_d ij < EPS5 ∧ htotal_d (ij + cp1) ≥ EPS5 ∧ etad ij < etad (ij + cp1) then
    if bat ij > bat (ij + cp1) then
      some (htotal_d (ij + cp1), htotal_d (ij + cp1), true)
    else
      some (etad (ij + cp1) - etad ij, etad (ij + cp1) - etad ij, true)
  else none

/-- The convection terms `(advx, advy)` of `moment_sp_M` (nswing.c 4642-4694). -/
def moment_sp_M_adv (nest : nestContainer) (lev row col : Nat) (dpa_ij xqq : ℚ) : ℚ × ℚ :=
  let hdr := nest.hdr lev
  let htotal_a := nest.htotal_a lev
  let htotal_d := nest.htotal_d lev
  let fluxm_a := nest.fluxm_a lev
  let fluxn_a := nest.fluxn_a lev
  let r0 := nest.r0 lev
  let r2m := nest.r2m lev
  let rp1 := if (row : Int) < (hdr.ny : Int) - 1 then hdr.nx else 0
  let rm1 := if row = 0 then 0 else hdr.nx
  let cp1 := 1
  let cp2 := if (col : Int) < (hdr.nx : Int) - 2 then 2 else 1
  let cm1 := if col = 0 then 0 else 1
  let ij := row * hdr.nx + col
  let advx :=
    if fluxm_a ij < 0 then
      let dpa_ij_cp1 := (htotal_d (ij + cp1) + htotal_a (ij + cp1) + htotal_d (ij + cp2)
                          + htotal_a (ij + cp2)) * 0.25
      if dpa_ij_cp1 < EPS3 ∨ htotal_d (ij + cp1) < EPS5 then
        -r2m row * (fluxm_a ij * fluxm_a ij) / dpa_ij
      else
        -r2m row * (fluxm_a ij * fluxm_a ij) / dpa_ij
          + r2m row * (fluxm_a (ij + cp1) * fluxm_a (ij + cp1)) / dpa_ij_cp1
    else
      let dpa_ij_cm1 := (htotal_d (ij - cm1) + htotal_a (ij - cm1) + htotal_d ij
                          + htotal_a ij) * 0.25
      if dpa_ij_cm1 < EPS3 ∨ htotal_d ij < EPS5 then
        r2m row * (fluxm_a ij * fluxm_a ij) / dpa_ij
      else
        r2m row * (fluxm_a ij * fluxm_a ij) / dpa_ij
          - r2m row * (fluxm_a (ij - cm1) * fluxm_a (ij - cm1)) / dpa_ij_cm1
  let advy :=
    if xqq < 0 then
      let dpa_ij_rp1 := (htotal_d (ij + rp1) + htotal_a (ij + rp1) + htotal_d (ij + cp1 + rp1)
                          + htotal_a (ij + cp1 + rp1)) * 0.25
      if dpa_ij_rp1 < EPS5 ∨ htotal_d (ij + rp1) < EPS5 ∨ htotal_d (ij + cp1 + rp1) < EPS5 then
        -r0 row * (fluxm_a ij * xqq / dpa_ij)
      else
        let xqe := (fluxn_a (ij + rp1) + fluxn_a (ij + cp1 + rp1) + fluxn_a ij
                     + fluxn_a (ij + cp1)) * 0.25
        (-r0 row * (fluxm_a ij * xqq / dpa_ij)
          + r0 row * (fluxm_a (ij + rp1) * xqe / dpa_ij_rp1))
    else
      let dpa_ij_rm1 := (htotal_d (ij - rm1) + htotal_a (ij - rm1) + htotal_d (ij + cp1 - rm1)
                          + htotal_a (ij + cp1 - rm1)) * 0.25
      if dpa_ij_rm1 < EPS5 ∨ htotal_d (ij - rm1) < EPS5 ∨ htotal_d (ij + cp1 - rm1) < EPS5 then
        r0 row * (fluxm_a ij * xqq / dpa_ij)
      else
        let rm2 := (if row < 2 then 0 else 2) * hdr.nx
        let xqe := (fluxn_a (ij - rm1) + fluxn_a (ij + cp1 - rm1) + fluxn_a (ij - rm2)
                     + fluxn_a (ij + cp1 - rm2)) * 0.25
        r0 row * (fluxm_a ij * xqq / dpa_ij) - r0 row * (fluxm_a (ij - rm1) * xqe / dpa_ij_rm1)
  (advx, advy)

/-- The flux that `moment_sp_M` stores at the face of cell `(row, col)` (nswing.c 4625-4709):
linear terms, Coriolis, convection outside the linear buffer, friction close-out and discharge
limit, from the face depths `dd`, `df` (`df` already raised to its floor) and the mean depth
`dpa_ij`. -/
def moment_sp_M_xp (E : Env) (nest : nestContainer) (lev row col : Nat) (dpa_ij dd df : ℚ) : ℚ :=
  let hdr := nest.hdr lev
  let manning := nest.manning lev
  let etad := nest.etad lev
  let fluxm_a := nest.fluxm_a lev
  let fluxn_a := nest.fluxn_a lev
  let jupe := jupe_of nest lev 10
  let cte := if manning ≠ 0 then manning * manning * nest.dt lev * 4.9 else 0
  let rm1 := if row = 0 then 0 else hdr.nx
  let cp1 := 1
  let ij := row * hdr.nx + col
  let xqq := (fluxn_a ij + fluxn_a (ij + cp1) + fluxn_a (ij - rm1)
               + fluxn_a (ij + cp1 - rm1)) * 0.25
  let ff := if manning ≠ 0 then
              cte * E.sqrt (fluxm_a ij * fluxm_a ij + xqq * xqq) / E.pow df 2.333333
            else 0
  let xp := (1 - ff) * fluxm_a ij - nest.r3m lev row * dd * (etad (ij + cp1) - etad ij)
  let xp := if nest.do_Coriolis then xp + nest.r4m lev row * 2 * xqq else xp
  let xp := if dpa_ij < EPS3 ∨ in_buffer hdr jupe row col then xp
            else xp - (moment_sp_M_adv nest lev row col dpa_ij xqq).1
                   - (moment_sp_M_adv nest lev row col dpa_ij xqq).2
  let xp := xp / (ff + 1)
  let xp := limit_discharge xp dd
  xp

/-- One pass of the loop body of `moment_sp_M` (nswing.c 4570-4714) at the face east of cell
`(row, col)`, as a function of the arrays it reads and of the values `dd0`, `df0` that the
locals `dd`, `df` hold on entry (left by the previous pass; indeterminate in the first). -/
def moment_sp_M_face (E : Env) (nest : nestContainer) (lev row col : Nat) (dd0 df0 : ℚ) :
    FaceOut :=
  let hdr := nest.hdr lev
  let bat := nest.bat lev
  let cp1 := 1
  let ij := row * hdr.nx + col
  if bat ij ≤ MAXRUNUP then
    { cont := true, stored := false, xp := 0, valid_vel := true, dd := dd0, df := df0 }
  else
    let dpa_ij := mean_depth nest lev ij (ij + cp1)
    match moment_sp_M_wetdry nest lev ij dpa_ij with
    | none => { cont := false, stored := false, xp := 0, valid_vel := true, dd := dd0, df := df0 }
    | some (dd, df, valid_vel) =>
      if dd < EPS5 then
        { cont := false, stored := false, xp := 0, valid_vel := valid_vel, dd := dd, df := df }
      else
        let df := if df < EPS3 then EPS3 else df
        { cont := false, stored := true, xp := moment_sp_M_xp E nest lev row col dpa_ij dd df,
          valid_vel := valid_vel, dd := dd, df := df }

/-- The loop body of `moment_sp_M` on the loop state: the container and the locals `dd`, `df`
(stores of nswing.c 4711-4714). -/
def moment_sp_M_cell (E : Env) (lev row col : Nat) (s : nestContainer × ℚ × ℚ) :
    nestContainer × ℚ × ℚ :=
  let nest := s.1
  let ij := row * (nest.hdr lev).nx + col
  let r := moment_sp_M_face E nest lev row col s.2.1 s.2.2
  ({ nest with
      fluxm_d := if r.stored then store nest.fluxm_d lev ij r.xp else nest.fluxm_d,
      vex := if r.cont = false ∧ nest.out_velocity_x ∧ lev = nest.writeLevel then
               store nest.vex lev ij (face_vel r)
             else nest.vex },
   r.dd, r.df)

/-- The C function `moment_sp_M` (nswing.c 4520-4717). `dd0` and `df0` stand for the
indeterminate initial contents of the uninitialised locals `dd` and `df`. -/
def moment_sp_M (E : Env) (nest : nestContainer) (lev : Nat) (dd0 df0 : ℚ) : nestContainer :=
  let hdr := nest.hdr lev
  let first := if lev > 0 then 1 else 0
  let last := if lev > 0 then 0 else 1
  let nest1 : nestContainer := { nest with fluxm_d := memset0 nest.fluxm_d lev hdr.nm }
  (forRange 0 (hdr.ny - last) (fun row s =>
    forRange first (hdr.nx - 1) (fun col s => moment_sp_M_cell E lev row col s) s)
    (nest1, dd0, df0)).1

/-- The moving boundary classification of `moment_sp_N` (nswing.c 4798-4830) at the face
between `ij` and `ij + rp1`: `none` for the cases with no flux, else `(dd, df, valid_vel)`. -/
def moment_sp_N_wetdry (nest : nestContainer) (lev ij : Nat) (dqa_ij : ℚ) :
    Option (ℚ × ℚ × Bool) :=
  let bat := nest.bat lev
  let etad := nest.etad lev
  let htotal_d := nest.htotal_d lev
  let rp1 := (nest.hdr lev).nx
  if htotal_d ij > EPS5 ∧ htotal_d (ij + rp1) > EPS5 then
    if -bat (ij + rp1) ≥ etad ij then
      some (htotal_d (ij + rp1), htotal_d (ij + rp1), false)
    else if -bat ij ≥ etad (ij + rp1) then
      some (htotal_d ij, htotal_d ij, false)
    else
      let dd := (htotal_d ij + htotal_d (ij + rp1)) * 0.5
      some (if dd < EPS5 then 0 else dd, dqa_ij, true)
  else if htotal_d ij > EPS5 ∧ htotal_d (ij + rp1) ≤ EPS5 ∧ etad ij > etad (ij + rp1) then
    if bat ij > bat (ij + rp1) then
      some (etad ij - etad (ij + rp1), etad ij - etad (ij + rp1), true)
    else
      some (htotal_d ij, htotal_d ij, true)
  else if htotal_d ij ≤ EPS5 ∧ htotal_d (ij + rp1) > EPS5 ∧ etad ij < etad (ij + rp1) then
    if bat ij > bat (ij + rp1) then
      some (htotal_d (ij + rp1), htotal_d (ij + rp1), true)
    else
      some (etad (ij + rp1) - etad ij, etad (ij + rp1) - etad ij, true)
  else none

/-- The convection terms `(advx, advy)` of `moment_sp_N` (nswing.c 4853-4902). -/
def moment_sp_N_adv (nest : nestContainer) (lev row col : Nat) (dqa_ij xpp : ℚ) : ℚ × ℚ :=
  let hdr := nest.hdr lev
  let htotal_a := nest.htotal_a lev
  let htotal_d := nest.htotal_d lev
  let fluxm_a := nest.fluxm_a lev
  let fluxn_a := nest.fluxn_a lev
  let r0 := nest.r0 lev
  let r2n := nest.r2n lev
  let rp1 := hdr.nx
  let rp2 := if (row : Int) < (hdr.ny : Int) - 2 then 2 * hdr.nx else hdr.nx
  let rm1 := if row = 0 then 0 else hdr.nx
  let cp1 := if (col : Int) < (hdr.nx : Int) - 1 then 1 else 0
  let cm1 := if col = 0 then 0 else 1
  let ij := row * hdr.nx + col
  let advy :=
    if fluxn_a ij < 0 then
      let dqa_ij_rp1 := (htotal_d (ij + rp1) + htotal_a (ij + rp1) + htotal_d (ij + rp2)
                          + htotal_a (ij + rp2)) * 0.25
      if dqa_ij_rp1 < EPS5 ∨ htotal_d (ij + rp1) < EPS5 then
        -r0 row * (fluxn_a ij * fluxn_a ij) / dqa_ij
      else
        r0 row * (fluxn_a (ij + rp1) * fluxn_a (ij + rp1) / dqa_ij_rp1
                   - fluxn_a ij * fluxn_a ij / dqa_ij)
    else
      let dqa_ij_rm1 := (htotal_d (ij - rm1) + htotal_a (ij - rm1) + htotal_d ij
                          + htotal_a ij) * 0.25
      if dqa_ij_rm1 < EPS3 ∨ htotal_d ij < EPS5 then
        r0 row * (fluxn_a ij * fluxn_a ij) / dqa_ij
      else
        r0 row * (fluxn_a ij * fluxn_a ij / dqa_ij)
          - r0 row * (fluxn_a (ij - rm1) * fluxn_a (ij - rm1) / dqa_ij_rm1)
  let advx :=
    if xpp < 0 then
      let dqa_ij_cp1 := (htotal_d (ij + cp1) + htotal_a (ij + cp1) + htotal_d (ij + rp1 + cp1)
                          + htotal_a (ij + rp1 + cp1)) * 0.25
      if dqa_ij_cp1 < EPS3 ∨ htotal_d (ij + cp1) < EPS5 ∨ htotal_d (ij + cp1 + rp1) < EPS5 then
        -r2n row * (fluxn_a ij * xpp / dqa_ij)
      else
        let xpe := (fluxm_a (ij + cp1) + fluxm_a (ij + cp1 + rp1) + fluxm_a ij
                     + fluxm_a (ij + rp1)) * 0.25
        (-r2n row * (fluxn_a ij * xpp / dqa_ij)
          + r2n row * (fluxn_a (ij + cp1) * xpe / dqa_ij_cp1))
    else
      let dqa_ij_cm1 := (htotal_d (ij - cm1) + htotal_a (ij - cm1) + htotal_d (ij + rp1 - cm1)
                          + htotal_a (ij + rp1 - cm1)) * 0.25
      if dqa_ij_cm1 < EPS3 ∨ htotal_d (ij - cm1) < EPS5 ∨ htotal_d (ij - cm1 + rp1) < EPS5 then
        r2n row * (fluxn_a ij * xpp / dqa_ij)
      else
        let cm2 := if col < 2 then 0 else 2
        let xpe := (fluxm_a (ij - cm1) + fluxm_a (ij - cm1 + rp1) + fluxm_a (ij - cm2)
                     + fluxm_a (ij - cm2 + rp1)) * 0.25
        r2n row * (fluxn_a ij * xpp / dqa_ij) - r2n row * (fluxn_a (ij - cm1) * xpe / dqa_ij_cm1)
  (advx, advy)

/-- The flux that `moment_sp_N` stores at the face of cell `(row, col)` (nswing.c 4836-4915):
linear terms, Coriolis, convection outside the linear buffer, friction close-out and discharge
limit, from the face depths `dd`, `df` (`df` already raised to its floor) and the mean depth
`dqa_ij`. -/
def moment_sp_N_xp (E : Env) (nest : nestContainer) (lev row col : Nat) (dqa_ij dd df : ℚ) : ℚ :=
  let hdr := nest.hdr lev
  let manning := nest.manning lev
  let etad := nest.etad lev
  let fluxm_a := nest.fluxm_a lev
  let fluxn_a := nest.fluxn_a lev
  let jupe := jupe_of nest lev 10
  let cte := if manning ≠ 0 then manning * manning * nest.dt lev * 4.9 else 0
  let rp1 := hdr.nx
  let cm1 := if col = 0 then 0 else 1
  let ij := row * hdr.nx + col
  let xpp := (fluxm_a ij + fluxm_a (ij + rp1) + fluxm_a (ij - cm1)
               + fluxm_a (ij - cm1 + rp1)) * 0.25
  let ff := if manning ≠ 0 then
              cte * E.sqrt (fluxn_a ij * fluxn_a ij + xpp * xpp) / E.pow df 2.333333
            else 0
  let xq := (1 - ff) * fluxn_a ij - nest.r3n lev row * dd * (etad (ij + rp1) - etad ij)
  let xq := if nest.do_Coriolis then xq - nest.r4n lev row * 2 * xpp else xq
  let xq := if in_buffer hdr jupe row col ∨ dqa_ij < EPS3 then xq
            else xq - (moment_sp_N_adv nest lev row col dqa_ij xpp).1
                   - (moment_sp_N_adv nest lev row col dqa_ij xpp).2
  let xq := xq / (ff + 1)
  let xq := limit_discharge xq dd
  xq

/-- One pass of the loop body of `moment_sp_N` (nswing.c 4775-4920) at the face north of cell
`(row, col)`, as a function of the arrays it reads and of the values `dd0`, `df0` that the
locals `dd`, `df` hold on entry (left by the previous pass; indeterminate in the first). -/
def moment_sp_N_face (E : Env) (nest : nestContainer) (lev row col : Nat) (dd0 df0 : ℚ) :
    FaceOut :=
  let hdr := nest.hdr lev
  let bat := nest.bat lev
  let rp1 := hdr.nx
  let ij := row * hdr.nx + col
  if bat ij ≤ MAXRUNUP then
    { cont := true, stored := false, xp := 0, valid_vel := true, dd := dd0, df := df0 }
  else
    let dqa_ij := mean_depth nest lev ij (ij + rp1)
    match moment_sp_N_wetdry nest lev ij dqa_ij with
    | none => { cont := false, stored := false, xp := 0, valid_vel := true, dd := dd0, df := df0 }
    | some (dd, df, valid_vel) =>
      if dd < EPS5 then
        { cont := false, stored := false, xp := 0, valid_vel := valid_vel, dd := dd, df := df }
      else
        let df := if df < EPS3 then EPS3 else df
        { cont := false, stored := true, xp := moment_sp_N_xp E nest lev row col dqa_ij dd df,
          valid_vel := valid_vel, dd := dd, df := df }

/-- The loop body of `moment_sp_N` on the loop state: the container and the locals `dd`, `df`
(stores of nswing.c 4916-4920). -/
def moment_sp_N_cell (E : Env) (lev row col : Nat) (s : nestContainer × ℚ × ℚ) :
    nestContainer × ℚ × ℚ :=
  let nest := s.1
  let ij := row * (nest.hdr lev).nx + col
  let r := moment_sp_N_face E nest lev row col s.2.1 s.2.2
  ({ nest with
      fluxn_d := if r.stored then store nest.fluxn_d lev ij r.xp else nest.fluxn_d,
      vey := if r.cont = false ∧ nest.out_velocity_y ∧ lev = nest.writeLevel then
               store nest.vey lev ij (face_vel r)
             else nest.vey },
   r.dd, r.df)

/-- The C function `moment_sp_N` (nswing.c 4721-4923). `dd0` and `df0` stand for the
indeterminate initial contents of the uninitialised locals `dd` and `df`. -/
def moment_sp_N (E : Env) (nest : nestContainer) (lev : Nat) (dd0 df0 : ℚ) : nestContainer :=
  let hdr := nest.hdr lev
  let first := if lev > 0 then 1 else 0
  let last := if lev > 0 then 0 else 1
  let nest1 : nestContainer := { nest with fluxn_d := memset0 nest.fluxn_d lev hdr.nm }
  (forRange first (hdr.ny - 1) (fun row s =>
    forRange 0 (hdr.nx - last) (fun col s => moment_sp_N_cell E lev row col s) s)
    (nest1, dd0, df0)).1

/-! ## Frames of the momentum functions -/

/-- The container with the arrays `moment_M` and `moment_sp_M` write blanked. -/
def momM_ro (nest : nestContainer) : nestContainer :=
  { nest with fluxm_d := fun _ _ => 0, vex := fun _ _ => 0 }

/-- The container with the arrays `moment_N` and `moment_sp_N` write blanked. -/
def momN_ro (nest : nestContainer) : nestContainer :=
  { nest with fluxn_d := fun _ _ => 0, vey := fun _ _ => 0 }

/-- Replace the arrays `moment_M` and `moment_sp_M` write. -/
def setM (nest : nestContainer) (f v : Nat → Nat → ℚ) : nestContainer :=
  { nest with fluxm_d := f, vex := v }

/-- Replace the arrays `moment_N` and `moment_sp_N` write. -/
def setN (nest : nestContainer) (f v : Nat → Nat → ℚ) : nestContainer :=
  { nest with fluxn_d := f, vey := v }

/-- The two entries of cell `k` that `moment_M` and `moment_sp_M` may write. -/
def getM (lev : Nat) (s : nestContainer) (k : Nat) : ℚ × ℚ := (s.fluxm_d lev k, s.vex lev k)

/-- The two entries of cell `k` that `moment_N` and `moment_sp_N` may write. -/
def getN (lev : Nat) (s : nestContainer) (k : Nat) : ℚ × ℚ := (s.fluxn_d lev k, s.vey lev k)

/-- The values `moment_M` leaves in the entries `(fluxm_d, vex)` of the cell `c = (row, col)` it
visits, given the old ones: the flux when the pass stores one, the velocity when the pass does
not `continue` and the velocity is requested on this level. -/
def moment_M_val (E : Env) (nest : nestContainer) (lev : Nat) (c : Nat × Nat) (old : ℚ × ℚ) : ℚ × ℚ :=
  let r := moment_M_face E nest lev c.1 c.2 0 0
  (if r.stored then r.xp else old.1,
   if r.cont = false ∧ nest.out_velocity_x ∧ lev = nest.writeLevel then
     (if r.stored then face_vel r else 0)
   else old.2)

/-- The values `moment_N` leaves in the entries `(fluxn_d, vey)` of the cell `c = (row, col)` it
visits, given the old ones: the flux when the pass stores one, the velocity when the pass does
not `continue` and the velocity is requested on this level. -/
def moment_N_val (E : Env) (nest : nestContainer) (lev : Nat) (c : Nat × Nat) (old : ℚ × ℚ) : ℚ × ℚ :=
  let r := moment_N_face E nest lev c.1 c.2 0 0
  (if r.stored then r.xp else old.1,
   if r.cont = false ∧ nest.out_velocity_y ∧ lev = nest.writeLevel then
     (if r.stored then face_vel r else 0)
   else old.2)

/-- The values `moment_sp_M` leaves in the entries `(fluxm_d, vex)` of the cell `c = (row, col)` it
visits, given the old ones: the flux when the pass stores one, the velocity when the pass does
not `continue` and the velocity is requested on this level. -/
def moment_sp_M_val (E : Env) (nest : nestContainer) (lev : Nat) (c : Nat × Nat) (old : ℚ × ℚ) : ℚ × ℚ :=
  let r := moment_sp_M_face E nest lev c.1 c.2 0 0
  (if r.stored then r.xp else old.1,
   if r.cont = false ∧ nest.out_velocity_x ∧ lev = nest.writeLevel then
     (if r.stored then face_vel r else 0)
   else old.2)

/-- The values `moment_sp_N` leaves in the entries `(fluxn_d, vey)` of the cell `c = (row, col)` it
visits, given the old ones: the flux when the pass stores one, the velocity when the pass does
not `continue` and the velocity is requested on this level. -/
def moment_sp_N_val (E : Env) (nest : nestContainer) (lev : Nat) (c : Nat × Nat) (old : ℚ × ℚ) : ℚ × ℚ :=
  let r := moment_sp_N_face E nest lev c.1 c.2 0 0
  (if r.stored then r.xp else old.1,
   if r.cont = false ∧ nest.out_velocity_y ∧ lev = nest.writeLevel then
     (if r.stored then face_vel r else 0)
   else old.2)

/-- Replace the arrays that no momentum function reads or writes: `etaa`, the beach masks and
the running maxima. -/
def setRest (nest : nestContainer) (a : Nat → Nat → ℚ) (lb sb : Nat → Nat → Int)
    (w v : Nat → ℚ) : nestContainer :=
  { nest with etaa := a, long_beach := lb, short_beach := sb, wmax := w, vmax := v }

/-! ## Open boundary and the main cycle -/

/-- The macro `ij_grd(col,row,hdr)`. -/
def ij_grd (col row : Nat) (hdr : grd_header) : Nat := col + row * hdr.nx

/-- The radiation value `sqrt(a*a + b*b) / sqrt(NORMAL_GRAV * bat)` of `openb`. -/
def openb_zz (E : Env) (a b bat : ℚ) : ℚ :=
  E.sqrt (a * a + b * b) / E.sqrt (NORMAL_GRAV * bat)

/-- The statement `if (fabs(zz) <= EPS5) zz = 0;` of `openb`. -/
def openb_clip (zz : ℚ) : ℚ := if |zz| ≤ EPS5 then 0 else zz

/-- The C function `openb` (nswing.c 3904-4017), open boundary condition: the function reads
`bat`, `fluxm_d`, `fluxn_d` and `nest->bnc_border[1]` and assigns entries of `etad`; the result
is the new `etad`. Indices such as `i - 1`, `hdr.nx - 2` are natural numbers: the function is
meant for grids with `nx >= 2` and `ny >= 2`. -/
def openb (E : Env) (hdr : grd_header) (bat fluxm_d fluxn_d etad : Nat → ℚ)
    (nest : nestContainer) : Nat → ℚ :=
  -- first column (South border)
  let etad := forRange 1 (hdr.nx - 1) (fun i etad =>
    let j := 0
    if bat (ij_grd i j hdr) < EPS5 then
      Function.update etad (ij_grd i j hdr) (-bat (ij_grd i j hdr))
    else
      let uh := (fluxm_d (ij_grd i j hdr) + fluxm_d (ij_grd (i - 1) j hdr)) * 0.5
      let d__2 := fluxn_d (ij_grd i j hdr)
      let zz := openb_zz E uh d__2 (bat (ij_grd i j hdr))
      let zz := if d__2 > 0 then zz * -1 else zz
      Function.update etad (ij_grd i j hdr) zz) etad
  -- last column (North border)
  let etad := forRange 1 (hdr.nx - 1) (fun i etad =>
    let j := hdr.ny - 1
    if bat (ij_grd i j hdr) > EPS5 then
      let uh := (fluxm_d (ij_grd i j hdr) + fluxm_d (ij_grd (i - 1) j hdr)) * 0.5
      let d__2 := fluxn_d (ij_grd i (j - 1) hdr)
      let zz := openb_zz E uh d__2 (bat (ij_grd i j hdr))
      let zz := if fluxn_d (ij_grd i (j - 1) hdr) < 0 then zz * -1 else zz
      let zz := openb_clip zz
      Function.update etad (ij_grd i j hdr) zz
    else
      Function.update etad (ij_grd i j hdr) (-bat (ij_grd i j hdr))) etad
  -- first row (West border)
  let etad := forRange 1 (hdr.ny - 1) (fun j etad =>
    let i := 0
    if bat (ij_grd i j hdr) < EPS5 then
      Function.update etad (ij_grd i j hdr) (-bat (ij_grd i j hdr))
    else
      let uh := if bat (ij_grd i (j - 1) hdr) > EPS5 then
                  (fluxn_d (ij_grd i j hdr) + fluxn_d (ij_grd i (j - 1) hdr)) * 0.5
                else fluxn_d (ij_grd i j hdr)
      let d__2 := fluxm_d (ij_grd i j hdr)
      let zz := openb_zz E uh d__2 (bat (ij_grd i j hdr))
      let zz := if fluxm_d (ij_grd i j hdr) > 0 then zz * -1 else zz
      let zz := openb_clip zz
      Function.update etad (ij_grd i j hdr) zz) etad
  -- last row (East border)
  let etad := forRange 1 (hdr.ny - 1) (fun j etad =>
    let i := hdr.nx - 1
    if bat (ij_grd i j hdr) > EPS5 then
      let uh := (fluxn_d (ij_grd i j hdr) + fluxn_d (ij_grd i (j - 1) hdr)) * 0.5
      let d__2 := fluxm_d (ij_grd (i - 1) j hdr)
      let zz := openb_zz E uh d__2 (bat (ij_grd i j hdr))
      let zz := if fluxm_d (ij_grd (i - 1) j hdr) < 0 then zz * -1 else zz
      Function.update etad (ij_grd i j hdr) zz
    else
      Function.update etad (ij_grd i j hdr) (-bat (ij_grd i j hdr))) etad
  -- first row & first column (SW corner)
  let etad :=
    if nest.bnc_border 1 = 0 then
      if bat 0 > EPS5 then
        let zz := openb_zz E (fluxm_d 0) (fluxn_d 0) (bat 0)
        let zz := if fluxm_d 0 > 0 ∨ fluxn_d 0 > 0 then zz * -1 else zz
        let zz := openb_clip zz
        Function.update etad 0 zz
      else
        Function.update etad 0 (-bat 0)
    else etad
  -- last row & first column
  let etad :=
    if bat (ij_grd (hdr.nx - 1) 0 hdr) > EPS5 then
      let d__1 := fluxm_d (ij_grd (hdr.nx - 2) 0 hdr)
      let d__2 := fluxn_d (ij_grd (hdr.nx - 1) 0 hdr)
      let zz := openb_zz E d__1 d__2 (bat (ij_grd (hdr.nx - 1) 0 hdr))
      let zz := if fluxm_d (ij_grd (hdr.nx - 2) 0 hdr) < 0 ∨ fluxn_d (ij_grd (hdr.nx - 1) 0 hdr) > 0
                then zz * -1 else zz
      let zz := openb_clip zz
      Function.update etad (ij_grd 0 (hdr.ny - 1) hdr) zz
    else
      Function.update etad (ij_grd 0 (hdr.ny - 1) hdr) (-bat (ij_grd 0 (hdr.ny - 1) hdr))
  -- first row & last column
  let etad :=
    if bat (ij_grd 0 (hdr.ny - 1) hdr) > EPS5 then
      let d__1 := fluxm_d (ij_grd 0 (hdr.ny - 1) hdr)
      let d__2 := fluxn_d (ij_grd 0 (hdr.ny - 2) hdr)
      let zz := openb_zz E d__1 d__2 (bat (ij_grd 0 (hdr.ny - 1) hdr))
      let zz := if fluxm_d (ij_grd 0 (hdr.ny - 1) hdr) > 0 ∨ fluxn_d (ij_grd 0 (hdr.ny - 2) hdr) < 0
                then -zz else zz
      let zz := openb_clip zz
      Function.update etad (ij_grd 0 (hdr.ny - 1) hdr) zz
    else
      Function.update etad (ij_grd 0 (hdr.ny - 1) hdr) (-bat (ij_grd 0 (hdr.ny - 1) hdr))
  -- last row & last column
  if bat (ij_grd (hdr.nx - 1) (hdr.ny - 1) hdr) > EPS5 then
    let d__1 := fluxm_d (ij_grd (hdr.nx - 2) (hdr.ny - 1) hdr)
    let d__2 := fluxn_d (ij_grd (hdr.nx - 1) (hdr.ny - 2) hdr)
    let zz := openb_zz E d__1 d__2 (bat (ij_grd (hdr.nx - 1) (hdr.ny - 1) hdr))
    let zz := if fluxm_d (ij_grd (hdr.nx - 2) (hdr.ny - 1) hdr) < 0
                ∨ fluxn_d (ij_grd (hdr.nx - 1) (hdr.ny - 2) hdr) < 0 then zz * -1 else zz
    Function.update etad (ij_grd (hdr.nx - 1) (hdr.ny - 1) hdr) zz
  else
    Function.update etad (ij_grd (hdr.nx - 1) (hdr.ny - 1) hdr)
      (-bat (ij_grd (hdr.nx - 1) (hdr.ny - 1) hdr))

/-- The call `openb(nest.hdr[0], nest.bat[0], nest.fluxm_d[0], nest.fluxn_d[0], nest.etad[0],
&nest)` of the main loop (nswing.c 1707). -/
def call_openb (E : Env) (nest : nestContainer) : nestContainer :=
  let etad0 := openb E (nest.hdr 0) (nest.bat 0) (nest.fluxm_d 0) (nest.fluxn_d 0) (nest.etad 0) nest
  { nest with etad := Function.update nest.etad 0 etad0 }

/-- The C function `moment_conservation` without threads (nswing.c 5344-5351): `moment_M` then
`moment_N`, or their spherical variants. `u` holds the indeterminate initial contents of the
uninitialised locals `dd`, `df` of the two functions. -/
def moment_conservation (E : Env) (nest : nestContainer) (isGeog : Bool) (m : Nat)
    (u : (ℚ × ℚ) × (ℚ × ℚ)) : nestContainer :=
  if isGeog = false then
    moment_N E (moment_M E nest m u.1.1 u.1.2) m u.2.1 u.2.2
  else
    moment_sp_N E (moment_sp_M E nest m u.1.1 u.1.2) m u.2.1 u.2.2

/-- One cycle `k` of the main loop (nswing.c 1689-1722) of a run with no boundary-condition
file and no nested grid: mass conservation, the open boundary on every cycle but the first,
momentum conservation, update. -/
def main_cycle (E : Env) (nest : nestContainer) (isGeog : Bool) (k : Nat)
    (u : (ℚ × ℚ) × (ℚ × ℚ)) : nestContainer :=
  let nest := mass_conservation nest isGeog 0
  let nest := if k ≠ 0 then call_openb E nest else nest
  let nest := moment_conservation E nest isGeog 0 u
  update nest 0

/-! ## More concrete containers -/

/-- A stand-in for libm in the concrete runs: `sqrt` is `Rat.sqrt`, exact on the squares of
rationals; `pow` takes the integer part of the exponent, exact for natural exponents. The
concrete runs below have no friction (`manning = 0`), so they never evaluate `pow`, and they
evaluate `sqrt` in a numerator only at 0. `EPS4` has its default. -/
def env0 : Env :=
  { sqrt := Rat.sqrt
    pow := fun x y => x ^ (Int.toNat (Int.floor y))
    EPS4 := EPS4_ }

/-- A 2 x 2 base grid whose cell 0 is permanently dry (60 m above still water), the other
cells 10 m deep, with some water on the move. -/
def cliff2 : nestContainer :=
  { nest0 with
    hdr := fun _ => { hdr0 with nx := 2, ny := 2, nm := 4, x_inc := 1, y_inc := 1 },
    dt := fun _ => 1,
    bat := fun _ k => if k = 0 then -60 else 10,
    etaa := fun _ k => if k = 0 then 60 else 1,
    etad := fun _ k => if k = 0 then 60 else 1,
    fluxm_a := fun _ _ => 1, fluxn_a := fun _ _ => 1,
    fluxm_d := fun _ _ => 7, fluxn_d := fun _ _ => 7,
    htotal_a := fun _ k => if k = 0 then 0 else 11,
    htotal_d := fun _ k => if k = 0 then 0 else 11 }

/-- A 2 x 2 base grid with a dry beach cell (cell 0, 1 m above still water, `eta = 1`) next to
water 10 m deep whose surface stands at `eta = 2`; no fluxes, no friction, velocities
requested, `dt = 1` and cell sizes chosen so that `dt/dx * g = dt/dy * g = 1`. -/
def shore2 : nestContainer :=
  { nest0 with
    hdr := fun _ => { hdr0 with nx := 2, ny := 2, nm := 4,
                                x_inc := 9806199203 / 1000000000,
                                y_inc := 9806199203 / 1000000000 },
    out_velocity_x := true, out_velocity_y := true,
    dt := fun _ => 1,
    bat := fun _ k => if k = 0 then -1 else 10,
    etaa := fun _ k => if k = 0 then 1 else 2,
    htotal_a := fun _ k => if k = 0 then 0 else 12 }

/-- Replace the arrays `mass` and `mass_sp` write. -/
def setMass (nest : nestContainer) (e h : Nat → Nat → ℚ) (lb sb : Nat → Nat → Int) :
    nestContainer :=
  { nest with etad := e, htotal_d := h, long_beach := lb, short_beach := sb }

/-- The state of the 2 x 2 shore after `mass`, `moment_M` and `moment_N` on level 0. -/
def shore2_after : nestContainer :=
  moment_N env0 (moment_M env0 (mass shore2 0) 0 0 0) 0 0 0

/-- The sequence `mass`, `moment_M`, `moment_N` on one level of a Cartesian run. `d1`, `f1`,
`d2`, `f2` stand for the indeterminate initial contents of the uninitialised locals of the two
momentum functions. -/
def mass_then_moments (E : Env) (nest : nestContainer) (lev : Nat) (d1 f1 d2 f2 : ℚ) :
    nestContainer :=
  moment_N E (moment_M E (mass nest lev) lev d1 f1) lev d2 f2

/-- A 2 x 2 base grid whose bottom row (cells 0 and 1) is a dry beach 1 m above still water
and whose top row is water 10 m deep at rest; velocities requested. -/
def dune2 : nestContainer :=
  { nest0 with
    hdr := fun _ => { hdr0 with nx := 2, ny := 2, nm := 4, x_inc := 1, y_inc := 1 },
    out_velocity_x := true, out_velocity_y := true,
    dt := fun _ => 1,
    bat := fun _ k => if k < 2 then -1 else 10,
    etaa := fun _ k => if k < 2 then 1 else 0,
    htotal_a := fun _ k => if k < 2 then 0 else 10,
    vex := fun _ _ => 3 }

/-- The flat pond on the base level: uniform bathymetry `b`, constant elevation `c` in both
`eta` buffers, zero fluxes in the four flux buffers, total depth `b + c` in both depth
buffers, on a grid with at least two columns and two rows. -/
def FlatPond (b c : ℚ) (nest : nestContainer) : Prop :=
  2 ≤ (nest.hdr 0).nx ∧ 2 ≤ (nest.hdr 0).ny ∧
  nest.bat 0 = (fun _ => b) ∧
  nest.etaa 0 = (fun _ => c) ∧ nest.etad 0 = (fun _ => c) ∧
  nest.fluxm_a 0 = (fun _ => 0) ∧ nest.fluxm_d 0 = (fun _ => 0) ∧
  nest.fluxn_a 0 = (fun _ => 0) ∧ nest.fluxn_d 0 = (fun _ => 0) ∧
  nest.htotal_a 0 = (fun _ => b + c) ∧ nest.htotal_d 0 = (fun _ => b + c)

/-- A 2 x 2 flat pond, 10 m deep, with the surface standing at `eta = 1` and no flux. -/
def flat2 : nestContainer :=
  { nest0 with
    hdr := fun _ => { hdr0 with nx := 2, ny := 2, nm := 4, x_inc := 1, y_inc := 1 },
    dt := fun _ => 1,
    bat := fun _ _ => 10,
    etaa := fun _ _ => 1, etad := fun _ _ => 1,
    htotal_a := fun _ _ => 10 + 1, htotal_d := fun _ _ => 10 + 1 }

/-- A 2 x 2 flat pond, 10 m deep, at rest with the surface at `eta = 0`. -/
def still2 : nestContainer :=
  { nest0 with
    hdr := fun _ => { hdr0 with nx := 2, ny := 2, nm := 4, x_inc := 1, y_inc := 1 },
    dt := fun _ => 1,
    bat := fun _ _ => 10,
    htotal_a := fun _ _ => 10 + 0, htotal_d := fun _ _ => 10 + 0 }

/-! ## Reference definitions of the linear momentum step -/

/-- Reference definition (specification 4.4, steps 3, 4, 5 and 7) of the linear flux through
the east face of cell A = `(row, col)`, B its east neighbour: friction `ff` from the flux `F`
and the interpolated orthogonal flux `G`, the linearised momentum with the optional Coriolis
term, divided by `1 + ff` and limited in discharge; no convection term. -/
def moment_M_linear_ref (E : Env) (nest : nestContainer) (lev row col : Nat) (dd df : ℚ) : ℚ :=
  let nx := (nest.hdr lev).nx
  let A := row * nx + col
  let B := A + 1
  let south := if row = 0 then 0 else nx
  let F := nest.fluxm_a lev A
  let G := (nest.fluxn_a lev A + nest.fluxn_a lev B + nest.fluxn_a lev (A - south)
             + nest.fluxn_a lev (B - south)) * 0.25
  let n := nest.manning lev
  let ff := if n ≠ 0 ∧ nest.bat lev A < nest.manning_depth then
              n * n * nest.dt lev * 4.9 * E.sqrt (F * F + G * G) / E.pow df 2.333333
            else 0
  let cor := if nest.do_Coriolis then nest.r4m lev row * 2 * G else 0
  limit_discharge (((1 - ff) * F - nest.dt lev / (nest.hdr lev).x_inc * NORMAL_GRAV * dd
      * (nest.etad lev B - nest.etad lev A) + cor) / (1 + ff)) dd

/-- Reference definition of the linear flux through the north face of cell A = `(row, col)`,
B its north neighbour (the Coriolis term enters with the opposite sign). -/
def moment_N_linear_ref (E : Env) (nest : nestContainer) (lev row col : Nat) (dd df : ℚ) : ℚ :=
  let nx := (nest.hdr lev).nx
  let A := row * nx + col
  let B := A + nx
  let west := if col = 0 then 0 else 1
  let F := nest.fluxn_a lev A
  let G := (nest.fluxm_a lev A + nest.fluxm_a lev B + nest.fluxm_a lev (A - west)
             + nest.fluxm_a lev (A - west + nx)) * 0.25
  let n := nest.manning lev
  let ff := if n ≠ 0 ∧ nest.bat lev A < nest.manning_depth then
              n * n * nest.dt lev * 4.9 * E.sqrt (F * F + G * G) / E.pow df 2.333333
            else 0
  let cor := if nest.do_Coriolis then nest.r4n lev row * 2 * G else 0
  limit_discharge (((1 - ff) * F - nest.dt lev / (nest.hdr lev).y_inc * NORMAL_GRAV * dd
      * (nest.etad lev B - nest.etad lev A) - cor) / (1 + ff)) dd

/-- Reference definition of the linear flux through the east face in spherical coordinates:
the tabulated `r3m` stands for `(dt/dx) * g`, and friction applies at every depth. -/
def moment_sp_M_linear_ref (E : Env) (nest : nestContainer) (lev row col : Nat) (dd df : ℚ) :
    ℚ :=
  let nx := (nest.hdr lev).nx
  let A := row * nx + col
  let B := A + 1
  let south := if row = 0 then 0 else nx
  let F := nest.fluxm_a lev A
  let G := (nest.fluxn_a lev A + nest.fluxn_a lev B + nest.fluxn_a lev (A - south)
             + nest.fluxn_a lev (B - south)) * 0.25
  let n := nest.manning lev
  let ff := if n ≠ 0 then
              n * n * nest.dt lev * 4.9 * E.sqrt (F * F + G * G) / E.pow df 2.333333
            else 0
  let cor := if nest.do_Coriolis then nest.r4m lev row * 2 * G else 0
  limit_discharge (((1 - ff) * F - nest.r3m lev row * dd
      * (nest.etad lev B - nest.etad lev A) + cor) / (1 + ff)) dd

/-- Reference definition of the linear flux through the north face in spherical coordinates:
the tabulated `r3n` stands for `(dt/dy) * g`, and friction applies at every depth. -/
def moment_sp_N_linear_ref (E : Env) (nest : nestContainer) (lev row col : Nat) (dd df : ℚ) :
    ℚ :=
  let nx := (nest.hdr lev).nx
  let A := row * nx + col
  let B := A + nx
  let west := if col = 0 then 0 else 1
  let F := nest.fluxn_a lev A
  let G := (nest.fluxm_a lev A + nest.fluxm_a lev B + nest.fluxm_a lev (A - west)
             + nest.fluxm_a lev (A - west + nx)) * 0.25
  let n := nest.manning lev
  let ff := if n ≠ 0 then
              n * n * nest.dt lev * 4.9 * E.sqrt (F * F + G * G) / E.pow df 2.333333
            else 0
  let cor := if nest.do_Coriolis then nest.r4n lev row * 2 * G else 0
  limit_discharge (((1 - ff) * F - nest.r3n lev row * dd
      * (nest.etad lev B - nest.etad lev A) - cor) / (1 + ff)) dd

/-! ## Containers of the linear runs -/

/-- A 2 x 2 closed Cartesian basin in linear mode, 10 m deep, with no friction and no
Coriolis term, `dt = 1` and cell sizes such that `dt/dx * g = dt/dy * g = 1`; one unit of
elevation in cell 0, no flux, `htotal_a = bat + etaa`. -/
def basin2 : nestContainer :=
  { nest0 with
    hdr := fun _ => { hdr0 with nx := 2, ny := 2, nm := 4,
                                x_inc := 9806199203 / 1000000000,
                                y_inc := 9806199203 / 1000000000 },
    do_linear := true,
    dt := fun _ => 1,
    bat := fun _ _ => 10,
    etaa := fun _ k => if k = 0 then 1 else 0,
    htotal_a := fun _ k => if k = 0 then 11 else 10 }

/-- The 2 x 2 linear basin after the continuity step: `etad` and `htotal_d` hold the
elevation and the depth of the current step. -/
def lin2 : nestContainer :=
  { basin2 with
    etad := fun _ k => if k = 0 then 1 else 0,
    htotal_d := fun _ k => if k = 0 then 11 else 10 }

/-- The state with `eta_a`, `flux_m_a` and `flux_n_a` negated and `h_total_a = bat + eta_a`
recomputed from the negated elevation. -/
def negated (nest : nestContainer) : nestContainer :=
  { nest with
    etaa := fun l k => -nest.etaa l k,
    fluxm_a := fun l k => -nest.fluxm_a l k,
    fluxn_a := fun l k => -nest.fluxn_a l k,
    htotal_a := fun l k => nest.bat l k + -nest.etaa l k }

/-! ## Edge communication between a parent and its nested grid -/

/-- The scratch vectors `edge_*` of `struct nestContainer` (nswing.c 250-253), one per level:
the coordinates of the nodes of the nested grid along a row and a column (`edge_row`,
`edge_col`), those of the parent nodes that bound it (`edge_row_P`, `edge_col_P`), and the
buffers for the parent samples (`*_Ptmp`) and the interpolated values (`*Tmp`). They are kept
in a record of their own, passed along with the container. -/
structure edgeArrays where
  edge_col : Nat → Nat → ℚ
  edge_colTmp : Nat → Nat → ℚ
  edge_row : Nat → Nat → ℚ
  edge_rowTmp : Nat → Nat → ℚ
  edge_col_P : Nat → Nat → ℚ
  edge_col_Ptmp : Nat → Nat → ℚ
  edge_row_P : Nat → Nat → ℚ
  edge_row_Ptmp : Nat → Nat → ℚ

/-- The macro `ij_grd(col,row,hdr)` on signed column and row numbers; the index is used as an
array subscript, so a negative one (undefined in C) is read as 0. -/
def ij_grdI (col row : Int) (hdr : grd_header) : Nat := Int.toNat (col + row * hdr.nx)

/-- The loop `while (x[j] > u[i] && j > 0) j--;` of `intp_lin` (nswing.c 5075). -/
def intp_lin_down (x : Nat → ℚ) (ui : ℚ) : Nat → Nat
  | 0 => 0
  | j + 1 => if x (j + 1) > ui then intp_lin_down x ui j else j + 1

/-- The loop `while (j < n && x[j] <= u[i]) j++;` of `intp_lin` (nswing.c 5076), which runs at
most `fuel` times; `intp_lin_j` starts it with the `n - j` passes it can make. -/
def intp_lin_up (x : Nat → ℚ) (ui : ℚ) (n : Nat) : Nat → Nat → Nat
  | 0, j => j
  | fuel + 1, j => if j < n ∧ x j ≤ ui then intp_lin_up x ui n fuel (j + 1) else j

/-- The search of `intp_lin` for the segment of `u[i]` (nswing.c 5075-5078), from the index
`j` left by the previous point. -/
def intp_lin_j (x : Nat → ℚ) (ui : ℚ) (n j : Nat) : Nat :=
  let j := intp_lin_down x ui j
  let j := intp_lin_up x ui n (n - j) j
  let j := if j = n then j - 1 else j
  if j > 0 then j - 1 else j

/-- The C function `intp_lin` (nswing.c 5043-5091): linear interpolation of the data
`(x, y)`, `n` pairs, at the `m` points `u`; returns the vector `v` and the error flag. On an
error `v` is left as it was. The vectors `x` and `u` are negated during the computation when
`x` is decreasing and negated back before the return, so they are not part of the result. -/
def intp_lin (x y : Nat → ℚ) (n m : Nat) (u v : Nat → ℚ) : (Nat → ℚ) × Nat :=
  let dx := x 1 - x 0
  let err_flag :=
    if dx > 0 then
      forRange 2 n (fun i e => if e = 0 then (if x i - x (i - 1) < 0 then i else e) else e) 0
    else
      forRange 2 n (fun i e => if e = 0 then (if x i - x (i - 1) > 0 then i else e) else e) 0
  if err_flag ≠ 0 then (v, err_flag)
  else
    let x1 : Nat → ℚ := if dx > 0 then x else fun i => if i < n then -x i else x i
    let u1 : Nat → ℚ := if dx > 0 then u else fun i => if i < m then -u i else u i
    let r := forRange 0 m (fun i (s : (Nat → ℚ) × Nat) =>
      let j := intp_lin_j x1 (u1 i) n s.2
      (Function.update s.1 i ((y (j + 1) - y j) * (u1 i - x1 j) / (x1 (j + 1) - x1 j) + y j), j))
      (v, 0)
    (r.1, 0)

/-- The C function `interp_edges` (nswing.c 4926-5024): samples the parent flux `flux_L1` along
the parent rows (`what = 'N'`) or columns that bound the nested grid `lev`, interpolates the
samples at the nodes of the nested grid and stores them in the first and last row (or column)
of `flux_L2`, with 0 in the cells where `bat + etaa` is not above EPS5. Returns the new
contents of `flux_L2` and of the scratch vectors. -/
def interp_edges (nest : nestContainer) (eb : edgeArrays) (flux_L1 flux_L2 : Nat → ℚ)
    (what : Char) (lev : Nat) : (Nat → ℚ) × edgeArrays :=
  let hdrP := nest.hdr (lev - 1)
  let hdr := nest.hdr lev
  let bat := nest.bat lev
  let etaa := nest.etaa lev
  if what = 'N' then
    let n := Int.toNat (nest.LRcol lev - nest.LLcol lev + 1)
    let ptmp := forRange 0 n (fun i a =>
      Function.update a i (flux_L1 (ij_grdI (nest.LLcol lev + i) (nest.LLrow lev) hdrP)))
      (eb.edge_row_Ptmp lev)
    let tmp := (intp_lin (eb.edge_row_P lev) ptmp n hdr.nx (eb.edge_row lev)
      (eb.edge_rowTmp lev)).1
    let f := forRange 0 hdr.nx (fun col f =>
      Function.update f (ij_grd col 0 hdr)
        (if bat (ij_grd col 0 hdr) + etaa (ij_grd col 0 hdr) > EPS5 then tmp col else 0))
      flux_L2
    let ptmp := forRange 0 n (fun i a =>
      Function.update a i (flux_L1 (ij_grdI (nest.LLcol lev + i) (nest.ULrow lev - 1) hdrP)))
      ptmp
    let tmp := (intp_lin (eb.edge_row_P lev) ptmp n hdr.nx (eb.edge_row lev) tmp).1
    let f := forRange 0 hdr.nx (fun col f =>
      Function.update f (ij_grd col (hdr.ny - 1) hdr)
        (if bat (ij_grd col (hdr.ny - 1) hdr) + etaa (ij_grd col (hdr.ny - 1) hdr) > EPS5 then
          tmp col else 0))
      f
    (f, { eb with edge_row_Ptmp := Function.update eb.edge_row_Ptmp lev ptmp,
                  edge_rowTmp := Function.update eb.edge_rowTmp lev tmp })
  else
    let n := Int.toNat (nest.ULrow lev - nest.LLrow lev + 1)
    let ptmp := forRange 0 n (fun i a =>
      Function.update a i (flux_L1 (ij_grdI (nest.LLcol lev) (nest.LLrow lev + i) hdrP)))
      (eb.edge_col_Ptmp lev)
    let tmp := (intp_lin (eb.edge_col_P lev) ptmp n hdr.ny (eb.edge_col lev)
      (eb.edge_colTmp lev)).1
    let f := forRange 0 hdr.ny (fun row f =>
      Function.update f (ij_grd 0 row hdr)
        (if bat (ij_grd 0 row hdr) + etaa (ij_grd 0 row hdr) > EPS5 then tmp row else 0))
      flux_L2
    let ptmp := forRange 0 n (fun i a =>
      Function.update a i (flux_L1 (ij_grdI (nest.LRcol lev - 1) (nest.LLrow lev + i) hdrP)))
      ptmp
    let tmp := (intp_lin (eb.edge_col_P lev) ptmp n hdr.ny (eb.edge_col lev) tmp).1
    let f := forRange 0 hdr.ny (fun row f =>
      Function.update f (ij_grd (hdr.nx - 1) row hdr)
        (if bat (ij_grd (hdr.nx - 1) row hdr) + etaa (ij_grd (hdr.nx - 1) row hdr) > EPS5 then
          tmp row else 0))
      f
    (f, { eb with edge_col_Ptmp := Function.update eb.edge_col_Ptmp lev ptmp,
                  edge_colTmp := Function.update eb.edge_colTmp lev tmp })

/-- The C function `edge_communication` (nswing.c 5297-5300): the parent fluxes `fluxm_a`
and `fluxn_a` of level `lev - 1` are interpolated onto the boundary of level `lev`. The
argument `i_time` is passed on to `interp_edges`, which does not use it. -/
def edge_communication (nest : nestContainer) (eb : edgeArrays) (lev : Nat) (i_time : Nat) :
    nestContainer × edgeArrays :=
  let rM := interp_edges nest eb (nest.fluxm_a (lev - 1)) (nest.fluxm_a lev) 'M' lev
  let nest1 : nestContainer := { nest with fluxm_a := Function.update nest.fluxm_a lev rM.1 }
  let rN := interp_edges nest1 rM.2 (nest1.fluxn_a (lev - 1)) (nest1.fluxn_a lev) 'N' lev
  ({ nest1 with fluxn_a := Function.update nest1.fluxn_a lev rN.1 }, rN.2)

/-- Reference definition of the 1-D linear resampling (specification 4.5): the value at `u` of
the piecewise linear function through the `n` samples `(x k, y k)`, on the segment
`[x k, x (k+1)]` with the greatest `k <= n - 2` such that `x k <= u` (the first segment when
there is none, so that points outside the samples are extrapolated). -/
def lin_resample_ref (x y : Nat → ℚ) (n : Nat) (u : ℚ) : ℚ :=
  let k := Nat.findGreatest (fun k => x k ≤ u) (n - 2)
  y k + (y (k + 1) - y k) * (u - x k) / (x (k + 1) - x k)
/-- A parent grid of 3 x 3 nodes whose fluxes `fluxm_a`, `fluxn_a` hold the node number, with a
nested grid of 2 x 2 nodes, 10 m deep and at rest, bounded by the parent columns 0..1 and rows
0..1. -/
def nested2 : nestContainer :=
  { nest0 with
    hdr := fun l => if l = 0 then { hdr0 with nx := 3, ny := 3, nm := 9, x_inc := 2, y_inc := 2 }
                    else { hdr0 with nx := 2, ny := 2, nm := 4, x_inc := 1, y_inc := 1 },
    LRcol := fun _ => 1, URcol := fun _ => 1, ULrow := fun _ => 1, URrow := fun _ => 1,
    bat := fun _ _ => 10,
    fluxm_a := fun l k => if l = 0 then k else 0,
    fluxn_a := fun l k => if l = 0 then k else 0 }

/-- Scratch vectors for `nested2`: the bounding parent nodes at the coordinates 0, 1, ... and
the nodes of the nested grid at 1/4, 3/4, ... along both axes. -/
def edges2 : edgeArrays :=
  { edge_col := fun _ i => (2 * i + 1) / 4, edge_colTmp := fun _ _ => 0,
    edge_row := fun _ i => (2 * i + 1) / 4, edge_rowTmp := fun _ _ => 0,
    edge_col_P := fun _ i => i, edge_col_Ptmp := fun _ _ => 0,
    edge_row_P := fun _ i => i, edge_row_Ptmp := fun _ _ => 0 }

/-! ## Upscaling from a nested grid to its parent -/

/-- The two inner loops of `upscale_` (nswing.c 5182-5197) over the `incRatio x incRatio` window
of nested cells whose first row is `i0` and first column `j0`: the sum of the elevations of
the wet cells (the mean of `etaa` and `etad` when `do_half`) and their number. `e1` is
`etad[lev]` as the first loop of `upscale_` left it. -/
def upscale_sum (nest : nestContainer) (e1 : Nat → ℚ) (lev : Nat) (do_half : Bool)
    (i0 j0 : Nat) : ℚ × Int :=
  let r := Int.toNat (nest.incRatio lev)
  forRange 0 r (fun ki s =>
    forRange 0 r (fun kj (s : ℚ × Int) =>
      let ij := ij_grd (j0 + kj) (i0 + ki) (nest.hdr lev)
      if nest.bat lev ij + e1 ij > EPS5 then
        (s.1 + (if do_half then 0.5 * (nest.etaa lev ij + e1 ij) else e1 ij), s.2 + 1)
      else s) s) (0, 0)

/-- The C function `upscale_` (nswing.c 5156-5210) in the call
`upscale_(nest, nest->etad[lev-1], lev, i_tsr)` of `nestify`, where the output array `etad` is
the elevation of the parent level `lev - 1`. The bathymetry is added to `etad[lev]` on land,
each parent cell strictly inside the nested region whose window has a non-zero sum and at
least `half` wet cells receives the mean elevation of these, and the bathymetry is
subtracted again. -/
def upscale_ (nest : nestContainer) (lev : Nat) (i_tsr : Int) : nestContainer :=
  let r := Int.toNat (nest.incRatio lev)
  let hdr := nest.hdr lev
  let hdrP := nest.hdr (lev - 1)
  let bat_P := nest.bat (lev - 1)
  let do_half : Bool := i_tsr % 2 = 0
  let half : Int := Int.floor (((nest.incRatio lev * nest.incRatio lev : Int) : ℚ) * 2.0 / 3.0)
  let e1 : Nat → ℚ := fun ij =>
    if ij < hdr.nm ∧ nest.bat lev ij < 0 then nest.etad lev ij + nest.bat lev ij
    else nest.etad lev ij
  let rim : Int := 1
  let nrows := Int.toNat (nest.ULrow lev - rim - (nest.LLrow lev + 1 + rim))
  let ncols := Int.toNat (nest.LRcol lev - rim - (nest.LLcol lev + 1 + rim))
  let out := forRange 0 nrows (fun t out =>
    forRange 0 ncols (fun tc (out : Nat → ℚ) =>
      let row : Int := nest.LLrow lev + 1 + rim + t
      let col : Int := nest.LLcol lev + 1 + rim + tc
      let s := upscale_sum nest e1 lev do_half ((1 + t) * r) ((1 + tc) * r)
      if s.1 ≠ 0 ∧ s.2 ≥ half then
        Function.update out (ij_grdI col row hdrP)
          (if bat_P (ij_grdI col row hdrP) < 0 then s.1 / s.2 - bat_P (ij_grdI col row hdrP)
           else s.1 / s.2)
      else out) out) (nest.etad (lev - 1))
  let etad1 := Function.update (Function.update nest.etad lev e1) (lev - 1) out
  { nest with
    etad := Function.update etad1 lev (fun ij =>
      if ij < hdr.nm ∧ nest.bat lev ij < 0 then etad1 lev ij - nest.bat lev ij
      else etad1 lev ij) }

/-- A parent grid of 5 x 5 nodes at rest with a nested grid of 6 x 6 nodes, refinement ratio 2,
bounded by the parent columns and rows 0..4, so that `upscale_` visits the single parent node
(2, 2), whose window is made of the nested nodes 14, 15, 20 and 21. The nested nodes 14 and 15
are 10 m deep with one unit of elevation; every other nested node has zero depth and
elevation, so exactly 2 of the 4 nodes of the window are wet. -/
def halfwet2 : nestContainer :=
  { nest0 with
    hdr := fun l => if l = 0 then { hdr0 with nx := 5, ny := 5, nm := 25, x_inc := 2, y_inc := 2 }
                    else { hdr0 with nx := 6, ny := 6, nm := 36, x_inc := 1, y_inc := 1 },
    incRatio := fun _ => 2,
    LRcol := fun _ => 4, URcol := fun _ => 4, ULrow := fun _ => 4, URrow := fun _ => 4,
    do_upscale := true,
    bat := fun l k => if l = 0 then 10 else if k = 14 ∨ k = 15 then 10 else 0,
    etaa := fun l k => if l = 0 then 0 else if k = 14 ∨ k = 15 then 1 else 0,
    etad := fun l k => if l = 0 then 0 else if k = 14 ∨ k = 15 then 1 else 0 }
/-- The grids of `halfwet2` with the nested grid at rest: the nested node 14 is land 1 m above
still water (`bat = -1`, `eta = 1`), the others are 10 m deep with `eta = 0`; the parent
elevation is 5 everywhere. -/
def rest2 : nestContainer :=
  { halfwet2 with
    bat := fun l k => if l = 0 then 10 else if k = 14 then -1 else 10,
    etaa := fun l k => if l = 0 then 5 else if k = 14 then 1 else 0,
    etad := fun l k => if l = 0 then 5 else if k = 14 then 1 else 0 }

/-! ## The nesting scheduler -/

/-- The state that `nestify` works on: the container, its scratch vectors `edge_*` and the
`float` array `nest->work`. -/
structure nestState where
  nest : nestContainer
  edges : edgeArrays
  work : Nat → ℚ

/-- Two functions that `nestify` reaches and that are taken as given: the conversion
`(float)` of a double, and the bicubic interpolation `GMT_get_bcr_z` (nswing.c 5594) of a grid at
a point, used only by `resamplegrid`. -/
structure Host where
  toFloat : ℚ → ℚ
  GMT_get_bcr_z : (Nat → ℚ) → grd_header → ℚ → ℚ → ℚ

/-- The conversion `(int)` of a double: truncation towards zero. -/
def truncI (q : ℚ) : Int := if 0 ≤ q then Int.floor q else Int.ceil q

/-- The C function `replicate` (nswing.c 5213-5228): the elevation of the second column is
copied to the first column and then that of the second row to the first row, except on
land. -/
def replicate (nest : nestContainer) (lev : Nat) : nestContainer :=
  let hdr := nest.hdr lev
  let e := forRange 0 hdr.ny (fun row (e : Nat → ℚ) =>
    if nest.bat lev (ij_grd 0 row hdr) < 0 then e
    else Function.update e (ij_grd 0 row hdr) (e (ij_grd 1 row hdr))) (nest.etad lev)
  let e := forRange 0 hdr.nx (fun col (e : Nat → ℚ) =>
    if nest.bat lev (ij_grd col 0 hdr) < 0 then e
    else Function.update e (ij_grd col 0 hdr) (e (ij_grd col 1 hdr))) e
  { nest with etad := Function.update nest.etad lev e }

/-- The value that a pass of the loop of `update_max` leaves in `work[ij]` (nswing.c
5695-5699): the elevation `etad` as a `float`, or on land (`bat < 0`) the `float` of
`etaa + bat`, replaced by 0 when negative. -/
def update_max_work (H : Host) (nest : nestContainer) (ij : Nat) : ℚ :=
  if nest.bat nest.writeLevel ij < 0 then
    (if H.toFloat (nest.etaa nest.writeLevel ij + nest.bat nest.writeLevel ij) < 0 then 0
     else H.toFloat (nest.etaa nest.writeLevel ij + nest.bat nest.writeLevel ij))
  else H.toFloat (nest.etad nest.writeLevel ij)

/-- One pass of the loop of `update_max` (nswing.c 5695-5701) at the cell `ij`. -/
def update_max_cell (H : Host) (ij : Nat) (s : nestState) : nestState :=
  let nest := s.nest
  let writeLevel := nest.writeLevel
  let work := Function.update s.work ij (H.toFloat (nest.etad writeLevel ij))
  let work :=
    if nest.bat writeLevel ij < 0 then
      let work := Function.update work ij
        (H.toFloat (nest.etaa writeLevel ij + nest.bat writeLevel ij))
      if work ij < 0 then Function.update work ij 0 else work
    else work
  { s with
    work := work,
    nest := { nest with
      wmax := if nest.wmax ij < work ij then Function.update nest.wmax ij (work ij)
              else nest.wmax } }

/-- The C function `update_max` (nswing.c 5685-5702): the maximum water level of the write
level. -/
def update_max (H : Host) (s : nestState) : nestState :=
  forRange 0 (s.nest.hdr s.nest.writeLevel).nm (fun ij s => update_max_cell H ij s) s

/-- The value `v` that a pass of the loop of `update_max_velocity` compares with `vmax[ij]`
(nswing.c 5713-5722): the squared velocity as a `float`, the components counting only where
the depth is above EPS2, clipped to 0 where the depth is below 0.1 and `v > 400`. -/
def update_max_velocity_v (H : Host) (nest : nestContainer) (ij : Nat) : ℚ :=
  let vx := if nest.htotal_d nest.writeLevel ij > EPS2 then nest.vex nest.writeLevel ij else 0
  let vy := if nest.htotal_d nest.writeLevel ij > EPS2 then nest.vey nest.writeLevel ij else 0
  let v := H.toFloat (vx * vx + vy * vy)
  if nest.htotal_d nest.writeLevel ij < 0.1 ∧ v > 400 then 0 else v

/-- One pass of the loop of `update_max_velocity` (nswing.c 5711-5724) at the cell `ij`. -/
def update_max_velocity_cell (H : Host) (ij : Nat) (s : nestState) : nestState :=
  let nest := s.nest
  let v := update_max_velocity_v H nest ij
  { s with
    nest := { nest with
      vmax := if nest.vmax ij < v then Function.update nest.vmax ij v else nest.vmax } }

/-- The C function `update_max_velocity` (nswing.c 5704-5726): the maximum of the squared
velocity of the write level. -/
def update_max_velocity (H : Host) (s : nestState) : nestState :=
  forRange 0 (s.nest.hdr s.nest.writeLevel).nm (fun ij s => update_max_velocity_cell H ij s) s

/-- The body of the inner loop of `resamplegrid` (nswing.c 5280-5291) at the node `(row, col)`
of level `k`. -/
def resamplegrid_cell (H : Host) (k row col : Nat) (nest : nestContainer) : nestContainer :=
  let hdr := nest.hdr k
  let ij := row * hdr.nx + col
  if nest.bat k ij < 0 then nest
  else
    let yy := hdr.y_min + row * hdr.y_inc
    let xx := hdr.x_min + col * hdr.x_inc
    let z := fun (a : Nat → Nat → ℚ) => H.GMT_get_bcr_z (a (k - 1)) (nest.hdr (k - 1)) xx yy
    { nest with
      etaa := store nest.etaa k ij (z nest.etaa),
      etad := store nest.etad k ij (z nest.etad),
      fluxm_a := store nest.fluxm_a k ij (z nest.fluxm_a),
      fluxn_a := store nest.fluxn_a k ij (z nest.fluxn_a),
      fluxm_d := store nest.fluxm_d k ij (z nest.fluxm_d),
      fluxn_d := store nest.fluxn_d k ij (z nest.fluxn_d),
      htotal_a := store nest.htotal_a k ij (z nest.htotal_a),
      htotal_d := store nest.htotal_d k ij (z nest.htotal_d) }

/-- The C function `resamplegrid` (nswing.c 5271-5294): the state of each nested level
`1..nNg` is interpolated from its parent. -/
def resamplegrid (H : Host) (nest : nestContainer) (nNg : Nat) : nestContainer :=
  forRange 1 (nNg + 1) (fun k nest =>
    forRange 0 (nest.hdr k).ny (fun row nest =>
      forRange 0 (nest.hdr k).nx (fun col nest => resamplegrid_cell H k row col nest) nest)
      nest) nest

/-- The calls that `nestify` makes, for the record of a run. -/
inductive Call where
  | resamplegrid
  | edge_communication (j : Nat)
  | mass_conservation
  | update_max
  | update_max_velocity
  | nestify
  | moment_conservation
  | replicate
  | upscale_
  | update
  deriving DecidableEq

/-- The state of a run of `nestify` together with the record of the calls made so far, each
with the level of the `nestify` frame that made it. -/
structure Run where
  st : nestState
  log : List (Nat × Call)

/-- A call made by the `nestify` frame of level `level`, recorded in the log when it is
made. -/
def recorded (level : Nat) (c : Call) (f : nestState → nestState) (s : Run) : Run :=
  { st := f s.st, log := s.log ++ [(level, c)] }

/-- One pass `j` of the loop of `nestify` (nswing.c 5248-5267) at level `level`; `deeper` is
the recursive call `nestify(nest, nNg - 1, level + 1, isGeog)` when `nNg != 1`. -/
def nestify_pass (H : Host) (E : Env) (isGeog : Bool) (u : (ℚ × ℚ) × (ℚ × ℚ))
    (deeper : Option (Nat → Run → Run)) (level : Nat) (last_iter nhalf : Int) (j : Nat)
    (s : Run) : Run :=
  let s := recorded level (Call.edge_communication j) (fun st =>
    { st with nest := (edge_communication st.nest st.edges level j).1,
              edges := (edge_communication st.nest st.edges level j).2 }) s
  let s := recorded level Call.mass_conservation (fun st =>
    { st with nest := mass_conservation st.nest isGeog level }) s
  let s := if s.st.nest.do_max_level then recorded level Call.update_max (update_max H) s else s
  let s := if s.st.nest.do_max_velocity then
      recorded level Call.update_max_velocity (update_max_velocity H) s
    else s
  let s := match deeper with
    | some f => f (level + 1) (recorded level Call.nestify (fun st => st) s)
    | none => s
  let s := recorded level Call.moment_conservation (fun st =>
    { st with nest := moment_conservation E st.nest isGeog level u }) s
  let s := recorded level Call.replicate (fun st =>
    { st with nest := replicate st.nest level }) s
  let s := if (j : Int) = nhalf ∧ s.st.nest.do_upscale then
      recorded level Call.upscale_ (fun st =>
        { st with nest := upscale_ st.nest level last_iter }) s
    else s
  recorded level Call.update (fun st => { st with nest := update st.nest level }) s

/-- The body of the C function `nestify` (nswing.c 5231-5268) for the arguments `nNg` and
`level`, given its recursive call. -/
def nestify_run (H : Host) (E : Env) (isGeog : Bool) (u : (ℚ × ℚ) × (ℚ × ℚ))
    (deeper : Option (Nat → Run → Run)) (nNg level : Nat) (s : Run) : Run :=
  if s.st.nest.run_jump_time > 0 ∧ s.st.nest.run_jump_time > s.st.nest.time_h then s
  else
    let s := if s.st.nest.run_jump_time > 0 then
        recorded level Call.resamplegrid (fun st =>
          { st with nest := { resamplegrid H st.nest nNg with run_jump_time := 0 } }) s
      else s
    let last_iter := truncI (s.st.nest.dt (level - 1) / s.st.nest.dt level)
    let nhalf := truncI (H.toFloat last_iter / 2)
    forRange 0 (Int.toNat last_iter)
      (fun j s => nestify_pass H E isGeog u deeper level last_iter nhalf j s) s

/-- The function `nestify` called with `nNg = n + 1` nested grids: the recursion stops when
`nNg` is 1. -/
def nestify_pos (H : Host) (E : Env) (isGeog : Bool) (u : (ℚ × ℚ) × (ℚ × ℚ)) :
    Nat → Nat → Run → Run
  | 0, level, s => nestify_run H E isGeog u none 1 level s
  | n + 1, level, s => nestify_run H E isGeog u (some (nestify_pos H E isGeog u n)) (n + 2) level s

/-- The C function `nestify` (nswing.c 5231-5268). With `nNg = 0` the test `nNg != 1` never
fails and the recursion does not end: there is no result. `u` stands for the indeterminate
initial contents of the uninitialised locals of the momentum functions. -/
def nestify (H : Host) (E : Env) (isGeog : Bool) (u : (ℚ × ℚ) × (ℚ × ℚ)) (nNg level : Nat)
    (s : Run) : Option Run :=
  match nNg with
  | 0 => none
  | n + 1 => some (nestify_pos H E isGeog u n level s)

/-- A stand-in for the two functions taken as given: the conversion to `float` is exact and the
bicubic interpolation returns 0. -/
def host0 : Host :=
  { toFloat := fun x => x
    GMT_get_bcr_z := fun _ _ _ _ => 0 }

/-- The members `LLx .. LRy` of `struct nestContainer` (nswing.c 241): the coordinates of the
four corner nodes of the parent grid that embrace each nested grid. They are kept in a record
of their own. -/
structure nestCorners where
  LLx : Nat → ℚ
  LLy : Nat → ℚ
  ULx : Nat → ℚ
  ULy : Nat → ℚ
  URx : Nat → ℚ
  URy : Nat → ℚ
  LRx : Nat → ℚ
  LRy : Nat → ℚ

/-- The state that `initialize_nestum` works on. -/
structure initState where
  nest : nestContainer
  edges : edgeArrays
  corners : nestCorners

/-- The working arrays whose allocation `initialize_nestum` checks. -/
inductive WorkArray where
  | bat | etaa | etad | fluxm_a | fluxm_d | fluxn_a | fluxn_d | htotal_a | htotal_d
  | long_beach | short_beach | vex | vey
  | r0 | r1m | r1n | r2m | r2n | r3m | r3n | r4m | r4n
  deriving DecidableEq

/-- What `initialize_nestum` finds in the heap: whether `nest->bat[lev]` is still NULL, and
whether the `mxCalloc` of each working array succeeds. -/
structure Heap where
  bat_null : Bool
  calloc_ok : WorkArray → Bool

/-- The macro `irint(x)`, `((int)rint(x))` (nswing.c 171-173), with the macro `rint(x)` of
nswing.c 168-170, `(floor((x)+0.5))`: the nearest integer, a half being rounded upwards. The
assignment `n_incs = rint(x)` to an `int` in `check_binning` is the same conversion. -/
def irint (x : ℚ) : Int := Int.floor (x + 0.5)

/-- A successful `mxCalloc` for a working array of level `lev`: the array is all zeros. -/
def calloc_array (a : WorkArray) (lev : Nat) (nest : nestContainer) : nestContainer :=
  match a with
  | .bat => { nest with bat := Function.update nest.bat lev (fun _ => 0) }
  | .etaa => { nest with etaa := Function.update nest.etaa lev (fun _ => 0) }
  | .etad => { nest with etad := Function.update nest.etad lev (fun _ => 0) }
  | .fluxm_a => { nest with fluxm_a := Function.update nest.fluxm_a lev (fun _ => 0) }
  | .fluxm_d => { nest with fluxm_d := Function.update nest.fluxm_d lev (fun _ => 0) }
  | .fluxn_a => { nest with fluxn_a := Function.update nest.fluxn_a lev (fun _ => 0) }
  | .fluxn_d => { nest with fluxn_d := Function.update nest.fluxn_d lev (fun _ => 0) }
  | .htotal_a => { nest with htotal_a := Function.update nest.htotal_a lev (fun _ => 0) }
  | .htotal_d => { nest with htotal_d := Function.update nest.htotal_d lev (fun _ => 0) }
  | .long_beach => { nest with long_beach := Function.update nest.long_beach lev (fun _ => 0) }
  | .short_beach => { nest with short_beach := Function.update nest.short_beach lev (fun _ => 0) }
  | .vex => { nest with vex := Function.update nest.vex lev (fun _ => 0) }
  | .vey => { nest with vey := Function.update nest.vey lev (fun _ => 0) }
  | .r0 => { nest with r0 := Function.update nest.r0 lev (fun _ => 0) }
  | .r1m => { nest with r1m := Function.update nest.r1m lev (fun _ => 0) }
  | .r1n => { nest with r1n := Function.update nest.r1n lev (fun _ => 0) }
  | .r2m => { nest with r2m := Function.update nest.r2m lev (fun _ => 0) }
  | .r2n => { nest with r2n := Function.update nest.r2n lev (fun _ => 0) }
  | .r3m => { nest with r3m := Function.update nest.r3m lev (fun _ => 0) }
  | .r3n => { nest with r3n := Function.update nest.r3n lev (fun _ => 0) }
  | .r4m => { nest with r4m := Function.update nest.r4m lev (fun _ => 0) }
  | .r4n => { nest with r4n := Function.update nest.r4n lev (fun _ => 0) }

/-- The allocations of `initialize_nestum` (nswing.c 2337-2395), in order: each one that is
requested either succeeds or makes the function return -1 at once. The result tells whether
all of them succeeded. -/
def alloc_arrays (heap : Heap) (lev : Nat) :
    List (Bool × WorkArray) → nestContainer → Bool × nestContainer
  | [], nest => (true, nest)
  | (wanted, a) :: rest, nest =>
    if wanted then
      if heap.calloc_ok a then alloc_arrays heap lev rest (calloc_array a lev nest)
      else (false, nest)
    else alloc_arrays heap lev rest nest

/-- The allocations that `initialize_nestum` requests for level `lev`, in order. -/
def wanted_arrays (heap : Heap) (nest : nestContainer) (isGeog : Bool) (lev : Nat) :
    List (Bool × WorkArray) :=
  [(heap.bat_null, .bat), (true, .etaa), (true, .etad), (true, .fluxm_a), (true, .fluxm_d),
   (true, .fluxn_a), (true, .fluxn_d), (true, .htotal_a), (true, .htotal_d),
   (nest.do_long_beach && decide (lev = nest.writeLevel), .long_beach),
   (nest.do_short_beach && decide (lev = nest.writeLevel), .short_beach),
   (nest.out_velocity_x && decide (lev = nest.writeLevel), .vex),
   (nest.out_velocity_y && decide (lev = nest.writeLevel), .vey),
   (isGeog, .r0), (isGeog, .r1m), (isGeog, .r1n), (isGeog, .r2m), (isGeog, .r2n),
   (isGeog, .r3m), (isGeog, .r3n), (true, .r4m), (true, .r4n)]

/-- The part of `initialize_nestum` after the allocations, for a nested level (nswing.c
2403-2463): the corners of the parent nodes that embrace the nested grid, their rows and
columns, and the coordinate vectors of the edges. The members `lat_min4Coriolis` and
`doCoriolis` of the header, set last, are not part of the header of this model. -/
def initialize_edges (s : initState) (lev : Nat) : initState :=
  let nest := s.nest
  let hdr := nest.hdr (lev - 1)
  let h := nest.hdr lev
  let xoff := h.x_inc / 2
  let yoff := h.y_inc / 2
  let xoff_P := hdr.x_inc / 2
  let LLx := (h.x_min - xoff) - hdr.x_inc / 2
  let LLy := (h.y_min - yoff) - hdr.y_inc / 2
  let ULx := (h.x_min - xoff) - hdr.x_inc / 2
  let ULy := (h.y_max + yoff) + hdr.y_inc / 2
  let URx := (h.x_max + xoff) + hdr.x_inc / 2
  let URy := (h.y_max + yoff) + hdr.y_inc / 2
  let LRx := (h.x_max + xoff) + hdr.x_inc / 2
  let LRy := (h.y_min - yoff) - hdr.y_inc / 2
  let LLrow := irint ((LLy - hdr.y_min) / hdr.y_inc)
  let LLcol := irint ((LLx - hdr.x_min) / hdr.x_inc)
  let ULrow := irint ((ULy - hdr.y_min) / hdr.y_inc)
  let ULcol := irint ((ULx - hdr.x_min) / hdr.x_inc)
  let URrow := irint ((URy - hdr.y_min) / hdr.y_inc)
  let URcol := irint ((URx - hdr.x_min) / hdr.x_inc)
  let LRrow := irint ((LRy - hdr.y_min) / hdr.y_inc)
  let LRcol := irint ((LRx - hdr.x_min) / hdr.x_inc)
  let nrow := Int.toNat (LRcol - LLcol + 1)
  let ncol := Int.toNat (ULrow - LLrow + 1)
  { nest := { nest with
      LLrow := Function.update nest.LLrow lev LLrow,
      LLcol := Function.update nest.LLcol lev LLcol,
      ULrow := Function.update nest.ULrow lev ULrow,
      ULcol := Function.update nest.ULcol lev ULcol,
      URrow := Function.update nest.URrow lev URrow,
      URcol := Function.update nest.URcol lev URcol,
      LRrow := Function.update nest.LRrow lev LRrow,
      LRcol := Function.update nest.LRcol lev LRcol },
    corners :=
      { LLx := Function.update s.corners.LLx lev LLx,
        LLy := Function.update s.corners.LLy lev LLy,
        ULx := Function.update s.corners.ULx lev ULx,
        ULy := Function.update s.corners.ULy lev ULy,
        URx := Function.update s.corners.URx lev URx,
        URy := Function.update s.corners.URy lev URy,
        LRx := Function.update s.corners.LRx lev LRx,
        LRy := Function.update s.corners.LRy lev LRy },
    edges :=
      { edge_rowTmp := Function.update s.edges.edge_rowTmp lev (fun _ => 0),
        edge_row := Function.update s.edges.edge_row lev
          (fun col => if col < h.nx then h.x_min + xoff + col * h.x_inc else 0),
        edge_colTmp := Function.update s.edges.edge_colTmp lev (fun _ => 0),
        edge_col := Function.update s.edges.edge_col lev
          (fun row => if row < h.ny then h.y_min + yoff + row * h.y_inc else 0),
        edge_row_Ptmp := Function.update s.edges.edge_row_Ptmp lev (fun _ => 0),
        edge_row_P := Function.update s.edges.edge_row_P lev
          (fun i => if i < nrow then LLx + xoff_P + i * hdr.x_inc else 0),
        edge_col_Ptmp := Function.update s.edges.edge_col_Ptmp lev (fun _ => 0),
        edge_col_P := Function.update s.edges.edge_col_P lev
          (fun i => if i < ncol then LLy + xoff_P + i * hdr.y_inc else 0) } }

/-- The half-CFL time step of level `lev` computed by `initialize_nestum` (nswing.c 2329-2330):
`0.5 * MIN(x_inc, y_inc) * scale / sqrt(NORMAL_GRAV * fabs(z_min))`, with `scale` 111000 for
geographical coordinates and 1 otherwise. -/
def half_cfl_step (E : Env) (h : grd_header) (isGeog : Bool) : ℚ :=
  let scale : ℚ := if isGeog then 111000 else 1
  0.5 * (if h.x_inc < h.y_inc then h.x_inc else h.y_inc) * scale
    / E.sqrt (NORMAL_GRAV * |h.z_min|)

/-- The end of `initialize_nestum` (nswing.c 2337-2463), given the outcome `r` of the
allocations: -1 when one failed, 0 at once for the base level, else the geometry of the edges
and 0. -/
def initialize_finish (s : initState) (lev : Nat) (r : Bool × nestContainer) :
    Int × initState :=
  if r.1 = false then (-1, { s with nest := r.2 })
  else if lev = 0 then (0, { s with nest := r.2 })
  else (0, initialize_edges { s with nest := r.2 } lev)

/-- The C function `initialize_nestum` (nswing.c 2287-2464): for a nested level the check that
the grid is nestifiable, the refinement ratio and the time step; then the level number, the
allocation of the working arrays and, for a nested level, the geometry of the edges. Returns
the return code and the state. -/
def initialize_nestum (E : Env) (heap : Heap) (s : initState) (isGeog : Bool) (lev : Nat) :
    Int × initState :=
  let nest := s.nest
  let hdr := nest.hdr (lev - 1)
  let nSizeIncX := irint (hdr.x_inc / (nest.hdr lev).x_inc)
  let nSizeIncY := irint (hdr.y_inc / (nest.hdr lev).y_inc)
  if lev > 0 ∧ hdr.x_inc / (nest.hdr lev).x_inc - nSizeIncX > 1e-5 then (-1, s)
  else if lev > 0 ∧ hdr.y_inc / (nest.hdr lev).y_inc - nSizeIncY > 1e-5 then (-1, s)
  else if lev > 0 ∧ nSizeIncX ≠ nSizeIncY then (-1, s)
  else
    let dt := half_cfl_step E (nest.hdr lev) isGeog
    let nest1 : nestContainer :=
      if lev > 0 then
        { nest with incRatio := Function.update nest.incRatio lev nSizeIncX,
                    dt := Function.update nest.dt lev
                      (nest.dt (lev - 1) / (Int.ceil (nest.dt (lev - 1) / dt) : ℚ)) }
      else nest
    let nest2 : nestContainer := { nest1 with level := Function.update nest1.level lev lev }
    initialize_finish s lev (alloc_arrays heap lev (wanted_arrays heap nest2 isGeog lev) nest2)
/-- A heap on which every allocation succeeds and the bathymetry is already allocated. -/
def heap_ok : Heap :=
  { bat_null := false
    calloc_ok := fun _ => true }

/-- Corner coordinates all zero. -/
def corners0 : nestCorners :=
  { LLx := fun _ => 0, LLy := fun _ => 0, ULx := fun _ => 0, ULy := fun _ => 0,
    URx := fun _ => 0, URy := fun _ => 0, LRx := fun _ => 0, LRy := fun _ => 0 }

/-- A parent grid with increments 2 and time step 1, and a nested grid with increments 1 whose
deepest node lies 10 m below still water, before `initialize_nestum` has run for it. -/
def init2 : initState :=
  { nest := { nest0 with
      hdr := fun l => if l = 0 then { hdr0 with nx := 3, ny := 3, nm := 9, x_inc := 2, y_inc := 2,
                                                x_max := 4, y_max := 4, z_min := -10 }
                      else { hdr0 with nx := 2, ny := 2, nm := 4, x_inc := 1, y_inc := 1,
                                       x_min := 3 / 2, x_max := 5 / 2, y_min := 3 / 2,
                                       y_max := 5 / 2, z_min := -10 },
      dt := fun l => if l = 0 then 1 else 0 },
    edges := edges2,
    corners := corners0 }
/-- The grids of `init2` with a parent of increments 5 and a nested grid of increments 2: the
ratio 5/2 lies half way between two integers. -/
def half2 : initState :=
  { init2 with
    nest := { init2.nest with
      hdr := fun l => if l = 0 then { hdr0 with nx := 3, ny := 3, nm := 9, x_inc := 5, y_inc := 5,
                                                x_max := 10, y_max := 10, z_min := -10 }
                      else { hdr0 with nx := 2, ny := 2, nm := 4, x_inc := 2, y_inc := 2,
                                       x_min := 7 / 2, x_max := 11 / 2, y_min := 7 / 2,
                                       y_max := 11 / 2, z_min := -10 } } }

/-- The C `struct srf_header` (nswing.c 185-195) without its identifier: the header of a grid
file. -/
structure srf_header where
  nx : Nat
  ny : Nat
  x_min : ℚ
  x_max : ℚ
  y_min : ℚ
  y_max : ℚ
  z_min : ℚ
  z_max : ℚ

/-- The C function `sanitize_nestContainer` (nswing.c 2178-2223) on the members of this model:
flags off, defaults, and for each of the 10 levels `level = -1` and zeros. The pointers it sets
to NULL have no counterpart here. -/
def sanitize_nestContainer (nest : nestContainer) : nestContainer :=
  { nest with
    do_upscale := false, do_long_beach := false, do_short_beach := false, do_linear := false,
    do_max_level := false, do_max_velocity := false, out_velocity_x := false,
    out_velocity_y := false, do_Coriolis := false,
    bnc_border := fun i => if i < 4 then 0 else nest.bnc_border i,
    run_jump_time := 0, manning_depth := 8000,
    level := fun i => if i < 10 then -1 else nest.level i,
    manning := fun i => if i < 10 then 0 else nest.manning i,
    LLrow := fun i => if i < 10 then 0 else nest.LLrow i,
    LLcol := fun i => if i < 10 then 0 else nest.LLcol i,
    ULrow := fun i => if i < 10 then 0 else nest.ULrow i,
    ULcol := fun i => if i < 10 then 0 else nest.ULcol i,
    URrow := fun i => if i < 10 then 0 else nest.URrow i,
    URcol := fun i => if i < 10 then 0 else nest.URcol i,
    LRrow := fun i => if i < 10 then 0 else nest.LRrow i,
    LRcol := fun i => if i < 10 then 0 else nest.LRcol i,
    incRatio := fun i => if i < 10 then 0 else nest.incRatio i,
    dt := fun i => if i < 10 then 0 else nest.dt i }

/-- One pass of the loop of `main` that reads the nesting grids (nswing.c 1257-1283): the
header `hdr` and the bathymetry `bat` read from the file of the nested grid number
`num_of_nestGrids` are stored as level `num_of_nestGrids + 1`. -/
def load_nested_grid (nest : nestContainer) (num_of_nestGrids : Nat) (hdr : srf_header)
    (bat : Nat → ℚ) : nestContainer :=
  let dx := (hdr.x_max - hdr.x_min) / ((hdr.nx : ℚ) - 1)
  let dy := (hdr.y_max - hdr.y_min) / ((hdr.ny : ℚ) - 1)
  { nest with
    bat := Function.update nest.bat (num_of_nestGrids + 1) bat,
    hdr := Function.update nest.hdr (num_of_nestGrids + 1)
      { nx := hdr.nx, ny := hdr.ny, nm := hdr.nx * hdr.ny, x_inc := dx, y_inc := dy,
        x_min := hdr.x_min, x_max := hdr.x_max, y_min := hdr.y_min, y_max := hdr.y_max,
        z_min := hdr.z_min, z_max := hdr.z_max } }

/-- The C function `check_binning` (nswing.c 2269-2284): 0 when the point `x0D` of the nested
grid lies, within `tol`, half a parent cell plus half a nested cell beyond a node of the parent
grid, else -1 and the suggested location. -/
def check_binning (x0P x0D dxP dxD tol : ℚ) : Int × Option ℚ :=
  let x := (x0D - x0P) / dxP
  let n_incs := irint x
  let dec := x0D - (x0P + n_incs * dxP)
  if |dec - (dxP / 2 + dxD / 2)| > tol then
    (-1, some (x0P + n_incs * dxP + dxP / 2 + dxD / 2))
  else (0, none)

/-- The body of the loop of `check_paternity` (nswing.c 2236-2259) for the level `k`: the
number of errors after the four checks of the lower left and upper right corners. -/
def check_paternity_pass (nest : nestContainer) (k : Nat) (error : Int) : Int :=
  let P := nest.hdr (k - 1)
  let D := nest.hdr k
  let error := if (check_binning P.x_min D.x_min P.x_inc D.x_inc (P.x_inc / 4)).1 ≠ 0 then
      error + 1 else error
  let error := if (check_binning P.y_min D.y_min P.y_inc D.y_inc (P.y_inc / 4)).1 ≠ 0 then
      error + 1 else error
  let error := if (check_binning P.x_min D.x_max P.x_inc (-D.x_inc) (P.x_inc / 4)).1 ≠ 0 then
      error + 1 else error
  let error := if (check_binning P.y_min D.y_max P.y_inc (-D.y_inc) (P.y_inc / 4)).1 ≠ 0 then
      error + 1 else error
  error

/-- The loop `while (nest->level[k] > 0)` of `check_paternity` (nswing.c 2234-2262), which does
not change `k`; `fuel` bounds the number of passes, and there is no result when it runs
out. -/
def check_paternity_loop (nest : nestContainer) (k : Nat) : Nat → Int → Option Int
  | 0, _ => none
  | fuel + 1, error =>
    if nest.level k > 0 then
      if check_paternity_pass nest k error ≠ 0 then some (check_paternity_pass nest k error)
      else check_paternity_loop nest k fuel (check_paternity_pass nest k error)
    else some error

/-- The C function `check_paternity` (nswing.c 2226-2266): the number of nesting errors,
starting with `error = 0` at the level `k = 1`. -/
def check_paternity (fuel : Nat) (nest : nestContainer) : Option Int :=
  check_paternity_loop nest 1 fuel 0

/-- The container as `main` has prepared it when it calls `check_paternity` (nswing.c 1290):
sanitized, with a base grid of increments 2 and one nested grid of increments 1 whose first
node lies at `x = 2`, `y = 2`, on a node of the base grid instead of half a cell of each grid
beyond it. -/
def startup2 : nestContainer :=
  load_nested_grid
    (sanitize_nestContainer
      { nest0 with
        hdr := fun _ => { hdr0 with nx := 5, ny := 5, nm := 25, x_inc := 2, y_inc := 2,
                                    x_max := 8, y_max := 8, z_min := -10 } })
    0
    { nx := 3, ny := 3, x_min := 2, x_max := 4, y_min := 2, y_max := 4, z_min := -10,
      z_max := 0 }
    (fun _ => 10)
/-- The part of `main` from the grid increments to the test of `error` (nswing.c 1225-1249),
between the reading of the headers and the rest of the run: the CFL condition of the base
grid `hdr_b` for the time step `dt`. `error` counts the errors found so far, `covers` tells
whether the source grid covers the region of the bathymetry (nswing.c 1227-1235), `rest` is
what `main` does next (reading the nested grids, allocating, stepping), run in the world `w`.
A `Return(-1)` leaves the world as it is. -/
def main_cfl {W : Type} (E : Env) (hdr_b : srf_header) (isGeog covers : Bool) (dt : ℚ)
    (error : Nat) (rest : W → Int × W) (w : W) : Int × W :=
  let dx := (hdr_b.x_max - hdr_b.x_min) / ((hdr_b.nx : ℚ) - 1)
  let dy := (hdr_b.y_max - hdr_b.y_min) / ((hdr_b.ny : ℚ) - 1)
  let error := if covers then error else error + 1
  let ds := if dx < dy then dx else dy
  let ds := if isGeog then ds * 111000 else ds
  let dtCFL := ds / E.sqrt (|hdr_b.z_min| * 9.8)
  if dt > dtCFL then (-1, w)
  else if error ≠ 0 then (-1, w)
  else rest w

/-- The header of a base grid of 101 x 101 nodes, 10 m apart, whose deepest node lies 5 m
below still water: `fabs(z_min) * 9.8` is 49. -/
def base_hdr : srf_header :=
  { nx := 101, ny := 101, x_min := 0, x_max := 1000, y_min := 0, y_max := 1000, z_min := -5,
    z_max := 0 }
/-- A 3 x 3 flat pond, 10 m deep, with the surface standing at `eta = 1` in `etad` and no
flux, no boundary condition file: the state on which `openb` is called. -/
def flat3 : nestContainer :=
  { nest0 with
    hdr := fun _ => { hdr0 with nx := 3, ny := 3, nm := 9, x_inc := 1, y_inc := 1 },
    dt := fun _ => 1,
    bat := fun _ _ => 10,
    etaa := fun _ _ => 1, etad := fun _ _ => 1,
    htotal_a := fun _ _ => 11, htotal_d := fun _ _ => 11 }

/-- A base grid of increments 4 starting at 0 with one registered nested grid (`level[1] = 1`)
of increments 1 that spans 7/4..23/4 in x and in y: its four corners pass the four tests of
`check_binning` that `check_paternity` makes, none of them at a half that `rint` rounds. -/
def aligned2 : nestContainer :=
  { nest0 with
    level := fun l => if l = 1 then 1 else if l = 0 then 0 else -1,
    hdr := fun l =>
      if l = 0 then { hdr0 with nx := 3, ny := 3, nm := 9, x_inc := 4, y_inc := 4,
                                x_max := 8, y_max := 8 }
      else { hdr0 with nx := 5, ny := 5, nm := 25, x_inc := 1, y_inc := 1,
                       x_min := 7 / 4, x_max := 23 / 4, y_min := 7 / 4, y_max := 23 / 4 } }

/-- A 1 x 1 grid on the write level whose only cell is land 1 m above still water and dry
(`bat = -1`, `eta = 1`, no depth, no flux), with both beach masks requested and empty. -/
def dryland1 : nestContainer :=
  { nest0 with
    hdr := fun _ => { hdr0 with nx := 1, ny := 1, nm := 1, x_inc := 1, y_inc := 1 },
    dt := fun _ => 1,
    do_long_beach := true, do_short_beach := true,
    bat := fun _ _ => -1,
    etaa := fun _ _ => 1,
    etad := fun _ _ => 1 }

/-- A single flooded land cell on the write level: the ground is 1 m above still water
(`bat = -1`) under 2 m of water (`eta_a = eta_d = 3`), and the recorded maximum is 0. -/
def flood1 : nestState :=
  { nest := { nest0 with
      hdr := fun _ => { hdr0 with nx := 1, ny := 1, nm := 1, x_inc := 1, y_inc := 1 },
      bat := fun _ _ => -1,
      etaa := fun _ _ => 3,
      etad := fun _ _ => 3,
      htotal_a := fun _ _ => 2,
      htotal_d := fun _ _ => 2 },
    edges := edges2,
    work := fun _ => 0 }

/-- The C function `wall_two` (nswing.c 3884-3899): a vertical wall in the columns
`ot1 <= i < ot2` and rows `in1 <= j < in2` of the base level. The wall height is
`-MIN(z_max, -MAXRUNUP)`; a cell whose bathymetry is already below `MAXRUNUP` is left as it
is. -/
def wall_two (nest : nestContainer) (ot1 ot2 in1 in2 : Int) : nestContainer :=
  let wall_height : ℚ := -MAXRUNUP
  let wall_height : ℚ :=
    -(if (nest.hdr 0).z_max < wall_height then (nest.hdr 0).z_max else wall_height)
  let bat0 := forRange 0 (Int.toNat (ot2 - ot1)) (fun ti bat =>
    forRange 0 (Int.toNat (in2 - in1)) (fun tj (bat : Nat → ℚ) =>
      let ij := ij_grdI (ot1 + ti) (in1 + tj) (nest.hdr 0)
      if bat ij < MAXRUNUP then bat else Function.update bat ij wall_height) bat) (nest.bat 0)
  { nest with bat := Function.update nest.bat 0 bat0 }

/-- The C function `wall_it` (nswing.c 3858-3881): vertical walls on the three borders other
than the first border that is marked as the one where the water comes in (W, S, E, N in this
order); `wall_two` leaves the header as it is, so the sizes are those of the call. -/
def wall_it (nest : nestContainer) : nestContainer :=
  let nx : Int := (nest.hdr 0).nx
  let ny : Int := (nest.hdr 0).ny
  if nest.bnc_border 0 ≠ 0 then
    let nest := wall_two nest 0 nx (ny - 2) ny
    let nest := wall_two nest 0 nx 0 2
    wall_two nest (nx - 2) nx 0 ny
  else if nest.bnc_border 1 ≠ 0 then
    let nest := wall_two nest 0 2 0 ny
    let nest := wall_two nest (nx - 2) nx 0 ny
    wall_two nest 0 nx (ny - 2) ny
  else if nest.bnc_border 2 ≠ 0 then
    let nest := wall_two nest 0 nx (ny - 2) ny
    let nest := wall_two nest 0 nx 0 2
    wall_two nest 0 2 0 ny
  else if nest.bnc_border 3 ≠ 0 then
    let nest := wall_two nest 0 2 0 ny
    let nest := wall_two nest 0 nx 0 2
    wall_two nest (nx - 2) nx 0 ny
  else nest

/-- Reference definition (specification, boundary conditions): the cell `(col, row)` of a grid
of `nx x ny` cells lies in the ribbon, 2 cells thick, along one of the three borders other
than the border `b` (0 = W, 1 = S, 2 = E, 3 = N). -/
def in_wall_ribbon (nx ny b col row : Nat) : Prop :=
  (b ≠ 0 ∧ col < 2) ∨ (b ≠ 1 ∧ row < 2) ∨ (b ≠ 2 ∧ nx ≤ col + 2) ∨ (b ≠ 3 ∧ ny ≤ row + 2)

instance (nx ny b col row : Nat) : Decidable (in_wall_ribbon nx ny b col row) := by
  unfold in_wall_ribbon
  infer_instance

/-- The height that `wall_two` gives to a wall cell: the bathymetry is kept where it is below
`MAXRUNUP`, else it becomes `-MIN(z_max, -MAXRUNUP)`. -/
def wall_height_of (z_max old : ℚ) : ℚ :=
  if old < MAXRUNUP then old else -(if z_max < -MAXRUNUP then z_max else -MAXRUNUP)

/-- A base grid of 6 x 6 cells, 5 m deep everywhere, whose header says `z_max = 10`, with the
west border as the one where the water comes in. -/
def shallow6 : nestContainer :=
  { nest0 with
    hdr := fun _ => { hdr0 with nx := 6, ny := 6, nm := 36, x_inc := 1, y_inc := 1,
                                z_min := -5, z_max := 10 },
    bnc_border := fun b => if b = 0 then 1 else 0,
    bat := fun _ _ => 5 }

/-- The grid of `shallow6` with `z_max = 60` in the header. -/
def high6 : nestContainer :=
  { shallow6 with
    hdr := fun _ => { hdr0 with nx := 6, ny := 6, nm := 36, x_inc := 1, y_inc := 1,
                                z_min := -5, z_max := 60 } }

/-- The members of `struct nestContainer` that hold the boundary condition read from a file:
the positions `bnc_pos_*` of the forcing points, the times `bnc_var_t` and the series
`bnc_var_z[n][i]` of the samples, and the vectors `bnc_var_zTmp`, `bnc_var_z_interp` that
`interp_bnc` fills. -/
structure bncArrays where
  bnc_pos_nPts : Nat
  bnc_var_nTimes : Nat
  bnc_pos_x : Nat → ℚ
  bnc_pos_y : Nat → ℚ
  bnc_var_t : Nat → ℚ
  bnc_var_z : Nat → Nat → ℚ
  bnc_var_zTmp : Nat → ℚ
  bnc_var_z_interp : Nat → ℚ

/-- The loop `for (n = 0; n < nest->bnc_var_nTimes - 1; n++)` of `interp_bnc` (nswing.c
2957-2968) from the pass `n` on, with `fuel` passes left. The flag tells whether the function
returned TRUE from inside the loop; the vector is `bnc_var_zTmp` when the loop is left. -/
def interp_bnc_scan (b : bncArrays) (t : ℚ) : Nat → Nat → Bool × (Nat → ℚ)
  | 0, _ => (false, b.bnc_var_zTmp)
  | fuel + 1, n =>
    if t ≥ b.bnc_var_t n ∧ t < b.bnc_var_t (n + 1) then
      let s := (t - b.bnc_var_t n) / (b.bnc_var_t (n + 1) - b.bnc_var_t n)
      (false, forRange 0 b.bnc_pos_nPts (fun i z =>
        Function.update z i
          (b.bnc_var_z n i + s * (b.bnc_var_z (n + 1) i - b.bnc_var_z n i))) b.bnc_var_zTmp)
    else if t > (b.bnc_var_nTimes : ℚ) then (true, b.bnc_var_zTmp)
    else interp_bnc_scan b t fuel (n + 1)

/-- The C function `interp_bnc` (nswing.c 2947-2983): the boundary series interpolated at
the time `t`. Returns the value of the function (TRUE when it takes the series as exhausted)
and the arrays of the boundary condition. -/
def interp_bnc (nest : nestContainer) (eb : edgeArrays) (b : bncArrays) (t : ℚ) :
    Bool × bncArrays :=
  let side_len :=
    if nest.bnc_border 0 ≠ 0 ∨ nest.bnc_border 2 ≠ 0 then (nest.hdr 0).ny else (nest.hdr 0).nx
  let r := interp_bnc_scan b t (b.bnc_var_nTimes - 1) 0
  if r.1 then (true, b)
  else
    let zTmp := r.2
    let z_interp :=
      if b.bnc_pos_nPts = 1 then
        forRange 0 side_len (fun n z => Function.update z n (zTmp 0)) b.bnc_var_z_interp
      else if side_len = (nest.hdr 0).nx then
        (intp_lin b.bnc_pos_x zTmp b.bnc_pos_nPts side_len (eb.edge_row_P 0)
          b.bnc_var_z_interp).1
      else
        (intp_lin b.bnc_pos_y zTmp b.bnc_pos_nPts side_len (eb.edge_row_P 0)
          b.bnc_var_z_interp).1
    (false, { b with bnc_var_zTmp := zTmp, bnc_var_z_interp := z_interp })

/-- A boundary series of one forcing point with the three samples `z = 0, 1, 2` at the times
`t = 0, 100, 200`. -/
def tide3 : bncArrays :=
  { bnc_pos_nPts := 1, bnc_var_nTimes := 3,
    bnc_pos_x := fun _ => 0, bnc_pos_y := fun _ => 0,
    bnc_var_t := fun n => 100 * n,
    bnc_var_z := fun n _ => n,
    bnc_var_zTmp := fun _ => 0,
    bnc_var_z_interp := fun _ => 0 }

/-- The C function `intp_lin` (nswing.c 5043-5091) with all the arrays it writes: as
`intp_lin`, but the vectors `x` and `u`, which the function negates in place when `x` is
decreasing (`down`) and negates again before it returns, are part of the result. Returns
`(x, u, v, value)`; on an error the three vectors are as they were. -/
def intp_lin_arrays (x y : Nat → ℚ) (n m : Nat) (u v : Nat → ℚ) :
    (Nat → ℚ) × (Nat → ℚ) × (Nat → ℚ) × Nat :=
  let dx := x 1 - x 0
  let down : Bool := decide (¬ dx > 0)
  let err_flag :=
    if dx > 0 then
      forRange 2 n (fun i e => if e = 0 then (if x i - x (i - 1) < 0 then i else e) else e) 0
    else
      forRange 2 n (fun i e => if e = 0 then (if x i - x (i - 1) > 0 then i else e) else e) 0
  if err_flag ≠ 0 then (x, u, v, err_flag)
  else
    let x := if down then forRange 0 n (fun i (x : Nat → ℚ) => Function.update x i (-x i)) x
             else x
    let u := if down then forRange 0 m (fun i (u : Nat → ℚ) => Function.update u i (-u i)) u
             else u
    let r := forRange 0 m (fun i (s : (Nat → ℚ) × Nat) =>
      let j := intp_lin_j x (u i) n s.2
      (Function.update s.1 i ((y (j + 1) - y j) * (u i - x j) / (x (j + 1) - x j) + y j), j))
      (v, 0)
    let x := if down then forRange 0 n (fun i (x : Nat → ℚ) => Function.update x i (-x i)) x
             else x
    let u := if down then forRange 0 m (fun i (u : Nat → ℚ) => Function.update u i (-u i)) u
             else u
    (x, u, r.1, 0)

/-- Reference definition (the segment of claim C26): the segment `[x j, x (j+1)]` of the `n`
sample positions `x` brackets the point `ui`, in the direction in which `x` runs, or is the
first segment when `ui` lies before the samples and the last one when it lies at or beyond
the last sample. -/
def segment_brackets (x : Nat → ℚ) (n j : Nat) (ui : ℚ) : Prop :=
  j + 1 < n ∧
  (j = 0 ∨ (if x 0 < x 1 then x j ≤ ui else ui ≤ x j)) ∧
  (j + 2 = n ∨ (if x 0 < x 1 then ui < x (j + 1) else x (j + 1) < ui))

/-- Three sample positions `3, 2, 1`, decreasing. -/
def down3_x : Nat → ℚ := fun i => 3 - (i : ℚ)

/-- The samples `10, 20, 40` at the positions `down3_x`. -/
def down3_y : Nat → ℚ := fun i => if i = 0 then 10 else if i = 1 then 20 else 40

/-- Two points to interpolate at: `2` (a sample position) and `3/2`. -/
def down3_u : Nat → ℚ := fun i => if i = 0 then 2 else 3 / 2

/-- Reference definition (claim C29): the header of the grid with the x and y axes swapped. -/
def transpose_hdr (h : grd_header) : grd_header :=
  { h with nx := h.ny, ny := h.nx, x_inc := h.y_inc, y_inc := h.x_inc,
           x_min := h.y_min, x_max := h.y_max, y_min := h.x_min, y_max := h.x_max }

/-- Reference definition (claim C29): the transpose of an array of the grid `h`. The entry
`(row, col)` of the result, whose rows have `h.ny` cells, is the entry `(col, row)` of `a`. -/
def transpose_array (h : grd_header) (a : Nat → ℚ) : Nat → ℚ :=
  fun k => a ((k % h.ny) * h.nx + k / h.ny)

/-- Reference definition (claim C29): the state obtained by swapping the x and y axes: every
array is transposed, `fluxm` is exchanged with `fluxn` (and `vex` with `vey`, and the two
velocity requests), `nx` with `ny` and `x_inc` with `y_inc`. -/
def transposed (nest : nestContainer) : nestContainer :=
  { nest with
    hdr := fun l => transpose_hdr (nest.hdr l),
    out_velocity_x := nest.out_velocity_y,
    out_velocity_y := nest.out_velocity_x,
    bat := fun l => transpose_array (nest.hdr l) (nest.bat l),
    etaa := fun l => transpose_array (nest.hdr l) (nest.etaa l),
    etad := fun l => transpose_array (nest.hdr l) (nest.etad l),
    htotal_a := fun l => transpose_array (nest.hdr l) (nest.htotal_a l),
    htotal_d := fun l => transpose_array (nest.hdr l) (nest.htotal_d l),
    fluxm_a := fun l => transpose_array (nest.hdr l) (nest.fluxn_a l),
    fluxn_a := fun l => transpose_array (nest.hdr l) (nest.fluxm_a l),
    fluxm_d := fun l => transpose_array (nest.hdr l) (nest.fluxn_d l),
    fluxn_d := fun l => transpose_array (nest.hdr l) (nest.fluxm_d l),
    vex := fun l => transpose_array (nest.hdr l) (nest.vey l),
    vey := fun l => transpose_array (nest.hdr l) (nest.vex l) }

/-- A grid of 4 columns and 3 rows, used as a nested level, whose state is the same in the
three rows: the columns 0 and 1 are under 1 m of water, the columns 2 and 3 under a film of
0.5 mm (between EPS5 and EPS3); the surface is level (`eta = 0`), the flux along x is -1/10
everywhere and the flux along y is 0, there is no friction and no Coriolis term, `dt = 1`
and the cells have unit sizes. -/
def thin4 : nestContainer :=
  { nest0 with
    hdr := fun _ => { hdr0 with nx := 4, ny := 3, nm := 12, x_inc := 1, y_inc := 1 },
    dt := fun _ => 1,
    bat := fun _ k => if k % 4 ≤ 1 then 1 else 1 / 2000,
    htotal_a := fun _ k => if k % 4 ≤ 1 then 1 else 1 / 2000,
    htotal_d := fun _ k => if k % 4 ≤ 1 then 1 else 1 / 2000,
    fluxm_a := fun _ _ => -1 / 10 }

/-! # Theorems -/

/-! ## Loops -/

theorem forRange2_eq_foldl {σ : Type} (r0 r1 c0 c1 : Nat) (body : Nat → Nat → σ → σ) (s : σ) :
    forRange r0 r1 (fun r s => forRange c0 c1 (fun c s => body r c s) s) s
      = (cells r0 r1 c0 c1).foldl (fun s p => body p.1 p.2 s) s := by
  unfold forRange cells
  generalize List.range' r0 (r1 - r0) = rows
  induction rows generalizing s with
  | nil => rfl
  | cons r rs ih =>
    simp only [List.foldl_cons, List.flatMap_cons, List.foldl_append, List.foldl_map]
    exact ih _

theorem mem_cells {r0 r1 c0 c1 : Nat} {p : Nat × Nat} :
    p ∈ cells r0 r1 c0 c1 ↔ (r0 ≤ p.1 ∧ p.1 < r1) ∧ (c0 ≤ p.2 ∧ p.2 < c1) := by
  obtain ⟨r, c⟩ := p
  simp only [cells, List.mem_flatMap, List.mem_map, List.mem_range'_1, Prod.mk.injEq]
  constructor
  · rintro ⟨a, ha, b, hb, rfl, rfl⟩
    omega
  · rintro ⟨hr, hc⟩
    exact ⟨r, by omega, c, by omega, rfl, rfl⟩

theorem idx_inj {nx r c r' c' : Nat} (hc : c < nx) (hc' : c' < nx)
    (h : r * nx + c = r' * nx + c') : r = r' ∧ c = c' := by
  have h1 : (r * nx + c) / nx = (r' * nx + c') / nx := by rw [h]
  have hpos : 0 < nx := by omega
  rw [Nat.mul_comm r, Nat.mul_comm r', Nat.mul_add_div hpos, Nat.mul_add_div hpos,
    Nat.div_eq_of_lt hc, Nat.div_eq_of_lt hc'] at h1
  simp only [Nat.add_zero] at h1
  subst h1
  exact ⟨rfl, by omega⟩

theorem cells_pairwise (r0 r1 c0 c1 nx : Nat) (h : c1 ≤ nx) :
    (cells r0 r1 c0 c1).Pairwise (fun a b => a.1 * nx + a.2 ≠ b.1 * nx + b.2) := by
  have hnd : (cells r0 r1 c0 c1).Nodup := by
    unfold cells
    rw [List.nodup_flatMap]
    refine ⟨fun r _ => ?_, ?_⟩
    · exact (List.nodup_range' c0 (c1 - c0)).map (fun a b hab => by simpa using hab)
    · refine (List.nodup_range' r0 (r1 - r0)).imp ?_
      intro a b hab
      simp only [Function.onFun, List.disjoint_left, List.mem_map, not_exists, not_and]
      rintro p ⟨c, _, rfl⟩ c' _ h'
      exact hab (congrArg Prod.fst h').symm
  refine hnd.imp_of_mem ?_
  intro a b ha hb hab heq
  rw [mem_cells] at ha hb
  obtain ⟨h1, h2⟩ := idx_inj (by omega) (by omega) heq
  exact hab (Prod.ext h1 h2)

/-- A loop over cells whose body writes, in the observed arrays, only the entry of its own
cell: after the loop each visited entry holds the value the body computes from the entry
before the loop, and the other entries are unchanged. -/
theorem foldl_pointwise {σ γ β : Type} (get : σ → Nat → β) (Inv : σ → Prop)
    (body : γ → σ → σ) (idx : γ → Nat) (val : γ → β → β) (cs : List γ)
    (hnd : cs.Pairwise (fun a b => idx a ≠ idx b))
    (hinv : ∀ c s, Inv s → Inv (body c s))
    (hframe : ∀ c s k, Inv s → k ≠ idx c → get (body c s) k = get s k)
    (hval : ∀ c s, c ∈ cs → Inv s → get (body c s) (idx c) = val c (get s (idx c))) :
    ∀ s, Inv s →
      Inv (cs.foldl (fun s c => body c s) s) ∧
      (∀ c ∈ cs, get (cs.foldl (fun s c => body c s) s) (idx c) = val c (get s (idx c))) ∧
      (∀ k, (∀ c ∈ cs, idx c ≠ k) → get (cs.foldl (fun s c => body c s) s) k = get s k) := by
  induction cs with
  | nil =>
    intro s hs
    exact ⟨hs, fun c hc => absurd hc (List.not_mem_nil c), fun k _ => rfl⟩
  | cons c cs ih =>
    intro s hs
    rw [List.pairwise_cons] at hnd
    obtain ⟨hc, hcs⟩ := hnd
    have ih' := ih hcs (fun c' s' hc' => hval c' s' (List.mem_cons_of_mem _ hc')) (body c s)
      (hinv c s hs)
    obtain ⟨i1, i2, i3⟩ := ih'
    simp only [List.foldl_cons]
    refine ⟨i1, ?_, ?_⟩
    · intro c' hc'
      rcases List.mem_cons.mp hc' with rfl | hmem
      · rw [i3 _ (fun c'' hc'' => (hc c'' hc'').symm)]
        exact hval _ s (List.mem_cons_self _ _) hs
      · rw [i2 c' hmem, hframe c s _ hs (hc c' hmem).symm]
    · intro k hk
      rw [i3 k (fun c' hc' => hk c' (List.mem_cons_of_mem _ hc')),
        hframe c s k hs (hk c (List.mem_cons_self _ _)).symm]

/-! ## mass -/

theorem store_same (a : Nat → Nat → ℚ) (lev ij : Nat) (v : ℚ) : store a lev ij v lev ij = v := by
  simp [store]

theorem store_other (a : Nat → Nat → ℚ) (lev ij k : Nat) (v : ℚ) (h : k ≠ ij) :
    store a lev ij v lev k = a lev k := by
  simp [store, h]

theorem storeS_same (a : Nat → Nat → Int) (lev ij : Nat) (v : Int) :
    storeS a lev ij v lev ij = v := by
  simp [storeS]

theorem storeS_other (a : Nat → Nat → Int) (lev ij k : Nat) (v : Int) (h : k ≠ ij) :
    storeS a lev ij v lev k = a lev k := by
  simp [storeS, h]

theorem mass_cell_ro (lev row col : Nat) (s : nestContainer) :
    mass_ro (mass_cell lev row col s) = mass_ro s := rfl

theorem mass_cell_frame (lev row col : Nat) (s : nestContainer) (k : Nat)
    (h : k ≠ row * (s.hdr lev).nx + col) :
    mass_get lev (mass_cell lev row col s) k = mass_get lev s k := by
  simp only [mass_cell, mass_get, store_other _ _ _ _ _ h, storeS_other _ _ _ _ _ h]

theorem mass_cell_val (lev row col : Nat) (s : nestContainer) :
    mass_get lev (mass_cell lev row col s) (row * (s.hdr lev).nx + col)
      = mass_val s lev (row, col) (mass_get lev s (row * (s.hdr lev).nx + col)) := by
  simp only [mass_cell, mass_get, store_same, storeS_same]

theorem mass_val_ro (nest s : nestContainer) (h : mass_ro s = mass_ro nest) (lev : Nat)
    (c : Nat × Nat) (old : ℚ × ℚ × Int × Int) : mass_val s lev c old = mass_val nest lev c old := by
  show mass_val (mass_ro s) lev c old = mass_val (mass_ro nest) lev c old
  rw [h]

theorem mass_cell_other (lev row col : Nat) (s : nestContainer) (l : Nat) (h : l ≠ lev) :
    mass_get l (mass_cell lev row col s) = mass_get l s := by
  funext k
  simp only [mass_cell, mass_get, store, storeS, Function.update_noteq h]

/-- What the loops of `mass` do: the arrays that are only read are unchanged, the entries of
each cell of the grid hold the values of `mass_val`, and nothing else is written. -/
theorem mass_spec (nest : nestContainer) (lev : Nat) :
    mass_ro (mass nest lev) = mass_ro nest ∧
    (∀ l, l ≠ lev → mass_get l (mass nest lev) = mass_get l nest) ∧
    (∀ row col, row < (nest.hdr lev).ny → col < (nest.hdr lev).nx →
      mass_get lev (mass nest lev) (row * (nest.hdr lev).nx + col)
        = mass_val nest lev (row, col) (mass_get lev nest (row * (nest.hdr lev).nx + col))) ∧
    (∀ k, (∀ row col, row < (nest.hdr lev).ny → col < (nest.hdr lev).nx →
        row * (nest.hdr lev).nx + col ≠ k) →
      mass_get lev (mass nest lev) k = mass_get lev nest k) := by
  have hnx : ∀ s : nestContainer, mass_ro s = mass_ro nest → (s.hdr lev).nx = (nest.hdr lev).nx :=
    fun s hs => by
      have h : ((mass_ro s).hdr lev).nx = ((mass_ro nest).hdr lev).nx := by rw [hs]
      exact h
  have key := foldl_pointwise (mass_get lev)
    (fun s => mass_ro s = mass_ro nest ∧ ∀ l, l ≠ lev → mass_get l s = mass_get l nest)
    (fun (c : Nat × Nat) s => mass_cell lev c.1 c.2 s)
    (fun c => c.1 * (nest.hdr lev).nx + c.2)
    (fun c old => mass_val nest lev c old)
    (cells 0 (nest.hdr lev).ny 0 (nest.hdr lev).nx)
    (cells_pairwise _ _ _ _ _ (Nat.le_refl _))
    (fun c s hs => ⟨(mass_cell_ro lev c.1 c.2 s).trans hs.1,
      fun l hl => (mass_cell_other lev c.1 c.2 s l hl).trans (hs.2 l hl)⟩)
    (fun c s k hs hk => mass_cell_frame lev c.1 c.2 s k (by rw [hnx s hs.1]; exact hk))
    (fun c s _ hs => by
      have h := mass_cell_val lev c.1 c.2 s
      rw [hnx s hs.1, mass_val_ro nest s hs.1] at h
      exact h)
    nest ⟨rfl, fun _ _ => rfl⟩
  have hm : mass nest lev = (cells 0 (nest.hdr lev).ny 0 (nest.hdr lev).nx).foldl
      (fun s c => mass_cell lev c.1 c.2 s) nest :=
    forRange2_eq_foldl 0 _ 0 _ (fun r c s => mass_cell lev r c s) nest
  rw [hm]
  obtain ⟨⟨k1, k2⟩, k3, k4⟩ := key
  refine ⟨k1, k2, fun row col hr hc => k3 (row, col) (mem_cells.mpr ⟨⟨Nat.zero_le _, hr⟩,
    ⟨Nat.zero_le _, hc⟩⟩), fun k hk => k4 k (fun c hc => ?_)⟩
  rw [mem_cells] at hc
  exact hk c.1 c.2 hc.1.2 hc.2.2

theorem mass_sp_cell_ro (lev row col : Nat) (s : nestContainer) :
    mass_ro (mass_sp_cell lev row col s) = mass_ro s := rfl

theorem mass_sp_cell_frame (lev row col : Nat) (s : nestContainer) (k : Nat)
    (h : k ≠ row * (s.hdr lev).nx + col) :
    mass_get lev (mass_sp_cell lev row col s) k = mass_get lev s k := by
  simp only [mass_sp_cell, mass_get, store_other _ _ _ _ _ h, storeS_other _ _ _ _ _ h]

theorem mass_sp_cell_val (lev row col : Nat) (s : nestContainer) :
    mass_get lev (mass_sp_cell lev row col s) (row * (s.hdr lev).nx + col)
      = mass_sp_val s lev (row, col) (mass_get lev s (row * (s.hdr lev).nx + col)) := by
  simp only [mass_sp_cell, mass_get, store_same, storeS_same]

theorem mass_sp_val_ro (nest s : nestContainer) (h : mass_ro s = mass_ro nest) (lev : Nat)
    (c : Nat × Nat) (old : ℚ × ℚ × Int × Int) :
    mass_sp_val s lev c old = mass_sp_val nest lev c old := by
  show mass_sp_val (mass_ro s) lev c old = mass_sp_val (mass_ro nest) lev c old
  rw [h]

theorem mass_sp_cell_other (lev row col : Nat) (s : nestContainer) (l : Nat) (h : l ≠ lev) :
    mass_get l (mass_sp_cell lev row col s) = mass_get l s := by
  funext k
  simp only [mass_sp_cell, mass_get, store, storeS, Function.update_noteq h]

/-- What the loops of `mass_sp` do: the arrays that are only read are unchanged, the entries of
each cell of the grid hold the values of `mass_sp_val`, and nothing else is written. -/
theorem mass_sp_spec (nest : nestContainer) (lev : Nat) :
    mass_ro (mass_sp nest lev) = mass_ro nest ∧
    (∀ l, l ≠ lev → mass_get l (mass_sp nest lev) = mass_get l nest) ∧
    (∀ row col, row < (nest.hdr lev).ny → col < (nest.hdr lev).nx →
      mass_get lev (mass_sp nest lev) (row * (nest.hdr lev).nx + col)
        = mass_sp_val nest lev (row, col) (mass_get lev nest (row * (nest.hdr lev).nx + col))) ∧
    (∀ k, (∀ row col, row < (nest.hdr lev).ny → col < (nest.hdr lev).nx →
        row * (nest.hdr lev).nx + col ≠ k) →
      mass_get lev (mass_sp nest lev) k = mass_get lev nest k) := by
  have hnx : ∀ s : nestContainer, mass_ro s = mass_ro nest →
      (s.hdr lev).nx = (nest.hdr lev).nx := fun s hs => by
    have h : ((mass_ro s).hdr lev).nx = ((mass_ro nest).hdr lev).nx := by rw [hs]
    exact h
  have key := foldl_pointwise (mass_get lev)
    (fun s => mass_ro s = mass_ro nest ∧ ∀ l, l ≠ lev → mass_get l s = mass_get l nest)
    (fun (c : Nat × Nat) s => mass_sp_cell lev c.1 c.2 s)
    (fun c => c.1 * (nest.hdr lev).nx + c.2)
    (fun c old => mass_sp_val nest lev c old)
    (cells 0 (nest.hdr lev).ny 0 (nest.hdr lev).nx)
    (cells_pairwise _ _ _ _ _ (Nat.le_refl _))
    (fun c s hs => ⟨(mass_sp_cell_ro lev c.1 c.2 s).trans hs.1,
      fun l hl => (mass_sp_cell_other lev c.1 c.2 s l hl).trans (hs.2 l hl)⟩)
    (fun c s k hs hk => mass_sp_cell_frame lev c.1 c.2 s k (by rw [hnx s hs.1]; exact hk))
    (fun c s _ hs => by
      have h := mass_sp_cell_val lev c.1 c.2 s
      rw [hnx s hs.1, mass_sp_val_ro nest s hs.1] at h
      exact h)
    nest ⟨rfl, fun _ _ => rfl⟩
  have hm : mass_sp nest lev = (cells 0 (nest.hdr lev).ny 0 (nest.hdr lev).nx).foldl
      (fun s c => mass_sp_cell lev c.1 c.2 s) nest :=
    forRange2_eq_foldl 0 _ 0 _ (fun r c s => mass_sp_cell lev r c s) nest
  rw [hm]
  obtain ⟨⟨k1, k2⟩, k3, k4⟩ := key
  refine ⟨k1, k2, fun row col hr hc => k3 (row, col) (mem_cells.mpr ⟨⟨Nat.zero_le _, hr⟩,
    ⟨Nat.zero_le _, hc⟩⟩), fun k hk => k4 k (fun c hc => ?_)⟩
  rw [mem_cells] at hc
  exact hk c.1 c.2 hc.1.2 hc.2.2

theorem mass_val_eta_ref (nest : nestContainer) (lev row col : Nat)
    (old : ℚ × ℚ × Int × Int) :
    (mass_val nest lev (row, col) old).1 = mass_ref_eta nest lev row col ∧
    (mass_val nest lev (row, col) old).2.1
      = if nest.bat lev (row * (nest.hdr lev).nx + col) > -50 then
          (if mass_ref_z nest lev row col + nest.bat lev (row * (nest.hdr lev).nx + col)
              > 1 / 10000000000 then
            mass_ref_z nest lev row col + nest.bat lev (row * (nest.hdr lev).nx + col) else 0)
        else old.2.1 := by
  have hz : mass_zzz nest lev (row, col) = mass_ref_z nest lev row col := by
    unfold mass_zzz mass_ref_z
    simp only []
    have e1 : nest.fluxm_a lev (row * (nest.hdr lev).nx + col - (if col = 0 then 0 else 1))
        = if col = 0 then nest.fluxm_a lev (row * (nest.hdr lev).nx + col)
          else nest.fluxm_a lev (row * (nest.hdr lev).nx + (col - 1)) := by
      split_ifs with h
      · rfl
      · congr 1
        omega
    have e2 : nest.fluxn_a lev (row * (nest.hdr lev).nx + col
          - (if row = 0 then 0 else (nest.hdr lev).nx))
        = if row = 0 then nest.fluxn_a lev (row * (nest.hdr lev).nx + col)
          else nest.fluxn_a lev ((row - 1) * (nest.hdr lev).nx + col) := by
      split_ifs with h
      · rfl
      · congr 1
        obtain ⟨r, rfl⟩ := Nat.exists_eq_succ_of_ne_zero h
        simp only [Nat.succ_sub_one, Nat.succ_mul]
        omega
    rw [e1, e2]
  unfold mass_val mass_ref_eta
  simp only [MAXRUNUP, EPS10, hz]
  constructor <;> split_ifs <;> rfl

/-! ## Claims on the continuity step -/

/-- C1: Cartesian `mass` equals the reference definition cell by cell: at every cell of the
grid `eta_d` and `h_total_d` are those of the reference (`z` from the fluxes with the west and
south neighbour replaced by the cell itself in column 0 and row 0; `(d, z)` when
`d = z + bat > 1e-10`, `(0, -bat)` otherwise; `eta_d = -bat` and `h_total_d` as before when
`bat <= MAXRUNUP`), and `eta_a`, the four flux arrays, `h_total_a` and `bat` are unchanged. -/
theorem mass_matches_reference (nest : nestContainer) (lev row col : Nat)
    (hrow : row < (nest.hdr lev).ny) (hcol : col < (nest.hdr lev).nx) :
    (mass nest lev).etad lev (row * (nest.hdr lev).nx + col) = mass_ref_eta nest lev row col ∧
    (mass nest lev).htotal_d lev (row * (nest.hdr lev).nx + col)
      = mass_ref_h nest lev row col ∧
    (mass nest lev).etaa = nest.etaa ∧
    (mass nest lev).fluxm_a = nest.fluxm_a ∧ (mass nest lev).fluxm_d = nest.fluxm_d ∧
    (mass nest lev).fluxn_a = nest.fluxn_a ∧ (mass nest lev).fluxn_d = nest.fluxn_d ∧
    (mass nest lev).htotal_a = nest.htotal_a ∧ (mass nest lev).bat = nest.bat := by
  obtain ⟨hro, -, hval, -⟩ := mass_spec nest lev
  have hv := hval row col hrow hcol
  have href := mass_val_eta_ref nest lev row col
    (mass_get lev nest (row * (nest.hdr lev).nx + col))
  refine ⟨?_, ?_, ?_, ?_, ?_, ?_, ?_, ?_, ?_⟩
  · exact (congrArg Prod.fst hv).trans href.1
  · exact (congrArg (fun p : ℚ × ℚ × Int × Int => p.2.1) hv).trans href.2
  · exact (congrArg nestContainer.etaa hro :)
  · exact (congrArg nestContainer.fluxm_a hro :)
  · exact (congrArg nestContainer.fluxm_d hro :)
  · exact (congrArg nestContainer.fluxn_a hro :)
  · exact (congrArg nestContainer.fluxn_d hro :)
  · exact (congrArg nestContainer.htotal_a hro :)
  · exact (congrArg nestContainer.bat hro :)

/-- Witness of C1 on the 2 x 2 pond: the cell east of the flux of 1/4 gains 1/4 of elevation,
the arrays that are only read are those of the pond. -/
theorem mass_matches_reference_witness :
    (mass pond2 0).etad 0 1 = 1 / 4 ∧ (mass pond2 0).htotal_d 0 1 = 41 / 4 ∧
    (mass pond2 0).etaa = pond2.etaa ∧
    (mass pond2 0).fluxm_a = pond2.fluxm_a ∧ (mass pond2 0).fluxm_d = pond2.fluxm_d ∧
    (mass pond2 0).fluxn_a = pond2.fluxn_a ∧ (mass pond2 0).fluxn_d = pond2.fluxn_d ∧
    (mass pond2 0).htotal_a = pond2.htotal_a ∧ (mass pond2 0).bat = pond2.bat := by
  have h := mass_matches_reference pond2 0 0 1 (by decide) (by decide)
  have e1 : mass_ref_eta pond2 0 0 1 = 1 / 4 := by
    norm_num [mass_ref_eta, mass_ref_z, pond2, nest0, hdr0]
  have e2 : mass_ref_h pond2 0 0 1 = 41 / 4 := by
    norm_num [mass_ref_h, mass_ref_z, pond2, nest0, hdr0]
  rw [e1, e2] at h
  exact h

theorem mass_val_wet (nest : nestContainer) (lev : Nat) (c : Nat × Nat)
    (old : ℚ × ℚ × Int × Int) (hb : nest.bat lev (c.1 * (nest.hdr lev).nx + c.2) > MAXRUNUP) :
    0 ≤ (mass_val nest lev c old).2.1 ∧
    (0 < (mass_val nest lev c old).2.1 ↔
      0 < nest.bat lev (c.1 * (nest.hdr lev).nx + c.2) + (mass_val nest lev c old).1) ∧
    (0 < (mass_val nest lev c old).2.1 ↔
      EPS10 < nest.bat lev (c.1 * (nest.hdr lev).nx + c.2) + (mass_val nest lev c old).1) ∧
    (0 < (mass_val nest lev c old).2.1 → (mass_val nest lev c old).2.1
      = nest.bat lev (c.1 * (nest.hdr lev).nx + c.2) + (mass_val nest lev c old).1) := by
  unfold mass_val
  simp only [if_pos hb]
  generalize mass_zzz nest lev c = z
  have hpos : (0 : ℚ) < EPS10 := by norm_num [EPS10]
  split_ifs with h
  · refine ⟨by linarith, ⟨fun _ => by linarith, fun _ => by linarith⟩,
      ⟨fun _ => by linarith, fun _ => by linarith⟩, fun _ => by ring⟩
  · simp only [add_neg_cancel, lt_self_iff_false, false_iff, not_lt, le_refl, true_and,
      false_imp_iff, and_true]
    exact hpos.le

theorem mass_sp_val_wet (nest : nestContainer) (lev : Nat) (c : Nat × Nat)
    (old : ℚ × ℚ × Int × Int) (hb : nest.bat lev (c.1 * (nest.hdr lev).nx + c.2) > MAXRUNUP) :
    0 ≤ (mass_sp_val nest lev c old).2.1 ∧
    (0 < (mass_sp_val nest lev c old).2.1 ↔
      0 < nest.bat lev (c.1 * (nest.hdr lev).nx + c.2) + (mass_sp_val nest lev c old).1) ∧
    (0 < (mass_sp_val nest lev c old).2.1 ↔
      EPS10 ≤ nest.bat lev (c.1 * (nest.hdr lev).nx + c.2) + (mass_sp_val nest lev c old).1) ∧
    (0 < (mass_sp_val nest lev c old).2.1 → (mass_sp_val nest lev c old).2.1
      = nest.bat lev (c.1 * (nest.hdr lev).nx + c.2) + (mass_sp_val nest lev c old).1) := by
  unfold mass_sp_val
  simp only [if_pos hb]
  generalize mass_sp_etan nest lev c = z
  have hpos : (0 : ℚ) < EPS10 := by norm_num [EPS10]
  split_ifs with h
  · refine ⟨by linarith, ⟨fun _ => by linarith, fun _ => by linarith⟩,
      ⟨fun _ => by linarith, fun _ => by linarith⟩, fun _ => by ring⟩
  · simp only [add_neg_cancel, lt_self_iff_false, false_iff, not_lt, not_le, le_refl,
      true_and, false_imp_iff, and_true]
    exact hpos

/-- C2 (as stated) fails: on a flat cell holding 5e-6 m of water `mass` and `mass_sp` both
leave `h_total_d > 0` although `bat + eta_d` is not above the wet threshold 1e-5. -/
theorem mass_wet_threshold_counterexample :
    film1.bat 0 0 > MAXRUNUP ∧
    ¬ ((mass film1 0).htotal_d 0 0 > 0 ↔ film1.bat 0 0 + (mass film1 0).etad 0 0 > EPS5) ∧
    ¬ ((mass_sp film1 0).htotal_d 0 0 > 0 ↔
        film1.bat 0 0 + (mass_sp film1 0).etad 0 0 > EPS5) := by
  have h1 : mass_get 0 (mass film1 0) 0 = mass_val film1 0 (0, 0) (mass_get 0 film1 0) :=
    (mass_spec film1 0).2.2.1 0 0 (by decide) (by decide)
  have h2 : mass_get 0 (mass_sp film1 0) 0 = mass_sp_val film1 0 (0, 0) (mass_get 0 film1 0) :=
    (mass_sp_spec film1 0).2.2.1 0 0 (by decide) (by decide)
  have v1 : mass_val film1 0 (0, 0) (mass_get 0 film1 0) = (1 / 200000, 1 / 200000, 0, 0) := by
    norm_num [mass_val, mass_zzz, mass_get, film1, nest0, hdr0, MAXRUNUP, EPS10, EPS1]
  have v2 : mass_sp_val film1 0 (0, 0) (mass_get 0 film1 0)
      = (1 / 200000, 1 / 200000, 0, 0) := by
    norm_num [mass_sp_val, mass_sp_etan, mass_get, film1, nest0, hdr0, MAXRUNUP, EPS10, EPS1,
      abs_lt]
  rw [v1] at h1
  rw [v2] at h2
  have a1 : (mass film1 0).etad 0 0 = 1 / 200000 := congrArg Prod.fst h1
  have a2 : (mass film1 0).htotal_d 0 0 = 1 / 200000 :=
    congrArg (fun p : ℚ × ℚ × Int × Int => p.2.1) h1
  have b1 : (mass_sp film1 0).etad 0 0 = 1 / 200000 := congrArg Prod.fst h2
  have b2 : (mass_sp film1 0).htotal_d 0 0 = 1 / 200000 :=
    congrArg (fun p : ℚ × ℚ × Int × Int => p.2.1) h2
  rw [a1, a2, b1, b2]
  norm_num [film1, nest0, MAXRUNUP, EPS5]

/-- C2 (amended): after `mass` and after `mass_sp`, every cell of the grid with
`bat > MAXRUNUP` has `h_total_d >= 0`, and `h_total_d > 0` holds exactly when
`bat + eta_d > 0`, that is when `bat + eta_d` is above (for `mass_sp`: at least) the depth
threshold 1e-10 of the continuity step; then `h_total_d = bat + eta_d`. -/
theorem mass_depth_nonneg_and_wet_iff (nest : nestContainer) (lev row col : Nat)
    (hrow : row < (nest.hdr lev).ny) (hcol : col < (nest.hdr lev).nx)
    (hbat : nest.bat lev (row * (nest.hdr lev).nx + col) > MAXRUNUP) :
    (0 ≤ (mass nest lev).htotal_d lev (row * (nest.hdr lev).nx + col) ∧
     (0 < (mass nest lev).htotal_d lev (row * (nest.hdr lev).nx + col) ↔
       0 < (mass nest lev).bat lev (row * (nest.hdr lev).nx + col)
         + (mass nest lev).etad lev (row * (nest.hdr lev).nx + col)) ∧
     (0 < (mass nest lev).htotal_d lev (row * (nest.hdr lev).nx + col) ↔
       EPS10 < (mass nest lev).bat lev (row * (nest.hdr lev).nx + col)
         + (mass nest lev).etad lev (row * (nest.hdr lev).nx + col)) ∧
     (0 < (mass nest lev).htotal_d lev (row * (nest.hdr lev).nx + col) →
       (mass nest lev).htotal_d lev (row * (nest.hdr lev).nx + col)
         = (mass nest lev).bat lev (row * (nest.hdr lev).nx + col)
           + (mass nest lev).etad lev (row * (nest.hdr lev).nx + col))) ∧
    (0 ≤ (mass_sp nest lev).htotal_d lev (row * (nest.hdr lev).nx + col) ∧
     (0 < (mass_sp nest lev).htotal_d lev (row * (nest.hdr lev).nx + col) ↔
       0 < (mass_sp nest lev).bat lev (row * (nest.hdr lev).nx + col)
         + (mass_sp nest lev).etad lev (row * (nest.hdr lev).nx + col)) ∧
     (0 < (mass_sp nest lev).htotal_d lev (row * (nest.hdr lev).nx + col) ↔
       EPS10 ≤ (mass_sp nest lev).bat lev (row * (nest.hdr lev).nx + col)
         + (mass_sp nest lev).etad lev (row * (nest.hdr lev).nx + col)) ∧
     (0 < (mass_sp nest lev).htotal_d lev (row * (nest.hdr lev).nx + col) →
       (mass_sp nest lev).htotal_d lev (row * (nest.hdr lev).nx + col)
         = (mass_sp nest lev).bat lev (row * (nest.hdr lev).nx + col)
           + (mass_sp nest lev).etad lev (row * (nest.hdr lev).nx + col))) := by
  obtain ⟨hro, -, hval, -⟩ := mass_spec nest lev
  obtain ⟨hro', -, hval', -⟩ := mass_sp_spec nest lev
  have hv := hval row col hrow hcol
  have hv' := hval' row col hrow hcol
  have e1 : (mass nest lev).etad lev (row * (nest.hdr lev).nx + col) = _ := congrArg Prod.fst hv
  have e2 : (mass nest lev).htotal_d lev (row * (nest.hdr lev).nx + col) = _ :=
    congrArg (fun p : ℚ × ℚ × Int × Int => p.2.1) hv
  have e3 : (mass nest lev).bat = nest.bat := (congrArg nestContainer.bat hro :)
  have f1 : (mass_sp nest lev).etad lev (row * (nest.hdr lev).nx + col) = _ :=
    congrArg Prod.fst hv'
  have f2 : (mass_sp nest lev).htotal_d lev (row * (nest.hdr lev).nx + col) = _ :=
    congrArg (fun p : ℚ × ℚ × Int × Int => p.2.1) hv'
  have f3 : (mass_sp nest lev).bat = nest.bat := (congrArg nestContainer.bat hro' :)
  rw [e1, e2, e3, f1, f2, f3]
  exact ⟨mass_val_wet nest lev (row, col) _ hbat, mass_sp_val_wet nest lev (row, col) _ hbat⟩

/-- Witness of C2 (amended) on the film of 5e-6 m: the hypotheses hold at the only cell. -/
theorem mass_depth_nonneg_and_wet_iff_witness :
    0 ≤ (mass film1 0).htotal_d 0 0 ∧
    (0 < (mass film1 0).htotal_d 0 0 ↔ 0 < (mass film1 0).bat 0 0 + (mass film1 0).etad 0 0) ∧
    0 ≤ (mass_sp film1 0).htotal_d 0 0 ∧
    (0 < (mass_sp film1 0).htotal_d 0 0 ↔
      0 < (mass_sp film1 0).bat 0 0 + (mass_sp film1 0).etad 0 0) := by
  have h := mass_depth_nonneg_and_wet_iff film1 0 0 0 (by decide) (by decide)
    (by norm_num [film1, nest0, MAXRUNUP])
  exact ⟨h.1.1, h.1.2.1, h.2.1, h.2.2.1⟩

/-! ## Claims on the commit -/

theorem memcpy_same (dst src : Nat → Nat → ℚ) (lev nm k : Nat) (h : k < nm) :
    memcpy dst src lev nm lev k = src lev k := by
  simp [memcpy, h]

theorem memcpy_other (dst src : Nat → Nat → ℚ) (lev nm l : Nat) (h : l ≠ lev) :
    memcpy dst src lev nm l = dst l := by
  simp [memcpy, h]

/-- C4: `update(lev)` leaves `eta_a`, `flux_m_a`, `flux_n_a` and `h_total_a` of that level
equal, cell for cell, to the `eta_d`, `flux_m_d`, `flux_n_d` and `h_total_d` held just before
the call, and leaves the four `d` buffers, the bathymetry and every other level unchanged. -/
theorem update_commits (nest : nestContainer) (lev : Nat) :
    (∀ k, k < (nest.hdr lev).nm →
      (update nest lev).etaa lev k = nest.etad lev k ∧
      (update nest lev).fluxm_a lev k = nest.fluxm_d lev k ∧
      (update nest lev).fluxn_a lev k = nest.fluxn_d lev k ∧
      (update nest lev).htotal_a lev k = nest.htotal_d lev k) ∧
    (update nest lev).etad = nest.etad ∧ (update nest lev).fluxm_d = nest.fluxm_d ∧
    (update nest lev).fluxn_d = nest.fluxn_d ∧ (update nest lev).htotal_d = nest.htotal_d ∧
    (update nest lev).bat = nest.bat ∧
    (∀ l, l ≠ lev →
      (update nest lev).etaa l = nest.etaa l ∧ (update nest lev).fluxm_a l = nest.fluxm_a l ∧
      (update nest lev).fluxn_a l = nest.fluxn_a l ∧
      (update nest lev).htotal_a l = nest.htotal_a l) := by
  refine ⟨fun k hk => ⟨memcpy_same _ _ _ _ _ hk, memcpy_same _ _ _ _ _ hk,
    memcpy_same _ _ _ _ _ hk, memcpy_same _ _ _ _ _ hk⟩, rfl, rfl, rfl, rfl, rfl,
    fun l hl => ⟨memcpy_other _ _ _ _ _ hl, memcpy_other _ _ _ _ _ hl,
      memcpy_other _ _ _ _ _ hl, memcpy_other _ _ _ _ _ hl⟩⟩

/-- Witness of C4: committing the state that `mass` leaves on the 2 x 2 pond copies the
elevation 1/4 of cell 1 into `eta_a`, and level 1 keeps its `eta_a`. -/
theorem update_commits_witness :
    (update (mass pond2 0) 0).etaa 0 1 = 1 / 4 ∧
    (update (mass pond2 0) 0).etaa 1 = (mass pond2 0).etaa 1 := by
  have h := update_commits (mass pond2 0) 0
  have hnm : 1 < ((mass pond2 0).hdr 0).nm := by
    have e : (mass pond2 0).hdr = pond2.hdr := (congrArg nestContainer.hdr (mass_spec pond2 0).1 :)
    rw [e]
    decide
  have h1 := (h.1 1 hnm).1
  have h2 := (h.2.2.2.2.2.2 1 (by decide)).1
  have hv : mass_get 0 (mass pond2 0) 1 = mass_val pond2 0 (0, 1) (mass_get 0 pond2 1) :=
    (mass_spec pond2 0).2.2.1 0 1 (by decide) (by decide)
  have h3 : (mass pond2 0).etad 0 1 = (mass_val pond2 0 (0, 1) (mass_get 0 pond2 1)).1 :=
    congrArg Prod.fst hv
  have e : (mass_val pond2 0 (0, 1) (mass_get 0 pond2 1)).1 = 1 / 4 := by
    norm_num [mass_val, mass_zzz, mass_get, pond2, nest0, hdr0, MAXRUNUP, EPS10, EPS1]
  exact ⟨h1.trans (h3.trans e), h2⟩

/-! ## Momentum: frames -/

theorem foldl_comm {σ γ : Type} (g : σ → σ) (body : γ → σ → σ)
    (h : ∀ c s, body c (g s) = g (body c s)) (cs : List γ) (s : σ) :
    cs.foldl (fun s c => body c s) (g s) = g (cs.foldl (fun s c => body c s) s) := by
  induction cs generalizing s with
  | nil => rfl
  | cons c cs ih => simp only [List.foldl_cons, h, ih]

theorem setM_ro (t : nestContainer) : setM (momM_ro t) t.fluxm_d t.vex = t := rfl

theorem setN_ro (t : nestContainer) : setN (momN_ro t) t.fluxn_d t.vey = t := rfl

/-! ### moment_M -/

theorem moment_M_face_ro (E : Env) (nest s : nestContainer) (h : momM_ro s = momM_ro nest)
    (lev row col : Nat) (d f : ℚ) :
    moment_M_face E s lev row col d f = moment_M_face E nest lev row col d f := by
  show moment_M_face E (momM_ro s) lev row col d f = moment_M_face E (momM_ro nest) lev row col d f
  rw [h]

/-- What a pass of `moment_M` leaves does not depend on the entry values of `dd` and `df`,
except for the velocity of a pass that stores no flux, which is `0 / df` or 0. -/
theorem moment_M_face_carry (E : Env) (nest : nestContainer) (lev row col : Nat) (d f : ℚ) :
    (moment_M_face E nest lev row col d f).cont = (moment_M_face E nest lev row col 0 0).cont ∧
    (moment_M_face E nest lev row col d f).stored
      = (moment_M_face E nest lev row col 0 0).stored ∧
    (moment_M_face E nest lev row col d f).xp = (moment_M_face E nest lev row col 0 0).xp ∧
    ((moment_M_face E nest lev row col d f).stored = true →
      face_vel (moment_M_face E nest lev row col d f)
        = face_vel (moment_M_face E nest lev row col 0 0)) ∧
    ((moment_M_face E nest lev row col d f).stored = false →
      face_vel (moment_M_face E nest lev row col d f) = 0) ∧
    ((moment_M_face E nest lev row col d f).stored = false →
      (moment_M_face E nest lev row col d f).xp = 0) ∧
    ((moment_M_face E nest lev row col d f).cont = true →
      (moment_M_face E nest lev row col d f).stored = false) := by
  unfold moment_M_face
  simp only []
  by_cases hb : nest.bat lev (row * (nest.hdr lev).nx + col) ≤ MAXRUNUP
  · simp [hb, face_vel]
  · simp only [if_neg hb]
    rcases moment_M_wetdry nest lev (row * (nest.hdr lev).nx + col) _ with _ | ⟨dd, df, vv⟩
    · simp [face_vel]
    · by_cases h4 : dd < E.EPS4
      · simp [h4, face_vel]
      · simp [h4, face_vel]

theorem moment_M_cell_ro (E : Env) (lev row col : Nat) (s : nestContainer × ℚ × ℚ) :
    momM_ro (moment_M_cell E lev row col s).1 = momM_ro s.1 := rfl

theorem moment_M_cell_frame (E : Env) (lev row col : Nat) (s : nestContainer × ℚ × ℚ) (k : Nat)
    (h : k ≠ row * (s.1.hdr lev).nx + col) :
    getM lev (moment_M_cell E lev row col s).1 k = getM lev s.1 k := by
  simp only [moment_M_cell, getM]
  congr 1
  · split_ifs
    · exact store_other _ _ _ _ _ h
    · rfl
  · split_ifs
    · exact store_other _ _ _ _ _ h
    · rfl

theorem moment_M_cell_other (E : Env) (lev row col : Nat) (s : nestContainer × ℚ × ℚ) (l : Nat)
    (h : l ≠ lev) : getM l (moment_M_cell E lev row col s).1 = getM l s.1 := by
  funext k
  simp only [moment_M_cell, getM]
  congr 1
  · split_ifs
    · simp only [store, Function.update_noteq h]
    · rfl
  · split_ifs
    · simp only [store, Function.update_noteq h]
    · rfl

theorem moment_M_cell_val (E : Env) (lev row col : Nat) (s : nestContainer × ℚ × ℚ) :
    getM lev (moment_M_cell E lev row col s).1 (row * (s.1.hdr lev).nx + col)
      = moment_M_val E s.1 lev (row, col) (getM lev s.1 (row * (s.1.hdr lev).nx + col)) := by
  obtain ⟨c1, c2, c3, c4, c5, -, -⟩ := moment_M_face_carry E s.1 lev row col s.2.1 s.2.2
  simp only [moment_M_cell, getM, moment_M_val]
  rw [← c1, ← c2, ← c3]
  congr 1
  · split_ifs
    · exact store_same _ _ _ _
    · rfl
  · by_cases hv : (moment_M_face E s.1 lev row col s.2.1 s.2.2).cont = false ∧
        s.1.out_velocity_x = true ∧ lev = s.1.writeLevel
    · rw [if_pos hv, if_pos hv, store_same]
      by_cases hs : (moment_M_face E s.1 lev row col s.2.1 s.2.2).stored = true
      · rw [if_pos hs, c4 hs]
      · rw [if_neg hs]
        exact c5 (by simpa using hs)
    · rw [if_neg hv, if_neg hv]

theorem moment_M_val_ro (E : Env) (nest s : nestContainer) (h : momM_ro s = momM_ro nest) (lev : Nat)
    (c : Nat × Nat) (old : ℚ × ℚ) : moment_M_val E s lev c old = moment_M_val E nest lev c old := by
  have h1 : s.out_velocity_x = nest.out_velocity_x := (congrArg nestContainer.out_velocity_x h :)
  have h2 : s.writeLevel = nest.writeLevel := (congrArg nestContainer.writeLevel h :)
  simp only [moment_M_val, moment_M_face_ro E nest s h, h1, h2]

/-- What the loops of `moment_M` do: the arrays that are only read are unchanged, other levels are
untouched, the entries of each visited cell hold the values of `moment_M_val` computed from the
zeroed flux array, and the other entries are those left by the `memset`. -/
theorem moment_M_spec (E : Env) (nest : nestContainer) (lev : Nat) (d f : ℚ) :
    momM_ro (moment_M E nest lev d f) = momM_ro nest ∧
    (∀ l, l ≠ lev → getM l (moment_M E nest lev d f) = getM l nest) ∧
    (∀ row col, 0 ≤ row → row < ((nest.hdr lev).ny - (if lev > 0 then 0 else 1)) → (if lev > 0 then 1 else 0) ≤ col → col < ((nest.hdr lev).nx - 1) →
      getM lev (moment_M E nest lev d f) (row * (nest.hdr lev).nx + col)
        = moment_M_val E nest lev (row, col)
            (if row * (nest.hdr lev).nx + col < (nest.hdr lev).nm then 0
              else nest.fluxm_d lev (row * (nest.hdr lev).nx + col),
             nest.vex lev (row * (nest.hdr lev).nx + col))) ∧
    (∀ k, (∀ row col, 0 ≤ row → row < ((nest.hdr lev).ny - (if lev > 0 then 0 else 1)) → (if lev > 0 then 1 else 0) ≤ col → col < ((nest.hdr lev).nx - 1) →
        row * (nest.hdr lev).nx + col ≠ k) →
      getM lev (moment_M E nest lev d f) k
        = (if k < (nest.hdr lev).nm then 0 else nest.fluxm_d lev k, nest.vex lev k)) := by
  have hnx : ∀ s : nestContainer, momM_ro s = momM_ro nest →
      (s.hdr lev).nx = (nest.hdr lev).nx := fun s hs => by
    have h : ((momM_ro s).hdr lev).nx = ((momM_ro nest).hdr lev).nx := by rw [hs]
    exact h
  have hc1 : ((nest.hdr lev).nx - 1) ≤ (nest.hdr lev).nx := Nat.sub_le _ _
  have key := foldl_pointwise (fun (s : nestContainer × ℚ × ℚ) k => getM lev s.1 k)
    (fun s => momM_ro s.1 = momM_ro nest ∧ ∀ l, l ≠ lev → getM l s.1 = getM l nest)
    (fun (c : Nat × Nat) s => moment_M_cell E lev c.1 c.2 s)
    (fun c => c.1 * (nest.hdr lev).nx + c.2)
    (fun c old => moment_M_val E nest lev c old)
    (cells 0 ((nest.hdr lev).ny - (if lev > 0 then 0 else 1)) (if lev > 0 then 1 else 0) ((nest.hdr lev).nx - 1))
    (cells_pairwise _ _ _ _ _ hc1)
    (fun c s hs => ⟨(moment_M_cell_ro E lev c.1 c.2 s).trans hs.1,
      fun l hl => (moment_M_cell_other E lev c.1 c.2 s l hl).trans (hs.2 l hl)⟩)
    (fun c s k hs hk => moment_M_cell_frame E lev c.1 c.2 s k (by rw [hnx s.1 hs.1]; exact hk))
    (fun c s _ hs => by
      have h := moment_M_cell_val E lev c.1 c.2 s
      rw [hnx s.1 hs.1, moment_M_val_ro E nest s.1 hs.1] at h
      exact h)
    ({ nest with fluxm_d := memset0 nest.fluxm_d lev (nest.hdr lev).nm }, d, f)
    ⟨rfl, fun l hl => by
      funext k
      simp only [getM, memset0, Function.update_noteq hl]⟩
  have hm : moment_M E nest lev d f = ((cells 0 ((nest.hdr lev).ny - (if lev > 0 then 0 else 1)) (if lev > 0 then 1 else 0) ((nest.hdr lev).nx - 1)).foldl
      (fun s c => moment_M_cell E lev c.1 c.2 s)
      ({ nest with fluxm_d := memset0 nest.fluxm_d lev (nest.hdr lev).nm }, d, f)).1 :=
    congrArg Prod.fst (forRange2_eq_foldl _ _ _ _ (fun r c s => moment_M_cell E lev r c s) _)
  rw [hm]
  beta_reduce at key
  obtain ⟨⟨k1, k2⟩, k3, k4⟩ := key
  have hget : ∀ k, getM lev ({ nest with fluxm_d := memset0 nest.fluxm_d lev (nest.hdr lev).nm } :
      nestContainer) k = (if k < (nest.hdr lev).nm then 0 else nest.fluxm_d lev k,
        nest.vex lev k) := fun k => by
    simp only [getM, memset0, Function.update_same]
  refine ⟨?_, ?_, fun row col hr0 hr hc0 hc => ?_, fun k hk => ?_⟩
  · exact k1
  · exact k2
  · rw [← hget]
    have h3 := k3 (row, col) (mem_cells.mpr ⟨⟨hr0, hr⟩, ⟨hc0, hc⟩⟩)
    exact h3
  · rw [← hget]
    have h4 := k4 k (fun c hc => by
      rw [mem_cells] at hc
      exact hk c.1 c.2 hc.1.1 hc.1.2 hc.2.1 hc.2.2)
    exact h4

theorem moment_M_cell_setN (E : Env) (lev row col : Nat) (s : nestContainer × ℚ × ℚ)
    (a b : Nat → Nat → ℚ) :
    moment_M_cell E lev row col (setN s.1 a b, s.2) =
      (setN (moment_M_cell E lev row col s).1 a b, (moment_M_cell E lev row col s).2) := by
  have h : moment_M_face E (setN s.1 a b) lev row col s.2.1 s.2.2
      = moment_M_face E s.1 lev row col s.2.1 s.2.2 := rfl
  simp only [moment_M_cell, h]
  rfl

/-- `moment_M` neither reads nor writes the arrays of the other momentum component. -/
theorem moment_M_setN (E : Env) (nest : nestContainer) (lev : Nat) (d f : ℚ)
    (a b : Nat → Nat → ℚ) :
    moment_M E (setN nest a b) lev d f = setN (moment_M E nest lev d f) a b := by
  have h1 := forRange2_eq_foldl 0 ((nest.hdr lev).ny - (if lev > 0 then 0 else 1)) (if lev > 0 then 1 else 0) ((nest.hdr lev).nx - 1) (fun r c s => moment_M_cell E lev r c s)
    ({ nest with fluxm_d := memset0 nest.fluxm_d lev (nest.hdr lev).nm }, d, f)
  have h2 := forRange2_eq_foldl 0 ((nest.hdr lev).ny - (if lev > 0 then 0 else 1)) (if lev > 0 then 1 else 0) ((nest.hdr lev).nx - 1) (fun r c s => moment_M_cell E lev r c s)
    ((fun s : nestContainer × ℚ × ℚ => (setN s.1 a b, s.2))
      ({ nest with fluxm_d := memset0 nest.fluxm_d lev (nest.hdr lev).nm }, d, f))
  have h3 := foldl_comm (fun s : nestContainer × ℚ × ℚ => (setN s.1 a b, s.2))
    (fun (c : Nat × Nat) s => moment_M_cell E lev c.1 c.2 s)
    (fun c s => moment_M_cell_setN E lev c.1 c.2 s a b) (cells 0 ((nest.hdr lev).ny - (if lev > 0 then 0 else 1)) (if lev > 0 then 1 else 0) ((nest.hdr lev).nx - 1))
    ({ nest with fluxm_d := memset0 nest.fluxm_d lev (nest.hdr lev).nm }, d, f)
  have e1 : moment_M E (setN nest a b) lev d f = (forRange 0 ((nest.hdr lev).ny - (if lev > 0 then 0 else 1)) (fun r s =>
      forRange (if lev > 0 then 1 else 0) ((nest.hdr lev).nx - 1) (fun c s => moment_M_cell E lev r c s) s)
      ((fun s : nestContainer × ℚ × ℚ => (setN s.1 a b, s.2))
        ({ nest with fluxm_d := memset0 nest.fluxm_d lev (nest.hdr lev).nm }, d, f))).1 := rfl
  have e2 : moment_M E nest lev d f = (forRange 0 ((nest.hdr lev).ny - (if lev > 0 then 0 else 1)) (fun r s =>
      forRange (if lev > 0 then 1 else 0) ((nest.hdr lev).nx - 1) (fun c s => moment_M_cell E lev r c s) s)
      ({ nest with fluxm_d := memset0 nest.fluxm_d lev (nest.hdr lev).nm }, d, f)).1 := rfl
  rw [e1, e2, h2, h3, h1]


theorem moment_M_cell_setRest (E : Env) (lev row col : Nat) (s : nestContainer × ℚ × ℚ)
    (a : Nat → Nat → ℚ) (lb sb : Nat → Nat → Int) (w v : Nat → ℚ) :
    moment_M_cell E lev row col (setRest s.1 a lb sb w v, s.2) =
      (setRest (moment_M_cell E lev row col s).1 a lb sb w v, (moment_M_cell E lev row col s).2) := by
  have h : moment_M_face E (setRest s.1 a lb sb w v) lev row col s.2.1 s.2.2
      = moment_M_face E s.1 lev row col s.2.1 s.2.2 := rfl
  simp only [moment_M_cell, h]
  rfl

/-- `moment_M` neither reads nor writes `etaa`, the beach masks and the running maxima. -/
theorem moment_M_setRest (E : Env) (nest : nestContainer) (lev : Nat) (d f : ℚ)
    (a : Nat → Nat → ℚ) (lb sb : Nat → Nat → Int) (w v : Nat → ℚ) :
    moment_M E (setRest nest a lb sb w v) lev d f = setRest (moment_M E nest lev d f) a lb sb w v := by
  have h1 := forRange2_eq_foldl 0 ((nest.hdr lev).ny - (if lev > 0 then 0 else 1)) (if lev > 0 then 1 else 0) ((nest.hdr lev).nx - 1) (fun r c s => moment_M_cell E lev r c s)
    ({ nest with fluxm_d := memset0 nest.fluxm_d lev (nest.hdr lev).nm }, d, f)
  have h2 := forRange2_eq_foldl 0 ((nest.hdr lev).ny - (if lev > 0 then 0 else 1)) (if lev > 0 then 1 else 0) ((nest.hdr lev).nx - 1) (fun r c s => moment_M_cell E lev r c s)
    ((fun s : nestContainer × ℚ × ℚ => (setRest s.1 a lb sb w v, s.2))
      ({ nest with fluxm_d := memset0 nest.fluxm_d lev (nest.hdr lev).nm }, d, f))
  have h3 := foldl_comm (fun s : nestContainer × ℚ × ℚ => (setRest s.1 a lb sb w v, s.2))
    (fun (c : Nat × Nat) s => moment_M_cell E lev c.1 c.2 s)
    (fun c s => moment_M_cell_setRest E lev c.1 c.2 s a lb sb w v) (cells 0 ((nest.hdr lev).ny - (if lev > 0 then 0 else 1)) (if lev > 0 then 1 else 0) ((nest.hdr lev).nx - 1))
    ({ nest with fluxm_d := memset0 nest.fluxm_d lev (nest.hdr lev).nm }, d, f)
  have e1 : moment_M E (setRest nest a lb sb w v) lev d f = (forRange 0 ((nest.hdr lev).ny - (if lev > 0 then 0 else 1)) (fun r s =>
      forRange (if lev > 0 then 1 else 0) ((nest.hdr lev).nx - 1) (fun c s => moment_M_cell E lev r c s) s)
      ((fun s : nestContainer × ℚ × ℚ => (setRest s.1 a lb sb w v, s.2))
        ({ nest with fluxm_d := memset0 nest.fluxm_d lev (nest.hdr lev).nm }, d, f))).1 := rfl
  have e2 : moment_M E nest lev d f = (forRange 0 ((nest.hdr lev).ny - (if lev > 0 then 0 else 1)) (fun r s =>
      forRange (if lev > 0 then 1 else 0) ((nest.hdr lev).nx - 1) (fun c s => moment_M_cell E lev r c s) s)
      ({ nest with fluxm_d := memset0 nest.fluxm_d lev (nest.hdr lev).nm }, d, f)).1 := rfl
  rw [e1, e2, h2, h3, h1]


/-- `moment_M` writes only its own flux array and its own velocity array. -/
theorem moment_M_frame (E : Env) (nest : nestContainer) (lev : Nat) (d f : ℚ) :
    moment_M E nest lev d f
      = setM nest (moment_M E nest lev d f).fluxm_d (moment_M E nest lev d f).vex := by
  have h := (moment_M_spec E nest lev d f).1
  have e := setM_ro (moment_M E nest lev d f)
  rw [h] at e
  exact e.symm

theorem moment_M_face_dry (E : Env) (nest : nestContainer) (lev row col : Nat) (d f : ℚ)
    (hb : nest.bat lev (row * (nest.hdr lev).nx + col) ≤ MAXRUNUP) :
    (moment_M_face E nest lev row col d f).cont = true ∧
    (moment_M_face E nest lev row col d f).stored = false := by
  unfold moment_M_face
  simp only [if_pos hb, and_self]

/-- After `moment_M` the flux array it writes is 0 at every index below `hdr.nm` whose bathymetry
is not above MAXRUNUP. -/
theorem moment_M_flux_dry (E : Env) (nest : nestContainer) (lev : Nat) (d f : ℚ) (k : Nat)
    (hk : k < (nest.hdr lev).nm) (hb : nest.bat lev k ≤ MAXRUNUP) :
    (moment_M E nest lev d f).fluxm_d lev k = 0 := by
  obtain ⟨-, -, hin, hout⟩ := moment_M_spec E nest lev d f
  by_cases hex : ∃ row col, 0 ≤ row ∧ row < ((nest.hdr lev).ny - (if lev > 0 then 0 else 1)) ∧ (if lev > 0 then 1 else 0) ≤ col ∧ col < ((nest.hdr lev).nx - 1) ∧
      row * (nest.hdr lev).nx + col = k
  · obtain ⟨row, col, h1, h2, h3, h4, rfl⟩ := hex
    have h := congrArg Prod.fst (hin row col h1 h2 h3 h4)
    have hs := (moment_M_face_dry E nest lev row col 0 0 hb).2
    simp only [getM, moment_M_val, hs, if_pos hk] at h
    exact h
  · have h := congrArg Prod.fst (hout k (fun row col h1 h2 h3 h4 he =>
      hex ⟨row, col, h1, h2, h3, h4, he⟩))
    simp only [getM, if_pos hk] at h
    exact h

/-! ### moment_N -/

theorem moment_N_face_ro (E : Env) (nest s : nestContainer) (h : momN_ro s = momN_ro nest)
    (lev row col : Nat) (d f : ℚ) :
    moment_N_face E s lev row col d f = moment_N_face E nest lev row col d f := by
  show moment_N_face E (momN_ro s) lev row col d f = moment_N_face E (momN_ro nest) lev row col d f
  rw [h]

/-- What a pass of `moment_N` leaves does not depend on the entry values of `dd` and `df`,
except for the velocity of a pass that stores no flux, which is `0 / df` or 0. -/
theorem moment_N_face_carry (E : Env) (nest : nestContainer) (lev row col : Nat) (d f : ℚ) :
    (moment_N_face E nest lev row col d f).cont = (moment_N_face E nest lev row col 0 0).cont ∧
    (moment_N_face E nest lev row col d f).stored
      = (moment_N_face E nest lev row col 0 0).stored ∧
    (moment_N_face E nest lev row col d f).xp = (moment_N_face E nest lev row col 0 0).xp ∧
    ((moment_N_face E nest lev row col d f).stored = true →
      face_vel (moment_N_face E nest lev row col d f)
        = face_vel (moment_N_face E nest lev row col 0 0)) ∧
    ((moment_N_face E nest lev row col d f).stored = false →
      face_vel (moment_N_face E nest lev row col d f) = 0) ∧
    ((moment_N_face E nest lev row col d f).stored = false →
      (moment_N_face E nest lev row col d f).xp = 0) ∧
    ((moment_N_face E nest lev row col d f).cont = true →
      (moment_N_face E nest lev row col d f).stored = false) := by
  unfold moment_N_face
  simp only []
  by_cases hb : nest.bat lev (row * (nest.hdr lev).nx + col) ≤ MAXRUNUP
  · simp [hb, face_vel]
  · simp only [if_neg hb]
    rcases moment_N_wetdry nest lev (row * (nest.hdr lev).nx + col) _ with _ | ⟨dd, df, vv⟩
    · simp [face_vel]
    · by_cases h4 : dd < E.EPS4
      · simp [h4, face_vel]
      · simp [h4, face_vel]

theorem moment_N_cell_ro (E : Env) (lev row col : Nat) (s : nestContainer × ℚ × ℚ) :
    momN_ro (moment_N_cell E lev row col s).1 = momN_ro s.1 := rfl

theorem moment_N_cell_frame (E : Env) (lev row col : Nat) (s : nestContainer × ℚ × ℚ) (k : Nat)
    (h : k ≠ row * (s.1.hdr lev).nx + col) :
    getN lev (moment_N_cell E lev row col s).1 k = getN lev s.1 k := by
  simp only [moment_N_cell, getN]
  congr 1
  · split_ifs
    · exact store_other _ _ _ _ _ h
    · rfl
  · split_ifs
    · exact store_other _ _ _ _ _ h
    · rfl

theorem moment_N_cell_other (E : Env) (lev row col : Nat) (s : nestContainer × ℚ × ℚ) (l : Nat)
    (h : l ≠ lev) : getN l (moment_N_cell E lev row col s).1 = getN l s.1 := by
  funext k
  simp only [moment_N_cell, getN]
  congr 1
  · split_ifs
    · simp only [store, Function.update_noteq h]
    · rfl
  · split_ifs
    · simp only [store, Function.update_noteq h]
    · rfl

theorem moment_N_cell_val (E : Env) (lev row col : Nat) (s : nestContainer × ℚ × ℚ) :
    getN lev (moment_N_cell E lev row col s).1 (row * (s.1.hdr lev).nx + col)
      = moment_N_val E s.1 lev (row, col) (getN lev s.1 (row * (s.1.hdr lev).nx + col)) := by
  obtain ⟨c1, c2, c3, c4, c5, -, -⟩ := moment_N_face_carry E s.1 lev row col s.2.1 s.2.2
  simp only [moment_N_cell, getN, moment_N_val]
  rw [← c1, ← c2, ← c3]
  congr 1
  · split_ifs
    · exact store_same _ _ _ _
    · rfl
  · by_cases hv : (moment_N_face E s.1 lev row col s.2.1 s.2.2).cont = false ∧
        s.1.out_velocity_y = true ∧ lev = s.1.writeLevel
    · rw [if_pos hv, if_pos hv, store_same]
      by_cases hs : (moment_N_face E s.1 lev row col s.2.1 s.2.2).stored = true
      · rw [if_pos hs, c4 hs]
      · rw [if_neg hs]
        exact c5 (by simpa using hs)
    · rw [if_neg hv, if_neg hv]

theorem moment_N_val_ro (E : Env) (nest s : nestContainer) (h : momN_ro s = momN_ro nest) (lev : Nat)
    (c : Nat × Nat) (old : ℚ × ℚ) : moment_N_val E s lev c old = moment_N_val E nest lev c old := by
  have h1 : s.out_velocity_y = nest.out_velocity_y := (congrArg nestContainer.out_velocity_y h :)
  have h2 : s.writeLevel = nest.writeLevel := (congrArg nestContainer.writeLevel h :)
  simp only [moment_N_val, moment_N_face_ro E nest s h, h1, h2]

/-- What the loops of `moment_N` do: the arrays that are only read are unchanged, other levels are
untouched, the entries of each visited cell hold the values of `moment_N_val` computed from the
zeroed flux array, and the other entries are those left by the `memset`. -/
theorem moment_N_spec (E : Env) (nest : nestContainer) (lev : Nat) (d f : ℚ) :
    momN_ro (moment_N E nest lev d f) = momN_ro nest ∧
    (∀ l, l ≠ lev → getN l (moment_N E nest lev d f) = getN l nest) ∧
    (∀ row col, (if lev > 0 then 1 else 0) ≤ row → row < ((nest.hdr lev).ny - 1) → 0 ≤ col → col < ((nest.hdr lev).nx - (if lev > 0 then 0 else 1)) →
      getN lev (moment_N E nest lev d f) (row * (nest.hdr lev).nx + col)
        = moment_N_val E nest lev (row, col)
            (if row * (nest.hdr lev).nx + col < (nest.hdr lev).nm then 0
              else nest.fluxn_d lev (row * (nest.hdr lev).nx + col),
             nest.vey lev (row * (nest.hdr lev).nx + col))) ∧
    (∀ k, (∀ row col, (if lev > 0 then 1 else 0) ≤ row → row < ((nest.hdr lev).ny - 1) → 0 ≤ col → col < ((nest.hdr lev).nx - (if lev > 0 then 0 else 1)) →
        row * (nest.hdr lev).nx + col ≠ k) →
      getN lev (moment_N E nest lev d f) k
        = (if k < (nest.hdr lev).nm then 0 else nest.fluxn_d lev k, nest.vey lev k)) := by
  have hnx : ∀ s : nestContainer, momN_ro s = momN_ro nest →
      (s.hdr lev).nx = (nest.hdr lev).nx := fun s hs => by
    have h : ((momN_ro s).hdr lev).nx = ((momN_ro nest).hdr lev).nx := by rw [hs]
    exact h
  have hc1 : ((nest.hdr lev).nx - (if lev > 0 then 0 else 1)) ≤ (nest.hdr lev).nx := Nat.sub_le _ _
  have key := foldl_pointwise (fun (s : nestContainer × ℚ × ℚ) k => getN lev s.1 k)
    (fun s => momN_ro s.1 = momN_ro nest ∧ ∀ l, l ≠ lev → getN l s.1 = getN l nest)
    (fun (c : Nat × Nat) s => moment_N_cell E lev c.1 c.2 s)
    (fun c => c.1 * (nest.hdr lev).nx + c.2)
    (fun c old => moment_N_val E nest lev c old)
    (cells (if lev > 0 then 1 else 0) ((nest.hdr lev).ny - 1) 0 ((nest.hdr lev).nx - (if lev > 0 then 0 else 1)))
    (cells_pairwise _ _ _ _ _ hc1)
    (fun c s hs => ⟨(moment_N_cell_ro E lev c.1 c.2 s).trans hs.1,
      fun l hl => (moment_N_cell_other E lev c.1 c.2 s l hl).trans (hs.2 l hl)⟩)
    (fun c s k hs hk => moment_N_cell_frame E lev c.1 c.2 s k (by rw [hnx s.1 hs.1]; exact hk))
    (fun c s _ hs => by
      have h := moment_N_cell_val E lev c.1 c.2 s
      rw [hnx s.1 hs.1, moment_N_val_ro E nest s.1 hs.1] at h
      exact h)
    ({ nest with fluxn_d := memset0 nest.fluxn_d lev (nest.hdr lev).nm }, d, f)
    ⟨rfl, fun l hl => by
      funext k
      simp only [getN, memset0, Function.update_noteq hl]⟩
  have hm : moment_N E nest lev d f = ((cells (if lev > 0 then 1 else 0) ((nest.hdr lev).ny - 1) 0 ((nest.hdr lev).nx - (if lev > 0 then 0 else 1))).foldl
      (fun s c => moment_N_cell E lev c.1 c.2 s)
      ({ nest with fluxn_d := memset0 nest.fluxn_d lev (nest.hdr lev).nm }, d, f)).1 :=
    congrArg Prod.fst (forRange2_eq_foldl _ _ _ _ (fun r c s => moment_N_cell E lev r c s) _)
  rw [hm]
  beta_reduce at key
  obtain ⟨⟨k1, k2⟩, k3, k4⟩ := key
  have hget : ∀ k, getN lev ({ nest with fluxn_d := memset0 nest.fluxn_d lev (nest.hdr lev).nm } :
      nestContainer) k = (if k < (nest.hdr lev).nm then 0 else nest.fluxn_d lev k,
        nest.vey lev k) := fun k => by
    simp only [getN, memset0, Function.update_same]
  refine ⟨?_, ?_, fun row col hr0 hr hc0 hc => ?_, fun k hk => ?_⟩
  · exact k1
  · exact k2
  · rw [← hget]
    have h3 := k3 (row, col) (mem_cells.mpr ⟨⟨hr0, hr⟩, ⟨hc0, hc⟩⟩)
    exact h3
  · rw [← hget]
    have h4 := k4 k (fun c hc => by
      rw [mem_cells] at hc
      exact hk c.1 c.2 hc.1.1 hc.1.2 hc.2.1 hc.2.2)
    exact h4

theorem moment_N_cell_setM (E : Env) (lev row col : Nat) (s : nestContainer × ℚ × ℚ)
    (a b : Nat → Nat → ℚ) :
    moment_N_cell E lev row col (setM s.1 a b, s.2) =
      (setM (moment_N_cell E lev row col s).1 a b, (moment_N_cell E lev row col s).2) := by
  have h : moment_N_face E (setM s.1 a b) lev row col s.2.1 s.2.2
      = moment_N_face E s.1 lev row col s.2.1 s.2.2 := rfl
  simp only [moment_N_cell, h]
  rfl

/-- `moment_N` neither reads nor writes the arrays of the other momentum component. -/
theorem moment_N_setM (E : Env) (nest : nestContainer) (lev : Nat) (d f : ℚ)
    (a b : Nat → Nat → ℚ) :
    moment_N E (setM nest a b) lev d f = setM (moment_N E nest lev d f) a b := by
  have h1 := forRange2_eq_foldl (if lev > 0 then 1 else 0) ((nest.hdr lev).ny - 1) 0 ((nest.hdr lev).nx - (if lev > 0 then 0 else 1)) (fun r c s => moment_N_cell E lev r c s)
    ({ nest with fluxn_d := memset0 nest.fluxn_d lev (nest.hdr lev).nm }, d, f)
  have h2 := forRange2_eq_foldl (if lev > 0 then 1 else 0) ((nest.hdr lev).ny - 1) 0 ((nest.hdr lev).nx - (if lev > 0 then 0 else 1)) (fun r c s => moment_N_cell E lev r c s)
    ((fun s : nestContainer × ℚ × ℚ => (setM s.1 a b, s.2))
      ({ nest with fluxn_d := memset0 nest.fluxn_d lev (nest.hdr lev).nm }, d, f))
  have h3 := foldl_comm (fun s : nestContainer × ℚ × ℚ => (setM s.1 a b, s.2))
    (fun (c : Nat × Nat) s => moment_N_cell E lev c.1 c.2 s)
    (fun c s => moment_N_cell_setM E lev c.1 c.2 s a b) (cells (if lev > 0 then 1 else 0) ((nest.hdr lev).ny - 1) 0 ((nest.hdr lev).nx - (if lev > 0 then 0 else 1)))
    ({ nest with fluxn_d := memset0 nest.fluxn_d lev (nest.hdr lev).nm }, d, f)
  have e1 : moment_N E (setM nest a b) lev d f = (forRange (if lev > 0 then 1 else 0) ((nest.hdr lev).ny - 1) (fun r s =>
      forRange 0 ((nest.hdr lev).nx - (if lev > 0 then 0 else 1)) (fun c s => moment_N_cell E lev r c s) s)
      ((fun s : nestContainer × ℚ × ℚ => (setM s.1 a b, s.2))
        ({ nest with fluxn_d := memset0 nest.fluxn_d lev (nest.hdr lev).nm }, d, f))).1 := rfl
  have e2 : moment_N E nest lev d f = (forRange (if lev > 0 then 1 else 0) ((nest.hdr lev).ny - 1) (fun r s =>
      forRange 0 ((nest.hdr lev).nx - (if lev > 0 then 0 else 1)) (fun c s => moment_N_cell E lev r c s) s)
      ({ nest with fluxn_d := memset0 nest.fluxn_d lev (nest.hdr lev).nm }, d, f)).1 := rfl
  rw [e1, e2, h2, h3, h1]


theorem moment_N_cell_setRest (E : Env) (lev row col : Nat) (s : nestContainer × ℚ × ℚ)
    (a : Nat → Nat → ℚ) (lb sb : Nat → Nat → Int) (w v : Nat → ℚ) :
    moment_N_cell E lev row col (setRest s.1 a lb sb w v, s.2) =
      (setRest (moment_N_cell E lev row col s).1 a lb sb w v, (moment_N_cell E lev row col s).2) := by
  have h : moment_N_face E (setRest s.1 a lb sb w v) lev row col s.2.1 s.2.2
      = moment_N_face E s.1 lev row col s.2.1 s.2.2 := rfl
  simp only [moment_N_cell, h]
  rfl

/-- `moment_N` neither reads nor writes `etaa`, the beach masks and the running maxima. -/
theorem moment_N_setRest (E : Env) (nest : nestContainer) (lev : Nat) (d f : ℚ)
    (a : Nat → Nat → ℚ) (lb sb : Nat → Nat → Int) (w v : Nat → ℚ) :
    moment_N E (setRest nest a lb sb w v) lev d f = setRest (moment_N E nest lev d f) a lb sb w v := by
  have h1 := forRange2_eq_foldl (if lev > 0 then 1 else 0) ((nest.hdr lev).ny - 1) 0 ((nest.hdr lev).nx - (if lev > 0 then 0 else 1)) (fun r c s => moment_N_cell E lev r c s)
    ({ nest with fluxn_d := memset0 nest.fluxn_d lev (nest.hdr lev).nm }, d, f)
  have h2 := forRange2_eq_foldl (if lev > 0 then 1 else 0) ((nest.hdr lev).ny - 1) 0 ((nest.hdr lev).nx - (if lev > 0 then 0 else 1)) (fun r c s => moment_N_cell E lev r c s)
    ((fun s : nestContainer × ℚ × ℚ => (setRest s.1 a lb sb w v, s.2))
      ({ nest with fluxn_d := memset0 nest.fluxn_d lev (nest.hdr lev).nm }, d, f))
  have h3 := foldl_comm (fun s : nestContainer × ℚ × ℚ => (setRest s.1 a lb sb w v, s.2))
    (fun (c : Nat × Nat) s => moment_N_cell E lev c.1 c.2 s)
    (fun c s => moment_N_cell_setRest E lev c.1 c.2 s a lb sb w v) (cells (if lev > 0 then 1 else 0) ((nest.hdr lev).ny - 1) 0 ((nest.hdr lev).nx - (if lev > 0 then 0 else 1)))
    ({ nest with fluxn_d := memset0 nest.fluxn_d lev (nest.hdr lev).nm }, d, f)
  have e1 : moment_N E (setRest nest a lb sb w v) lev d f = (forRange (if lev > 0 then 1 else 0) ((nest.hdr lev).ny - 1) (fun r s =>
      forRange 0 ((nest.hdr lev).nx - (if lev > 0 then 0 else 1)) (fun c s => moment_N_cell E lev r c s) s)
      ((fun s : nestContainer × ℚ × ℚ => (setRest s.1 a lb sb w v, s.2))
        ({ nest with fluxn_d := memset0 nest.fluxn_d lev (nest.hdr lev).nm }, d, f))).1 := rfl
  have e2 : moment_N E nest lev d f = (forRange (if lev > 0 then 1 else 0) ((nest.hdr lev).ny - 1) (fun r s =>
      forRange 0 ((nest.hdr lev).nx - (if lev > 0 then 0 else 1)) (fun c s => moment_N_cell E lev r c s) s)
      ({ nest with fluxn_d := memset0 nest.fluxn_d lev (nest.hdr lev).nm }, d, f)).1 := rfl
  rw [e1, e2, h2, h3, h1]


/-- `moment_N` writes only its own flux array and its own velocity array. -/
theorem moment_N_frame (E : Env) (nest : nestContainer) (lev : Nat) (d f : ℚ) :
    moment_N E nest lev d f
      = setN nest (moment_N E nest lev d f).fluxn_d (moment_N E nest lev d f).vey := by
  have h := (moment_N_spec E nest lev d f).1
  have e := setN_ro (moment_N E nest lev d f)
  rw [h] at e
  exact e.symm

theorem moment_N_face_dry (E : Env) (nest : nestContainer) (lev row col : Nat) (d f : ℚ)
    (hb : nest.bat lev (row * (nest.hdr lev).nx + col) ≤ MAXRUNUP) :
    (moment_N_face E nest lev row col d f).cont = true ∧
    (moment_N_face E nest lev row col d f).stored = false := by
  unfold moment_N_face
  simp only [if_pos hb, and_self]

/-- After `moment_N` the flux array it writes is 0 at every index below `hdr.nm` whose bathymetry
is not above MAXRUNUP. -/
theorem moment_N_flux_dry (E : Env) (nest : nestContainer) (lev : Nat) (d f : ℚ) (k : Nat)
    (hk : k < (nest.hdr lev).nm) (hb : nest.bat lev k ≤ MAXRUNUP) :
    (moment_N E nest lev d f).fluxn_d lev k = 0 := by
  obtain ⟨-, -, hin, hout⟩ := moment_N_spec E nest lev d f
  by_cases hex : ∃ row col, (if lev > 0 then 1 else 0) ≤ row ∧ row < ((nest.hdr lev).ny - 1) ∧ 0 ≤ col ∧ col < ((nest.hdr lev).nx - (if lev > 0 then 0 else 1)) ∧
      row * (nest.hdr lev).nx + col = k
  · obtain ⟨row, col, h1, h2, h3, h4, rfl⟩ := hex
    have h := congrArg Prod.fst (hin row col h1 h2 h3 h4)
    have hs := (moment_N_face_dry E nest lev row col 0 0 hb).2
    simp only [getN, moment_N_val, hs, if_pos hk] at h
    exact h
  · have h := congrArg Prod.fst (hout k (fun row col h1 h2 h3 h4 he =>
      hex ⟨row, col, h1, h2, h3, h4, he⟩))
    simp only [getN, if_pos hk] at h
    exact h

/-! ### moment_sp_M -/

theorem moment_sp_M_face_ro (E : Env) (nest s : nestContainer) (h : momM_ro s = momM_ro nest)
    (lev row col : Nat) (d f : ℚ) :
    moment_sp_M_face E s lev row col d f = moment_sp_M_face E nest lev row col d f := by
  show moment_sp_M_face E (momM_ro s) lev row col d f = moment_sp_M_face E (momM_ro nest) lev row col d f
  rw [h]

/-- What a pass of `moment_sp_M` leaves does not depend on the entry values of `dd` and `df`,
except for the velocity of a pass that stores no flux, which is `0 / df` or 0. -/
theorem moment_sp_M_face_carry (E : Env) (nest : nestContainer) (lev row col : Nat) (d f : ℚ) :
    (moment_sp_M_face E nest lev row col d f).cont = (moment_sp_M_face E nest lev row col 0 0).cont ∧
    (moment_sp_M_face E nest lev row col d f).stored
      = (moment_sp_M_face E nest lev row col 0 0).stored ∧
    (moment_sp_M_face E nest lev row col d f).xp = (moment_sp_M_face E nest lev row col 0 0).xp ∧
    ((moment_sp_M_face E nest lev row col d f).stored = true →
      face_vel (moment_sp_M_face E nest lev row col d f)
        = face_vel (moment_sp_M_face E nest lev row col 0 0)) ∧
    ((moment_sp_M_face E nest lev row col d f).stored = false →
      face_vel (moment_sp_M_face E nest lev row col d f) = 0) ∧
    ((moment_sp_M_face E nest lev row col d f).stored = false →
      (moment_sp_M_face E nest lev row col d f).xp = 0) ∧
    ((moment_sp_M_face E nest lev row col d f).cont = true →
      (moment_sp_M_face E nest lev row col d f).stored = false) := by
  unfold moment_sp_M_face
  simp only []
  by_cases hb : nest.bat lev (row * (nest.hdr lev).nx + col) ≤ MAXRUNUP
  · simp [hb, face_vel]
  · simp only [if_neg hb]
    rcases moment_sp_M_wetdry nest lev (row * (nest.hdr lev).nx + col) _ with _ | ⟨dd, df, vv⟩
    · simp [face_vel]
    · by_cases h4 : dd < EPS5
      · simp [h4, face_vel]
      · simp [h4, face_vel]

theorem moment_sp_M_cell_ro (E : Env) (lev row col : Nat) (s : nestContainer × ℚ × ℚ) :
    momM_ro (moment_sp_M_cell E lev row col s).1 = momM_ro s.1 := rfl

theorem moment_sp_M_cell_frame (E : Env) (lev row col : Nat) (s : nestContainer × ℚ × ℚ) (k : Nat)
    (h : k ≠ row * (s.1.hdr lev).nx + col) :
    getM lev (moment_sp_M_cell E lev row col s).1 k = getM lev s.1 k := by
  simp only [moment_sp_M_cell, getM]
  congr 1
  · split_ifs
    · exact store_other _ _ _ _ _ h
    · rfl
  · split_ifs
    · exact store_other _ _ _ _ _ h
    · rfl

theorem moment_sp_M_cell_other (E : Env) (lev row col : Nat) (s : nestContainer × ℚ × ℚ) (l : Nat)
    (h : l ≠ lev) : getM l (moment_sp_M_cell E lev row col s).1 = getM l s.1 := by
  funext k
  simp only [moment_sp_M_cell, getM]
  congr 1
  · split_ifs
    · simp only [store, Function.update_noteq h]
    · rfl
  · split_ifs
    · simp only [store, Function.update_noteq h]
    · rfl

theorem moment_sp_M_cell_val (E : Env) (lev row col : Nat) (s : nestContainer × ℚ × ℚ) :
    getM lev (moment_sp_M_cell E lev row col s).1 (row * (s.1.hdr lev).nx + col)
      = moment_sp_M_val E s.1 lev (row, col) (getM lev s.1 (row * (s.1.hdr lev).nx + col)) := by
  obtain ⟨c1, c2, c3, c4, c5, -, -⟩ := moment_sp_M_face_carry E s.1 lev row col s.2.1 s.2.2
  simp only [moment_sp_M_cell, getM, moment_sp_M_val]
  rw [← c1, ← c2, ← c3]
  congr 1
  · split_ifs
    · exact store_same _ _ _ _
    · rfl
  · by_cases hv : (moment_sp_M_face E s.1 lev row col s.2.1 s.2.2).cont = false ∧
        s.1.out_velocity_x = true ∧ lev = s.1.writeLevel
    · rw [if_pos hv, if_pos hv, store_same]
      by_cases hs : (moment_sp_M_face E s.1 lev row col s.2.1 s.2.2).stored = true
      · rw [if_pos hs, c4 hs]
      · rw [if_neg hs]
        exact c5 (by simpa using hs)
    · rw [if_neg hv, if_neg hv]

theorem moment_sp_M_val_ro (E : Env) (nest s : nestContainer) (h : momM_ro s = momM_ro nest) (lev : Nat)
    (c : Nat × Nat) (old : ℚ × ℚ) : moment_sp_M_val E s lev c old = moment_sp_M_val E nest lev c old := by
  have h1 : s.out_velocity_x = nest.out_velocity_x := (congrArg nestContainer.out_velocity_x h :)
  have h2 : s.writeLevel = nest.writeLevel := (congrArg nestContainer.writeLevel h :)
  simp only [moment_sp_M_val, moment_sp_M_face_ro E nest s h, h1, h2]

/-- What the loops of `moment_sp_M` do: the arrays that are only read are unchanged, other levels are
untouched, the entries of each visited cell hold the values of `moment_sp_M_val` computed from the
zeroed flux array, and the other entries are those left by the `memset`. -/
theorem moment_sp_M_spec (E : Env) (nest : nestContainer) (lev : Nat) (d f : ℚ) :
    momM_ro (moment_sp_M E nest lev d f) = momM_ro nest ∧
    (∀ l, l ≠ lev → getM l (moment_sp_M E nest lev d f) = getM l nest) ∧
    (∀ row col, 0 ≤ row → row < ((nest.hdr lev).ny - (if lev > 0 then 0 else 1)) → (if lev > 0 then 1 else 0) ≤ col → col < ((nest.hdr lev).nx - 1) →
      getM lev (moment_sp_M E nest lev d f) (row * (nest.hdr lev).nx + col)
        = moment_sp_M_val E nest lev (row, col)
            (if row * (nest.hdr lev).nx + col < (nest.hdr lev).nm then 0
              else nest.fluxm_d lev (row * (nest.hdr lev).nx + col),
             nest.vex lev (row * (nest.hdr lev).nx + col))) ∧
    (∀ k, (∀ row col, 0 ≤ row → row < ((nest.hdr lev).ny - (if lev > 0 then 0 else 1)) → (if lev > 0 then 1 else 0) ≤ col → col < ((nest.hdr lev).nx - 1) →
        row * (nest.hdr lev).nx + col ≠ k) →
      getM lev (moment_sp_M E nest lev d f) k
        = (if k < (nest.hdr lev).nm then 0 else nest.fluxm_d lev k, nest.vex lev k)) := by
  have hnx : ∀ s : nestContainer, momM_ro s = momM_ro nest →
      (s.hdr lev).nx = (nest.hdr lev).nx := fun s hs => by
    have h : ((momM_ro s).hdr lev).nx = ((momM_ro nest).hdr lev).nx := by rw [hs]
    exact h
  have hc1 : ((nest.hdr lev).nx - 1) ≤ (nest.hdr lev).nx := Nat.sub_le _ _
  have key := foldl_pointwise (fun (s : nestContainer × ℚ × ℚ) k => getM lev s.1 k)
    (fun s => momM_ro s.1 = momM_ro nest ∧ ∀ l, l ≠ lev → getM l s.1 = getM l nest)
    (fun (c : Nat × Nat) s => moment_sp_M_cell E lev c.1 c.2 s)
    (fun c => c.1 * (nest.hdr lev).nx + c.2)
    (fun c old => moment_sp_M_val E nest lev c old)
    (cells 0 ((nest.hdr lev).ny - (if lev > 0 then 0 else 1)) (if lev > 0 then 1 else 0) ((nest.hdr lev).nx - 1))
    (cells_pairwise _ _ _ _ _ hc1)
    (fun c s hs => ⟨(moment_sp_M_cell_ro E lev c.1 c.2 s).trans hs.1,
      fun l hl => (moment_sp_M_cell_other E lev c.1 c.2 s l hl).trans (hs.2 l hl)⟩)
    (fun c s k hs hk => moment_sp_M_cell_frame E lev c.1 c.2 s k (by rw [hnx s.1 hs.1]; exact hk))
    (fun c s _ hs => by
      have h := moment_sp_M_cell_val E lev c.1 c.2 s
      rw [hnx s.1 hs.1, moment_sp_M_val_ro E nest s.1 hs.1] at h
      exact h)
    ({ nest with fluxm_d := memset0 nest.fluxm_d lev (nest.hdr lev).nm }, d, f)
    ⟨rfl, fun l hl => by
      funext k
      simp only [getM, memset0, Function.update_noteq hl]⟩
  have hm : moment_sp_M E nest lev d f = ((cells 0 ((nest.hdr lev).ny - (if lev > 0 then 0 else 1)) (if lev > 0 then 1 else 0) ((nest.hdr lev).nx - 1)).foldl
      (fun s c => moment_sp_M_cell E lev c.1 c.2 s)
      ({ nest with fluxm_d := memset0 nest.fluxm_d lev (nest.hdr lev).nm }, d, f)).1 :=
    congrArg Prod.fst (forRange2_eq_foldl _ _ _ _ (fun r c s => moment_sp_M_cell E lev r c s) _)
  rw [hm]
  beta_reduce at key
  obtain ⟨⟨k1, k2⟩, k3, k4⟩ := key
  have hget : ∀ k, getM lev ({ nest with fluxm_d := memset0 nest.fluxm_d lev (nest.hdr lev).nm } :
      nestContainer) k = (if k < (nest.hdr lev).nm then 0 else nest.fluxm_d lev k,
        nest.vex lev k) := fun k => by
    simp only [getM, memset0, Function.update_same]
  refine ⟨?_, ?_, fun row col hr0 hr hc0 hc => ?_, fun k hk => ?_⟩
  · exact k1
  · exact k2
  · rw [← hget]
    have h3 := k3 (row, col) (mem_cells.mpr ⟨⟨hr0, hr⟩, ⟨hc0, hc⟩⟩)
    exact h3
  · rw [← hget]
    have h4 := k4 k (fun c hc => by
      rw [mem_cells] at hc
      exact hk c.1 c.2 hc.1.1 hc.1.2 hc.2.1 hc.2.2)
    exact h4

theorem moment_sp_M_cell_setN (E : Env) (lev row col : Nat) (s : nestContainer × ℚ × ℚ)
    (a b : Nat → Nat → ℚ) :
    moment_sp_M_cell E lev row col (setN s.1 a b, s.2) =
      (setN (moment_sp_M_cell E lev row col s).1 a b, (moment_sp_M_cell E lev row col s).2) := by
  have h : moment_sp_M_face E (setN s.1 a b) lev row col s.2.1 s.2.2
      = moment_sp_M_face E s.1 lev row col s.2.1 s.2.2 := rfl
  simp only [moment_sp_M_cell, h]
  rfl

/-- `moment_sp_M` neither reads nor writes the arrays of the other momentum component. -/
theorem moment_sp_M_setN (E : Env) (nest : nestContainer) (lev : Nat) (d f : ℚ)
    (a b : Nat → Nat → ℚ) :
    moment_sp_M E (setN nest a b) lev d f = setN (moment_sp_M E nest lev d f) a b := by
  have h1 := forRange2_eq_foldl 0 ((nest.hdr lev).ny - (if lev > 0 then 0 else 1)) (if lev > 0 then 1 else 0) ((nest.hdr lev).nx - 1) (fun r c s => moment_sp_M_cell E lev r c s)
    ({ nest with fluxm_d := memset0 nest.fluxm_d lev (nest.hdr lev).nm }, d, f)
  have h2 := forRange2_eq_foldl 0 ((nest.hdr lev).ny - (if lev > 0 then 0 else 1)) (if lev > 0 then 1 else 0) ((nest.hdr lev).nx - 1) (fun r c s => moment_sp_M_cell E lev r c s)
    ((fun s : nestContainer × ℚ × ℚ => (setN s.1 a b, s.2))
      ({ nest with fluxm_d := memset0 nest.fluxm_d lev (nest.hdr lev).nm }, d, f))
  have h3 := foldl_comm (fun s : nestContainer × ℚ × ℚ => (setN s.1 a b, s.2))
    (fun (c : Nat × Nat) s => moment_sp_M_cell E lev c.1 c.2 s)
    (fun c s => moment_sp_M_cell_setN E lev c.1 c.2 s a b) (cells 0 ((nest.hdr lev).ny - (if lev > 0 then 0 else 1)) (if lev > 0 then 1 else 0) ((nest.hdr lev).nx - 1))
    ({ nest with fluxm_d := memset0 nest.fluxm_d lev (nest.hdr lev).nm }, d, f)
  have e1 : moment_sp_M E (setN nest a b) lev d f = (forRange 0 ((nest.hdr lev).ny - (if lev > 0 then 0 else 1)) (fun r s =>
      forRange (if lev > 0 then 1 else 0) ((nest.hdr lev).nx - 1) (fun c s => moment_sp_M_cell E lev r c s) s)
      ((fun s : nestContainer × ℚ × ℚ => (setN s.1 a b, s.2))
        ({ nest with fluxm_d := memset0 nest.fluxm_d lev (nest.hdr lev).nm }, d, f))).1 := rfl
  have e2 : moment_sp_M E nest lev d f = (forRange 0 ((nest.hdr lev).ny - (if lev > 0 then 0 else 1)) (fun r s =>
      forRange (if lev > 0 then 1 else 0) ((nest.hdr lev).nx - 1) (fun c s => moment_sp_M_cell E lev r c s) s)
      ({ nest with fluxm_d := memset0 nest.fluxm_d lev (nest.hdr lev).nm }, d, f)).1 := rfl
  rw [e1, e2, h2, h3, h1]


theorem moment_sp_M_cell_setRest (E : Env) (lev row col : Nat) (s : nestContainer × ℚ × ℚ)
    (a : Nat → Nat → ℚ) (lb sb : Nat → Nat → Int) (w v : Nat → ℚ) :
    moment_sp_M_cell E lev row col (setRest s.1 a lb sb w v, s.2) =
      (setRest (moment_sp_M_cell E lev row col s).1 a lb sb w v, (moment_sp_M_cell E lev row col s).2) := by
  have h : moment_sp_M_face E (setRest s.1 a lb sb w v) lev row col s.2.1 s.2.2
      = moment_sp_M_face E s.1 lev row col s.2.1 s.2.2 := rfl
  simp only [moment_sp_M_cell, h]
  rfl

/-- `moment_sp_M` neither reads nor writes `etaa`, the beach masks and the running maxima. -/
theorem moment_sp_M_setRest (E : Env) (nest : nestContainer) (lev : Nat) (d f : ℚ)
    (a : Nat → Nat → ℚ) (lb sb : Nat → Nat → Int) (w v : Nat → ℚ) :
    moment_sp_M E (setRest nest a lb sb w v) lev d f = setRest (moment_sp_M E nest lev d f) a lb sb w v := by
  have h1 := forRange2_eq_foldl 0 ((nest.hdr lev).ny - (if lev > 0 then 0 else 1)) (if lev > 0 then 1 else 0) ((nest.hdr lev).nx - 1) (fun r c s => moment_sp_M_cell E lev r c s)
    ({ nest with fluxm_d := memset0 nest.fluxm_d lev (nest.hdr lev).nm }, d, f)
  have h2 := forRange2_eq_foldl 0 ((nest.hdr lev).ny - (if lev > 0 then 0 else 1)) (if lev > 0 then 1 else 0) ((nest.hdr lev).nx - 1) (fun r c s => moment_sp_M_cell E lev r c s)
    ((fun s : nestContainer × ℚ × ℚ => (setRest s.1 a lb sb w v, s.2))
      ({ nest with fluxm_d := memset0 nest.fluxm_d lev (nest.hdr lev).nm }, d, f))
  have h3 := foldl_comm (fun s : nestContainer × ℚ × ℚ => (setRest s.1 a lb sb w v, s.2))
    (fun (c : Nat × Nat) s => moment_sp_M_cell E lev c.1 c.2 s)
    (fun c s => moment_sp_M_cell_setRest E lev c.1 c.2 s a lb sb w v) (cells 0 ((nest.hdr lev).ny - (if lev > 0 then 0 else 1)) (if lev > 0 then 1 else 0) ((nest.hdr lev).nx - 1))
    ({ nest with fluxm_d := memset0 nest.fluxm_d lev (nest.hdr lev).nm }, d, f)
  have e1 : moment_sp_M E (setRest nest a lb sb w v) lev d f = (forRange 0 ((nest.hdr lev).ny - (if lev > 0 then 0 else 1)) (fun r s =>
      forRange (if lev > 0 then 1 else 0) ((nest.hdr lev).nx - 1) (fun c s => moment_sp_M_cell E lev r c s) s)
      ((fun s : nestContainer × ℚ × ℚ => (setRest s.1 a lb sb w v, s.2))
        ({ nest with fluxm_d := memset0 nest.fluxm_d lev (nest.hdr lev).nm }, d, f))).1 := rfl
  have e2 : moment_sp_M E nest lev d f = (forRange 0 ((nest.hdr lev).ny - (if lev > 0 then 0 else 1)) (fun r s =>
      forRange (if lev > 0 then 1 else 0) ((nest.hdr lev).nx - 1) (fun c s => moment_sp_M_cell E lev r c s) s)
      ({ nest with fluxm_d := memset0 nest.fluxm_d lev (nest.hdr lev).nm }, d, f)).1 := rfl
  rw [e1, e2, h2, h3, h1]


/-- `moment_sp_M` writes only its own flux array and its own velocity array. -/
theorem moment_sp_M_frame (E : Env) (nest : nestContainer) (lev : Nat) (d f : ℚ) :
    moment_sp_M E nest lev d f
      = setM nest (moment_sp_M E nest lev d f).fluxm_d (moment_sp_M E nest lev d f).vex := by
  have h := (moment_sp_M_spec E nest lev d f).1
  have e := setM_ro (moment_sp_M E nest lev d f)
  rw [h] at e
  exact e.symm

theorem moment_sp_M_face_dry (E : Env) (nest : nestContainer) (lev row col : Nat) (d f : ℚ)
    (hb : nest.bat lev (row * (nest.hdr lev).nx + col) ≤ MAXRUNUP) :
    (moment_sp_M_face E nest lev row col d f).cont = true ∧
    (moment_sp_M_face E nest lev row col d f).stored = false := by
  unfold moment_sp_M_face
  simp only [if_pos hb, and_self]

/-- After `moment_sp_M` the flux array it writes is 0 at every index below `hdr.nm` whose bathymetry
is not above MAXRUNUP. -/
theorem moment_sp_M_flux_dry (E : Env) (nest : nestContainer) (lev : Nat) (d f : ℚ) (k : Nat)
    (hk : k < (nest.hdr lev).nm) (hb : nest.bat lev k ≤ MAXRUNUP) :
    (moment_sp_M E nest lev d f).fluxm_d lev k = 0 := by
  obtain ⟨-, -, hin, hout⟩ := moment_sp_M_spec E nest lev d f
  by_cases hex : ∃ row col, 0 ≤ row ∧ row < ((nest.hdr lev).ny - (if lev > 0 then 0 else 1)) ∧ (if lev > 0 then 1 else 0) ≤ col ∧ col < ((nest.hdr lev).nx - 1) ∧
      row * (nest.hdr lev).nx + col = k
  · obtain ⟨row, col, h1, h2, h3, h4, rfl⟩ := hex
    have h := congrArg Prod.fst (hin row col h1 h2 h3 h4)
    have hs := (moment_sp_M_face_dry E nest lev row col 0 0 hb).2
    simp only [getM, moment_sp_M_val, hs, if_pos hk] at h
    exact h
  · have h := congrArg Prod.fst (hout k (fun row col h1 h2 h3 h4 he =>
      hex ⟨row, col, h1, h2, h3, h4, he⟩))
    simp only [getM, if_pos hk] at h
    exact h

/-! ### moment_sp_N -/

theorem moment_sp_N_face_ro (E : Env) (nest s : nestContainer) (h : momN_ro s = momN_ro nest)
    (lev row col : Nat) (d f : ℚ) :
    moment_sp_N_face E s lev row col d f = moment_sp_N_face E nest lev row col d f := by
  show moment_sp_N_face E (momN_ro s) lev row col d f = moment_sp_N_face E (momN_ro nest) lev row col d f
  rw [h]

/-- What a pass of `moment_sp_N` leaves does not depend on the entry values of `dd` and `df`,
except for the velocity of a pass that stores no flux, which is `0 / df` or 0. -/
theorem moment_sp_N_face_carry (E : Env) (nest : nestContainer) (lev row col : Nat) (d f : ℚ) :
    (moment_sp_N_face E nest lev row col d f).cont = (moment_sp_N_face E nest lev row col 0 0).cont ∧
    (moment_sp_N_face E nest lev row col d f).stored
      = (moment_sp_N_face E nest lev row col 0 0).stored ∧
    (moment_sp_N_face E nest lev row col d f).xp = (moment_sp_N_face E nest lev row col 0 0).xp ∧
    ((moment_sp_N_face E nest lev row col d f).stored = true →
      face_vel (moment_sp_N_face E nest lev row col d f)
        = face_vel (moment_sp_N_face E nest lev row col 0 0)) ∧
    ((moment_sp_N_face E nest lev row col d f).stored = false →
      face_vel (moment_sp_N_face E nest lev row col d f) = 0) ∧
    ((moment_sp_N_face E nest lev row col d f).stored = false →
      (moment_sp_N_face E nest lev row col d f).xp = 0) ∧
    ((moment_sp_N_face E nest lev row col d f).cont = true →
      (moment_sp_N_face E nest lev row col d f).stored = false) := by
  unfold moment_sp_N_face
  simp only []
  by_cases hb : nest.bat lev (row * (nest.hdr lev).nx + col) ≤ MAXRUNUP
  · simp [hb, face_vel]
  · simp only [if_neg hb]
    rcases moment_sp_N_wetdry nest lev (row * (nest.hdr lev).nx + col) _ with _ | ⟨dd, df, vv⟩
    · simp [face_vel]
    · by_cases h4 : dd < EPS5
      · simp [h4, face_vel]
      · simp [h4, face_vel]

theorem moment_sp_N_cell_ro (E : Env) (lev row col : Nat) (s : nestContainer × ℚ × ℚ) :
    momN_ro (moment_sp_N_cell E lev row col s).1 = momN_ro s.1 := rfl

theorem moment_sp_N_cell_frame (E : Env) (lev row col : Nat) (s : nestContainer × ℚ × ℚ) (k : Nat)
    (h : k ≠ row * (s.1.hdr lev).nx + col) :
    getN lev (moment_sp_N_cell E lev row col s).1 k = getN lev s.1 k := by
  simp only [moment_sp_N_cell, getN]
  congr 1
  · split_ifs
    · exact store_other _ _ _ _ _ h
    · rfl
  · split_ifs
    · exact store_other _ _ _ _ _ h
    · rfl

theorem moment_sp_N_cell_other (E : Env) (lev row col : Nat) (s : nestContainer × ℚ × ℚ) (l : Nat)
    (h : l ≠ lev) : getN l (moment_sp_N_cell E lev row col s).1 = getN l s.1 := by
  funext k
  simp only [moment_sp_N_cell, getN]
  congr 1
  · split_ifs
    · simp only [store, Function.update_noteq h]
    · rfl
  · split_ifs
    · simp only [store, Function.update_noteq h]
    · rfl

theorem moment_sp_N_cell_val (E : Env) (lev row col : Nat) (s : nestContainer × ℚ × ℚ) :
    getN lev (moment_sp_N_cell E lev row col s).1 (row * (s.1.hdr lev).nx + col)
      = moment_sp_N_val E s.1 lev (row, col) (getN lev s.1 (row * (s.1.hdr lev).nx + col)) := by
  obtain ⟨c1, c2, c3, c4, c5, -, -⟩ := moment_sp_N_face_carry E s.1 lev row col s.2.1 s.2.2
  simp only [moment_sp_N_cell, getN, moment_sp_N_val]
  rw [← c1, ← c2, ← c3]
  congr 1
  · split_ifs
    · exact store_same _ _ _ _
    · rfl
  · by_cases hv : (moment_sp_N_face E s.1 lev row col s.2.1 s.2.2).cont = false ∧
        s.1.out_velocity_y = true ∧ lev = s.1.writeLevel
    · rw [if_pos hv, if_pos hv, store_same]
      by_cases hs : (moment_sp_N_face E s.1 lev row col s.2.1 s.2.2).stored = true
      · rw [if_pos hs, c4 hs]
      · rw [if_neg hs]
        exact c5 (by simpa using hs)
    · rw [if_neg hv, if_neg hv]

theorem moment_sp_N_val_ro (E : Env) (nest s : nestContainer) (h : momN_ro s = momN_ro nest) (lev : Nat)
    (c : Nat × Nat) (old : ℚ × ℚ) : moment_sp_N_val E s lev c old = moment_sp_N_val E nest lev c old := by
  have h1 : s.out_velocity_y = nest.out_velocity_y := (congrArg nestContainer.out_velocity_y h :)
  have h2 : s.writeLevel = nest.writeLevel := (congrArg nestContainer.writeLevel h :)
  simp only [moment_sp_N_val, moment_sp_N_face_ro E nest s h, h1, h2]

/-- What the loops of `moment_sp_N` do: the arrays that are only read are unchanged, other levels are
untouched, the entries of each visited cell hold the values of `moment_sp_N_val` computed from the
zeroed flux array, and the other entries are those left by the `memset`. -/
theorem moment_sp_N_spec (E : Env) (nest : nestContainer) (lev : Nat) (d f : ℚ) :
    momN_ro (moment_sp_N E nest lev d f) = momN_ro nest ∧
    (∀ l, l ≠ lev → getN l (moment_sp_N E nest lev d f) = getN l nest) ∧
    (∀ row col, (if lev > 0 then 1 else 0) ≤ row → row < ((nest.hdr lev).ny - 1) → 0 ≤ col → col < ((nest.hdr lev).nx - (if lev > 0 then 0 else 1)) →
      getN lev (moment_sp_N E nest lev d f) (row * (nest.hdr lev).nx + col)
        = moment_sp_N_val E nest lev (row, col)
            (if row * (nest.hdr lev).nx + col < (nest.hdr lev).nm then 0
              else nest.fluxn_d lev (row * (nest.hdr lev).nx + col),
             nest.vey lev (row * (nest.hdr lev).nx + col))) ∧
    (∀ k, (∀ row col, (if lev > 0 then 1 else 0) ≤ row → row < ((nest.hdr lev).ny - 1) → 0 ≤ col → col < ((nest.hdr lev).nx - (if lev > 0 then 0 else 1)) →
        row * (nest.hdr lev).nx + col ≠ k) →
      getN lev (moment_sp_N E nest lev d f) k
        = (if k < (nest.hdr lev).nm then 0 else nest.fluxn_d lev k, nest.vey lev k)) := by
  have hnx : ∀ s : nestContainer, momN_ro s = momN_ro nest →
      (s.hdr lev).nx = (nest.hdr lev).nx := fun s hs => by
    have h : ((momN_ro s).hdr lev).nx = ((momN_ro nest).hdr lev).nx := by rw [hs]
    exact h
  have hc1 : ((nest.hdr lev).nx - (if lev > 0 then 0 else 1)) ≤ (nest.hdr lev).nx := Nat.sub_le _ _
  have key := foldl_pointwise (fun (s : nestContainer × ℚ × ℚ) k => getN lev s.1 k)
    (fun s => momN_ro s.1 = momN_ro nest ∧ ∀ l, l ≠ lev → getN l s.1 = getN l nest)
    (fun (c : Nat × Nat) s => moment_sp_N_cell E lev c.1 c.2 s)
    (fun c => c.1 * (nest.hdr lev).nx + c.2)
    (fun c old => moment_sp_N_val E nest lev c old)
    (cells (if lev > 0 then 1 else 0) ((nest.hdr lev).ny - 1) 0 ((nest.hdr lev).nx - (if lev > 0 then 0 else 1)))
    (cells_pairwise _ _ _ _ _ hc1)
    (fun c s hs => ⟨(moment_sp_N_cell_ro E lev c.1 c.2 s).trans hs.1,
      fun l hl => (moment_sp_N_cell_other E lev c.1 c.2 s l hl).trans (hs.2 l hl)⟩)
    (fun c s k hs hk => moment_sp_N_cell_frame E lev c.1 c.2 s k (by rw [hnx s.1 hs.1]; exact hk))
    (fun c s _ hs => by
      have h := moment_sp_N_cell_val E lev c.1 c.2 s
      rw [hnx s.1 hs.1, moment_sp_N_val_ro E nest s.1 hs.1] at h
      exact h)
    ({ nest with fluxn_d := memset0 nest.fluxn_d lev (nest.hdr lev).nm }, d, f)
    ⟨rfl, fun l hl => by
      funext k
      simp only [getN, memset0, Function.update_noteq hl]⟩
  have hm : moment_sp_N E nest lev d f = ((cells (if lev > 0 then 1 else 0) ((nest.hdr lev).ny - 1) 0 ((nest.hdr lev).nx - (if lev > 0 then 0 else 1))).foldl
      (fun s c => moment_sp_N_cell E lev c.1 c.2 s)
      ({ nest with fluxn_d := memset0 nest.fluxn_d lev (nest.hdr lev).nm }, d, f)).1 :=
    congrArg Prod.fst (forRange2_eq_foldl _ _ _ _ (fun r c s => moment_sp_N_cell E lev r c s) _)
  rw [hm]
  beta_reduce at key
  obtain ⟨⟨k1, k2⟩, k3, k4⟩ := key
  have hget : ∀ k, getN lev ({ nest with fluxn_d := memset0 nest.fluxn_d lev (nest.hdr lev).nm } :
      nestContainer) k = (if k < (nest.hdr lev).nm then 0 else nest.fluxn_d lev k,
        nest.vey lev k) := fun k => by
    simp only [getN, memset0, Function.update_same]
  refine ⟨?_, ?_, fun row col hr0 hr hc0 hc => ?_, fun k hk => ?_⟩
  · exact k1
  · exact k2
  · rw [← hget]
    have h3 := k3 (row, col) (mem_cells.mpr ⟨⟨hr0, hr⟩, ⟨hc0, hc⟩⟩)
    exact h3
  · rw [← hget]
    have h4 := k4 k (fun c hc => by
      rw [mem_cells] at hc
      exact hk c.1 c.2 hc.1.1 hc.1.2 hc.2.1 hc.2.2)
    exact h4

theorem moment_sp_N_cell_setM (E : Env) (lev row col : Nat) (s : nestContainer × ℚ × ℚ)
    (a b : Nat → Nat → ℚ) :
    moment_sp_N_cell E lev row col (setM s.1 a b, s.2) =
      (setM (moment_sp_N_cell E lev row col s).1 a b, (moment_sp_N_cell E lev row col s).2) := by
  have h : moment_sp_N_face E (setM s.1 a b) lev row col s.2.1 s.2.2
      = moment_sp_N_face E s.1 lev row col s.2.1 s.2.2 := rfl
  simp only [moment_sp_N_cell, h]
  rfl

/-- `moment_sp_N` neither reads nor writes the arrays of the other momentum component. -/
theorem moment_sp_N_setM (E : Env) (nest : nestContainer) (lev : Nat) (d f : ℚ)
    (a b : Nat → Nat → ℚ) :
    moment_sp_N E (setM nest a b) lev d f = setM (moment_sp_N E nest lev d f) a b := by
  have h1 := forRange2_eq_foldl (if lev > 0 then 1 else 0) ((nest.hdr lev).ny - 1) 0 ((nest.hdr lev).nx - (if lev > 0 then 0 else 1)) (fun r c s => moment_sp_N_cell E lev r c s)
    ({ nest with fluxn_d := memset0 nest.fluxn_d lev (nest.hdr lev).nm }, d, f)
  have h2 := forRange2_eq_foldl (if lev > 0 then 1 else 0) ((nest.hdr lev).ny - 1) 0 ((nest.hdr lev).nx - (if lev > 0 then 0 else 1)) (fun r c s => moment_sp_N_cell E lev r c s)
    ((fun s : nestContainer × ℚ × ℚ => (setM s.1 a b, s.2))
      ({ nest with fluxn_d := memset0 nest.fluxn_d lev (nest.hdr lev).nm }, d, f))
  have h3 := foldl_comm (fun s : nestContainer × ℚ × ℚ => (setM s.1 a b, s.2))
    (fun (c : Nat × Nat) s => moment_sp_N_cell E lev c.1 c.2 s)
    (fun c s => moment_sp_N_cell_setM E lev c.1 c.2 s a b) (cells (if lev > 0 then 1 else 0) ((nest.hdr lev).ny - 1) 0 ((nest.hdr lev).nx - (if lev > 0 then 0 else 1)))
    ({ nest with fluxn_d := memset0 nest.fluxn_d lev (nest.hdr lev).nm }, d, f)
  have e1 : moment_sp_N E (setM nest a b) lev d f = (forRange (if lev > 0 then 1 else 0) ((nest.hdr lev).ny - 1) (fun r s =>
      forRange 0 ((nest.hdr lev).nx - (if lev > 0 then 0 else 1)) (fun c s => moment_sp_N_cell E lev r c s) s)
      ((fun s : nestContainer × ℚ × ℚ => (setM s.1 a b, s.2))
        ({ nest with fluxn_d := memset0 nest.fluxn_d lev (nest.hdr lev).nm }, d, f))).1 := rfl
  have e2 : moment_sp_N E nest lev d f = (forRange (if lev > 0 then 1 else 0) ((nest.hdr lev).ny - 1) (fun r s =>
      forRange 0 ((nest.hdr lev).nx - (if lev > 0 then 0 else 1)) (fun c s => moment_sp_N_cell E lev r c s) s)
      ({ nest with fluxn_d := memset0 nest.fluxn_d lev (nest.hdr lev).nm }, d, f)).1 := rfl
  rw [e1, e2, h2, h3, h1]


theorem moment_sp_N_cell_setRest (E : Env) (lev row col : Nat) (s : nestContainer × ℚ × ℚ)
    (a : Nat → Nat → ℚ) (lb sb : Nat → Nat → Int) (w v : Nat → ℚ) :
    moment_sp_N_cell E lev row col (setRest s.1 a lb sb w v, s.2) =
      (setRest (moment_sp_N_cell E lev row col s).1 a lb sb w v, (moment_sp_N_cell E lev row col s).2) := by
  have h : moment_sp_N_face E (setRest s.1 a lb sb w v) lev row col s.2.1 s.2.2
      = moment_sp_N_face E s.1 lev row col s.2.1 s.2.2 := rfl
  simp only [moment_sp_N_cell, h]
  rfl

/-- `moment_sp_N` neither reads nor writes `etaa`, the beach masks and the running maxima. -/
theorem moment_sp_N_setRest (E : Env) (nest : nestContainer) (lev : Nat) (d f : ℚ)
    (a : Nat → Nat → ℚ) (lb sb : Nat → Nat → Int) (w v : Nat → ℚ) :
    moment_sp_N E (setRest nest a lb sb w v) lev d f = setRest (moment_sp_N E nest lev d f) a lb sb w v := by
  have h1 := forRange2_eq_foldl (if lev > 0 then 1 else 0) ((nest.hdr lev).ny - 1) 0 ((nest.hdr lev).nx - (if lev > 0 then 0 else 1)) (fun r c s => moment_sp_N_cell E lev r c s)
    ({ nest with fluxn_d := memset0 nest.fluxn_d lev (nest.hdr lev).nm }, d, f)
  have h2 := forRange2_eq_foldl (if lev > 0 then 1 else 0) ((nest.hdr lev).ny - 1) 0 ((nest.hdr lev).nx - (if lev > 0 then 0 else 1)) (fun r c s => moment_sp_N_cell E lev r c s)
    ((fun s : nestContainer × ℚ × ℚ => (setRest s.1 a lb sb w v, s.2))
      ({ nest with fluxn_d := memset0 nest.fluxn_d lev (nest.hdr lev).nm }, d, f))
  have h3 := foldl_comm (fun s : nestContainer × ℚ × ℚ => (setRest s.1 a lb sb w v, s.2))
    (fun (c : Nat × Nat) s => moment_sp_N_cell E lev c.1 c.2 s)
    (fun c s => moment_sp_N_cell_setRest E lev c.1 c.2 s a lb sb w v) (cells (if lev > 0 then 1 else 0) ((nest.hdr lev).ny - 1) 0 ((nest.hdr lev).nx - (if lev > 0 then 0 else 1)))
    ({ nest with fluxn_d := memset0 nest.fluxn_d lev (nest.hdr lev).nm }, d, f)
  have e1 : moment_sp_N E (setRest nest a lb sb w v) lev d f = (forRange (if lev > 0 then 1 else 0) ((nest.hdr lev).ny - 1) (fun r s =>
      forRange 0 ((nest.hdr lev).nx - (if lev > 0 then 0 else 1)) (fun c s => moment_sp_N_cell E lev r c s) s)
      ((fun s : nestContainer × ℚ × ℚ => (setRest s.1 a lb sb w v, s.2))
        ({ nest with fluxn_d := memset0 nest.fluxn_d lev (nest.hdr lev).nm }, d, f))).1 := rfl
  have e2 : moment_sp_N E nest lev d f = (forRange (if lev > 0 then 1 else 0) ((nest.hdr lev).ny - 1) (fun r s =>
      forRange 0 ((nest.hdr lev).nx - (if lev > 0 then 0 else 1)) (fun c s => moment_sp_N_cell E lev r c s) s)
      ({ nest with fluxn_d := memset0 nest.fluxn_d lev (nest.hdr lev).nm }, d, f)).1 := rfl
  rw [e1, e2, h2, h3, h1]


/-- `moment_sp_N` writes only its own flux array and its own velocity array. -/
theorem moment_sp_N_frame (E : Env) (nest : nestContainer) (lev : Nat) (d f : ℚ) :
    moment_sp_N E nest lev d f
      = setN nest (moment_sp_N E nest lev d f).fluxn_d (moment_sp_N E nest lev d f).vey := by
  have h := (moment_sp_N_spec E nest lev d f).1
  have e := setN_ro (moment_sp_N E nest lev d f)
  rw [h] at e
  exact e.symm

theorem moment_sp_N_face_dry (E : Env) (nest : nestContainer) (lev row col : Nat) (d f : ℚ)
    (hb : nest.bat lev (row * (nest.hdr lev).nx + col) ≤ MAXRUNUP) :
    (moment_sp_N_face E nest lev row col d f).cont = true ∧
    (moment_sp_N_face E nest lev row col d f).stored = false := by
  unfold moment_sp_N_face
  simp only [if_pos hb, and_self]

/-- After `moment_sp_N` the flux array it writes is 0 at every index below `hdr.nm` whose bathymetry
is not above MAXRUNUP. -/
theorem moment_sp_N_flux_dry (E : Env) (nest : nestContainer) (lev : Nat) (d f : ℚ) (k : Nat)
    (hk : k < (nest.hdr lev).nm) (hb : nest.bat lev k ≤ MAXRUNUP) :
    (moment_sp_N E nest lev d f).fluxn_d lev k = 0 := by
  obtain ⟨-, -, hin, hout⟩ := moment_sp_N_spec E nest lev d f
  by_cases hex : ∃ row col, (if lev > 0 then 1 else 0) ≤ row ∧ row < ((nest.hdr lev).ny - 1) ∧ 0 ≤ col ∧ col < ((nest.hdr lev).nx - (if lev > 0 then 0 else 1)) ∧
      row * (nest.hdr lev).nx + col = k
  · obtain ⟨row, col, h1, h2, h3, h4, rfl⟩ := hex
    have h := congrArg Prod.fst (hin row col h1 h2 h3 h4)
    have hs := (moment_sp_N_face_dry E nest lev row col 0 0 hb).2
    simp only [getN, moment_sp_N_val, hs, if_pos hk] at h
    exact h
  · have h := congrArg Prod.fst (hout k (fun row col h1 h2 h3 h4 he =>
      hex ⟨row, col, h1, h2, h3, h4, he⟩))
    simp only [getN, if_pos hk] at h
    exact h

/-! ## Claims on the momentum functions -/

/-- C5: after `moment_M`, `moment_N`, `moment_sp_M` or `moment_sp_N` the flux array that the
function writes (`fluxm_d`, respectively `fluxn_d`) is 0 at every cell whose bathymetry is
not above MAXRUNUP (-50). -/
theorem moment_flux_zero_on_permanent_dry (E : Env) (nest : nestContainer) (lev : Nat)
    (d f : ℚ) (k : Nat) (hk : k < (nest.hdr lev).nm) (hb : nest.bat lev k ≤ MAXRUNUP) :
    (moment_M E nest lev d f).fluxm_d lev k = 0 ∧
    (moment_N E nest lev d f).fluxn_d lev k = 0 ∧
    (moment_sp_M E nest lev d f).fluxm_d lev k = 0 ∧
    (moment_sp_N E nest lev d f).fluxn_d lev k = 0 :=
  ⟨moment_M_flux_dry E nest lev d f k hk hb, moment_N_flux_dry E nest lev d f k hk hb,
    moment_sp_M_flux_dry E nest lev d f k hk hb, moment_sp_N_flux_dry E nest lev d f k hk hb⟩

/-- Witness of C5: cell 0 of the 2 x 2 grid with a cliff is permanently dry and holds a flux
of 7 before the call; the four functions leave 0 there. -/
theorem moment_flux_zero_on_permanent_dry_witness :
    cliff2.fluxm_d 0 0 = 7 ∧ cliff2.bat 0 0 ≤ MAXRUNUP ∧
    (moment_M env0 cliff2 0 0 0).fluxm_d 0 0 = 0 ∧
    (moment_N env0 cliff2 0 0 0).fluxn_d 0 0 = 0 ∧
    (moment_sp_M env0 cliff2 0 0 0).fluxm_d 0 0 = 0 ∧
    (moment_sp_N env0 cliff2 0 0 0).fluxn_d 0 0 = 0 := by
  have hb : cliff2.bat 0 0 ≤ MAXRUNUP := by norm_num [cliff2, nest0, MAXRUNUP]
  exact ⟨by norm_num [cliff2, nest0], hb,
    moment_flux_zero_on_permanent_dry env0 cliff2 0 0 0 0 (by decide) hb⟩

theorem setM_setN (n : nestContainer) (a b c e : Nat → Nat → ℚ) :
    setM (setN n a b) c e = setN (setM n c e) a b := rfl

/-- Two state transformers commute when each writes only its own pair of arrays and neither
reads the pair of the other. -/
theorem commute_of_frames (FM FN : nestContainer → nestContainer)
    (hM : ∀ n, FM n = setM n (FM n).fluxm_d (FM n).vex)
    (hN : ∀ n, FN n = setN n (FN n).fluxn_d (FN n).vey)
    (hMN : ∀ n a b, FM (setN n a b) = setN (FM n) a b)
    (hNM : ∀ n a b, FN (setM n a b) = setM (FN n) a b) (n : nestContainer) :
    FN (FM n) = FM (FN n) :=
  calc FN (FM n) = FN (setM n (FM n).fluxm_d (FM n).vex) := congrArg FN (hM n)
    _ = setM (FN n) (FM n).fluxm_d (FM n).vex := hNM n _ _
    _ = setM (setN n (FN n).fluxn_d (FN n).vey) (FM n).fluxm_d (FM n).vex :=
      congrArg (fun t => setM t (FM n).fluxm_d (FM n).vex) (hN n)
    _ = setN (setM n (FM n).fluxm_d (FM n).vex) (FN n).fluxn_d (FN n).vey := rfl
    _ = setN (FM n) (FN n).fluxn_d (FN n).vey :=
      (congrArg (fun t => setN t (FN n).fluxn_d (FN n).vey) (hM n)).symm
    _ = FM (setN n (FN n).fluxn_d (FN n).vey) := (hMN n _ _).symm
    _ = FM (FN n) := (congrArg FM (hN n)).symm

/-- C6: running `moment_M` then `moment_N` yields exactly the same state as running `moment_N`
then `moment_M`, and likewise for `moment_sp_M` and `moment_sp_N`: each function writes only
its own flux array and its own velocity array, and its result does not depend on the arrays
of the other component, on `etaa`, on the beach masks or on the running maxima. -/
theorem moment_M_N_commute (E : Env) (nest : nestContainer) (lev : Nat) (d1 f1 d2 f2 : ℚ) :
    moment_N E (moment_M E nest lev d1 f1) lev d2 f2
      = moment_M E (moment_N E nest lev d2 f2) lev d1 f1 ∧
    moment_sp_N E (moment_sp_M E nest lev d1 f1) lev d2 f2
      = moment_sp_M E (moment_sp_N E nest lev d2 f2) lev d1 f1 ∧
    (moment_M E nest lev d1 f1
      = setM nest (moment_M E nest lev d1 f1).fluxm_d (moment_M E nest lev d1 f1).vex ∧
     moment_N E nest lev d2 f2
      = setN nest (moment_N E nest lev d2 f2).fluxn_d (moment_N E nest lev d2 f2).vey ∧
     moment_sp_M E nest lev d1 f1
      = setM nest (moment_sp_M E nest lev d1 f1).fluxm_d (moment_sp_M E nest lev d1 f1).vex ∧
     moment_sp_N E nest lev d2 f2
      = setN nest (moment_sp_N E nest lev d2 f2).fluxn_d
          (moment_sp_N E nest lev d2 f2).vey) ∧
    (∀ (a b : Nat → Nat → ℚ) (e : Nat → Nat → ℚ) (lb sb : Nat → Nat → Int) (w v : Nat → ℚ),
      moment_M E (setRest (setN nest a b) e lb sb w v) lev d1 f1
        = setRest (setN (moment_M E nest lev d1 f1) a b) e lb sb w v ∧
      moment_N E (setRest (setM nest a b) e lb sb w v) lev d2 f2
        = setRest (setM (moment_N E nest lev d2 f2) a b) e lb sb w v ∧
      moment_sp_M E (setRest (setN nest a b) e lb sb w v) lev d1 f1
        = setRest (setN (moment_sp_M E nest lev d1 f1) a b) e lb sb w v ∧
      moment_sp_N E (setRest (setM nest a b) e lb sb w v) lev d2 f2
        = setRest (setM (moment_sp_N E nest lev d2 f2) a b) e lb sb w v) := by
  have hM := moment_M_frame E nest lev d1 f1
  have hN := moment_N_frame E nest lev d2 f2
  have hsM := moment_sp_M_frame E nest lev d1 f1
  have hsN := moment_sp_N_frame E nest lev d2 f2
  refine ⟨?_, ?_, ⟨hM, hN, hsM, hsN⟩, fun a b e lb sb w v => ⟨?_, ?_, ?_, ?_⟩⟩
  · exact commute_of_frames (fun n => moment_M E n lev d1 f1) (fun n => moment_N E n lev d2 f2)
      (fun n => moment_M_frame E n lev d1 f1) (fun n => moment_N_frame E n lev d2 f2)
      (fun n a b => moment_M_setN E n lev d1 f1 a b)
      (fun n a b => moment_N_setM E n lev d2 f2 a b) nest
  · exact commute_of_frames (fun n => moment_sp_M E n lev d1 f1)
      (fun n => moment_sp_N E n lev d2 f2)
      (fun n => moment_sp_M_frame E n lev d1 f1) (fun n => moment_sp_N_frame E n lev d2 f2)
      (fun n a b => moment_sp_M_setN E n lev d1 f1 a b)
      (fun n a b => moment_sp_N_setM E n lev d2 f2 a b) nest
  · rw [moment_M_setRest, moment_M_setN]
  · rw [moment_N_setRest, moment_N_setM]
  · rw [moment_sp_M_setRest, moment_sp_M_setN]
  · rw [moment_sp_N_setRest, moment_sp_N_setM]

/-! ## Claims on the dry cells -/

theorem setMass_ro (t : nestContainer) :
    setMass (mass_ro t) t.etad t.htotal_d t.long_beach t.short_beach = t := rfl

theorem mass_frame (nest : nestContainer) (lev : Nat) :
    mass nest lev = setMass nest (mass nest lev).etad (mass nest lev).htotal_d
      (mass nest lev).long_beach (mass nest lev).short_beach := by
  have e := setMass_ro (mass nest lev)
  rw [(mass_spec nest lev).1] at e
  exact e.symm

theorem shore2_M_val (e h : Nat → Nat → ℚ) (lb sb : Nat → Nat → Int) (old : ℚ × ℚ)
    (e0 : e 0 0 = 1) (e1 : e 0 1 = 2) (h0 : h 0 0 = 0) (h1 : h 0 1 = 12) :
    moment_M_val env0 (setMass shore2 e h lb sb) 0 (0, 0) old = (-1, -1) := by
  norm_num [moment_M_val, moment_M_face, moment_M_wetdry, moment_M_xp, mean_depth, face_vel,
    limit_discharge, jupe_of, in_buffer, setMass, shore2, nest0, hdr0, env0, e0, e1, h0, h1,
    MAXRUNUP, EPS5, EPS4_, EPS3, EPS10, NORMAL_GRAV, V_LIMIT, abs_lt]
theorem shore2_N_val (e h fm vx : Nat → Nat → ℚ) (lb sb : Nat → Nat → Int) (old : ℚ × ℚ)
    (e0 : e 0 0 = 1) (e2 : e 0 2 = 2) (h0 : h 0 0 = 0) (h2 : h 0 2 = 12) :
    moment_N_val env0 (setM (setMass shore2 e h lb sb) fm vx) 0 (0, 0) old = (-1, -1) := by
  norm_num [moment_N_val, moment_N_face, moment_N_wetdry, moment_N_xp, mean_depth, face_vel,
    limit_discharge, jupe_of, in_buffer, setM, setMass, shore2, nest0, hdr0, env0, e0, e2, h0, h2,
    MAXRUNUP, EPS5, EPS4_, EPS3, EPS10, NORMAL_GRAV, V_LIMIT, abs_lt]

theorem shore2_mass_vals :
    (mass shore2 0).etad 0 0 = 1 ∧ (mass shore2 0).etad 0 1 = 2 ∧ (mass shore2 0).etad 0 2 = 2 ∧
    (mass shore2 0).htotal_d 0 0 = 0 ∧ (mass shore2 0).htotal_d 0 1 = 12 ∧
    (mass shore2 0).htotal_d 0 2 = 12 := by
  have v0 : mass_get 0 (mass shore2 0) 0 = mass_val shore2 0 (0, 0) (mass_get 0 shore2 0) :=
    (mass_spec shore2 0).2.2.1 0 0 (by decide) (by decide)
  have v1 : mass_get 0 (mass shore2 0) 1 = mass_val shore2 0 (0, 1) (mass_get 0 shore2 1) :=
    (mass_spec shore2 0).2.2.1 0 1 (by decide) (by decide)
  have v2 : mass_get 0 (mass shore2 0) 2 = mass_val shore2 0 (1, 0) (mass_get 0 shore2 2) :=
    (mass_spec shore2 0).2.2.1 1 0 (by decide) (by decide)
  have w0 : mass_val shore2 0 (0, 0) (mass_get 0 shore2 0) = (1, 0, 0, 0) := by
    norm_num [mass_val, mass_zzz, mass_get, shore2, nest0, hdr0, MAXRUNUP, EPS10, EPS1]
  have w1 : mass_val shore2 0 (0, 1) (mass_get 0 shore2 1) = (2, 12, 0, 0) := by
    norm_num [mass_val, mass_zzz, mass_get, shore2, nest0, hdr0, MAXRUNUP, EPS10, EPS1]
  have w2 : mass_val shore2 0 (1, 0) (mass_get 0 shore2 2) = (2, 12, 0, 0) := by
    norm_num [mass_val, mass_zzz, mass_get, shore2, nest0, hdr0, MAXRUNUP, EPS10, EPS1]
  rw [w0] at v0
  rw [w1] at v1
  rw [w2] at v2
  exact ⟨congrArg Prod.fst v0, congrArg Prod.fst v1, congrArg Prod.fst v2,
    congrArg (fun p : ℚ × ℚ × Int × Int => p.2.1) v0,
    congrArg (fun p : ℚ × ℚ × Int × Int => p.2.1) v1,
    congrArg (fun p : ℚ × ℚ × Int × Int => p.2.1) v2⟩

/-- C3 (as stated) fails: on the 2 x 2 shore, after `mass`, `moment_M` and `moment_N`, the
beach cell 0 is not permanently dry and holds no water (`h_total_d = 0 < 1e-5`), yet the
fluxes through its east and north faces are -1 and so are the velocities stored there: the
moving boundary lets the higher water of the neighbours flood the dry cell. -/
theorem dry_cell_flux_counterexample :
    shore2_after.bat 0 0 > MAXRUNUP ∧ shore2_after.htotal_d 0 0 < EPS5 ∧
    shore2_after.out_velocity_x = true ∧ shore2_after.writeLevel = 0 ∧
    shore2_after.fluxm_d 0 0 = -1 ∧ shore2_after.fluxn_d 0 0 = -1 ∧
    shore2_after.vex 0 0 = -1 ∧ shore2_after.vey 0 0 = -1 := by
  obtain ⟨e0, e1, e2, h0, h1, h2⟩ := shore2_mass_vals
  have hs := mass_frame shore2 0
  unfold shore2_after
  generalize (mass shore2 0).etad = e at hs e0 e1 e2
  generalize (mass shore2 0).htotal_d = h at hs h0 h1 h2
  generalize (mass shore2 0).long_beach = lb at hs
  generalize (mass shore2 0).short_beach = sb at hs
  rw [hs]
  have hM := (moment_M_spec env0 (setMass shore2 e h lb sb) 0 0 0).2.2.1 0 0 (Nat.le_refl _)
    (by norm_num [setMass, shore2, nest0, hdr0]) (by norm_num)
    (by norm_num [setMass, shore2, nest0, hdr0])
  rw [shore2_M_val e h lb sb _ e0 e1 h0 h1] at hM
  have m1 : (moment_M env0 (setMass shore2 e h lb sb) 0 0 0).fluxm_d 0 0 = -1 :=
    congrArg Prod.fst hM
  have m2 : (moment_M env0 (setMass shore2 e h lb sb) 0 0 0).vex 0 0 = -1 :=
    congrArg Prod.snd hM
  have hx := moment_M_frame env0 (setMass shore2 e h lb sb) 0 0 0
  generalize (moment_M env0 (setMass shore2 e h lb sb) 0 0 0).fluxm_d = fm at hx m1
  generalize (moment_M env0 (setMass shore2 e h lb sb) 0 0 0).vex = vx at hx m2
  rw [hx]
  have hN := (moment_N_spec env0 (setM (setMass shore2 e h lb sb) fm vx) 0 0 0).2.2.1 0 0
    (by norm_num) (by norm_num [setM, setMass, shore2, nest0, hdr0]) (Nat.le_refl _)
    (by norm_num [setM, setMass, shore2, nest0, hdr0])
  rw [shore2_N_val e h fm vx lb sb _ e0 e2 h0 h2] at hN
  have n1 : (moment_N env0 (setM (setMass shore2 e h lb sb) fm vx) 0 0 0).fluxn_d 0 0 = -1 :=
    congrArg Prod.fst hN
  have n2 : (moment_N env0 (setM (setMass shore2 e h lb sb) fm vx) 0 0 0).vey 0 0 = -1 :=
    congrArg Prod.snd hN
  have hy := moment_N_frame env0 (setM (setMass shore2 e h lb sb) fm vx) 0 0 0
  generalize (moment_N env0 (setM (setMass shore2 e h lb sb) fm vx) 0 0 0).fluxn_d = fn
    at hy n1
  generalize (moment_N env0 (setM (setMass shore2 e h lb sb) fm vx) 0 0 0).vey = vy at hy n2
  rw [hy]
  refine ⟨?_, ?_, rfl, rfl, m1, n1, m2, n2⟩
  · norm_num [setN, setM, setMass, shore2, nest0, MAXRUNUP]
  · show h 0 0 < EPS5
    rw [h0]
    norm_num [EPS5]

theorem moment_M_wetdry_dry (nest : nestContainer) (lev ij : Nat) (dpa : ℚ)
    (h1 : nest.htotal_d lev ij ≤ EPS5) (h2 : nest.htotal_d lev (ij + 1) ≤ EPS5) :
    moment_M_wetdry nest lev ij dpa = none := by
  unfold moment_M_wetdry
  simp only [gt_iff_lt, not_lt.mpr h1, not_lt.mpr h2, false_and, and_false, if_false]

theorem moment_M_face_both_dry (E : Env) (nest : nestContainer) (lev row col : Nat) (d f : ℚ)
    (h1 : nest.htotal_d lev (row * (nest.hdr lev).nx + col) ≤ EPS5)
    (h2 : nest.htotal_d lev (row * (nest.hdr lev).nx + col + 1) ≤ EPS5) :
    (moment_M_face E nest lev row col d f).stored = false := by
  unfold moment_M_face
  simp only []
  split_ifs
  · rfl
  · rw [moment_M_wetdry_dry nest lev _ _ h1 h2]

theorem moment_M_face_cont (E : Env) (nest : nestContainer) (lev row col : Nat) (d f : ℚ)
    (hb : nest.bat lev (row * (nest.hdr lev).nx + col) > MAXRUNUP) :
    (moment_M_face E nest lev row col d f).cont = false := by
  unfold moment_M_face
  simp only [if_neg (not_le.mpr hb)]
  rcases moment_M_wetdry nest lev (row * (nest.hdr lev).nx + col) _ with _ | ⟨dd, df, vv⟩
  · rfl
  · simp only []
    split_ifs <;> rfl

/-- After `moment_M` the flux through a face between two cells that hold no more than 1e-5 m of
water is 0. -/
theorem moment_M_flux_both_dry (E : Env) (nest : nestContainer) (lev : Nat) (d f : ℚ) (k : Nat)
    (hk : k < (nest.hdr lev).nm) (h1 : nest.htotal_d lev k ≤ EPS5)
    (h2 : nest.htotal_d lev (k + 1) ≤ EPS5) :
    (moment_M E nest lev d f).fluxm_d lev k = 0 := by
  obtain ⟨-, -, hin, hout⟩ := moment_M_spec E nest lev d f
  by_cases hex : ∃ row col, 0 ≤ row ∧ row < ((nest.hdr lev).ny - (if lev > 0 then 0 else 1)) ∧ (if lev > 0 then 1 else 0) ≤ col ∧ col < ((nest.hdr lev).nx - 1) ∧
      row * (nest.hdr lev).nx + col = k
  · obtain ⟨row, col, h1', h2', h3, h4, rfl⟩ := hex
    have h := congrArg Prod.fst (hin row col h1' h2' h3 h4)
    have hs := moment_M_face_both_dry E nest lev row col 0 0 h1 h2
    simp only [getM, moment_M_val, hs, if_pos hk] at h
    exact h
  · have h := congrArg Prod.fst (hout k (fun row col h1' h2' h3 h4 he =>
      hex ⟨row, col, h1', h2', h3, h4, he⟩))
    simp only [getM, if_pos hk] at h
    exact h

/-- After `moment_M`, on the write level with the velocity requested, the velocity stored at a
visited cell that is not permanently dry is 0 when the two cells of its face hold no more
than 1e-5 m of water. -/
theorem moment_M_vel_both_dry (E : Env) (nest : nestContainer) (lev : Nat) (d f : ℚ)
    (row col : Nat) (hr0 : 0 ≤ row) (hr1 : row < ((nest.hdr lev).ny - (if lev > 0 then 0 else 1))) (hc0 : (if lev > 0 then 1 else 0) ≤ col) (hc1 : col < ((nest.hdr lev).nx - 1))
    (hout : nest.out_velocity_x = true) (hw : lev = nest.writeLevel)
    (hb : nest.bat lev (row * (nest.hdr lev).nx + col) > MAXRUNUP)
    (h1 : nest.htotal_d lev (row * (nest.hdr lev).nx + col) ≤ EPS5)
    (h2 : nest.htotal_d lev (row * (nest.hdr lev).nx + col + 1) ≤ EPS5) :
    (moment_M E nest lev d f).vex lev (row * (nest.hdr lev).nx + col) = 0 := by
  obtain ⟨-, -, hin, -⟩ := moment_M_spec E nest lev d f
  have h := congrArg Prod.snd (hin row col hr0 hr1 hc0 hc1)
  have hs := moment_M_face_both_dry E nest lev row col 0 0 h1 h2
  have hc := moment_M_face_cont E nest lev row col 0 0 hb
  simp only [getM, moment_M_val, hs, hc, hout, ← hw, and_self, if_true] at h
  simpa using h

theorem moment_N_wetdry_dry (nest : nestContainer) (lev ij : Nat) (dpa : ℚ)
    (h1 : nest.htotal_d lev ij ≤ EPS5) (h2 : nest.htotal_d lev (ij + (nest.hdr lev).nx) ≤ EPS5) :
    moment_N_wetdry nest lev ij dpa = none := by
  unfold moment_N_wetdry
  simp only [gt_iff_lt, not_lt.mpr h1, not_lt.mpr h2, false_and, and_false, if_false]

theorem moment_N_face_both_dry (E : Env) (nest : nestContainer) (lev row col : Nat) (d f : ℚ)
    (h1 : nest.htotal_d lev (row * (nest.hdr lev).nx + col) ≤ EPS5)
    (h2 : nest.htotal_d lev (row * (nest.hdr lev).nx + col + (nest.hdr lev).nx) ≤ EPS5) :
    (moment_N_face E nest lev row col d f).stored = false := by
  unfold moment_N_face
  simp only []
  split_ifs
  · rfl
  · rw [moment_N_wetdry_dry nest lev _ _ h1 h2]

theorem moment_N_face_cont (E : Env) (nest : nestContainer) (lev row col : Nat) (d f : ℚ)
    (hb : nest.bat lev (row * (nest.hdr lev).nx + col) > MAXRUNUP) :
    (moment_N_face E nest lev row col d f).cont = false := by
  unfold moment_N_face
  simp only [if_neg (not_le.mpr hb)]
  rcases moment_N_wetdry nest lev (row * (nest.hdr lev).nx + col) _ with _ | ⟨dd, df, vv⟩
  · rfl
  · simp only []
    split_ifs <;> rfl

/-- After `moment_N` the flux through a face between two cells that hold no more than 1e-5 m of
water is 0. -/
theorem moment_N_flux_both_dry (E : Env) (nest : nestContainer) (lev : Nat) (d f : ℚ) (k : Nat)
    (hk : k < (nest.hdr lev).nm) (h1 : nest.htotal_d lev k ≤ EPS5)
    (h2 : nest.htotal_d lev (k + (nest.hdr lev).nx) ≤ EPS5) :
    (moment_N E nest lev d f).fluxn_d lev k = 0 := by
  obtain ⟨-, -, hin, hout⟩ := moment_N_spec E nest lev d f
  by_cases hex : ∃ row col, (if lev > 0 then 1 else 0) ≤ row ∧ row < ((nest.hdr lev).ny - 1) ∧ 0 ≤ col ∧ col < ((nest.hdr lev).nx - (if lev > 0 then 0 else 1)) ∧
      row * (nest.hdr lev).nx + col = k
  · obtain ⟨row, col, h1', h2', h3, h4, rfl⟩ := hex
    have h := congrArg Prod.fst (hin row col h1' h2' h3 h4)
    have hs := moment_N_face_both_dry E nest lev row col 0 0 h1 h2
    simp only [getN, moment_N_val, hs, if_pos hk] at h
    exact h
  · have h := congrArg Prod.fst (hout k (fun row col h1' h2' h3 h4 he =>
      hex ⟨row, col, h1', h2', h3, h4, he⟩))
    simp only [getN, if_pos hk] at h
    exact h

/-- After `moment_N`, on the write level with the velocity requested, the velocity stored at a
visited cell that is not permanently dry is 0 when the two cells of its face hold no more
than 1e-5 m of water. -/
theorem moment_N_vel_both_dry (E : Env) (nest : nestContainer) (lev : Nat) (d f : ℚ)
    (row col : Nat) (hr0 : (if lev > 0 then 1 else 0) ≤ row) (hr1 : row < ((nest.hdr lev).ny - 1)) (hc0 : 0 ≤ col) (hc1 : col < ((nest.hdr lev).nx - (if lev > 0 then 0 else 1)))
    (hout : nest.out_velocity_y = true) (hw : lev = nest.writeLevel)
    (hb : nest.bat lev (row * (nest.hdr lev).nx + col) > MAXRUNUP)
    (h1 : nest.htotal_d lev (row * (nest.hdr lev).nx + col) ≤ EPS5)
    (h2 : nest.htotal_d lev (row * (nest.hdr lev).nx + col + (nest.hdr lev).nx) ≤ EPS5) :
    (moment_N E nest lev d f).vey lev (row * (nest.hdr lev).nx + col) = 0 := by
  obtain ⟨-, -, hin, -⟩ := moment_N_spec E nest lev d f
  have h := congrArg Prod.snd (hin row col hr0 hr1 hc0 hc1)
  have hs := moment_N_face_both_dry E nest lev row col 0 0 h1 h2
  have hc := moment_N_face_cont E nest lev row col 0 0 hb
  simp only [getN, moment_N_val, hs, hc, hout, ← hw, and_self, if_true] at h
  simpa using h

theorem idx_lt_nm {nx ny row col : Nat} (hrow : row < ny) (hcol : col < nx) :
    row * nx + col < nx * ny := by
  have h1 : row * nx + col < (row + 1) * nx := by rw [Nat.succ_mul]; omega
  have h2 : (row + 1) * nx ≤ ny * nx := Nat.mul_le_mul_right _ hrow
  rw [Nat.mul_comm nx ny]
  omega

/-- C3 (amended): after `mass`, `moment_M` and `moment_N` at a level, the momentum functions
have not changed `h_total_d`, and for every cell of the grid with `h_total_d < 1e-5` the flux
through each of its four faces whose other cell holds no more than 1e-5 m of water is zero;
on the write level with the velocity requested, at such a cell that is not permanently dry
and is visited by the loop, `vx = 0` when the east neighbour and `vy = 0` when the north
neighbour holds no more than 1e-5 m of water. (A face between a dry and a wet cell carries the
flux of the moving boundary.) -/
theorem dry_faces_carry_no_flux (E : Env) (nest : nestContainer) (lev : Nat)
    (d1 f1 d2 f2 : ℚ) (row col : Nat)
    (hnm : (nest.hdr lev).nm = (nest.hdr lev).nx * (nest.hdr lev).ny)
    (hrow : row < (nest.hdr lev).ny) (hcol : col < (nest.hdr lev).nx)
    (hdry : (mass nest lev).htotal_d lev (row * (nest.hdr lev).nx + col) < EPS5) :
    (mass_then_moments E nest lev d1 f1 d2 f2).htotal_d = (mass nest lev).htotal_d ∧
    (col + 1 < (nest.hdr lev).nx →
      (mass nest lev).htotal_d lev (row * (nest.hdr lev).nx + col + 1) ≤ EPS5 →
      (mass_then_moments E nest lev d1 f1 d2 f2).fluxm_d lev
        (row * (nest.hdr lev).nx + col) = 0) ∧
    (0 < col →
      (mass nest lev).htotal_d lev (row * (nest.hdr lev).nx + col - 1) ≤ EPS5 →
      (mass_then_moments E nest lev d1 f1 d2 f2).fluxm_d lev
        (row * (nest.hdr lev).nx + col - 1) = 0) ∧
    (row + 1 < (nest.hdr lev).ny →
      (mass nest lev).htotal_d lev (row * (nest.hdr lev).nx + col + (nest.hdr lev).nx) ≤ EPS5 →
      (mass_then_moments E nest lev d1 f1 d2 f2).fluxn_d lev
        (row * (nest.hdr lev).nx + col) = 0) ∧
    (0 < row →
      (mass nest lev).htotal_d lev (row * (nest.hdr lev).nx + col - (nest.hdr lev).nx) ≤ EPS5 →
      (mass_then_moments E nest lev d1 f1 d2 f2).fluxn_d lev
        (row * (nest.hdr lev).nx + col - (nest.hdr lev).nx) = 0) ∧
    (nest.bat lev (row * (nest.hdr lev).nx + col) > MAXRUNUP → lev = nest.writeLevel →
      (nest.out_velocity_x = true →
        row < (nest.hdr lev).ny - (if lev > 0 then 0 else 1) → (if lev > 0 then 1 else 0) ≤ col →
        col + 1 < (nest.hdr lev).nx →
        (mass nest lev).htotal_d lev (row * (nest.hdr lev).nx + col + 1) ≤ EPS5 →
        (mass_then_moments E nest lev d1 f1 d2 f2).vex lev
          (row * (nest.hdr lev).nx + col) = 0) ∧
      (nest.out_velocity_y = true →
        (if lev > 0 then 1 else 0) ≤ row → row + 1 < (nest.hdr lev).ny →
        col < (nest.hdr lev).nx - (if lev > 0 then 0 else 1) →
        (mass nest lev).htotal_d lev
          (row * (nest.hdr lev).nx + col + (nest.hdr lev).nx) ≤ EPS5 →
        (mass_then_moments E nest lev d1 f1 d2 f2).vey lev
          (row * (nest.hdr lev).nx + col) = 0)) := by
  unfold mass_then_moments
  have hs := (mass_spec nest lev).1
  have s_hdr : (mass nest lev).hdr = nest.hdr := (congrArg nestContainer.hdr hs :)
  have s_bat : (mass nest lev).bat = nest.bat := (congrArg nestContainer.bat hs :)
  have s_ox : (mass nest lev).out_velocity_x = nest.out_velocity_x :=
    (congrArg nestContainer.out_velocity_x hs :)
  have s_oy : (mass nest lev).out_velocity_y = nest.out_velocity_y :=
    (congrArg nestContainer.out_velocity_y hs :)
  have s_wl : (mass nest lev).writeLevel = nest.writeLevel :=
    (congrArg nestContainer.writeLevel hs :)
  generalize mass nest lev = s at *
  have hx := (moment_M_spec E s lev d1 f1).1
  have x_hdr : (moment_M E s lev d1 f1).hdr = s.hdr := (congrArg nestContainer.hdr hx :)
  have x_bat : (moment_M E s lev d1 f1).bat = s.bat := (congrArg nestContainer.bat hx :)
  have x_h : (moment_M E s lev d1 f1).htotal_d = s.htotal_d :=
    (congrArg nestContainer.htotal_d hx :)
  have x_oy : (moment_M E s lev d1 f1).out_velocity_y = s.out_velocity_y :=
    (congrArg nestContainer.out_velocity_y hx :)
  have x_wl : (moment_M E s lev d1 f1).writeLevel = s.writeLevel :=
    (congrArg nestContainer.writeLevel hx :)
  have fM : ∀ k, k < (nest.hdr lev).nm → s.htotal_d lev k ≤ EPS5 →
      s.htotal_d lev (k + 1) ≤ EPS5 → (moment_M E s lev d1 f1).fluxm_d lev k = 0 :=
    fun k hk h1 h2 => moment_M_flux_both_dry E s lev d1 f1 k (by rw [s_hdr]; exact hk) h1 h2
  have vM := moment_M_vel_both_dry E s lev d1 f1 row col
  generalize moment_M E s lev d1 f1 = x at *
  have ht := (moment_N_spec E x lev d2 f2).1
  have t_h : (moment_N E x lev d2 f2).htotal_d = x.htotal_d :=
    (congrArg nestContainer.htotal_d ht :)
  have t_fm : (moment_N E x lev d2 f2).fluxm_d = x.fluxm_d :=
    (congrArg nestContainer.fluxm_d ht :)
  have t_vx : (moment_N E x lev d2 f2).vex = x.vex := (congrArg nestContainer.vex ht :)
  have fN : ∀ k, k < (nest.hdr lev).nm → s.htotal_d lev k ≤ EPS5 →
      s.htotal_d lev (k + (nest.hdr lev).nx) ≤ EPS5 →
      (moment_N E x lev d2 f2).fluxn_d lev k = 0 := fun k hk h1 h2 =>
    moment_N_flux_both_dry E x lev d2 f2 k (by rw [x_hdr, s_hdr]; exact hk)
      (by rw [x_h]; exact h1) (by rw [x_h, x_hdr, s_hdr]; exact h2)
  have vN := moment_N_vel_both_dry E x lev d2 f2 row col
  rw [x_hdr, s_hdr, x_bat, s_bat, x_h, x_oy, s_oy, x_wl, s_wl] at vN
  rw [s_hdr, s_bat, s_ox, s_wl] at vM
  have hij : row * (nest.hdr lev).nx + col < (nest.hdr lev).nm := by
    rw [hnm]
    exact idx_lt_nm hrow hcol
  have hpos : 0 < (nest.hdr lev).nx := by omega
  refine ⟨by rw [t_h, x_h], fun _ h2 => ?_, fun hc h2 => ?_, fun _ h2 => ?_, fun hr h2 => ?_,
    fun hb hw => ⟨fun ho hr1 hc0 hc1 h2 => ?_, fun ho hr0 hr1 hc1 h2 => ?_⟩⟩
  · rw [t_fm]
    exact fM _ hij hdry.le h2
  · rw [t_fm]
    refine fM _ (by omega) h2 ?_
    rw [Nat.sub_add_cancel (by omega)]
    exact hdry.le
  · exact fN _ hij hdry.le h2
  · have hle : (nest.hdr lev).nx ≤ row * (nest.hdr lev).nx + col :=
      le_trans (Nat.le_mul_of_pos_left _ hr) (Nat.le_add_right _ _)
    refine fN _ (by omega) h2 ?_
    rw [Nat.sub_add_cancel hle]
    exact hdry.le
  · rw [t_vx]
    exact vM (Nat.zero_le _) hr1 hc0 (by omega) ho hw hb hdry.le h2
  · exact vN hr0 (by omega) (Nat.zero_le _) hc1 ho hw hb hdry.le h2

/-- Witness of C3 (amended) on the 2 x 2 grid with a dry beach row: cell 0 and its east
neighbour hold no water after `mass`; the flux through the face between them is 0 and the
velocity 3 held before the call is replaced by 0. -/
theorem dry_faces_carry_no_flux_witness :
    (mass dune2 0).htotal_d 0 0 < EPS5 ∧ (mass dune2 0).htotal_d 0 1 ≤ EPS5 ∧
    dune2.bat 0 0 > MAXRUNUP ∧ dune2.vex 0 0 = 3 ∧
    (mass_then_moments env0 dune2 0 0 0 0 0).fluxm_d 0 0 = 0 ∧
    (mass_then_moments env0 dune2 0 0 0 0 0).vex 0 0 = 0 := by
  have v0 : mass_get 0 (mass dune2 0) 0 = mass_val dune2 0 (0, 0) (mass_get 0 dune2 0) :=
    (mass_spec dune2 0).2.2.1 0 0 (by decide) (by decide)
  have v1 : mass_get 0 (mass dune2 0) 1 = mass_val dune2 0 (0, 1) (mass_get 0 dune2 1) :=
    (mass_spec dune2 0).2.2.1 0 1 (by decide) (by decide)
  have w0 : mass_val dune2 0 (0, 0) (mass_get 0 dune2 0) = (1, 0, 0, 0) := by
    norm_num [mass_val, mass_zzz, mass_get, dune2, nest0, hdr0, MAXRUNUP, EPS10, EPS1]
  have w1 : mass_val dune2 0 (0, 1) (mass_get 0 dune2 1) = (1, 0, 0, 0) := by
    norm_num [mass_val, mass_zzz, mass_get, dune2, nest0, hdr0, MAXRUNUP, EPS10, EPS1]
  rw [w0] at v0
  rw [w1] at v1
  have h0 : (mass dune2 0).htotal_d 0 0 = 0 := congrArg (fun p : ℚ × ℚ × Int × Int => p.2.1) v0
  have h1 : (mass dune2 0).htotal_d 0 1 = 0 := congrArg (fun p : ℚ × ℚ × Int × Int => p.2.1) v1
  have e5 : (0 : ℚ) < EPS5 := by norm_num [EPS5]
  have hb : dune2.bat 0 0 > MAXRUNUP := by norm_num [dune2, nest0, MAXRUNUP]
  have hd0 : (mass dune2 0).htotal_d 0 0 < EPS5 := by rw [h0]; exact e5
  have hd1 : (mass dune2 0).htotal_d 0 1 ≤ EPS5 := by rw [h1]; exact e5.le
  have h := dry_faces_carry_no_flux env0 dune2 0 0 0 0 0 0 0 (by decide) (by decide)
    (by decide) hd0
  exact ⟨hd0, hd1, hb, by norm_num [dune2, nest0], h.2.1 (by decide) hd1,
    (h.2.2.2.2.2 hb rfl).1 rfl (by decide) (by decide) (by decide) hd1⟩

/-! ## Claims on the conservation of volume -/

theorem forRange_fixed {σ : Type} (lo hi : Nat) (body : Nat → σ → σ) (x : σ)
    (h : ∀ i, body i x = x) : forRange lo hi body x = x := by
  unfold forRange
  generalize List.range' lo (hi - lo) = l
  induction l with
  | nil => rfl
  | cons i l ih => rw [List.foldl_cons, h i, ih]

theorem limit_discharge_zero (dd : ℚ) : limit_discharge 0 dd = 0 := by
  unfold limit_discharge
  rw [if_pos]
  rw [abs_zero]
  norm_num [EPS10]

theorem openb_clip_zero : openb_clip 0 = 0 := by
  unfold openb_clip
  rw [if_pos]
  rw [abs_zero]
  norm_num [EPS5]

/-- On uniform bathymetry above 1e-5 and zero fluxes `openb` assigns 0 wherever it assigns:
an `eta_d` that is 0 everywhere is left as it is. -/
theorem openb_flat (E : Env) (hE : E.sqrt 0 = 0) (hdr : grd_header) (b : ℚ) (hb : EPS5 < b)
    (nest : nestContainer) :
    openb E hdr (fun _ => b) (fun _ => 0) (fun _ => 0) (fun _ => 0) nest = fun _ => 0 := by
  have hz : openb_zz E 0 0 b = 0 := by
    unfold openb_zz
    rw [mul_zero, add_zero, hE, zero_div]
  have hnb : ¬ b < EPS5 := not_lt.mpr hb.le
  have hu : ∀ i : Nat, Function.update (fun _ : Nat => (0 : ℚ)) i 0 = fun _ => 0 := fun i =>
    Function.update_eq_self i (fun _ : Nat => (0 : ℚ))
  have hf : ∀ (lo hi : Nat) (g : Nat → Nat), forRange lo hi
      (fun i etad => Function.update etad (g i) 0) (fun _ : Nat => (0 : ℚ)) = fun _ => 0 :=
    fun lo hi g => forRange_fixed _ _ _ _ (fun i => hu _)
  unfold openb
  simp only [hnb, if_false, gt_iff_lt, hb, if_true, add_zero, zero_mul, hz, lt_self_iff_false,
    or_self, openb_clip_zero]
  simp only [hf, hu, ite_self]

theorem moment_M_xp_flat (E : Env) (s : nestContainer) (c : ℚ) (row col : Nat) (dpa dd df : ℚ)
    (hfm : s.fluxm_a 0 = fun _ => 0) (hfn : s.fluxn_a 0 = fun _ => 0)
    (he : s.etad 0 = fun _ => c) : moment_M_xp E s 0 row col dpa dd df = 0 := by
  unfold moment_M_xp moment_M_adv
  simp only [hfm, hfn, he, add_zero, zero_mul, mul_zero, sub_self, sub_zero, zero_div,
    neg_zero, ite_self, limit_discharge_zero]

theorem moment_N_xp_flat (E : Env) (s : nestContainer) (c : ℚ) (row col : Nat) (dqa dd df : ℚ)
    (hfm : s.fluxm_a 0 = fun _ => 0) (hfn : s.fluxn_a 0 = fun _ => 0)
    (he : s.etad 0 = fun _ => c) : moment_N_xp E s 0 row col dqa dd df = 0 := by
  unfold moment_N_xp moment_N_adv
  simp only [hfm, hfn, he, add_zero, zero_mul, mul_zero, sub_self, sub_zero, zero_div,
    neg_zero, ite_self, limit_discharge_zero]

theorem moment_M_face_xp_flat (E : Env) (s : nestContainer) (c : ℚ) (row col : Nat) (d f : ℚ)
    (hfm : s.fluxm_a 0 = fun _ => 0) (hfn : s.fluxn_a 0 = fun _ => 0)
    (he : s.etad 0 = fun _ => c) : (moment_M_face E s 0 row col d f).xp = 0 := by
  unfold moment_M_face
  simp only []
  split_ifs
  · rfl
  · rcases moment_M_wetdry s 0 (row * (s.hdr 0).nx + col) _ with _ | ⟨dd, df, vv⟩
    · rfl
    · by_cases h4 : dd < E.EPS4
      · simp only [h4, if_true]
      · simp only [h4, if_false]
        exact moment_M_xp_flat E s c row col _ _ _ hfm hfn he

theorem moment_N_face_xp_flat (E : Env) (s : nestContainer) (c : ℚ) (row col : Nat) (d f : ℚ)
    (hfm : s.fluxm_a 0 = fun _ => 0) (hfn : s.fluxn_a 0 = fun _ => 0)
    (he : s.etad 0 = fun _ => c) : (moment_N_face E s 0 row col d f).xp = 0 := by
  unfold moment_N_face
  simp only []
  split_ifs
  · rfl
  · rcases moment_N_wetdry s 0 (row * (s.hdr 0).nx + col) _ with _ | ⟨dd, df, vv⟩
    · rfl
    · by_cases h4 : dd < E.EPS4
      · simp only [h4, if_true]
      · simp only [h4, if_false]
        exact moment_N_xp_flat E s c row col _ _ _ hfm hfn he

theorem ite_zero_zero (p q : Prop) [Decidable p] [Decidable q] (x : ℚ) (hx : x = 0) :
    (if p then x else if q then (0 : ℚ) else 0) = 0 := by
  rw [hx, ite_self, ite_self]

/-- On a state with no flux in the `a` and `d` buffers and a level surface, `moment_M` leaves
`fluxm_d` zero everywhere. -/
theorem moment_M_flat (E : Env) (s : nestContainer) (c : ℚ) (d f : ℚ)
    (hfm : s.fluxm_a 0 = fun _ => 0) (hfn : s.fluxn_a 0 = fun _ => 0)
    (he : s.etad 0 = fun _ => c) (hfd : s.fluxm_d 0 = fun _ => 0) :
    (moment_M E s 0 d f).fluxm_d 0 = fun _ => 0 := by
  obtain ⟨-, -, hin, hout⟩ := moment_M_spec E s 0 d f
  funext k
  by_cases hex : ∃ row col, 0 ≤ row ∧ row < ((s.hdr 0).ny - (if 0 > 0 then 0 else 1)) ∧
      (if 0 > 0 then 1 else 0) ≤ col ∧ col < ((s.hdr 0).nx - 1) ∧
      row * (s.hdr 0).nx + col = k
  · obtain ⟨row, col, h1, h2, h3, h4, rfl⟩ := hex
    have h := congrArg Prod.fst (hin row col h1 h2 h3 h4)
    simp only [getM, moment_M_val, hfd] at h
    rw [h]
    exact ite_zero_zero _ _ _ (moment_M_face_xp_flat E s c row col 0 0 hfm hfn he)
  · have h := congrArg Prod.fst (hout k (fun row col h1 h2 h3 h4 he' =>
      hex ⟨row, col, h1, h2, h3, h4, he'⟩))
    simp only [getM, hfd, ite_self] at h
    exact h

/-- On a state with no flux in the `a` and `d` buffers and a level surface, `moment_N` leaves
`fluxn_d` zero everywhere. -/
theorem moment_N_flat (E : Env) (s : nestContainer) (c : ℚ) (d f : ℚ)
    (hfm : s.fluxm_a 0 = fun _ => 0) (hfn : s.fluxn_a 0 = fun _ => 0)
    (he : s.etad 0 = fun _ => c) (hfd : s.fluxn_d 0 = fun _ => 0) :
    (moment_N E s 0 d f).fluxn_d 0 = fun _ => 0 := by
  obtain ⟨-, -, hin, hout⟩ := moment_N_spec E s 0 d f
  funext k
  by_cases hex : ∃ row col, (if 0 > 0 then 1 else 0) ≤ row ∧ row < ((s.hdr 0).ny - 1) ∧
      0 ≤ col ∧ col < ((s.hdr 0).nx - (if 0 > 0 then 0 else 1)) ∧
      row * (s.hdr 0).nx + col = k
  · obtain ⟨row, col, h1, h2, h3, h4, rfl⟩ := hex
    have h := congrArg Prod.fst (hin row col h1 h2 h3 h4)
    simp only [getN, moment_N_val, hfd] at h
    rw [h]
    exact ite_zero_zero _ _ _ (moment_N_face_xp_flat E s c row col 0 0 hfm hfn he)
  · have h := congrArg Prod.fst (hout k (fun row col h1 h2 h3 h4 he' =>
      hex ⟨row, col, h1, h2, h3, h4, he'⟩))
    simp only [getN, hfd, ite_self] at h
    exact h

/-- On the flat pond `mass` leaves `eta_d = c` and `h_total_d = b + c` everywhere. -/
theorem mass_flat (nest : nestContainer) (b c : ℚ) (hP : FlatPond b c nest)
    (hb : MAXRUNUP < b) (hbc : EPS10 < b + c) :
    (mass nest 0).etad 0 = (fun _ => c) ∧ (mass nest 0).htotal_d 0 = (fun _ => b + c) := by
  obtain ⟨-, -, hbat, hea, hed, hma, -, hna, -, -, hhd⟩ := hP
  obtain ⟨-, -, hin, hout⟩ := mass_spec nest 0
  have hv : ∀ cc old, (mass_val nest 0 cc old).1 = c ∧ (mass_val nest 0 cc old).2.1 = b + c := by
    intro cc old
    have hz : mass_zzz nest 0 cc = c := by
      unfold mass_zzz
      simp only [hea, hma, hna, sub_self, mul_zero, sub_zero]
    unfold mass_val
    simp only [hbat, hz, gt_iff_lt, hb, if_true, add_comm c b, hbc, and_self]
  have hall : ∀ k, mass_get 0 (mass nest 0) k = (c, b + c, (mass nest 0).long_beach 0 k,
      (mass nest 0).short_beach 0 k) := by
    intro k
    by_cases hex : ∃ row col, row < (nest.hdr 0).ny ∧ col < (nest.hdr 0).nx ∧
        row * (nest.hdr 0).nx + col = k
    · obtain ⟨row, col, h1, h2, rfl⟩ := hex
      have h := hin row col h1 h2
      have e1 := (congrArg Prod.fst h).trans (hv _ _).1
      have e2 := (congrArg (fun p : ℚ × ℚ × Int × Int => p.2.1) h).trans (hv _ _).2
      exact Prod.ext e1 (Prod.ext e2 rfl)
    · have h := hout k (fun row col h1 h2 he' => hex ⟨row, col, h1, h2, he'⟩)
      have e1 : (mass nest 0).etad 0 k = c := by
        have := congrArg Prod.fst h
        simp only [mass_get, hed] at this
        exact this
      have e2 : (mass nest 0).htotal_d 0 k = b + c := by
        have := congrArg (fun p : ℚ × ℚ × Int × Int => p.2.1) h
        simp only [mass_get, hhd] at this
        exact this
      exact Prod.ext e1 (Prod.ext e2 rfl)
  exact ⟨funext fun k => congrArg Prod.fst (hall k),
    funext fun k => congrArg (fun p : ℚ × ℚ × Int × Int => p.2.1) (hall k)⟩

theorem FlatPond_mass (nest : nestContainer) (b c : ℚ) (hP : FlatPond b c nest)
    (hb : MAXRUNUP < b) (hbc : EPS10 < b + c) : FlatPond b c (mass nest 0) := by
  obtain ⟨he, hh⟩ := mass_flat nest b c hP hb hbc
  obtain ⟨hx, hy, hbat, hea, -, hma, hmd, hna, hnd, hha, -⟩ := hP
  have r := (mass_spec nest 0).1
  exact ⟨(congrArg (fun n : nestContainer => 2 ≤ (n.hdr 0).nx) r).mpr hx,
    (congrArg (fun n : nestContainer => 2 ≤ (n.hdr 0).ny) r).mpr hy,
    (congrArg (fun n : nestContainer => n.bat 0) r).trans hbat,
    (congrArg (fun n : nestContainer => n.etaa 0) r).trans hea, he,
    (congrArg (fun n : nestContainer => n.fluxm_a 0) r).trans hma,
    (congrArg (fun n : nestContainer => n.fluxm_d 0) r).trans hmd,
    (congrArg (fun n : nestContainer => n.fluxn_a 0) r).trans hna,
    (congrArg (fun n : nestContainer => n.fluxn_d 0) r).trans hnd,
    (congrArg (fun n : nestContainer => n.htotal_a 0) r).trans hha, hh⟩

theorem FlatPond_openb (E : Env) (hE : E.sqrt 0 = 0) (s : nestContainer) (b : ℚ)
    (hb : EPS5 < b) (hP : FlatPond b 0 s) : FlatPond b 0 (call_openb E s) := by
  obtain ⟨hx, hy, hbat, hea, hed, hma, hmd, hna, hnd, hha, hhd⟩ := hP
  refine ⟨hx, hy, hbat, hea, ?_, hma, hmd, hna, hnd, hha, hhd⟩
  show Function.update s.etad 0 (openb E (s.hdr 0) (s.bat 0) (s.fluxm_d 0) (s.fluxn_d 0)
    (s.etad 0) s) 0 = fun _ => 0
  rw [Function.update_same, hbat, hmd, hnd, hed]
  exact openb_flat E hE _ b hb s

theorem FlatPond_moment_M (E : Env) (s : nestContainer) (b c : ℚ) (d f : ℚ)
    (hP : FlatPond b c s) : FlatPond b c (moment_M E s 0 d f) := by
  obtain ⟨hx, hy, hbat, hea, hed, hma, hmd, hna, hnd, hha, hhd⟩ := hP
  have hf := moment_M_flat E s c d f hma hna hed hmd
  have r := (moment_M_spec E s 0 d f).1
  exact ⟨(congrArg (fun n : nestContainer => 2 ≤ (n.hdr 0).nx) r).mpr hx,
    (congrArg (fun n : nestContainer => 2 ≤ (n.hdr 0).ny) r).mpr hy,
    (congrArg (fun n : nestContainer => n.bat 0) r).trans hbat,
    (congrArg (fun n : nestContainer => n.etaa 0) r).trans hea,
    (congrArg (fun n : nestContainer => n.etad 0) r).trans hed,
    (congrArg (fun n : nestContainer => n.fluxm_a 0) r).trans hma, hf,
    (congrArg (fun n : nestContainer => n.fluxn_a 0) r).trans hna,
    (congrArg (fun n : nestContainer => n.fluxn_d 0) r).trans hnd,
    (congrArg (fun n : nestContainer => n.htotal_a 0) r).trans hha,
    (congrArg (fun n : nestContainer => n.htotal_d 0) r).trans hhd⟩

theorem FlatPond_moment_N (E : Env) (s : nestContainer) (b c : ℚ) (d f : ℚ)
    (hP : FlatPond b c s) : FlatPond b c (moment_N E s 0 d f) := by
  obtain ⟨hx, hy, hbat, hea, hed, hma, hmd, hna, hnd, hha, hhd⟩ := hP
  have hf := moment_N_flat E s c d f hma hna hed hnd
  have r := (moment_N_spec E s 0 d f).1
  exact ⟨(congrArg (fun n : nestContainer => 2 ≤ (n.hdr 0).nx) r).mpr hx,
    (congrArg (fun n : nestContainer => 2 ≤ (n.hdr 0).ny) r).mpr hy,
    (congrArg (fun n : nestContainer => n.bat 0) r).trans hbat,
    (congrArg (fun n : nestContainer => n.etaa 0) r).trans hea,
    (congrArg (fun n : nestContainer => n.etad 0) r).trans hed,
    (congrArg (fun n : nestContainer => n.fluxm_a 0) r).trans hma,
    (congrArg (fun n : nestContainer => n.fluxm_d 0) r).trans hmd,
    (congrArg (fun n : nestContainer => n.fluxn_a 0) r).trans hna, hf,
    (congrArg (fun n : nestContainer => n.htotal_a 0) r).trans hha,
    (congrArg (fun n : nestContainer => n.htotal_d 0) r).trans hhd⟩

theorem memcpy_const (dst src : Nat → Nat → ℚ) (lev nm : Nat) (v : ℚ)
    (h1 : dst lev = fun _ => v) (h2 : src lev = fun _ => v) :
    memcpy dst src lev nm lev = fun _ => v := by
  funext k
  simp only [memcpy, Function.update_same, h1, h2, ite_self]

theorem FlatPond_update (s : nestContainer) (b c : ℚ) (hP : FlatPond b c s) :
    FlatPond b c (update s 0) := by
  obtain ⟨hx, hy, hbat, hea, hed, hma, hmd, hna, hnd, hha, hhd⟩ := hP
  exact ⟨hx, hy, hbat, memcpy_const _ _ _ _ _ hea hed, hed, memcpy_const _ _ _ _ _ hma hmd, hmd,
    memcpy_const _ _ _ _ _ hna hnd, hnd, memcpy_const _ _ _ _ _ hha hhd, hhd⟩

/-- C8 (amended, `c = 0`): on a single-level Cartesian grid with uniform bathymetry
`b > 1e-5`, zero fluxes and the surface at rest at `eta = 0`, one cycle of the main loop with
the radiating boundary (`mass`, `openb`, `moment_M`, `moment_N`, `update`) returns the flat
pond again: `eta = 0` in every cell, all fluxes zero, total depth `b`. -/
theorem flat_pond_at_rest_preserved (E : Env) (hE : E.sqrt 0 = 0) (nest : nestContainer)
    (b : ℚ) (hb : EPS5 < b) (k : Nat) (u : (ℚ × ℚ) × (ℚ × ℚ)) (hP : FlatPond b 0 nest) :
    FlatPond b 0 (main_cycle E nest false k u) := by
  have h5 : (0 : ℚ) < EPS5 := by norm_num [EPS5]
  have hb1 : MAXRUNUP < b := by
    have : MAXRUNUP < 0 := by norm_num [MAXRUNUP]
    linarith
  have hb2 : EPS10 < b + 0 := by
    have : EPS10 < EPS5 := by norm_num [EPS10, EPS5]
    linarith
  have P1 := FlatPond_mass nest b 0 hP hb1 hb2
  have P2 : FlatPond b 0 (if k ≠ 0 then call_openb E (mass nest 0) else mass nest 0) := by
    split_ifs
    · exact FlatPond_openb E hE _ b hb P1
    · exact P1
  exact FlatPond_update _ b 0 (FlatPond_moment_N E _ b 0 _ _ (FlatPond_moment_M E _ b 0 _ _ P2))

theorem rat_sqrt_zero : Rat.sqrt 0 = 0 := by
  have h := Rat.sqrt_eq 0
  rwa [mul_zero, abs_zero] at h

theorem env0_sqrt_zero : env0.sqrt 0 = 0 := rat_sqrt_zero

theorem flat2_is_flat : FlatPond 10 1 flat2 :=
  ⟨by decide, by decide, rfl, rfl, rfl, rfl, rfl, rfl, rfl, rfl, rfl⟩

theorem still2_is_flat : FlatPond 10 0 still2 :=
  ⟨by decide, by decide, rfl, rfl, rfl, rfl, rfl, rfl, rfl, rfl, rfl⟩

/-- Witness of C8 (amended): the 2 x 2 pond at rest is a flat pond with `c = 0` and is one
after a cycle of the main loop with the radiating boundary. -/
theorem flat_pond_at_rest_preserved_witness :
    env0.sqrt 0 = 0 ∧ EPS5 < 10 ∧ FlatPond 10 0 still2 ∧
    FlatPond 10 0 (main_cycle env0 still2 false 1 ((0, 0), (0, 0))) :=
  ⟨env0_sqrt_zero, by norm_num [EPS5], still2_is_flat,
    flat_pond_at_rest_preserved env0 env0_sqrt_zero still2 10 (by norm_num [EPS5]) 1
      ((0, 0), (0, 0)) still2_is_flat⟩

theorem flat2_openb (nest : nestContainer) (hbc : nest.bnc_border 1 = 0) :
    openb env0 (flat2.hdr 0) (fun _ => 10) (fun _ => 0) (fun _ => 0) (fun _ => 1) nest 0 = 0 := by
  have hz : openb_zz env0 0 0 10 = 0 := by
    unfold openb_zz
    rw [mul_zero, add_zero, env0_sqrt_zero, zero_div]
  have hr : forRange 1 (2 - 1) = fun (body : Nat → (Nat → ℚ) → (Nat → ℚ)) x => x := rfl
  have h5 : EPS5 < (10 : ℚ) := by norm_num [EPS5]
  unfold openb
  simp only [show (flat2.hdr 0).nx = 2 from rfl, show (flat2.hdr 0).ny = 2 from rfl, hr, hbc,
    if_true, gt_iff_lt, h5, hz, lt_self_iff_false, or_self, if_false, openb_clip_zero, ij_grd,
    show (2 : Nat) - 1 = 1 from rfl, show (2 : Nat) - 2 = 0 from rfl]
  simp [Function.update_apply]

/-- C8 (as stated) fails for `c = 1`: on the 2 x 2 flat pond 10 m deep with the surface at
`eta = 1` and no flux, one cycle of the main loop with the radiating boundary leaves
`eta = 0`, not 1, in the corner cell 0: `openb` assigns the boundary cells from the fluxes,
which are zero. -/
theorem flat_pond_counterexample :
    FlatPond 10 1 flat2 ∧ (0 : ℚ) < 10 ∧ (0 : ℚ) < 10 + 1 ∧
    (main_cycle env0 flat2 false 1 ((0, 0), (0, 0))).etaa 0 0 = 0 := by
  refine ⟨flat2_is_flat, by norm_num, by norm_num, ?_⟩
  show (update (moment_N env0 (moment_M env0 (call_openb env0 (mass flat2 0)) 0 0 0) 0 0 0)
    0).etaa 0 0 = 0
  have P1 := FlatPond_mass flat2 10 1 flat2_is_flat (by norm_num [MAXRUNUP])
    (by norm_num [EPS10])
  have r1 := (mass_spec flat2 0).1
  have hbc : (mass flat2 0).bnc_border 1 = 0 :=
    (congrArg (fun n : nestContainer => n.bnc_border 1) r1 :)
  have hh : (mass flat2 0).hdr 0 = flat2.hdr 0 :=
    (congrArg (fun n : nestContainer => n.hdr 0) r1 :)
  obtain ⟨-, -, hbat, -, hed, -, hmd, -, hnd, -, -⟩ := P1
  have e2 : (call_openb env0 (mass flat2 0)).etad 0 0 = 0 := by
    show Function.update (mass flat2 0).etad 0 (openb env0 ((mass flat2 0).hdr 0)
      ((mass flat2 0).bat 0) ((mass flat2 0).fluxm_d 0) ((mass flat2 0).fluxn_d 0)
      ((mass flat2 0).etad 0) (mass flat2 0)) 0 0 = 0
    rw [Function.update_same, hbat, hmd, hnd, hed, hh]
    exact flat2_openb _ hbc
  have h2 : ((call_openb env0 (mass flat2 0)).hdr 0).nm = 4 :=
    (congrArg (fun h : grd_header => h.nm) hh :)
  generalize call_openb env0 (mass flat2 0) = s2 at e2 h2 ⊢
  have r3 := (moment_M_spec env0 s2 0 0 0).1
  have e3 : (moment_M env0 s2 0 0 0).etad 0 0 = 0 :=
    (congrArg (fun n : nestContainer => n.etad 0 0) r3).trans e2
  have h3 : ((moment_M env0 s2 0 0 0).hdr 0).nm = 4 :=
    (congrArg (fun n : nestContainer => (n.hdr 0).nm) r3).trans h2
  generalize moment_M env0 s2 0 0 0 = s3 at e3 h3 ⊢
  have r4 := (moment_N_spec env0 s3 0 0 0).1
  have e4 : (moment_N env0 s3 0 0 0).etad 0 0 = 0 :=
    (congrArg (fun n : nestContainer => n.etad 0 0) r4).trans e3
  have h4 : ((moment_N env0 s3 0 0 0).hdr 0).nm = 4 :=
    (congrArg (fun n : nestContainer => (n.hdr 0).nm) r4).trans h3
  generalize moment_N env0 s3 0 0 0 = s4 at e4 h4 ⊢
  show memcpy s4.etaa s4.etad 0 (s4.hdr 0).nm 0 0 = 0
  rw [memcpy_same _ _ _ _ _ (by rw [h4]; decide), e4]

/-! ## Claims on the linear mode -/

/-- With `do_linear` set, every cell of a grid whose cell count fits the 32-bit `hdr.nm` lies
in the lateral buffer of the linear approximation. -/
theorem in_buffer_of_linear (nest : nestContainer) (lev : Nat) (base : Int) (row col : Nat)
    (hlin : nest.do_linear = true)
    (hsize : (nest.hdr lev).nx * (nest.hdr lev).ny < 2 ^ 32) :
    in_buffer (nest.hdr lev) (jupe_of nest lev base) row col := by
  unfold in_buffer jupe_of
  simp only [hlin, if_true]
  by_contra hcon
  push_neg at hcon
  obtain ⟨h1, h2, h3, h4⟩ := hcon
  have hx : 2000001 ≤ (nest.hdr lev).nx := by omega
  have hy : 2000001 ≤ (nest.hdr lev).ny := by omega
  have := Nat.mul_le_mul hx hy
  omega

theorem moment_M_xp_linear (E : Env) (nest : nestContainer) (lev row col : Nat)
    (dpa dd df : ℚ) (hbuf : in_buffer (nest.hdr lev) (jupe_of nest lev 5) row col) :
    moment_M_xp E nest lev row col dpa dd df = moment_M_linear_ref E nest lev row col dd df := by
  unfold moment_M_xp moment_M_linear_ref
  simp only [if_pos (Or.inr hbuf : dpa < E.EPS4 ∨ _)]
  congr 1
  by_cases hm : nest.manning lev ≠ 0 ∧
      nest.bat lev (row * (nest.hdr lev).nx + col) < nest.manning_depth
  · simp only [if_pos hm, if_pos hm.1]
    split_ifs <;> ring
  · simp only [if_neg hm]
    split_ifs <;> ring

theorem moment_M_face_wet (E : Env) (nest : nestContainer) (lev row col : Nat) (d0 f0 dd df : ℚ)
    (vv : Bool) (hb : nest.bat lev (row * (nest.hdr lev).nx + col) > MAXRUNUP)
    (hw : moment_M_wetdry nest lev (row * (nest.hdr lev).nx + col)
        (mean_depth nest lev (row * (nest.hdr lev).nx + col)
          (row * (nest.hdr lev).nx + col + 1)) = some (dd, df, vv))
    (h4 : ¬ dd < E.EPS4) :
    (moment_M_face E nest lev row col d0 f0).stored = true ∧
    (moment_M_face E nest lev row col d0 f0).xp
      = moment_M_xp E nest lev row col
          (mean_depth nest lev (row * (nest.hdr lev).nx + col)
            (row * (nest.hdr lev).nx + col + 1))
          dd (if df < E.EPS4 then E.EPS4 else df) := by
  unfold moment_M_face
  simp only [if_neg (not_le.mpr hb), hw, if_neg h4]
  exact ⟨trivial, trivial⟩

/-- In linear mode on a grid whose cell count fits `hdr.nm`, the flux `moment_M` stores at a
visited face that the moving boundary classifies as carrying flux is the linear reference
value. -/
theorem moment_M_linear (E : Env) (nest : nestContainer) (lev : Nat) (d f : ℚ)
    (hlin : nest.do_linear = true)
    (hsize : (nest.hdr lev).nx * (nest.hdr lev).ny < 2 ^ 32)
    (row col : Nat) (dd df : ℚ) (vv : Bool)
    (hr : 0 ≤ row) (hr2 : row < ((nest.hdr lev).ny - (if lev > 0 then 0 else 1))) (hc : (if lev > 0 then 1 else 0) ≤ col) (hc2 : col < ((nest.hdr lev).nx - 1))
    (hb : nest.bat lev (row * (nest.hdr lev).nx + col) > MAXRUNUP)
    (hw : moment_M_wetdry nest lev (row * (nest.hdr lev).nx + col)
        (mean_depth nest lev (row * (nest.hdr lev).nx + col)
          (row * (nest.hdr lev).nx + col + 1)) = some (dd, df, vv))
    (h4 : ¬ dd < E.EPS4) :
    (moment_M E nest lev d f).fluxm_d lev (row * (nest.hdr lev).nx + col)
      = moment_M_linear_ref E nest lev row col dd (if df < E.EPS4 then E.EPS4 else df) := by
  obtain ⟨-, -, hin, -⟩ := moment_M_spec E nest lev d f
  have h := congrArg Prod.fst (hin row col hr hr2 hc hc2)
  obtain ⟨hs, hx⟩ := moment_M_face_wet E nest lev row col 0 0 dd df vv hb hw h4
  simp only [getM, moment_M_val, hs, if_true, hx] at h
  rw [h]
  exact moment_M_xp_linear E nest lev row col _ _ _ (in_buffer_of_linear nest lev 5 row col hlin hsize)

theorem moment_N_xp_linear (E : Env) (nest : nestContainer) (lev row col : Nat)
    (dpa dd df : ℚ) (hbuf : in_buffer (nest.hdr lev) (jupe_of nest lev 5) row col) :
    moment_N_xp E nest lev row col dpa dd df = moment_N_linear_ref E nest lev row col dd df := by
  unfold moment_N_xp moment_N_linear_ref
  simp only [if_pos (Or.inr hbuf : dpa < E.EPS4 ∨ _)]
  congr 1
  by_cases hm : nest.manning lev ≠ 0 ∧
      nest.bat lev (row * (nest.hdr lev).nx + col) < nest.manning_depth
  · simp only [if_pos hm, if_pos hm.1]
    split_ifs <;> ring
  · simp only [if_neg hm]
    split_ifs <;> ring

theorem moment_N_face_wet (E : Env) (nest : nestContainer) (lev row col : Nat) (d0 f0 dd df : ℚ)
    (vv : Bool) (hb : nest.bat lev (row * (nest.hdr lev).nx + col) > MAXRUNUP)
    (hw : moment_N_wetdry nest lev (row * (nest.hdr lev).nx + col)
        (mean_depth nest lev (row * (nest.hdr lev).nx + col)
          (row * (nest.hdr lev).nx + col + (nest.hdr lev).nx)) = some (dd, df, vv))
    (h4 : ¬ dd < E.EPS4) :
    (moment_N_face E nest lev row col d0 f0).stored = true ∧
    (moment_N_face E nest lev row col d0 f0).xp
      = moment_N_xp E nest lev row col
          (mean_depth nest lev (row * (nest.hdr lev).nx + col)
            (row * (nest.hdr lev).nx + col + (nest.hdr lev).nx))
          dd (if df < E.EPS4 then E.EPS4 else df) := by
  unfold moment_N_face
  simp only [if_neg (not_le.mpr hb), hw, if_neg h4]
  exact ⟨trivial, trivial⟩

/-- In linear mode on a grid whose cell count fits `hdr.nm`, the flux `moment_N` stores at a
visited face that the moving boundary classifies as carrying flux is the linear reference
value. -/
theorem moment_N_linear (E : Env) (nest : nestContainer) (lev : Nat) (d f : ℚ)
    (hlin : nest.do_linear = true)
    (hsize : (nest.hdr lev).nx * (nest.hdr lev).ny < 2 ^ 32)
    (row col : Nat) (dd df : ℚ) (vv : Bool)
    (hr : (if lev > 0 then 1 else 0) ≤ row) (hr2 : row < ((nest.hdr lev).ny - 1)) (hc : 0 ≤ col) (hc2 : col < ((nest.hdr lev).nx - (if lev > 0 then 0 else 1)))
    (hb : nest.bat lev (row * (nest.hdr lev).nx + col) > MAXRUNUP)
    (hw : moment_N_wetdry nest lev (row * (nest.hdr lev).nx + col)
        (mean_depth nest lev (row * (nest.hdr lev).nx + col)
          (row * (nest.hdr lev).nx + col + (nest.hdr lev).nx)) = some (dd, df, vv))
    (h4 : ¬ dd < E.EPS4) :
    (moment_N E nest lev d f).fluxn_d lev (row * (nest.hdr lev).nx + col)
      = moment_N_linear_ref E nest lev row col dd (if df < E.EPS4 then E.EPS4 else df) := by
  obtain ⟨-, -, hin, -⟩ := moment_N_spec E nest lev d f
  have h := congrArg Prod.fst (hin row col hr hr2 hc hc2)
  obtain ⟨hs, hx⟩ := moment_N_face_wet E nest lev row col 0 0 dd df vv hb hw h4
  simp only [getN, moment_N_val, hs, if_true, hx] at h
  rw [h]
  exact moment_N_xp_linear E nest lev row col _ _ _ (in_buffer_of_linear nest lev 5 row col hlin hsize)

theorem moment_sp_M_xp_linear (E : Env) (nest : nestContainer) (lev row col : Nat)
    (dpa dd df : ℚ) (hbuf : in_buffer (nest.hdr lev) (jupe_of nest lev 10) row col) :
    moment_sp_M_xp E nest lev row col dpa dd df = moment_sp_M_linear_ref E nest lev row col dd df := by
  unfold moment_sp_M_xp moment_sp_M_linear_ref
  simp only [if_pos (Or.inr hbuf : dpa < EPS3 ∨ _)]
  congr 1
  by_cases hm : nest.manning lev ≠ 0
  · simp only [if_pos hm, if_pos hm]
    split_ifs <;> ring
  · simp only [if_neg hm]
    split_ifs <;> ring

theorem moment_sp_M_face_wet (E : Env) (nest : nestContainer) (lev row col : Nat) (d0 f0 dd df : ℚ)
    (vv : Bool) (hb : nest.bat lev (row * (nest.hdr lev).nx + col) > MAXRUNUP)
    (hw : moment_sp_M_wetdry nest lev (row * (nest.hdr lev).nx + col)
        (mean_depth nest lev (row * (nest.hdr lev).nx + col)
          (row * (nest.hdr lev).nx + col + 1)) = some (dd, df, vv))
    (h4 : ¬ dd < EPS5) :
    (moment_sp_M_face E nest lev row col d0 f0).stored = true ∧
    (moment_sp_M_face E nest lev row col d0 f0).xp
      = moment_sp_M_xp E nest lev row col
          (mean_depth nest lev (row * (nest.hdr lev).nx + col)
            (row * (nest.hdr lev).nx + col + 1))
          dd (if df < EPS3 then EPS3 else df) := by
  unfold moment_sp_M_face
  simp only [if_neg (not_le.mpr hb), hw, if_neg h4]
  exact ⟨trivial, trivial⟩

/-- In linear mode on a grid whose cell count fits `hdr.nm`, the flux `moment_sp_M` stores at a
visited face that the moving boundary classifies as carrying flux is the linear reference
value. -/
theorem moment_sp_M_linear (E : Env) (nest : nestContainer) (lev : Nat) (d f : ℚ)
    (hlin : nest.do_linear = true)
    (hsize : (nest.hdr lev).nx * (nest.hdr lev).ny < 2 ^ 32)
    (row col : Nat) (dd df : ℚ) (vv : Bool)
    (hr : 0 ≤ row) (hr2 : row < ((nest.hdr lev).ny - (if lev > 0 then 0 else 1))) (hc : (if lev > 0 then 1 else 0) ≤ col) (hc2 : col < ((nest.hdr lev).nx - 1))
    (hb : nest.bat lev (row * (nest.hdr lev).nx + col) > MAXRUNUP)
    (hw : moment_sp_M_wetdry nest lev (row * (nest.hdr lev).nx + col)
        (mean_depth nest lev (row * (nest.hdr lev).nx + col)
          (row * (nest.hdr lev).nx + col + 1)) = some (dd, df, vv))
    (h4 : ¬ dd < EPS5) :
    (moment_sp_M E nest lev d f).fluxm_d lev (row * (nest.hdr lev).nx + col)
      = moment_sp_M_linear_ref E nest lev row col dd (if df < EPS3 then EPS3 else df) := by
  obtain ⟨-, -, hin, -⟩ := moment_sp_M_spec E nest lev d f
  have h := congrArg Prod.fst (hin row col hr hr2 hc hc2)
  obtain ⟨hs, hx⟩ := moment_sp_M_face_wet E nest lev row col 0 0 dd df vv hb hw h4
  simp only [getM, moment_sp_M_val, hs, if_true, hx] at h
  rw [h]
  exact moment_sp_M_xp_linear E nest lev row col _ _ _ (in_buffer_of_linear nest lev 10 row col hlin hsize)

theorem moment_sp_N_xp_linear (E : Env) (nest : nestContainer) (lev row col : Nat)
    (dpa dd df : ℚ) (hbuf : in_buffer (nest.hdr lev) (jupe_of nest lev 10) row col) :
    moment_sp_N_xp E nest lev row col dpa dd df = moment_sp_N_linear_ref E nest lev row col dd df := by
  unfold moment_sp_N_xp moment_sp_N_linear_ref
  simp only [if_pos (Or.inl hbuf : _ ∨ dpa < EPS3)]
  congr 1
  by_cases hm : nest.manning lev ≠ 0
  · simp only [if_pos hm, if_pos hm]
    split_ifs <;> ring
  · simp only [if_neg hm]
    split_ifs <;> ring

theorem moment_sp_N_face_wet (E : Env) (nest : nestContainer) (lev row col : Nat) (d0 f0 dd df : ℚ)
    (vv : Bool) (hb : nest.bat lev (row * (nest.hdr lev).nx + col) > MAXRUNUP)
    (hw : moment_sp_N_wetdry nest lev (row * (nest.hdr lev).nx + col)
        (mean_depth nest lev (row * (nest.hdr lev).nx + col)
          (row * (nest.hdr lev).nx + col + (nest.hdr lev).nx)) = some (dd, df, vv))
    (h4 : ¬ dd < EPS5) :
    (moment_sp_N_face E nest lev row col d0 f0).stored = true ∧
    (moment_sp_N_face E nest lev row col d0 f0).xp
      = moment_sp_N_xp E nest lev row col
          (mean_depth nest lev (row * (nest.hdr lev).nx + col)
            (row * (nest.hdr lev).nx + col + (nest.hdr lev).nx))
          dd (if df < EPS3 then EPS3 else df) := by
  unfold moment_sp_N_face
  simp only [if_neg (not_le.mpr hb), hw, if_neg h4]
  exact ⟨trivial, trivial⟩

/-- In linear mode on a grid whose cell count fits `hdr.nm`, the flux `moment_sp_N` stores at a
visited face that the moving boundary classifies as carrying flux is the linear reference
value. -/
theorem moment_sp_N_linear (E : Env) (nest : nestContainer) (lev : Nat) (d f : ℚ)
    (hlin : nest.do_linear = true)
    (hsize : (nest.hdr lev).nx * (nest.hdr lev).ny < 2 ^ 32)
    (row col : Nat) (dd df : ℚ) (vv : Bool)
    (hr : (if lev > 0 then 1 else 0) ≤ row) (hr2 : row < ((nest.hdr lev).ny - 1)) (hc : 0 ≤ col) (hc2 : col < ((nest.hdr lev).nx - (if lev > 0 then 0 else 1)))
    (hb : nest.bat lev (row * (nest.hdr lev).nx + col) > MAXRUNUP)
    (hw : moment_sp_N_wetdry nest lev (row * (nest.hdr lev).nx + col)
        (mean_depth nest lev (row * (nest.hdr lev).nx + col)
          (row * (nest.hdr lev).nx + col + (nest.hdr lev).nx)) = some (dd, df, vv))
    (h4 : ¬ dd < EPS5) :
    (moment_sp_N E nest lev d f).fluxn_d lev (row * (nest.hdr lev).nx + col)
      = moment_sp_N_linear_ref E nest lev row col dd (if df < EPS3 then EPS3 else df) := by
  obtain ⟨-, -, hin, -⟩ := moment_sp_N_spec E nest lev d f
  have h := congrArg Prod.fst (hin row col hr hr2 hc hc2)
  obtain ⟨hs, hx⟩ := moment_sp_N_face_wet E nest lev row col 0 0 dd df vv hb hw h4
  simp only [getN, moment_sp_N_val, hs, if_true, hx] at h
  rw [h]
  exact moment_sp_N_xp_linear E nest lev row col _ _ _ (in_buffer_of_linear nest lev 10 row col hlin hsize)

/-- C9: with `do_linear` set, on a grid whose number of cells fits the 32-bit `hdr.nm`, and
for every state, the flux that `moment_M`, `moment_N`, `moment_sp_M` and `moment_sp_N` store at a
visited face which the moving boundary gives a face depth `dd` (not below the depth floor) is
the linear reference value: the discharge-limited
`((1 - ff) * F_a - c * dd * (eta_d(B) - eta_d(A)) + Coriolis) / (1 + ff)` with `c = (dt/dx) * g`
(`r3m`, `r3n` in spherical coordinates); no convection term enters. -/
theorem linear_mode_has_no_advection (E : Env) (nest : nestContainer) (lev : Nat) (d f : ℚ)
    (hlin : nest.do_linear = true)
    (hsize : (nest.hdr lev).nx * (nest.hdr lev).ny < 2 ^ 32) :
    (∀ row col dd df vv,
      row < (nest.hdr lev).ny - (if lev > 0 then 0 else 1) →
      (if lev > 0 then 1 else 0) ≤ col → col < (nest.hdr lev).nx - 1 →
      nest.bat lev (row * (nest.hdr lev).nx + col) > MAXRUNUP →
      moment_M_wetdry nest lev (row * (nest.hdr lev).nx + col)
        (mean_depth nest lev (row * (nest.hdr lev).nx + col)
          (row * (nest.hdr lev).nx + col + 1)) = some (dd, df, vv) →
      ¬ dd < E.EPS4 →
      (moment_M E nest lev d f).fluxm_d lev (row * (nest.hdr lev).nx + col)
        = moment_M_linear_ref E nest lev row col dd (if df < E.EPS4 then E.EPS4 else df)) ∧
    (∀ row col dd df vv,
      (if lev > 0 then 1 else 0) ≤ row → row < (nest.hdr lev).ny - 1 →
      col < (nest.hdr lev).nx - (if lev > 0 then 0 else 1) →
      nest.bat lev (row * (nest.hdr lev).nx + col) > MAXRUNUP →
      moment_N_wetdry nest lev (row * (nest.hdr lev).nx + col)
        (mean_depth nest lev (row * (nest.hdr lev).nx + col)
          (row * (nest.hdr lev).nx + col + (nest.hdr lev).nx)) = some (dd, df, vv) →
      ¬ dd < E.EPS4 →
      (moment_N E nest lev d f).fluxn_d lev (row * (nest.hdr lev).nx + col)
        = moment_N_linear_ref E nest lev row col dd (if df < E.EPS4 then E.EPS4 else df)) ∧
    (∀ row col dd df vv,
      row < (nest.hdr lev).ny - (if lev > 0 then 0 else 1) →
      (if lev > 0 then 1 else 0) ≤ col → col < (nest.hdr lev).nx - 1 →
      nest.bat lev (row * (nest.hdr lev).nx + col) > MAXRUNUP →
      moment_sp_M_wetdry nest lev (row * (nest.hdr lev).nx + col)
        (mean_depth nest lev (row * (nest.hdr lev).nx + col)
          (row * (nest.hdr lev).nx + col + 1)) = some (dd, df, vv) →
      ¬ dd < EPS5 →
      (moment_sp_M E nest lev d f).fluxm_d lev (row * (nest.hdr lev).nx + col)
        = moment_sp_M_linear_ref E nest lev row col dd (if df < EPS3 then EPS3 else df)) ∧
    (∀ row col dd df vv,
      (if lev > 0 then 1 else 0) ≤ row → row < (nest.hdr lev).ny - 1 →
      col < (nest.hdr lev).nx - (if lev > 0 then 0 else 1) →
      nest.bat lev (row * (nest.hdr lev).nx + col) > MAXRUNUP →
      moment_sp_N_wetdry nest lev (row * (nest.hdr lev).nx + col)
        (mean_depth nest lev (row * (nest.hdr lev).nx + col)
          (row * (nest.hdr lev).nx + col + (nest.hdr lev).nx)) = some (dd, df, vv) →
      ¬ dd < EPS5 →
      (moment_sp_N E nest lev d f).fluxn_d lev (row * (nest.hdr lev).nx + col)
        = moment_sp_N_linear_ref E nest lev row col dd (if df < EPS3 then EPS3 else df)) :=
  ⟨fun row col dd df vv h1 h2 h3 hb hw h4 =>
      moment_M_linear E nest lev d f hlin hsize row col dd df vv (Nat.zero_le _) h1 h2 h3 hb hw h4,
   fun row col dd df vv h1 h2 h3 hb hw h4 =>
      moment_N_linear E nest lev d f hlin hsize row col dd df vv h1 h2 (Nat.zero_le _) h3 hb hw h4,
   fun row col dd df vv h1 h2 h3 hb hw h4 =>
      moment_sp_M_linear E nest lev d f hlin hsize row col dd df vv (Nat.zero_le _) h1 h2 h3 hb hw
        h4,
   fun row col dd df vv h1 h2 h3 hb hw h4 =>
      moment_sp_N_linear E nest lev d f hlin hsize row col dd df vv h1 h2 (Nat.zero_le _) h3 hb hw
        h4⟩

/-- Witness of C9: on the 2 x 2 linear basin after the continuity step, the flux `moment_M`
stores through the east face of cell 0 is the linear value `dd * (eta_d(A) - eta_d(B))`
with `dd = (11 + 10) / 2`, that is 21/2. -/
theorem linear_mode_has_no_advection_witness :
    lin2.do_linear = true ∧ (lin2.hdr 0).nx * (lin2.hdr 0).ny < 2 ^ 32 ∧
    (moment_M env0 lin2 0 0 0).fluxm_d 0 0 = 21 / 2 := by
  have hsize : (lin2.hdr 0).nx * (lin2.hdr 0).ny < 2 ^ 32 := by
    norm_num [lin2, basin2, nest0, hdr0]
  refine ⟨rfl, hsize, ?_⟩
  have h := (linear_mode_has_no_advection env0 lin2 0 0 0 rfl hsize).1 0 0 (21 / 2) (21 / 2) true
    (by norm_num [lin2, basin2, nest0, hdr0]) (by norm_num)
    (by norm_num [lin2, basin2, nest0, hdr0])
    (by norm_num [lin2, basin2, nest0, hdr0, MAXRUNUP])
    (by norm_num [moment_M_wetdry, mean_depth, lin2, basin2, nest0, hdr0, EPS5])
    (by norm_num [env0, EPS4_])
  have e : (0 : Nat) * (lin2.hdr 0).nx + 0 = 0 := by norm_num
  rw [e] at h
  rw [h]
  norm_num [moment_M_linear_ref, limit_discharge, lin2, basin2, nest0, hdr0, env0, EPS4_,
    NORMAL_GRAV, V_LIMIT, EPS10, abs_lt]

/-! ## Claims on the sign antisymmetry of the linear mode -/

theorem main_cycle_hdr (E : Env) (nest : nestContainer) (u : (ℚ × ℚ) × (ℚ × ℚ)) :
    (moment_N E (moment_M E (mass nest 0) 0 u.1.1 u.1.2) 0 u.2.1 u.2.2).hdr = nest.hdr := by
  have h1 : (moment_N E (moment_M E (mass nest 0) 0 u.1.1 u.1.2) 0 u.2.1 u.2.2).hdr
      = (moment_M E (mass nest 0) 0 u.1.1 u.1.2).hdr :=
    (congrArg nestContainer.hdr (moment_N_spec E _ 0 u.2.1 u.2.2).1 :)
  have h2 : (moment_M E (mass nest 0) 0 u.1.1 u.1.2).hdr = (mass nest 0).hdr :=
    (congrArg nestContainer.hdr (moment_M_spec E _ 0 u.1.1 u.1.2).1 :)
  have h3 : (mass nest 0).hdr = nest.hdr := (congrArg nestContainer.hdr (mass_spec nest 0).1 :)
  rw [h1, h2, h3]

/-- The elevation that the first cycle of a Cartesian run commits is the one `mass` computed. -/
theorem main_cycle_etaa (E : Env) (nest : nestContainer) (u : (ℚ × ℚ) × (ℚ × ℚ)) (k : Nat)
    (hk : k < (nest.hdr 0).nm) :
    (main_cycle E nest false 0 u).etaa 0 k = (mass nest 0).etad 0 k := by
  have h1 : (moment_N E (moment_M E (mass nest 0) 0 u.1.1 u.1.2) 0 u.2.1 u.2.2).etad
      = (moment_M E (mass nest 0) 0 u.1.1 u.1.2).etad :=
    (congrArg nestContainer.etad (moment_N_spec E _ 0 u.2.1 u.2.2).1 :)
  have h2 : (moment_M E (mass nest 0) 0 u.1.1 u.1.2).etad = (mass nest 0).etad :=
    (congrArg nestContainer.etad (moment_M_spec E _ 0 u.1.1 u.1.2).1 :)
  have e : (main_cycle E nest false 0 u).etaa 0 k
      = memcpy (moment_N E (moment_M E (mass nest 0) 0 u.1.1 u.1.2) 0 u.2.1 u.2.2).etaa
          (moment_N E (moment_M E (mass nest 0) 0 u.1.1 u.1.2) 0 u.2.1 u.2.2).etad 0
          ((moment_N E (moment_M E (mass nest 0) 0 u.1.1 u.1.2) 0 u.2.1 u.2.2).hdr 0).nm 0 k :=
    rfl
  rw [e, main_cycle_hdr, memcpy_same _ _ _ _ _ hk, h1, h2]

/-- The east flux that the first cycle of a Cartesian run commits is the one `moment_M`
computed from the state `mass` left. -/
theorem main_cycle_fluxm (E : Env) (nest : nestContainer) (u : (ℚ × ℚ) × (ℚ × ℚ)) (k : Nat)
    (hk : k < (nest.hdr 0).nm) :
    (main_cycle E nest false 0 u).fluxm_a 0 k
      = (moment_M E (mass nest 0) 0 u.1.1 u.1.2).fluxm_d 0 k := by
  have h1 : (moment_N E (moment_M E (mass nest 0) 0 u.1.1 u.1.2) 0 u.2.1 u.2.2).fluxm_d
      = (moment_M E (mass nest 0) 0 u.1.1 u.1.2).fluxm_d :=
    (congrArg nestContainer.fluxm_d (moment_N_spec E _ 0 u.2.1 u.2.2).1 :)
  have e : (main_cycle E nest false 0 u).fluxm_a 0 k
      = memcpy (moment_N E (moment_M E (mass nest 0) 0 u.1.1 u.1.2) 0 u.2.1 u.2.2).fluxm_a
          (moment_N E (moment_M E (mass nest 0) 0 u.1.1 u.1.2) 0 u.2.1 u.2.2).fluxm_d 0
          ((moment_N E (moment_M E (mass nest 0) 0 u.1.1 u.1.2) 0 u.2.1 u.2.2).hdr 0).nm 0 k :=
    rfl
  rw [e, main_cycle_hdr, memcpy_same _ _ _ _ _ hk, h1]

theorem mass_zzz_negated (nest : nestContainer) (lev : Nat) (c : Nat × Nat) :
    mass_zzz (negated nest) lev c = -mass_zzz nest lev c := by
  simp only [mass_zzz, negated]
  ring

/-- The elevation `mass` stores in a cell that is not permanently dry and holds water. -/
theorem mass_etad_wet (nest : nestContainer) (lev row col : Nat)
    (hr : row < (nest.hdr lev).ny) (hc : col < (nest.hdr lev).nx)
    (hb : nest.bat lev (row * (nest.hdr lev).nx + col) > MAXRUNUP)
    (hw : EPS10 < mass_zzz nest lev (row, col) + nest.bat lev (row * (nest.hdr lev).nx + col)) :
    (mass nest lev).etad lev (row * (nest.hdr lev).nx + col) = mass_zzz nest lev (row, col) := by
  have h := congrArg Prod.fst ((mass_spec nest lev).2.2.1 row col hr hc)
  simp only [mass_get, mass_val, if_pos hb, if_pos hw] at h
  exact h

theorem basin2_mass_vals :
    (mass basin2 0).etad 0 0 = 1 ∧ (mass basin2 0).etad 0 1 = 0 ∧
    (mass basin2 0).htotal_d 0 0 = 11 ∧ (mass basin2 0).htotal_d 0 1 = 10 := by
  have v0 : mass_get 0 (mass basin2 0) 0 = mass_val basin2 0 (0, 0) (mass_get 0 basin2 0) :=
    (mass_spec basin2 0).2.2.1 0 0 (by decide) (by decide)
  have v1 : mass_get 0 (mass basin2 0) 1 = mass_val basin2 0 (0, 1) (mass_get 0 basin2 1) :=
    (mass_spec basin2 0).2.2.1 0 1 (by decide) (by decide)
  have w0 : mass_val basin2 0 (0, 0) (mass_get 0 basin2 0) = (1, 11, 0, 0) := by
    norm_num [mass_val, mass_zzz, mass_get, basin2, nest0, hdr0, MAXRUNUP, EPS10, EPS1]
  have w1 : mass_val basin2 0 (0, 1) (mass_get 0 basin2 1) = (0, 10, 0, 0) := by
    norm_num [mass_val, mass_zzz, mass_get, basin2, nest0, hdr0, MAXRUNUP, EPS10, EPS1]
  rw [w0] at v0
  rw [w1] at v1
  exact ⟨congrArg Prod.fst v0, congrArg Prod.fst v1,
    congrArg (fun p : ℚ × ℚ × Int × Int => p.2.1) v0,
    congrArg (fun p : ℚ × ℚ × Int × Int => p.2.1) v1⟩

theorem negated_basin2_mass_vals :
    (mass (negated basin2) 0).etad 0 0 = -1 ∧ (mass (negated basin2) 0).etad 0 1 = 0 ∧
    (mass (negated basin2) 0).htotal_d 0 0 = 9 ∧ (mass (negated basin2) 0).htotal_d 0 1 = 10 := by
  have v0 : mass_get 0 (mass (negated basin2) 0) 0
      = mass_val (negated basin2) 0 (0, 0) (mass_get 0 (negated basin2) 0) :=
    (mass_spec (negated basin2) 0).2.2.1 0 0 (by decide) (by decide)
  have v1 : mass_get 0 (mass (negated basin2) 0) 1
      = mass_val (negated basin2) 0 (0, 1) (mass_get 0 (negated basin2) 1) :=
    (mass_spec (negated basin2) 0).2.2.1 0 1 (by decide) (by decide)
  have w0 : mass_val (negated basin2) 0 (0, 0) (mass_get 0 (negated basin2) 0)
      = (-1, 9, 0, 0) := by
    norm_num [mass_val, mass_zzz, mass_get, negated, basin2, nest0, hdr0, MAXRUNUP, EPS10, EPS1]
  have w1 : mass_val (negated basin2) 0 (0, 1) (mass_get 0 (negated basin2) 1)
      = (0, 10, 0, 0) := by
    norm_num [mass_val, mass_zzz, mass_get, negated, basin2, nest0, hdr0, MAXRUNUP, EPS10, EPS1]
  rw [w0] at v0
  rw [w1] at v1
  exact ⟨congrArg Prod.fst v0, congrArg Prod.fst v1,
    congrArg (fun p : ℚ × ℚ × Int × Int => p.2.1) v0,
    congrArg (fun p : ℚ × ℚ × Int × Int => p.2.1) v1⟩

theorem basin2_M_val (e h : Nat → Nat → ℚ) (lb sb : Nat → Nat → Int) (old : ℚ × ℚ)
    (e0 : e 0 0 = 1) (e1 : e 0 1 = 0) (h0 : h 0 0 = 11) (h1 : h 0 1 = 10) :
    (moment_M_val env0 (setMass basin2 e h lb sb) 0 (0, 0) old).1 = 21 / 2 := by
  norm_num [moment_M_val, moment_M_face, moment_M_wetdry, moment_M_xp, mean_depth, face_vel,
    limit_discharge, jupe_of, in_buffer, setMass, basin2, nest0, hdr0, env0, e0, e1, h0, h1,
    MAXRUNUP, EPS5, EPS4_, EPS3, EPS10, NORMAL_GRAV, V_LIMIT, abs_lt]

theorem negated_basin2_M_val (e h : Nat → Nat → ℚ) (lb sb : Nat → Nat → Int) (old : ℚ × ℚ)
    (e0 : e 0 0 = -1) (e1 : e 0 1 = 0) (h0 : h 0 0 = 9) (h1 : h 0 1 = 10) :
    (moment_M_val env0 (setMass (negated basin2) e h lb sb) 0 (0, 0) old).1 = -(19 / 2) := by
  norm_num [moment_M_val, moment_M_face, moment_M_wetdry, moment_M_xp, mean_depth, face_vel,
    limit_discharge, jupe_of, in_buffer, setMass, negated, basin2, nest0, hdr0, env0, e0, e1, h0,
    h1, MAXRUNUP, EPS5, EPS4_, EPS3, EPS10, NORMAL_GRAV, V_LIMIT, abs_lt]

/-- C10 (as stated) fails: the 2 x 2 basin is in linear mode, without friction or Coriolis
term, all wet, with `h_total_a = bat + eta_a` in the state and in its negation; after one
cycle (mass, moment_M, moment_N, update) the flux through the east face of cell 0 is 21/2
from the state and -19/2 from the negated state, which is not the negation of 21/2: the
face depth `dd = (h_total_d(A) + h_total_d(B)) / 2` is 21/2 in one run and 19/2 in the
other. -/
theorem linear_antisymmetry_counterexample :
    basin2.do_linear = true ∧ basin2.manning 0 = 0 ∧ basin2.do_Coriolis = false ∧
    (∀ k, basin2.htotal_a 0 k = basin2.bat 0 k + basin2.etaa 0 k) ∧
    (∀ k, (negated basin2).htotal_a 0 k = (negated basin2).bat 0 k + (negated basin2).etaa 0 k) ∧
    (∀ k, 0 < basin2.htotal_a 0 k ∧ 0 < (negated basin2).htotal_a 0 k) ∧
    (main_cycle env0 basin2 false 0 ((0, 0), (0, 0))).fluxm_a 0 0 = 21 / 2 ∧
    (main_cycle env0 (negated basin2) false 0 ((0, 0), (0, 0))).fluxm_a 0 0 = -(19 / 2) ∧
    (main_cycle env0 (negated basin2) false 0 ((0, 0), (0, 0))).fluxm_a 0 0
      ≠ -(main_cycle env0 basin2 false 0 ((0, 0), (0, 0))).fluxm_a 0 0 := by
  have a1 : (main_cycle env0 basin2 false 0 ((0, 0), (0, 0))).fluxm_a 0 0 = 21 / 2 := by
    rw [main_cycle_fluxm env0 basin2 _ 0 (by decide)]
    obtain ⟨e0, e1, h0, h1⟩ := basin2_mass_vals
    have hs := mass_frame basin2 0
    generalize (mass basin2 0).etad = e at hs e0 e1
    generalize (mass basin2 0).htotal_d = h at hs h0 h1
    generalize (mass basin2 0).long_beach = lb at hs
    generalize (mass basin2 0).short_beach = sb at hs
    rw [hs]
    have hM := congrArg Prod.fst
      ((moment_M_spec env0 (setMass basin2 e h lb sb) 0 0 0).2.2.1 0 0 (Nat.le_refl _)
        (by norm_num [setMass, basin2, nest0, hdr0]) (by norm_num)
        (by norm_num [setMass, basin2, nest0, hdr0]))
    rw [basin2_M_val e h lb sb _ e0 e1 h0 h1] at hM
    exact hM
  have a2 : (main_cycle env0 (negated basin2) false 0 ((0, 0), (0, 0))).fluxm_a 0 0
      = -(19 / 2) := by
    rw [main_cycle_fluxm env0 (negated basin2) _ 0 (by decide)]
    obtain ⟨e0, e1, h0, h1⟩ := negated_basin2_mass_vals
    have hs := mass_frame (negated basin2) 0
    generalize (mass (negated basin2) 0).etad = e at hs e0 e1
    generalize (mass (negated basin2) 0).htotal_d = h at hs h0 h1
    generalize (mass (negated basin2) 0).long_beach = lb at hs
    generalize (mass (negated basin2) 0).short_beach = sb at hs
    rw [hs]
    have hM := congrArg Prod.fst
      ((moment_M_spec env0 (setMass (negated basin2) e h lb sb) 0 0 0).2.2.1 0 0 (Nat.le_refl _)
        (by norm_num [setMass, negated, basin2, nest0, hdr0]) (by norm_num)
        (by norm_num [setMass, negated, basin2, nest0, hdr0]))
    rw [negated_basin2_M_val e h lb sb _ e0 e1 h0 h1] at hM
    exact hM
  refine ⟨rfl, rfl, rfl, ?_, ?_, ?_, a1, a2, ?_⟩
  · intro k
    by_cases hk : k = 0 <;> norm_num [basin2, nest0, hk]
  · intro k
    by_cases hk : k = 0 <;> norm_num [negated, basin2, nest0, hk]
  · intro k
    by_cases hk : k = 0 <;> norm_num [negated, basin2, nest0, hk]
  · rw [a1, a2]
    norm_num

/-- C10 (amended): on a Cartesian base grid whose `nm` is `nx * ny`, if every cell is not
permanently dry and holds water after the continuity step from the state and from its
negation (`bat + z > 1e-10` and `bat - z > 1e-10` for the new elevation `z`), then the
elevation `eta_a` committed by one cycle (mass, moment_M, moment_N, update) started from the
state with `eta_a`, `flux_m_a` and `flux_n_a` negated is, cell for cell, the exact negation of
the one committed from the state. -/
theorem eta_antisymmetric_after_one_cycle (E : Env) (nest : nestContainer)
    (u v : (ℚ × ℚ) × (ℚ × ℚ))
    (hnm : (nest.hdr 0).nm = (nest.hdr 0).nx * (nest.hdr 0).ny)
    (hwet : ∀ row col, row < (nest.hdr 0).ny → col < (nest.hdr 0).nx →
      nest.bat 0 (row * (nest.hdr 0).nx + col) > MAXRUNUP ∧
      EPS10 < mass_zzz nest 0 (row, col) + nest.bat 0 (row * (nest.hdr 0).nx + col) ∧
      EPS10 < -mass_zzz nest 0 (row, col) + nest.bat 0 (row * (nest.hdr 0).nx + col)) :
    ∀ k, k < (nest.hdr 0).nm →
      (main_cycle E (negated nest) false 0 v).etaa 0 k
        = -(main_cycle E nest false 0 u).etaa 0 k := by
  intro k hk
  rw [main_cycle_etaa E (negated nest) v k hk, main_cycle_etaa E nest u k hk]
  rw [hnm] at hk
  have hx : 0 < (nest.hdr 0).nx := by
    rcases Nat.eq_zero_or_pos (nest.hdr 0).nx with h | h
    · rw [h, Nat.zero_mul] at hk
      exact absurd hk (Nat.not_lt_zero _)
    · exact h
  have hc : k % (nest.hdr 0).nx < (nest.hdr 0).nx := Nat.mod_lt _ hx
  have hr : k / (nest.hdr 0).nx < (nest.hdr 0).ny := Nat.div_lt_of_lt_mul hk
  have hk' : k / (nest.hdr 0).nx * (nest.hdr 0).nx + k % (nest.hdr 0).nx = k :=
    Nat.div_add_mod' k _
  obtain ⟨hb, hw1, hw2⟩ := hwet _ _ hr hc
  have m1 := mass_etad_wet nest 0 _ _ hr hc hb hw1
  have m2 := mass_etad_wet (negated nest) 0 (k / (nest.hdr 0).nx) (k % (nest.hdr 0).nx) hr hc hb
    (by rw [mass_zzz_negated]; exact hw2)
  rw [mass_zzz_negated] at m2
  have m2' : (mass (negated nest) 0).etad 0 (k / (nest.hdr 0).nx * (nest.hdr 0).nx
      + k % (nest.hdr 0).nx) = -mass_zzz nest 0 (k / (nest.hdr 0).nx, k % (nest.hdr 0).nx) := m2
  rw [hk'] at m1 m2'
  rw [m1, m2']

/-- Witness of C10 (amended): on the 2 x 2 linear basin every cell stays wet in both runs,
and the elevation of cell 0 after one cycle from the negated state is the negation of the
one from the state. -/
theorem eta_antisymmetric_after_one_cycle_witness :
    (main_cycle env0 (negated basin2) false 0 ((0, 0), (0, 0))).etaa 0 0
      = -(main_cycle env0 basin2 false 0 ((0, 0), (0, 0))).etaa 0 0 := by
  refine eta_antisymmetric_after_one_cycle env0 basin2 ((0, 0), (0, 0)) ((0, 0), (0, 0)) rfl ?_
    0 (by decide)
  intro row col hr hc
  have hr' : row < 2 := hr
  have hc' : col < 2 := hc
  interval_cases row <;> interval_cases col <;>
    norm_num [mass_zzz, basin2, nest0, hdr0, MAXRUNUP, EPS10]

/-! ## Claims on the discharge limiter -/

theorem limit_discharge_abs_le (x dd : ℚ) (h : 0 ≤ dd) :
    |limit_discharge x dd| ≤ V_LIMIT * dd := by
  have hv : (0 : ℚ) ≤ V_LIMIT * dd := mul_nonneg (by norm_num [V_LIMIT]) h
  unfold limit_discharge
  simp only []
  split_ifs with h1 h2 h3
  · simpa using hv
  · rw [abs_of_nonneg hv]
  · rw [abs_neg, abs_of_nonneg hv]
  · exact abs_le.mpr ⟨by linarith, by linarith⟩

theorem moment_M_wetdry_bounds (nest : nestContainer) (lev ij : Nat) (dpa dd df : ℚ) (vv : Bool)
    (h : moment_M_wetdry nest lev ij dpa = some (dd, df, vv)) :
    0 ≤ dd ∧ dd ≤ max (max (nest.htotal_d lev ij) (nest.htotal_d lev (ij + 1)))
      |nest.etad lev ij - nest.etad lev (ij + 1)| := by
  have hA : nest.htotal_d lev ij ≤ max (max (nest.htotal_d lev ij)
      (nest.htotal_d lev (ij + 1))) |nest.etad lev ij - nest.etad lev (ij + 1)| :=
    le_max_of_le_left (le_max_left _ _)
  have hB : nest.htotal_d lev (ij + 1) ≤ max (max (nest.htotal_d lev ij)
      (nest.htotal_d lev (ij + 1))) |nest.etad lev ij - nest.etad lev (ij + 1)| :=
    le_max_of_le_left (le_max_right _ _)
  have hC : nest.etad lev ij - nest.etad lev (ij + 1) ≤ max (max (nest.htotal_d lev ij)
      (nest.htotal_d lev (ij + 1))) |nest.etad lev ij - nest.etad lev (ij + 1)| :=
    le_max_of_le_right (le_abs_self _)
  have hD : -(nest.etad lev ij - nest.etad lev (ij + 1)) ≤ max (max (nest.htotal_d lev ij)
      (nest.htotal_d lev (ij + 1))) |nest.etad lev ij - nest.etad lev (ij + 1)| :=
    le_max_of_le_right (neg_le_abs _)
  generalize max (max (nest.htotal_d lev ij) (nest.htotal_d lev (ij + 1)))
      |nest.etad lev ij - nest.etad lev (ij + 1)| = M at hA hB hC hD ⊢
  unfold moment_M_wetdry at h
  simp only [EPS5] at h
  split_ifs at h <;> simp only [Option.some.injEq, Prod.mk.injEq] at h <;>
    obtain ⟨rfl, -, -⟩ := h <;> constructor <;> linarith

/-- A flux stored by a pass of `moment_M` is a discharge-limited value for the face depth the
moving boundary chose. -/
theorem moment_M_face_stored (E : Env) (nest : nestContainer) (lev row col : Nat) (d0 f0 : ℚ)
    (hs : (moment_M_face E nest lev row col d0 f0).stored = true) :
    ∃ dd df vv x, moment_M_wetdry nest lev (row * (nest.hdr lev).nx + col)
        (mean_depth nest lev (row * (nest.hdr lev).nx + col)
          (row * (nest.hdr lev).nx + col + 1)) = some (dd, df, vv) ∧
      (moment_M_face E nest lev row col d0 f0).xp = limit_discharge x dd := by
  unfold moment_M_face at hs ⊢
  simp only [] at hs ⊢
  by_cases hb : nest.bat lev (row * (nest.hdr lev).nx + col) ≤ MAXRUNUP
  · rw [if_pos hb] at hs
    exact absurd hs (by simp)
  · rw [if_neg hb] at hs ⊢
    rcases hw : moment_M_wetdry nest lev (row * (nest.hdr lev).nx + col)
        (mean_depth nest lev (row * (nest.hdr lev).nx + col)
          (row * (nest.hdr lev).nx + col + 1)) with _ | ⟨dd, df, vv⟩
    · rw [hw] at hs
      exact absurd hs (by simp)
    · rw [hw] at hs
      simp only [] at hs ⊢
      by_cases h4 : dd < E.EPS4
      · rw [if_pos h4] at hs
        exact absurd hs (by simp)
      · rw [if_neg h4]
        exact ⟨dd, df, vv, _, rfl, rfl⟩

/-- After `moment_M` every entry of the flux array inside the grid is either 0 or a
discharge-limited value for the face depth that the moving boundary chose at that face. -/
theorem moment_M_flux_cases (E : Env) (nest : nestContainer) (lev : Nat) (d f : ℚ) (k : Nat)
    (hk : k < (nest.hdr lev).nm) :
    (moment_M E nest lev d f).fluxm_d lev k = 0 ∨
    ∃ dd df vv x, moment_M_wetdry nest lev k (mean_depth nest lev k (k + 1)) = some (dd, df, vv) ∧
      (moment_M E nest lev d f).fluxm_d lev k = limit_discharge x dd := by
  obtain ⟨-, -, hin, hout⟩ := moment_M_spec E nest lev d f
  by_cases hex : ∃ row col, 0 ≤ row ∧ row < ((nest.hdr lev).ny - (if lev > 0 then 0 else 1)) ∧ (if lev > 0 then 1 else 0) ≤ col ∧ col < ((nest.hdr lev).nx - 1) ∧
      row * (nest.hdr lev).nx + col = k
  · obtain ⟨row, col, h1, h2, h3, h4, rfl⟩ := hex
    have h := congrArg Prod.fst (hin row col h1 h2 h3 h4)
    simp only [getM, moment_M_val, if_pos hk] at h
    by_cases hs : (moment_M_face E nest lev row col 0 0).stored = true
    · rw [if_pos hs] at h
      obtain ⟨dd, df, vv, x, hw, hx⟩ := moment_M_face_stored E nest lev row col 0 0 hs
      exact Or.inr ⟨dd, df, vv, x, hw, h.trans hx⟩
    · rw [if_neg hs] at h
      exact Or.inl h
  · have h := congrArg Prod.fst (hout k (fun row col h1 h2 h3 h4 he =>
      hex ⟨row, col, h1, h2, h3, h4, he⟩))
    simp only [getM, if_pos hk] at h
    exact Or.inl h

/-- The discharge limit on the flux left by `moment_M`: bounded by `V_LIMIT` times the face depth
of the moving boundary, zero where the moving boundary gives no face depth, and bounded by
`V_LIMIT` times the largest of the two depths and the elevation difference. -/
theorem moment_M_flux_bound (E : Env) (nest : nestContainer) (lev : Nat) (d f : ℚ) (k : Nat)
    (hk : k < (nest.hdr lev).nm) :
    (∀ dd df vv, moment_M_wetdry nest lev k (mean_depth nest lev k (k + 1)) = some (dd, df, vv) →
      |(moment_M E nest lev d f).fluxm_d lev k| ≤ V_LIMIT * dd) ∧
    (moment_M_wetdry nest lev k (mean_depth nest lev k (k + 1)) = none →
      (moment_M E nest lev d f).fluxm_d lev k = 0) ∧
    |(moment_M E nest lev d f).fluxm_d lev k|
      ≤ V_LIMIT * max (max (nest.htotal_d lev k) (nest.htotal_d lev (k + 1)))
          |nest.etad lev k - nest.etad lev (k + 1)| := by
  have hV : (0 : ℚ) ≤ V_LIMIT := by norm_num [V_LIMIT]
  have hM : (0 : ℚ) ≤ max (max (nest.htotal_d lev k) (nest.htotal_d lev (k + 1)))
      |nest.etad lev k - nest.etad lev (k + 1)| := le_max_of_le_right (abs_nonneg _)
  rcases moment_M_flux_cases E nest lev d f k hk with h0 | ⟨dd, df, vv, x, hw, hx⟩
  · refine ⟨fun dd df vv hw => ?_, fun _ => h0, ?_⟩
    · rw [h0, abs_zero]
      exact mul_nonneg hV (moment_M_wetdry_bounds nest lev k _ dd df vv hw).1
    · rw [h0, abs_zero]
      exact mul_nonneg hV hM
  · obtain ⟨hd0, hdM⟩ := moment_M_wetdry_bounds nest lev k _ dd df vv hw
    have hb : |(moment_M E nest lev d f).fluxm_d lev k| ≤ V_LIMIT * dd := by
      rw [hx]
      exact limit_discharge_abs_le x dd hd0
    refine ⟨fun dd2 df2 vv2 hw2 => ?_, fun hn => ?_, ?_⟩
    · rw [hw] at hw2
      simp only [Option.some.injEq, Prod.mk.injEq] at hw2
      rw [← hw2.1]
      exact hb
    · rw [hw] at hn
      exact absurd hn (by simp)
    · exact hb.trans (mul_le_mul_of_nonneg_left hdM hV)

theorem moment_N_wetdry_bounds (nest : nestContainer) (lev ij : Nat) (dpa dd df : ℚ) (vv : Bool)
    (h : moment_N_wetdry nest lev ij dpa = some (dd, df, vv)) :
    0 ≤ dd ∧ dd ≤ max (max (nest.htotal_d lev ij) (nest.htotal_d lev (ij + (nest.hdr lev).nx)))
      |nest.etad lev ij - nest.etad lev (ij + (nest.hdr lev).nx)| := by
  have hA : nest.htotal_d lev ij ≤ max (max (nest.htotal_d lev ij)
      (nest.htotal_d lev (ij + (nest.hdr lev).nx))) |nest.etad lev ij - nest.etad lev (ij + (nest.hdr lev).nx)| :=
    le_max_of_le_left (le_max_left _ _)
  have hB : nest.htotal_d lev (ij + (nest.hdr lev).nx) ≤ max (max (nest.htotal_d lev ij)
      (nest.htotal_d lev (ij + (nest.hdr lev).nx))) |nest.etad lev ij - nest.etad lev (ij + (nest.hdr lev).nx)| :=
    le_max_of_le_left (le_max_right _ _)
  have hC : nest.etad lev ij - nest.etad lev (ij + (nest.hdr lev).nx) ≤ max (max (nest.htotal_d lev ij)
      (nest.htotal_d lev (ij + (nest.hdr lev).nx))) |nest.etad lev ij - nest.etad lev (ij + (nest.hdr lev).nx)| :=
    le_max_of_le_right (le_abs_self _)
  have hD : -(nest.etad lev ij - nest.etad lev (ij + (nest.hdr lev).nx)) ≤ max (max (nest.htotal_d lev ij)
      (nest.htotal_d lev (ij + (nest.hdr lev).nx))) |nest.etad lev ij - nest.etad lev (ij + (nest.hdr lev).nx)| :=
    le_max_of_le_right (neg_le_abs _)
  generalize max (max (nest.htotal_d lev ij) (nest.htotal_d lev (ij + (nest.hdr lev).nx)))
      |nest.etad lev ij - nest.etad lev (ij + (nest.hdr lev).nx)| = M at hA hB hC hD ⊢
  unfold moment_N_wetdry at h
  simp only [EPS5] at h
  split_ifs at h <;> simp only [Option.some.injEq, Prod.mk.injEq] at h <;>
    obtain ⟨rfl, -, -⟩ := h <;> constructor <;> linarith

/-- A flux stored by a pass of `moment_N` is a discharge-limited value for the face depth the
moving boundary chose. -/
theorem moment_N_face_stored (E : Env) (nest : nestContainer) (lev row col : Nat) (d0 f0 : ℚ)
    (hs : (moment_N_face E nest lev row col d0 f0).stored = true) :
    ∃ dd df vv x, moment_N_wetdry nest lev (row * (nest.hdr lev).nx + col)
        (mean_depth nest lev (row * (nest.hdr lev).nx + col)
          (row * (nest.hdr lev).nx + col + (nest.hdr lev).nx)) = some (dd, df, vv) ∧
      (moment_N_face E nest lev row col d0 f0).xp = limit_discharge x dd := by
  unfold moment_N_face at hs ⊢
  simp only [] at hs ⊢
  by_cases hb : nest.bat lev (row * (nest.hdr lev).nx + col) ≤ MAXRUNUP
  · rw [if_pos hb] at hs
    exact absurd hs (by simp)
  · rw [if_neg hb] at hs ⊢
    rcases hw : moment_N_wetdry nest lev (row * (nest.hdr lev).nx + col)
        (mean_depth nest lev (row * (nest.hdr lev).nx + col)
          (row * (nest.hdr lev).nx + col + (nest.hdr lev).nx)) with _ | ⟨dd, df, vv⟩
    · rw [hw] at hs
      exact absurd hs (by simp)
    · rw [hw] at hs
      simp only [] at hs ⊢
      by_cases h4 : dd < E.EPS4
      · rw [if_pos h4] at hs
        exact absurd hs (by simp)
      · rw [if_neg h4]
        exact ⟨dd, df, vv, _, rfl, rfl⟩

/-- After `moment_N` every entry of the flux array inside the grid is either 0 or a
discharge-limited value for the face depth that the moving boundary chose at that face. -/
theorem moment_N_flux_cases (E : Env) (nest : nestContainer) (lev : Nat) (d f : ℚ) (k : Nat)
    (hk : k < (nest.hdr lev).nm) :
    (moment_N E nest lev d f).fluxn_d lev k = 0 ∨
    ∃ dd df vv x, moment_N_wetdry nest lev k (mean_depth nest lev k (k + (nest.hdr lev).nx)) = some (dd, df, vv) ∧
      (moment_N E nest lev d f).fluxn_d lev k = limit_discharge x dd := by
  obtain ⟨-, -, hin, hout⟩ := moment_N_spec E nest lev d f
  by_cases hex : ∃ row col, (if lev > 0 then 1 else 0) ≤ row ∧ row < ((nest.hdr lev).ny - 1) ∧ 0 ≤ col ∧ col < ((nest.hdr lev).nx - (if lev > 0 then 0 else 1)) ∧
      row * (nest.hdr lev).nx + col = k
  · obtain ⟨row, col, h1, h2, h3, h4, rfl⟩ := hex
    have h := congrArg Prod.fst (hin row col h1 h2 h3 h4)
    simp only [getN, moment_N_val, if_pos hk] at h
    by_cases hs : (moment_N_face E nest lev row col 0 0).stored = true
    · rw [if_pos hs] at h
      obtain ⟨dd, df, vv, x, hw, hx⟩ := moment_N_face_stored E nest lev row col 0 0 hs
      exact Or.inr ⟨dd, df, vv, x, hw, h.trans hx⟩
    · rw [if_neg hs] at h
      exact Or.inl h
  · have h := congrArg Prod.fst (hout k (fun row col h1 h2 h3 h4 he =>
      hex ⟨row, col, h1, h2, h3, h4, he⟩))
    simp only [getN, if_pos hk] at h
    exact Or.inl h

/-- The discharge limit on the flux left by `moment_N`: bounded by `V_LIMIT` times the face depth
of the moving boundary, zero where the moving boundary gives no face depth, and bounded by
`V_LIMIT` times the largest of the two depths and the elevation difference. -/
theorem moment_N_flux_bound (E : Env) (nest : nestContainer) (lev : Nat) (d f : ℚ) (k : Nat)
    (hk : k < (nest.hdr lev).nm) :
    (∀ dd df vv, moment_N_wetdry nest lev k (mean_depth nest lev k (k + (nest.hdr lev).nx)) = some (dd, df, vv) →
      |(moment_N E nest lev d f).fluxn_d lev k| ≤ V_LIMIT * dd) ∧
    (moment_N_wetdry nest lev k (mean_depth nest lev k (k + (nest.hdr lev).nx)) = none →
      (moment_N E nest lev d f).fluxn_d lev k = 0) ∧
    |(moment_N E nest lev d f).fluxn_d lev k|
      ≤ V_LIMIT * max (max (nest.htotal_d lev k) (nest.htotal_d lev (k + (nest.hdr lev).nx)))
          |nest.etad lev k - nest.etad lev (k + (nest.hdr lev).nx)| := by
  have hV : (0 : ℚ) ≤ V_LIMIT := by norm_num [V_LIMIT]
  have hM : (0 : ℚ) ≤ max (max (nest.htotal_d lev k) (nest.htotal_d lev (k + (nest.hdr lev).nx)))
      |nest.etad lev k - nest.etad lev (k + (nest.hdr lev).nx)| := le_max_of_le_right (abs_nonneg _)
  rcases moment_N_flux_cases E nest lev d f k hk with h0 | ⟨dd, df, vv, x, hw, hx⟩
  · refine ⟨fun dd df vv hw => ?_, fun _ => h0, ?_⟩
    · rw [h0, abs_zero]
      exact mul_nonneg hV (moment_N_wetdry_bounds nest lev k _ dd df vv hw).1
    · rw [h0, abs_zero]
      exact mul_nonneg hV hM
  · obtain ⟨hd0, hdM⟩ := moment_N_wetdry_bounds nest lev k _ dd df vv hw
    have hb : |(moment_N E nest lev d f).fluxn_d lev k| ≤ V_LIMIT * dd := by
      rw [hx]
      exact limit_discharge_abs_le x dd hd0
    refine ⟨fun dd2 df2 vv2 hw2 => ?_, fun hn => ?_, ?_⟩
    · rw [hw] at hw2
      simp only [Option.some.injEq, Prod.mk.injEq] at hw2
      rw [← hw2.1]
      exact hb
    · rw [hw] at hn
      exact absurd hn (by simp)
    · exact hb.trans (mul_le_mul_of_nonneg_left hdM hV)

/-- C11: after Cartesian `moment_M`, at every cell `k` of the grid the flux satisfies
`|flux_m_d(k)| <= 20 * dd` for the face depth `dd` that the wet/dry classification of the cell
and its east neighbour chooses, it is 0 where the classification gives no face depth, and
hence `|flux_m_d(k)| <= 20 * max(h_total_d(k), h_total_d(k+1), |eta_d(k) - eta_d(k+1)|)`;
`h_total_d` and `eta_d` are not changed by the call. The same holds after `moment_N` with the
north neighbour `k + nx`. -/
theorem discharge_is_limited (E : Env) (nest : nestContainer) (lev : Nat) (d f : ℚ) :
    ((moment_M E nest lev d f).htotal_d = nest.htotal_d ∧
      (moment_M E nest lev d f).etad = nest.etad ∧
      ∀ k, k < (nest.hdr lev).nm →
        (∀ dd df vv,
          moment_M_wetdry nest lev k (mean_depth nest lev k (k + 1)) = some (dd, df, vv) →
          |(moment_M E nest lev d f).fluxm_d lev k| ≤ V_LIMIT * dd) ∧
        (moment_M_wetdry nest lev k (mean_depth nest lev k (k + 1)) = none →
          (moment_M E nest lev d f).fluxm_d lev k = 0) ∧
        |(moment_M E nest lev d f).fluxm_d lev k|
          ≤ V_LIMIT * max (max (nest.htotal_d lev k) (nest.htotal_d lev (k + 1)))
              |nest.etad lev k - nest.etad lev (k + 1)|) ∧
    ((moment_N E nest lev d f).htotal_d = nest.htotal_d ∧
      (moment_N E nest lev d f).etad = nest.etad ∧
      ∀ k, k < (nest.hdr lev).nm →
        (∀ dd df vv,
          moment_N_wetdry nest lev k (mean_depth nest lev k (k + (nest.hdr lev).nx))
            = some (dd, df, vv) →
          |(moment_N E nest lev d f).fluxn_d lev k| ≤ V_LIMIT * dd) ∧
        (moment_N_wetdry nest lev k (mean_depth nest lev k (k + (nest.hdr lev).nx)) = none →
          (moment_N E nest lev d f).fluxn_d lev k = 0) ∧
        |(moment_N E nest lev d f).fluxn_d lev k|
          ≤ V_LIMIT * max (max (nest.htotal_d lev k) (nest.htotal_d lev (k + (nest.hdr lev).nx)))
              |nest.etad lev k - nest.etad lev (k + (nest.hdr lev).nx)|) :=
  ⟨⟨(congrArg nestContainer.htotal_d (moment_M_spec E nest lev d f).1 :),
    (congrArg nestContainer.etad (moment_M_spec E nest lev d f).1 :),
    fun k hk => moment_M_flux_bound E nest lev d f k hk⟩,
   ⟨(congrArg nestContainer.htotal_d (moment_N_spec E nest lev d f).1 :),
    (congrArg nestContainer.etad (moment_N_spec E nest lev d f).1 :),
    fun k hk => moment_N_flux_bound E nest lev d f k hk⟩⟩

/-! ## Edge communication -/

/-- A loop that stores at `idx i` a value `g i` which does not depend on the array: the
visited entries hold their values, the others are unchanged. -/
theorem forRange_update (lo hi : Nat) (idx : Nat → Nat) (g : Nat → ℚ) (a : Nat → ℚ)
    (hinj : ∀ i j, lo ≤ i → i < hi → lo ≤ j → j < hi → idx i = idx j → i = j) :
    (∀ i, lo ≤ i → i < hi →
      forRange lo hi (fun i a => Function.update a (idx i) (g i)) a (idx i) = g i) ∧
    (∀ k, (∀ i, lo ≤ i → i < hi → idx i ≠ k) →
      forRange lo hi (fun i a => Function.update a (idx i) (g i)) a k = a k) := by
  have hmem : ∀ i, i ∈ List.range' lo (hi - lo) ↔ lo ≤ i ∧ i < hi := by
    intro i
    rw [List.mem_range'_1]
    omega
  have hpw : (List.range' lo (hi - lo)).Pairwise (fun i j => idx i ≠ idx j) := by
    have hnd : (List.range' lo (hi - lo)).Nodup := List.nodup_range' _ _
    refine (List.Pairwise.and_mem.mp hnd).imp ?_
    intro i j h
    obtain ⟨hi', hj', hne⟩ := h
    intro he
    exact hne (hinj i j ((hmem i).mp hi').1 ((hmem i).mp hi').2 ((hmem j).mp hj').1
      ((hmem j).mp hj').2 he)
  have key := foldl_pointwise (fun (s : Nat → ℚ) k => s k) (fun _ => True)
    (fun (i : Nat) (s : Nat → ℚ) => Function.update s (idx i) (g i)) idx (fun i _ => g i)
    (List.range' lo (hi - lo)) hpw (fun _ _ _ => trivial)
    (fun c s k _ hk => Function.update_noteq hk _ _)
    (fun c s _ _ => Function.update_same _ _ _) a trivial
  obtain ⟨-, k2, k3⟩ := key
  exact ⟨fun i h1 h2 => k2 i ((hmem i).mpr ⟨h1, h2⟩),
    fun k hk => k3 k (fun i hi' => hk i ((hmem i).mp hi').1 ((hmem i).mp hi').2)⟩

theorem intp_lin_down_spec (x : Nat → ℚ) (ui : ℚ) (j : Nat) :
    intp_lin_down x ui j ≤ j ∧ (intp_lin_down x ui j = 0 ∨ x (intp_lin_down x ui j) ≤ ui) := by
  induction j with
  | zero => exact ⟨Nat.le_refl _, Or.inl rfl⟩
  | succ j ih =>
    unfold intp_lin_down
    by_cases h : x (j + 1) > ui
    · rw [if_pos h]
      exact ⟨Nat.le_succ_of_le ih.1, ih.2⟩
    · rw [if_neg h]
      exact ⟨Nat.le_refl _, Or.inr (not_lt.mp h)⟩

theorem intp_lin_up_spec (x : Nat → ℚ) (ui : ℚ) (n : Nat) :
    ∀ fuel j, j ≤ n → n - j ≤ fuel →
      j ≤ intp_lin_up x ui n fuel j ∧ intp_lin_up x ui n fuel j ≤ n ∧
      (∀ k, j ≤ k → k < intp_lin_up x ui n fuel j → x k ≤ ui) ∧
      (intp_lin_up x ui n fuel j < n → ¬ x (intp_lin_up x ui n fuel j) ≤ ui) := by
  intro fuel
  induction fuel with
  | zero =>
    intro j hj hf
    have hjn : j = n := by omega
    unfold intp_lin_up
    exact ⟨Nat.le_refl _, hj, fun k h1 h2 => absurd h2 (by omega), fun h => absurd h (by omega)⟩
  | succ fuel ih =>
    intro j hj hf
    unfold intp_lin_up
    by_cases h : j < n ∧ x j ≤ ui
    · rw [if_pos h]
      obtain ⟨i1, i2, i3, i4⟩ := ih (j + 1) h.1 (by omega)
      refine ⟨by omega, i2, fun k h1 h2 => ?_, i4⟩
      rcases Nat.eq_or_lt_of_le h1 with rfl | hlt
      · exact h.2
      · exact i3 k hlt h2
    · rw [if_neg h]
      refine ⟨Nat.le_refl _, hj, fun k h1 h2 => absurd h2 (by omega), fun hlt hx => h ⟨hlt, hx⟩⟩

/-- On strictly increasing sample positions the segment search of `intp_lin` returns, from
any starting index, the segment of the reference definition. -/
theorem intp_lin_j_eq (x : Nat → ℚ) (ui : ℚ) (n j0 : Nat) (hn : 2 ≤ n) (hj0 : j0 < n)
    (hx : ∀ i j, i < j → j < n → x i < x j) :
    intp_lin_j x ui n j0 = Nat.findGreatest (fun k => x k ≤ ui) (n - 2) := by
  obtain ⟨d1, d2⟩ := intp_lin_down_spec x ui j0
  have hj1 : intp_lin_down x ui j0 ≤ n := by omega
  obtain ⟨u1, u2, u3, u4⟩ := intp_lin_up_spec x ui n (n - intp_lin_down x ui j0)
    (intp_lin_down x ui j0) hj1 (Nat.le_refl _)
  unfold intp_lin_j
  simp only []
  generalize intp_lin_down x ui j0 = j1 at d1 d2 hj1 u1 u2 u3 u4
  generalize intp_lin_up x ui n (n - j1) j1 = j2 at u1 u2 u3 u4
  have hlow : ∀ k, k < j2 → x k ≤ ui := by
    intro k hk
    by_cases hk1 : j1 ≤ k
    · exact u3 k hk1 hk
    · rcases d2 with h0 | h1
      · omega
      · exact le_trans (le_of_lt (hx k j1 (by omega) (by omega))) h1
  have hhigh : ∀ k, j2 ≤ k → k < n → ¬ x k ≤ ui := by
    intro k hk hkn hle
    have h2 : j2 < n := by omega
    apply u4 h2
    rcases Nat.eq_or_lt_of_le hk with rfl | hlt
    · exact hle
    · exact le_trans (le_of_lt (hx j2 k hlt hkn)) hle
  symm
  rw [Nat.findGreatest_eq_iff]
  by_cases hjn : j2 = n
  · rw [if_pos hjn]
    have h1 : j2 - 1 > 0 := by omega
    rw [if_pos h1]
    refine ⟨by omega, fun _ => hlow _ (by omega), fun k h1 h2 => absurd h2 (by omega)⟩
  · rw [if_neg hjn]
    by_cases hpos : j2 > 0
    · rw [if_pos hpos]
      refine ⟨by omega, fun _ => hlow _ (by omega), fun k h1 h2 => hhigh k (by omega) (by omega)⟩
    · rw [if_neg hpos]
      refine ⟨by omega, fun h => absurd h (by omega), fun k h1 h2 => hhigh k (by omega) (by omega)⟩

theorem intp_lin_no_error (x : Nat → ℚ) (n : Nat)
    (hx : ∀ i j, i < j → j < n → x i < x j) :
    forRange 2 n (fun i e => if e = 0 then (if x i - x (i - 1) < 0 then i else e) else e) 0
      = 0 := by
  unfold forRange
  have hmem : ∀ i, i ∈ List.range' 2 (n - 2) → 1 ≤ i ∧ i < n := by
    intro i hi
    rw [List.mem_range'_1] at hi
    omega
  generalize List.range' 2 (n - 2) = l at hmem
  induction l with
  | nil => rfl
  | cons i l ih =>
    rw [List.foldl_cons]
    have h1 := hmem i (List.mem_cons_self _ _)
    have h2 : ¬ x i - x (i - 1) < 0 := by
      have := hx (i - 1) i (by omega) h1.2
      linarith
    simp only [if_true, if_neg h2]
    exact ih (fun k hk => hmem k (List.mem_cons_of_mem _ hk))

/-- On strictly increasing sample positions (at least two), `intp_lin` returns no error and
the `m` values it stores are those of the reference resampling; the other entries of `v` are
unchanged. -/
theorem intp_lin_spec (x y : Nat → ℚ) (n m : Nat) (u v : Nat → ℚ) (hn : 2 ≤ n)
    (hx : ∀ i j, i < j → j < n → x i < x j) :
    (intp_lin x y n m u v).2 = 0 ∧
    (∀ i, i < m → (intp_lin x y n m u v).1 i = lin_resample_ref x y n (u i)) ∧
    (∀ i, m ≤ i → (intp_lin x y n m u v).1 i = v i) := by
  have hdx : x 1 - x 0 > 0 := by
    have := hx 0 1 (by omega) (by omega)
    linarith
  unfold intp_lin
  simp only [if_pos hdx, intp_lin_no_error x n hx, ne_eq, not_true_eq_false, if_false]
  have hmem : ∀ i, i ∈ List.range' 0 (m - 0) ↔ i < m := by
    intro i
    rw [List.mem_range'_1]
    omega
  have key := foldl_pointwise (fun (s : (Nat → ℚ) × Nat) k => s.1 k) (fun s => s.2 < n)
    (fun (i : Nat) (s : (Nat → ℚ) × Nat) =>
      (Function.update s.1 i ((y (intp_lin_j x (u i) n s.2 + 1) - y (intp_lin_j x (u i) n s.2))
        * (u i - x (intp_lin_j x (u i) n s.2))
        / (x (intp_lin_j x (u i) n s.2 + 1) - x (intp_lin_j x (u i) n s.2))
        + y (intp_lin_j x (u i) n s.2)), intp_lin_j x (u i) n s.2))
    id (fun i _ => lin_resample_ref x y n (u i))
    (List.range' 0 (m - 0))
    ((List.nodup_range' _ _).imp (fun h => h))
    (fun c s hs => by
      show intp_lin_j x (u c) n s.2 < n
      rw [intp_lin_j_eq x (u c) n s.2 hn hs hx]
      have := Nat.findGreatest_le (P := fun k => x k ≤ u c) (n - 2)
      omega)
    (fun c s k _ hk => Function.update_noteq hk _ _)
    (fun c s _ hs => by
      show Function.update s.1 c _ c = _
      rw [Function.update_same, intp_lin_j_eq x (u c) n s.2 hn hs hx]
      unfold lin_resample_ref
      ring)
    (v, 0) (by show 0 < n; omega)
  obtain ⟨-, k2, k3⟩ := key
  refine ⟨trivial, fun i hi => k2 i ((hmem i).mpr hi), fun i hi => k3 i (fun c hc he => ?_)⟩
  have := (hmem c).mp hc
  have he' : c = i := he
  omega
theorem lin_resample_ref_congr (x y y2 : Nat → ℚ) (n : Nat) (u : ℚ) (hn : 2 ≤ n)
    (h : ∀ i, i < n → y i = y2 i) : lin_resample_ref x y n u = lin_resample_ref x y2 n u := by
  unfold lin_resample_ref
  have hk := Nat.findGreatest_le (P := fun k => x k ≤ u) (n - 2)
  simp only []
  rw [h _ (by omega), h _ (by omega)]

/-- What the `'M'` branch of `interp_edges` leaves in `flux_L2`: the east column holds the
gated resampling of the parent column `LRcol - 1`, the west column that of the parent column
`LLcol`, and the other entries are unchanged. -/
theorem interp_edges_M (nest : nestContainer) (eb : edgeArrays) (flux_L1 flux_L2 : Nat → ℚ)
    (lev : Nat) (hnx : 2 ≤ (nest.hdr lev).nx)
    (hn : 2 ≤ Int.toNat (nest.ULrow lev - nest.LLrow lev + 1))
    (hx : ∀ i j, i < j → j < Int.toNat (nest.ULrow lev - nest.LLrow lev + 1) →
      eb.edge_col_P lev i < eb.edge_col_P lev j) :
    (∀ row, row < (nest.hdr lev).ny →
      (interp_edges nest eb flux_L1 flux_L2 'M' lev).1 (ij_grd 0 row (nest.hdr lev))
        = if nest.bat lev (ij_grd 0 row (nest.hdr lev))
              + nest.etaa lev (ij_grd 0 row (nest.hdr lev)) > EPS5 then
            lin_resample_ref (eb.edge_col_P lev)
              (fun i => flux_L1 (ij_grdI (nest.LLcol lev) (nest.LLrow lev + i)
                (nest.hdr (lev - 1))))
              (Int.toNat (nest.ULrow lev - nest.LLrow lev + 1)) (eb.edge_col lev row)
          else 0) ∧
    (∀ row, row < (nest.hdr lev).ny →
      (interp_edges nest eb flux_L1 flux_L2 'M' lev).1
          (ij_grd ((nest.hdr lev).nx - 1) row (nest.hdr lev))
        = if nest.bat lev (ij_grd ((nest.hdr lev).nx - 1) row (nest.hdr lev))
              + nest.etaa lev (ij_grd ((nest.hdr lev).nx - 1) row (nest.hdr lev)) > EPS5 then
            lin_resample_ref (eb.edge_col_P lev)
              (fun i => flux_L1 (ij_grdI (nest.LRcol lev - 1) (nest.LLrow lev + i)
                (nest.hdr (lev - 1))))
              (Int.toNat (nest.ULrow lev - nest.LLrow lev + 1)) (eb.edge_col lev row)
          else 0) ∧
    (∀ k, (∀ row, row < (nest.hdr lev).ny →
        ij_grd 0 row (nest.hdr lev) ≠ k ∧ ij_grd ((nest.hdr lev).nx - 1) row (nest.hdr lev) ≠ k) →
      (interp_edges nest eb flux_L1 flux_L2 'M' lev).1 k = flux_L2 k) := by
  have hM : ¬ ('M' = 'N') := by decide
  have inj0 : ∀ i j, 0 ≤ i → i < (nest.hdr lev).ny → 0 ≤ j → j < (nest.hdr lev).ny →
      ij_grd 0 i (nest.hdr lev) = ij_grd 0 j (nest.hdr lev) → i = j := by
    intro i j _ _ _ _ h
    simp only [ij_grd, Nat.zero_add] at h
    exact Nat.eq_of_mul_eq_mul_right (by omega) h
  have inj1 : ∀ i j, 0 ≤ i → i < (nest.hdr lev).ny → 0 ≤ j → j < (nest.hdr lev).ny →
      ij_grd ((nest.hdr lev).nx - 1) i (nest.hdr lev)
        = ij_grd ((nest.hdr lev).nx - 1) j (nest.hdr lev) → i = j := by
    intro i j _ _ _ _ h
    simp only [ij_grd, Nat.add_left_cancel_iff] at h
    exact Nat.eq_of_mul_eq_mul_right (by omega) h
  have hne : ∀ i j, ij_grd ((nest.hdr lev).nx - 1) i (nest.hdr lev)
      ≠ ij_grd 0 j (nest.hdr lev) := by
    intro i j h
    simp only [ij_grd, Nat.zero_add] at h
    have h1 : ((nest.hdr lev).nx - 1 + i * (nest.hdr lev).nx) % (nest.hdr lev).nx
        = (nest.hdr lev).nx - 1 := by
      rw [Nat.add_mul_mod_self_right]
      exact Nat.mod_eq_of_lt (by omega)
    rw [h, Nat.mul_mod_left] at h1
    omega
  unfold interp_edges
  simp only [if_neg hM]
  refine ⟨fun row hrow => ?_, fun row hrow => ?_, fun k hk => ?_⟩
  · rw [(forRange_update 0 _ (fun r => ij_grd ((nest.hdr lev).nx - 1) r (nest.hdr lev)) _ _
      inj1).2 _ (fun i _ _ => hne i row)]
    rw [(forRange_update 0 _ (fun r => ij_grd 0 r (nest.hdr lev)) _ _ inj0).1 row
      (Nat.zero_le _) hrow]
    rw [(intp_lin_spec _ _ _ _ _ _ hn hx).2.1 row hrow]
    rw [lin_resample_ref_congr _ _ _ _ _ hn (fun i hi =>
      (forRange_update 0 _ (fun r => r) _ _ (fun i j _ _ _ _ h => h)).1 i (Nat.zero_le _) hi)]
  · rw [(forRange_update 0 _ (fun r => ij_grd ((nest.hdr lev).nx - 1) r (nest.hdr lev)) _ _
      inj1).1 row (Nat.zero_le _) hrow]
    rw [(intp_lin_spec _ _ _ _ _ _ hn hx).2.1 row hrow]
    rw [lin_resample_ref_congr _ _ _ _ _ hn (fun i hi =>
      (forRange_update 0 _ (fun r => r) _ _ (fun i j _ _ _ _ h => h)).1 i (Nat.zero_le _) hi)]
  · rw [(forRange_update 0 _ (fun r => ij_grd ((nest.hdr lev).nx - 1) r (nest.hdr lev)) _ _
      inj1).2 _ (fun i _ hi => (hk i hi).2)]
    rw [(forRange_update 0 _ (fun r => ij_grd 0 r (nest.hdr lev)) _ _ inj0).2 _
      (fun i _ hi => (hk i hi).1)]
/-- What the `'N'` branch of `interp_edges` leaves in `flux_L2`: the north row holds the gated
resampling of the parent row `ULrow - 1`, the south row that of the parent row `LLrow`, and
the other entries are unchanged. -/
theorem interp_edges_N (nest : nestContainer) (eb : edgeArrays) (flux_L1 flux_L2 : Nat → ℚ)
    (lev : Nat) (hny : 2 ≤ (nest.hdr lev).ny)
    (hn : 2 ≤ Int.toNat (nest.LRcol lev - nest.LLcol lev + 1))
    (hx : ∀ i j, i < j → j < Int.toNat (nest.LRcol lev - nest.LLcol lev + 1) →
      eb.edge_row_P lev i < eb.edge_row_P lev j) :
    (∀ col, col < (nest.hdr lev).nx →
      (interp_edges nest eb flux_L1 flux_L2 'N' lev).1 (ij_grd col 0 (nest.hdr lev))
        = if nest.bat lev (ij_grd col 0 (nest.hdr lev))
              + nest.etaa lev (ij_grd col 0 (nest.hdr lev)) > EPS5 then
            lin_resample_ref (eb.edge_row_P lev)
              (fun i => flux_L1 (ij_grdI (nest.LLcol lev + i) (nest.LLrow lev)
                (nest.hdr (lev - 1))))
              (Int.toNat (nest.LRcol lev - nest.LLcol lev + 1)) (eb.edge_row lev col)
          else 0) ∧
    (∀ col, col < (nest.hdr lev).nx →
      (interp_edges nest eb flux_L1 flux_L2 'N' lev).1
          (ij_grd col ((nest.hdr lev).ny - 1) (nest.hdr lev))
        = if nest.bat lev (ij_grd col ((nest.hdr lev).ny - 1) (nest.hdr lev))
              + nest.etaa lev (ij_grd col ((nest.hdr lev).ny - 1) (nest.hdr lev)) > EPS5 then
            lin_resample_ref (eb.edge_row_P lev)
              (fun i => flux_L1 (ij_grdI (nest.LLcol lev + i) (nest.ULrow lev - 1)
                (nest.hdr (lev - 1))))
              (Int.toNat (nest.LRcol lev - nest.LLcol lev + 1)) (eb.edge_row lev col)
          else 0) ∧
    (∀ k, (∀ col, col < (nest.hdr lev).nx →
        ij_grd col 0 (nest.hdr lev) ≠ k ∧ ij_grd col ((nest.hdr lev).ny - 1) (nest.hdr lev) ≠ k) →
      (interp_edges nest eb flux_L1 flux_L2 'N' lev).1 k = flux_L2 k) := by
  have inj0 : ∀ i j, 0 ≤ i → i < (nest.hdr lev).nx → 0 ≤ j → j < (nest.hdr lev).nx →
      ij_grd i 0 (nest.hdr lev) = ij_grd j 0 (nest.hdr lev) → i = j := by
    intro i j _ _ _ _ h
    simpa [ij_grd] using h
  have inj1 : ∀ i j, 0 ≤ i → i < (nest.hdr lev).nx → 0 ≤ j → j < (nest.hdr lev).nx →
      ij_grd i ((nest.hdr lev).ny - 1) (nest.hdr lev)
        = ij_grd j ((nest.hdr lev).ny - 1) (nest.hdr lev) → i = j := by
    intro i j _ _ _ _ h
    simpa [ij_grd] using h
  have hne : ∀ i j, j < (nest.hdr lev).nx →
      ij_grd i ((nest.hdr lev).ny - 1) (nest.hdr lev) ≠ ij_grd j 0 (nest.hdr lev) := by
    intro i j hj h
    simp only [ij_grd, Nat.zero_mul, Nat.add_zero] at h
    have h1 : (nest.hdr lev).nx ≤ ((nest.hdr lev).ny - 1) * (nest.hdr lev).nx :=
      Nat.le_mul_of_pos_left _ (by omega)
    omega
  unfold interp_edges
  simp only [if_true]
  refine ⟨fun col hcol => ?_, fun col hcol => ?_, fun k hk => ?_⟩
  · rw [(forRange_update 0 _ (fun c => ij_grd c ((nest.hdr lev).ny - 1) (nest.hdr lev)) _ _
      inj1).2 _ (fun i _ _ => hne i col hcol)]
    rw [(forRange_update 0 _ (fun c => ij_grd c 0 (nest.hdr lev)) _ _ inj0).1 col
      (Nat.zero_le _) hcol]
    rw [(intp_lin_spec _ _ _ _ _ _ hn hx).2.1 col hcol]
    rw [lin_resample_ref_congr _ _ _ _ _ hn (fun i hi =>
      (forRange_update 0 _ (fun r => r) _ _ (fun i j _ _ _ _ h => h)).1 i (Nat.zero_le _) hi)]
  · rw [(forRange_update 0 _ (fun c => ij_grd c ((nest.hdr lev).ny - 1) (nest.hdr lev)) _ _
      inj1).1 col (Nat.zero_le _) hcol]
    rw [(intp_lin_spec _ _ _ _ _ _ hn hx).2.1 col hcol]
    rw [lin_resample_ref_congr _ _ _ _ _ hn (fun i hi =>
      (forRange_update 0 _ (fun r => r) _ _ (fun i j _ _ _ _ h => h)).1 i (Nat.zero_le _) hi)]
  · rw [(forRange_update 0 _ (fun c => ij_grd c ((nest.hdr lev).ny - 1) (nest.hdr lev)) _ _
      inj1).2 _ (fun i _ hi => (hk i hi).2)]
    rw [(forRange_update 0 _ (fun c => ij_grd c 0 (nest.hdr lev)) _ _ inj0).2 _
      (fun i _ hi => (hk i hi).1)]
theorem interp_edges_M_scratch (nest : nestContainer) (eb : edgeArrays)
    (flux_L1 flux_L2 : Nat → ℚ) (lev : Nat) :
    (interp_edges nest eb flux_L1 flux_L2 'M' lev).2.edge_row_P = eb.edge_row_P ∧
    (interp_edges nest eb flux_L1 flux_L2 'M' lev).2.edge_row = eb.edge_row := by
  have hM : ¬ ('M' = 'N') := by decide
  unfold interp_edges
  simp only [if_neg hM]
  exact ⟨trivial, trivial⟩

/-- C12: after `edge_communication(lev)` for a nested level `lev >= 1` (grid of at least
2 x 2 nodes, at least two bounding parent nodes along each side, their coordinates strictly
increasing): in `fluxm_a[lev]` every cell of column 0 and of column `nx - 1`, and in
`fluxn_a[lev]` every cell of row 0 and of row `ny - 1`, holds 0 if `bat + etaa <= 1e-5` at that
cell and otherwise the value linearly resampled at the node from the parent `fluxm_a` along
the parent columns `LLcol` and `LRcol - 1`, respectively from the parent `fluxn_a` along the
parent rows `LLrow` and `ULrow - 1`; every other cell of the two arrays, the arrays of the
other levels and every other member of the container are unchanged. -/
theorem edge_communication_injects (nest : nestContainer) (eb : edgeArrays) (lev i_time : Nat)
    (hlev : 0 < lev) (hnx : 2 ≤ (nest.hdr lev).nx) (hny : 2 ≤ (nest.hdr lev).ny)
    (hnr : 2 ≤ Int.toNat (nest.ULrow lev - nest.LLrow lev + 1))
    (hnc : 2 ≤ Int.toNat (nest.LRcol lev - nest.LLcol lev + 1))
    (hxc : ∀ i j, i < j → j < Int.toNat (nest.ULrow lev - nest.LLrow lev + 1) →
      eb.edge_col_P lev i < eb.edge_col_P lev j)
    (hxr : ∀ i j, i < j → j < Int.toNat (nest.LRcol lev - nest.LLcol lev + 1) →
      eb.edge_row_P lev i < eb.edge_row_P lev j) :
    (∀ row, row < (nest.hdr lev).ny →
      (edge_communication nest eb lev i_time).1.fluxm_a lev (ij_grd 0 row (nest.hdr lev))
        = if nest.bat lev (ij_grd 0 row (nest.hdr lev))
              + nest.etaa lev (ij_grd 0 row (nest.hdr lev)) > EPS5 then
            lin_resample_ref (eb.edge_col_P lev)
              (fun i => nest.fluxm_a (lev - 1) (ij_grdI (nest.LLcol lev) (nest.LLrow lev + i)
                (nest.hdr (lev - 1))))
              (Int.toNat (nest.ULrow lev - nest.LLrow lev + 1)) (eb.edge_col lev row)
          else 0) ∧
    (∀ row, row < (nest.hdr lev).ny →
      (edge_communication nest eb lev i_time).1.fluxm_a lev
          (ij_grd ((nest.hdr lev).nx - 1) row (nest.hdr lev))
        = if nest.bat lev (ij_grd ((nest.hdr lev).nx - 1) row (nest.hdr lev))
              + nest.etaa lev (ij_grd ((nest.hdr lev).nx - 1) row (nest.hdr lev)) > EPS5 then
            lin_resample_ref (eb.edge_col_P lev)
              (fun i => nest.fluxm_a (lev - 1) (ij_grdI (nest.LRcol lev - 1)
                (nest.LLrow lev + i) (nest.hdr (lev - 1))))
              (Int.toNat (nest.ULrow lev - nest.LLrow lev + 1)) (eb.edge_col lev row)
          else 0) ∧
    (∀ col, col < (nest.hdr lev).nx →
      (edge_communication nest eb lev i_time).1.fluxn_a lev (ij_grd col 0 (nest.hdr lev))
        = if nest.bat lev (ij_grd col 0 (nest.hdr lev))
              + nest.etaa lev (ij_grd col 0 (nest.hdr lev)) > EPS5 then
            lin_resample_ref (eb.edge_row_P lev)
              (fun i => nest.fluxn_a (lev - 1) (ij_grdI (nest.LLcol lev + i) (nest.LLrow lev)
                (nest.hdr (lev - 1))))
              (Int.toNat (nest.LRcol lev - nest.LLcol lev + 1)) (eb.edge_row lev col)
          else 0) ∧
    (∀ col, col < (nest.hdr lev).nx →
      (edge_communication nest eb lev i_time).1.fluxn_a lev
          (ij_grd col ((nest.hdr lev).ny - 1) (nest.hdr lev))
        = if nest.bat lev (ij_grd col ((nest.hdr lev).ny - 1) (nest.hdr lev))
              + nest.etaa lev (ij_grd col ((nest.hdr lev).ny - 1) (nest.hdr lev)) > EPS5 then
            lin_resample_ref (eb.edge_row_P lev)
              (fun i => nest.fluxn_a (lev - 1) (ij_grdI (nest.LLcol lev + i)
                (nest.ULrow lev - 1) (nest.hdr (lev - 1))))
              (Int.toNat (nest.LRcol lev - nest.LLcol lev + 1)) (eb.edge_row lev col)
          else 0) ∧
    (∀ k, (∀ row, row < (nest.hdr lev).ny →
        ij_grd 0 row (nest.hdr lev) ≠ k ∧ ij_grd ((nest.hdr lev).nx - 1) row (nest.hdr lev) ≠ k) →
      (edge_communication nest eb lev i_time).1.fluxm_a lev k = nest.fluxm_a lev k) ∧
    (∀ k, (∀ col, col < (nest.hdr lev).nx →
        ij_grd col 0 (nest.hdr lev) ≠ k ∧ ij_grd col ((nest.hdr lev).ny - 1) (nest.hdr lev) ≠ k) →
      (edge_communication nest eb lev i_time).1.fluxn_a lev k = nest.fluxn_a lev k) ∧
    (∀ l, l ≠ lev →
      (edge_communication nest eb lev i_time).1.fluxm_a l = nest.fluxm_a l ∧
      (edge_communication nest eb lev i_time).1.fluxn_a l = nest.fluxn_a l) ∧
    { (edge_communication nest eb lev i_time).1 with
        fluxm_a := nest.fluxm_a, fluxn_a := nest.fluxn_a } = nest := by
  have hp : lev - 1 ≠ lev := by omega
  obtain ⟨m1, m2, m3⟩ := interp_edges_M nest eb (nest.fluxm_a (lev - 1)) (nest.fluxm_a lev) lev
    hnx hnr hxc
  obtain ⟨s1, s2⟩ := interp_edges_M_scratch nest eb (nest.fluxm_a (lev - 1)) (nest.fluxm_a lev)
    lev
  have hxr' : ∀ i j, i < j → j < Int.toNat (nest.LRcol lev - nest.LLcol lev + 1) →
      (interp_edges nest eb (nest.fluxm_a (lev - 1)) (nest.fluxm_a lev) 'M' lev).2.edge_row_P
          lev i
        < (interp_edges nest eb (nest.fluxm_a (lev - 1)) (nest.fluxm_a lev) 'M' lev).2.edge_row_P
          lev j := by
    rw [s1]
    exact hxr
  obtain ⟨n1, n2, n3⟩ := interp_edges_N
    { nest with fluxm_a := (Function.update nest.fluxm_a lev
        (interp_edges nest eb (nest.fluxm_a (lev - 1)) (nest.fluxm_a lev) 'M' lev).1) }
    (interp_edges nest eb (nest.fluxm_a (lev - 1)) (nest.fluxm_a lev) 'M' lev).2
    (nest.fluxn_a (lev - 1)) (nest.fluxn_a lev) lev hny hnc hxr'
  rw [s1, s2] at n1 n2
  refine ⟨fun row hrow => ?_, fun row hrow => ?_, fun col hcol => ?_, fun col hcol => ?_,
    fun k hk => ?_, fun k hk => ?_, fun l hl => ⟨?_, ?_⟩, rfl⟩
  · exact (congrFun (Function.update_same lev _ nest.fluxm_a) _).trans (m1 row hrow)
  · exact (congrFun (Function.update_same lev _ nest.fluxm_a) _).trans (m2 row hrow)
  · exact (congrFun (Function.update_same lev _ nest.fluxn_a) _).trans (n1 col hcol)
  · exact (congrFun (Function.update_same lev _ nest.fluxn_a) _).trans (n2 col hcol)
  · exact (congrFun (Function.update_same lev _ nest.fluxm_a) _).trans (m3 k hk)
  · exact (congrFun (Function.update_same lev _ nest.fluxn_a) _).trans (n3 k hk)
  · exact Function.update_noteq hl _ nest.fluxm_a
  · exact Function.update_noteq hl _ nest.fluxn_a
/-- Witness of C12: on the 2 x 2 grid nested in the 3 x 3 parent, the west flux of the node
(0, 0), at 1/4 of the way between the parent nodes 0 and 3 of the parent column 0, becomes
3/4. -/
theorem edge_communication_injects_witness :
    (edge_communication nested2 edges2 1 0).1.fluxm_a 1 0 = 3 / 4 := by
  have h := (edge_communication_injects nested2 edges2 1 0 (by decide) (by decide) (by decide)
    (by decide) (by decide)
    (fun i j hij _ => by
      show ((i : ℕ) : ℚ) < ((j : ℕ) : ℚ)
      exact_mod_cast hij)
    (fun i j hij _ => by
      show ((i : ℕ) : ℚ) < ((j : ℕ) : ℚ)
      exact_mod_cast hij)).1 0 (by decide)
  have e : ij_grd 0 0 (nested2.hdr 1) = 0 := rfl
  rw [e] at h
  rw [h]
  have hn : Int.toNat (nested2.ULrow 1 - nested2.LLrow 1 + 1) = 2 := by decide
  rw [hn]
  have h3 : Int.toNat 3 = 3 := rfl
  norm_num [lin_resample_ref, nested2, edges2, nest0, hdr0, ij_grdI, EPS5, h3]

/-! ## Upscaling -/

/-- C13 (the code at the failing input): on `halfwet2` the refinement ratio is 2, exactly 2 of
the 4 nested cells of the window of the parent cell 12 are wet (`bat + eta_d > 1e-5` at the
cells 14 and 15, not at 20 and 21), which is not more than two-thirds of them, and `upscale_`
nevertheless overwrites the elevation 0 of the parent cell with the mean 1 of the two wet
cells. -/
theorem upscale_overwrites_at_half_wet :
    halfwet2.incRatio 1 = 2 ∧
    (halfwet2.bat 1 14 + halfwet2.etad 1 14 > EPS5 ∧
      halfwet2.bat 1 15 + halfwet2.etad 1 15 > EPS5 ∧
      ¬ halfwet2.bat 1 20 + halfwet2.etad 1 20 > EPS5 ∧
      ¬ halfwet2.bat 1 21 + halfwet2.etad 1 21 > EPS5) ∧
    (upscale_sum halfwet2 (halfwet2.etad 1) 1 true 2 2).2 = 2 ∧
    ¬ (3 * 2 > 2 * (2 * 2)) ∧
    halfwet2.etad 0 12 = 0 ∧ (upscale_ halfwet2 1 2).etad 0 12 = 1 := by
  have hr : Int.toNat (halfwet2.incRatio 1) = 2 := rfl
  have h1 : Int.toNat (halfwet2.ULrow 1 - 1 - (halfwet2.LLrow 1 + 1 + 1)) = 1 := rfl
  have h2 : Int.toNat (halfwet2.LRcol 1 - 1 - (halfwet2.LLcol 1 + 1 + 1)) = 1 := rfl
  have h12 : Int.toNat 12 = 12 := rfl
  refine ⟨rfl, ?_, ?_, by decide, rfl, ?_⟩
  · norm_num [halfwet2, nest0, EPS5]
  · unfold upscale_sum
    simp only [hr]
    norm_num [forRange, List.range', halfwet2, nest0, hdr0, ij_grd, EPS5]
  · unfold upscale_ upscale_sum
    simp only [hr, h1, h2]
    norm_num [forRange, List.range', halfwet2, nest0, hdr0, ij_grd, ij_grdI, EPS5, h12]

theorem forRange_induction {σ : Type} (P : σ → Prop) (lo hi : Nat) (body : Nat → σ → σ) (s : σ)
    (h0 : P s) (hstep : ∀ i s, lo ≤ i → i < hi → P s → P (body i s)) :
    P (forRange lo hi body s) := by
  unfold forRange
  have hmem : ∀ i, i ∈ List.range' lo (hi - lo) → lo ≤ i ∧ i < hi := by
    intro i hi'
    rw [List.mem_range'_1] at hi'
    omega
  generalize List.range' lo (hi - lo) = l at hmem
  induction l generalizing s with
  | nil => exact h0
  | cons i l ih =>
    rw [List.foldl_cons]
    exact ih (body i s)
      (hstep i s (hmem i (List.mem_cons_self _ _)).1 (hmem i (List.mem_cons_self _ _)).2 h0)
      (fun k hk => hmem k (List.mem_cons_of_mem _ hk))

/-- In a window of nested cells that are at rest the sum of `upscale_` is 0. -/
theorem upscale_sum_at_rest (nest : nestContainer) (e1 : Nat → ℚ) (lev : Nat) (do_half : Bool)
    (i0 j0 : Nat)
    (hrest : ∀ ki kj, ki < Int.toNat (nest.incRatio lev) → kj < Int.toNat (nest.incRatio lev) →
      e1 (ij_grd (j0 + kj) (i0 + ki) (nest.hdr lev)) = 0 ∧
      (0 ≤ nest.bat lev (ij_grd (j0 + kj) (i0 + ki) (nest.hdr lev)) →
        nest.etaa lev (ij_grd (j0 + kj) (i0 + ki) (nest.hdr lev)) = 0)) :
    (upscale_sum nest e1 lev do_half i0 j0).1 = 0 := by
  unfold upscale_sum
  simp only []
  refine forRange_induction (fun s : ℚ × Int => s.1 = 0) _ _ _ _ rfl ?_
  intro ki s _ hki hs
  refine forRange_induction (fun s : ℚ × Int => s.1 = 0) _ _ _ _ hs ?_
  intro kj s _ hkj hs
  obtain ⟨he, ha⟩ := hrest ki kj hki hkj
  by_cases hw : nest.bat lev (ij_grd (j0 + kj) (i0 + ki) (nest.hdr lev))
      + e1 (ij_grd (j0 + kj) (i0 + ki) (nest.hdr lev)) > EPS5
  · rw [if_pos hw]
    have hb : 0 ≤ nest.bat lev (ij_grd (j0 + kj) (i0 + ki) (nest.hdr lev)) := by
      rw [he] at hw
      norm_num [EPS5] at hw
      linarith
    show s.1 + _ = 0
    rw [hs, he, ha hb]
    cases do_half <;> norm_num
  · rw [if_neg hw]
    exact hs

/-- C14: if the nested grid `lev >= 1` is at rest (`eta_a = eta_d = 0` on every cell with
`bat >= 0`, `eta_a = eta_d = -bat` on every cell with `bat < 0`), the windows read by `upscale_`
lying inside the grid, then `upscale_` leaves every cell of the parent `eta_d` unchanged (the
call changes nothing but `eta_d`), so the parent state is the same as without upscaling. -/
theorem upscale_at_rest_keeps_parent (nest : nestContainer) (lev : Nat) (i_tsr : Int)
    (hlev : 0 < lev)
    (hin : ∀ t tc ki kj, t < Int.toNat (nest.ULrow lev - 1 - (nest.LLrow lev + 1 + 1)) →
      tc < Int.toNat (nest.LRcol lev - 1 - (nest.LLcol lev + 1 + 1)) →
      ki < Int.toNat (nest.incRatio lev) → kj < Int.toNat (nest.incRatio lev) →
      ij_grd ((1 + tc) * Int.toNat (nest.incRatio lev) + kj)
        ((1 + t) * Int.toNat (nest.incRatio lev) + ki) (nest.hdr lev) < (nest.hdr lev).nm)
    (hrest : ∀ k, k < (nest.hdr lev).nm →
      (0 ≤ nest.bat lev k → nest.etaa lev k = 0 ∧ nest.etad lev k = 0) ∧
      (nest.bat lev k < 0 → nest.etaa lev k = -nest.bat lev k ∧
        nest.etad lev k = -nest.bat lev k)) :
    (upscale_ nest lev i_tsr).etad (lev - 1) = nest.etad (lev - 1) ∧
    { upscale_ nest lev i_tsr with etad := nest.etad } = nest := by
  have hp : lev - 1 ≠ lev := by omega
  refine ⟨?_, rfl⟩
  unfold upscale_
  simp only []
  rw [Function.update_noteq hp, Function.update_same]
  refine forRange_induction (fun out => out = nest.etad (lev - 1)) _ _ _ _ rfl ?_
  intro t out _ ht ho
  refine forRange_induction (fun out => out = nest.etad (lev - 1)) _ _ _ _ ho ?_
  intro tc out _ htc ho
  have hs := upscale_sum_at_rest nest
    (fun ij => if ij < (nest.hdr lev).nm ∧ nest.bat lev ij < 0 then
      nest.etad lev ij + nest.bat lev ij else nest.etad lev ij)
    lev (decide (i_tsr % 2 = 0)) ((1 + t) * Int.toNat (nest.incRatio lev))
    ((1 + tc) * Int.toNat (nest.incRatio lev))
    (fun ki kj hki hkj => by
      have hk := hin t tc ki kj ht htc hki hkj
      obtain ⟨r1, r2⟩ := hrest _ hk
      refine ⟨?_, fun hb => (r1 hb).1⟩
      by_cases hb : nest.bat lev (ij_grd ((1 + tc) * Int.toNat (nest.incRatio lev) + kj)
          ((1 + t) * Int.toNat (nest.incRatio lev) + ki) (nest.hdr lev)) < 0
      · simp only [hk, hb, and_self, if_true, (r2 hb).2]
        ring
      · simp only [hb, and_false, if_false]
        exact (r1 (not_lt.mp hb)).2)
  simp only [hs, ne_eq, not_true_eq_false, false_and, if_false]
  exact ho
/-- Witness of C14: on `rest2`, whose nested grid is at rest with one land node, `upscale_`
leaves the parent elevation as it was. -/
theorem upscale_at_rest_keeps_parent_witness :
    (upscale_ rest2 1 2).etad 0 = rest2.etad 0 := by
  have hr : Int.toNat (rest2.incRatio 1) = 2 := rfl
  have h1 : Int.toNat (rest2.ULrow 1 - 1 - (rest2.LLrow 1 + 1 + 1)) = 1 := rfl
  have h2 : Int.toNat (rest2.LRcol 1 - 1 - (rest2.LLcol 1 + 1 + 1)) = 1 := rfl
  refine (upscale_at_rest_keeps_parent rest2 1 2 (by decide) ?_ ?_).1
  · intro t tc ki kj ht htc hki hkj
    rw [h1] at ht
    rw [h2] at htc
    rw [hr] at hki hkj ⊢
    interval_cases t
    interval_cases tc
    interval_cases ki <;> interval_cases kj <;> decide
  · intro k _
    by_cases hk : k = 14 <;> norm_num [rest2, halfwet2, nest0, hk]

/-! ## The nesting scheduler -/

theorem forRange_succ {σ : Type} (lo hi : Nat) (body : Nat → σ → σ) (s : σ) (h : lo ≤ hi) :
    forRange lo (hi + 1) body s = body hi (forRange lo hi body s) := by
  unfold forRange
  have e : hi + 1 - lo = (hi - lo) + 1 := by omega
  rw [e, List.range'_concat, List.foldl_append]
  simp only [List.foldl_cons, List.foldl_nil]
  have e2 : lo + 1 * (hi - lo) = hi := by omega
  rw [e2]

/-- What the first `n` passes of the loop of `update_max` leave: every member but `work` and
`wmax` as it was, and at each cell visited the value of `update_max_work` in `work` and the
larger of it and the former `wmax` in `wmax`. -/
theorem update_max_passes (H : Host) (s : nestState) (n : Nat) :
    (forRange 0 n (fun ij s => update_max_cell H ij s) s).edges = s.edges ∧
    { (forRange 0 n (fun ij s => update_max_cell H ij s) s).nest with wmax := s.nest.wmax }
      = s.nest ∧
    (∀ ij, (forRange 0 n (fun ij s => update_max_cell H ij s) s).work ij
      = if ij < n then update_max_work H s.nest ij else s.work ij) ∧
    (∀ ij, (forRange 0 n (fun ij s => update_max_cell H ij s) s).nest.wmax ij
      = if ij < n ∧ s.nest.wmax ij < update_max_work H s.nest ij then
          update_max_work H s.nest ij
        else s.nest.wmax ij) := by
  induction n with
  | zero =>
    refine ⟨rfl, rfl, fun ij => ?_, fun ij => ?_⟩
    · rw [if_neg (Nat.not_lt_zero ij)]
      rfl
    · rw [if_neg (fun h => Nat.not_lt_zero ij h.1)]
      rfl
  | succ n ih =>
    rw [forRange_succ 0 n _ s (Nat.zero_le n)]
    generalize forRange 0 n (fun ij s => update_max_cell H ij s) s = t at ih
    obtain ⟨h1, h2, h3, h4⟩ := ih
    have hb : t.nest.bat = s.nest.bat := (congrArg nestContainer.bat h2 :)
    have hd : t.nest.etad = s.nest.etad := (congrArg nestContainer.etad h2 :)
    have ha : t.nest.etaa = s.nest.etaa := (congrArg nestContainer.etaa h2 :)
    have hw : t.nest.writeLevel = s.nest.writeLevel := (congrArg nestContainer.writeLevel h2 :)
    have hwork : ∀ ij, (update_max_cell H n t).work ij
        = if ij = n then update_max_work H s.nest n else t.work ij := by
      intro ij
      unfold update_max_cell update_max_work
      simp only [hb, hd, ha, hw]
      by_cases hij : ij = n
      · rw [if_pos hij, hij]
        split_ifs <;> simp_all [Function.update_same]
      · rw [if_neg hij]
        split_ifs <;> simp [Function.update_noteq hij]
    have hwn : (update_max_cell H n t).work n = update_max_work H s.nest n := by
      rw [hwork n, if_pos rfl]
    have hwmax : ∀ ij, (update_max_cell H n t).nest.wmax ij
        = if ij = n ∧ t.nest.wmax n < update_max_work H s.nest n then
            update_max_work H s.nest n
          else t.nest.wmax ij := by
      intro ij
      have e : (update_max_cell H n t).nest.wmax
          = if t.nest.wmax n < (update_max_cell H n t).work n then
              Function.update t.nest.wmax n ((update_max_cell H n t).work n)
            else t.nest.wmax := rfl
      rw [e, hwn]
      by_cases hij : ij = n
      · subst hij
        by_cases hc : t.nest.wmax ij < update_max_work H s.nest ij <;> simp [hc]
      · by_cases hc : t.nest.wmax n < update_max_work H s.nest n <;>
          simp [hij, hc, Function.update_noteq hij]
    refine ⟨h1, h2, fun ij => ?_, fun ij => ?_⟩
    · rw [hwork ij, h3 ij]
      by_cases hij : ij = n
      · rw [if_pos hij, if_pos (by omega)]
        rw [hij]
      · rw [if_neg hij]
        by_cases hlt : ij < n
        · rw [if_pos hlt, if_pos (by omega)]
        · rw [if_neg hlt, if_neg (by omega)]
    · rw [hwmax ij, h4 ij, h4 n]
      have hnn : ¬ (n < n ∧ s.nest.wmax n < update_max_work H s.nest n) :=
        fun h => Nat.lt_irrefl n h.1
      rw [if_neg hnn]
      by_cases hij : ij = n
      · rw [hij]
        by_cases hc : s.nest.wmax n < update_max_work H s.nest n <;> simp [hc]
      · have h5 : ij < n + 1 ↔ ij < n := by omega
        simp only [hij, false_and, if_false, h5]

/-- What the first `n` passes of the loop of `update_max_velocity` leave: every member but
`vmax` as it was, and at each cell visited the larger of `update_max_velocity_v` and the
former `vmax`. -/
theorem update_max_velocity_passes (H : Host) (s : nestState) (n : Nat) :
    (forRange 0 n (fun ij s => update_max_velocity_cell H ij s) s).edges = s.edges ∧
    (forRange 0 n (fun ij s => update_max_velocity_cell H ij s) s).work = s.work ∧
    { (forRange 0 n (fun ij s => update_max_velocity_cell H ij s) s).nest with
        vmax := s.nest.vmax } = s.nest ∧
    (∀ ij, (forRange 0 n (fun ij s => update_max_velocity_cell H ij s) s).nest.vmax ij
      = if ij < n ∧ s.nest.vmax ij < update_max_velocity_v H s.nest ij then
          update_max_velocity_v H s.nest ij
        else s.nest.vmax ij) := by
  induction n with
  | zero =>
    refine ⟨rfl, rfl, rfl, fun ij => ?_⟩
    rw [if_neg (fun h => Nat.not_lt_zero ij h.1)]
    rfl
  | succ n ih =>
    rw [forRange_succ 0 n _ s (Nat.zero_le n)]
    generalize forRange 0 n (fun ij s => update_max_velocity_cell H ij s) s = t at ih
    obtain ⟨h1, h2, h3, h4⟩ := ih
    have hh : t.nest.htotal_d = s.nest.htotal_d := (congrArg nestContainer.htotal_d h3 :)
    have hx : t.nest.vex = s.nest.vex := (congrArg nestContainer.vex h3 :)
    have hy : t.nest.vey = s.nest.vey := (congrArg nestContainer.vey h3 :)
    have hw : t.nest.writeLevel = s.nest.writeLevel := (congrArg nestContainer.writeLevel h3 :)
    have hv : update_max_velocity_v H t.nest n = update_max_velocity_v H s.nest n := by
      unfold update_max_velocity_v
      rw [hh, hx, hy, hw]
    have hvmax : ∀ ij, (update_max_velocity_cell H n t).nest.vmax ij
        = if ij = n ∧ t.nest.vmax n < update_max_velocity_v H s.nest n then
            update_max_velocity_v H s.nest n
          else t.nest.vmax ij := by
      intro ij
      have e : (update_max_velocity_cell H n t).nest.vmax
          = if t.nest.vmax n < update_max_velocity_v H t.nest n then
              Function.update t.nest.vmax n (update_max_velocity_v H t.nest n)
            else t.nest.vmax := rfl
      rw [e, hv]
      by_cases hij : ij = n
      · subst hij
        by_cases hc : t.nest.vmax ij < update_max_velocity_v H s.nest ij <;> simp [hc]
      · by_cases hc : t.nest.vmax n < update_max_velocity_v H s.nest n <;>
          simp [hij, hc, Function.update_noteq hij]
    refine ⟨h1, h2, h3, fun ij => ?_⟩
    rw [hvmax ij, h4 ij, h4 n]
    have hnn : ¬ (n < n ∧ s.nest.vmax n < update_max_velocity_v H s.nest n) :=
      fun h => Nat.lt_irrefl n h.1
    rw [if_neg hnn]
    by_cases hij : ij = n
    · rw [hij]
      by_cases hc : s.nest.vmax n < update_max_velocity_v H s.nest n <;> simp [hc]
    · have h5 : ij < n + 1 ↔ ij < n := by omega
      simp only [hij, false_and, if_false, h5]

/-- The function `update_max` cell by cell: `wmax` of each cell of the write level becomes the
larger of its former value and `update_max_work`; nothing else of the container changes. -/
theorem update_max_spec (H : Host) (s : nestState) :
    (update_max H s).edges = s.edges ∧
    { (update_max H s).nest with wmax := s.nest.wmax } = s.nest ∧
    (∀ ij, (update_max H s).nest.wmax ij
      = if ij < (s.nest.hdr s.nest.writeLevel).nm ∧ s.nest.wmax ij < update_max_work H s.nest ij
        then update_max_work H s.nest ij else s.nest.wmax ij) :=
  ⟨(update_max_passes H s _).1, (update_max_passes H s _).2.1, (update_max_passes H s _).2.2.2⟩

/-- The function `update_max_velocity` cell by cell: `vmax` of each cell of the write level
becomes the larger of its former value and `update_max_velocity_v`; nothing else changes. -/
theorem update_max_velocity_spec (H : Host) (s : nestState) :
    (update_max_velocity H s).edges = s.edges ∧
    (update_max_velocity H s).work = s.work ∧
    { (update_max_velocity H s).nest with vmax := s.nest.vmax } = s.nest ∧
    (∀ ij, (update_max_velocity H s).nest.vmax ij
      = if ij < (s.nest.hdr s.nest.writeLevel).nm
            ∧ s.nest.vmax ij < update_max_velocity_v H s.nest ij
        then update_max_velocity_v H s.nest ij else s.nest.vmax ij) :=
  update_max_velocity_passes H s _

theorem calloc_array_keeps (a : WorkArray) (lev : Nat) (nest : nestContainer) :
    (calloc_array a lev nest).dt = nest.dt ∧ (calloc_array a lev nest).incRatio = nest.incRatio := by
  cases a <;> exact ⟨rfl, rfl⟩

theorem alloc_arrays_keeps (heap : Heap) (lev : Nat) (l : List (Bool × WorkArray)) :
    ∀ nest : nestContainer,
      (alloc_arrays heap lev l nest).2.dt = nest.dt ∧
      (alloc_arrays heap lev l nest).2.incRatio = nest.incRatio := by
  induction l with
  | nil => intro nest; exact ⟨rfl, rfl⟩
  | cons p l ih =>
    intro nest
    obtain ⟨wanted, a⟩ := p
    unfold alloc_arrays
    by_cases hw : wanted = true
    · rw [if_pos hw]
      by_cases ha : heap.calloc_ok a = true
      · rw [if_pos ha]
        obtain ⟨i1, i2⟩ := ih (calloc_array a lev nest)
        obtain ⟨c1, c2⟩ := calloc_array_keeps a lev nest
        exact ⟨i1.trans c1, i2.trans c2⟩
      · rw [if_neg ha]
        exact ⟨rfl, rfl⟩
    · rw [if_neg hw]
      exact ih nest

theorem initialize_finish_ok (s : initState) (lev : Nat) (r : Bool × nestContainer)
    (hlev : 0 < lev) (hret : (initialize_finish s lev r).1 = 0) :
    (initialize_finish s lev r).2.nest.incRatio = r.2.incRatio ∧
    (initialize_finish s lev r).2.nest.dt = r.2.dt := by
  have hl0 : ¬ lev = 0 := by omega
  unfold initialize_finish at hret ⊢
  by_cases h4 : r.1 = false
  · rw [if_pos h4] at hret
    exact absurd hret (by norm_num)
  · rw [if_neg h4, if_neg hl0]
    exact ⟨rfl, rfl⟩

/-- What a successful `initialize_nestum` of a nested level has checked and set: the two
ratios of increments do not exceed their roundings `irint` by more than 1e-5, the roundings
agree, `incRatio[lev]` is that integer and `dt[lev]` is the parent time step divided by
the ceiling of its ratio to the half-CFL step. -/
theorem initialize_nestum_ok (E : Env) (heap : Heap) (s : initState) (isGeog : Bool) (lev : Nat)
    (hlev : 0 < lev) (hret : (initialize_nestum E heap s isGeog lev).1 = 0) :
    ¬ ((s.nest.hdr (lev - 1)).x_inc / (s.nest.hdr lev).x_inc
        - irint ((s.nest.hdr (lev - 1)).x_inc / (s.nest.hdr lev).x_inc) > 1e-5) ∧
    ¬ ((s.nest.hdr (lev - 1)).y_inc / (s.nest.hdr lev).y_inc
        - irint ((s.nest.hdr (lev - 1)).y_inc / (s.nest.hdr lev).y_inc) > 1e-5) ∧
    irint ((s.nest.hdr (lev - 1)).x_inc / (s.nest.hdr lev).x_inc)
      = irint ((s.nest.hdr (lev - 1)).y_inc / (s.nest.hdr lev).y_inc) ∧
    (initialize_nestum E heap s isGeog lev).2.nest.incRatio lev
      = irint ((s.nest.hdr (lev - 1)).x_inc / (s.nest.hdr lev).x_inc) ∧
    (initialize_nestum E heap s isGeog lev).2.nest.dt
      = Function.update s.nest.dt lev
          (s.nest.dt (lev - 1) / (Int.ceil (s.nest.dt (lev - 1)
            / half_cfl_step E (s.nest.hdr lev) isGeog) : ℚ)) := by
  unfold initialize_nestum at hret ⊢
  simp only [hlev, true_and, if_true] at hret ⊢
  by_cases h1 : (s.nest.hdr (lev - 1)).x_inc / (s.nest.hdr lev).x_inc
      - irint ((s.nest.hdr (lev - 1)).x_inc / (s.nest.hdr lev).x_inc) > 1e-5
  · rw [if_pos h1] at hret
    exact absurd hret (by norm_num)
  rw [if_neg h1] at hret ⊢
  by_cases h2 : (s.nest.hdr (lev - 1)).y_inc / (s.nest.hdr lev).y_inc
      - irint ((s.nest.hdr (lev - 1)).y_inc / (s.nest.hdr lev).y_inc) > 1e-5
  · rw [if_pos h2] at hret
    exact absurd hret (by norm_num)
  rw [if_neg h2] at hret ⊢
  by_cases h3 : irint ((s.nest.hdr (lev - 1)).x_inc / (s.nest.hdr lev).x_inc)
      ≠ irint ((s.nest.hdr (lev - 1)).y_inc / (s.nest.hdr lev).y_inc)
  · rw [if_pos h3] at hret
    exact absurd hret (by norm_num)
  rw [if_neg h3] at hret ⊢
  obtain ⟨f1, f2⟩ := initialize_finish_ok s lev _ hlev hret
  obtain ⟨k1, k2⟩ := alloc_arrays_keeps heap lev _ _
  refine ⟨h1, h2, not_not.mp h3, ?_, ?_⟩
  · rw [f1, k2]
    exact Function.update_same _ _ _
  · rw [f2, k1]
theorem alloc_arrays_ok (heap : Heap) (h : ∀ a, heap.calloc_ok a = true) (lev : Nat)
    (l : List (Bool × WorkArray)) :
    ∀ nest : nestContainer, (alloc_arrays heap lev l nest).1 = true := by
  induction l with
  | nil => intro nest; rfl
  | cons p l ih =>
    intro nest
    obtain ⟨wanted, a⟩ := p
    unfold alloc_arrays
    rw [if_pos (h a)]
    split_ifs
    · exact ih _
    · exact ih _

theorem initialize_finish_ret (s : initState) (lev : Nat) (r : Bool × nestContainer)
    (h : r.1 = true) : (initialize_finish s lev r).1 = 0 := by
  unfold initialize_finish
  have hb : ¬ (r.1 = false) := by
    rw [h]
    decide
  rw [if_neg hb]
  split_ifs <;> rfl

/-- When every allocation succeeds, `initialize_nestum` returns 0 as soon as the checks of the
increments pass. -/
theorem initialize_nestum_succeeds (E : Env) (heap : Heap) (s : initState) (isGeog : Bool)
    (lev : Nat) (hheap : ∀ a, heap.calloc_ok a = true)
    (h1 : ¬ ((s.nest.hdr (lev - 1)).x_inc / (s.nest.hdr lev).x_inc
        - irint ((s.nest.hdr (lev - 1)).x_inc / (s.nest.hdr lev).x_inc) > 1e-5))
    (h2 : ¬ ((s.nest.hdr (lev - 1)).y_inc / (s.nest.hdr lev).y_inc
        - irint ((s.nest.hdr (lev - 1)).y_inc / (s.nest.hdr lev).y_inc) > 1e-5))
    (h3 : irint ((s.nest.hdr (lev - 1)).x_inc / (s.nest.hdr lev).x_inc)
      = irint ((s.nest.hdr (lev - 1)).y_inc / (s.nest.hdr lev).y_inc)) :
    (initialize_nestum E heap s isGeog lev).1 = 0 := by
  unfold initialize_nestum
  simp only []
  rw [if_neg (fun h => h1 h.2), if_neg (fun h => h2 h.2), if_neg (fun h => h.2 h3)]
  exact initialize_finish_ret s lev _ (alloc_arrays_ok heap hheap lev _ _)

theorem irint_one : irint 1 = 1 := by
  unfold irint
  rw [Int.floor_eq_iff]
  norm_num

/-- A half is rounded upwards by `irint`, as by `floor(x + 0.5)`: the ratio 5/2 gives 3. -/
theorem irint_five_halves : irint (5 / 2) = 3 := by
  unfold irint
  rw [Int.floor_eq_iff]
  norm_num

/-- On `half2` both ratios of increments are 5/2, which `rint` rounds to 3; the ratio does not
exceed 3, so `initialize_nestum` returns 0 and sets `incRatio[1] = 3`. -/
theorem initialize_nestum_at_half :
    (half2.nest.hdr 0).x_inc / (half2.nest.hdr 1).x_inc = 5 / 2 ∧
    (initialize_nestum env0 heap_ok half2 false 1).1 = 0 ∧
    (initialize_nestum env0 heap_ok half2 false 1).2.nest.incRatio 1 = 3 := by
  have e1 : (half2.nest.hdr (1 - 1)).x_inc / (half2.nest.hdr 1).x_inc = 5 / 2 := by
    norm_num [half2, init2, nest0, hdr0]
  have e2 : (half2.nest.hdr (1 - 1)).y_inc / (half2.nest.hdr 1).y_inc = 5 / 2 := by
    norm_num [half2, init2, nest0, hdr0]
  have hret : (initialize_nestum env0 heap_ok half2 false 1).1 = 0 := by
    refine initialize_nestum_succeeds env0 heap_ok half2 false 1 (fun _ => rfl) ?_ ?_ ?_
    · rw [e1, irint_five_halves]
      norm_num
    · rw [e2, irint_five_halves]
      norm_num
    · rw [e1, e2]
  refine ⟨e1, hret, ?_⟩
  have h := (initialize_nestum_ok env0 heap_ok half2 false 1 (by decide) hret).2.2.2.1
  rw [h, e1, irint_five_halves]

/-- On a container whose `level[1]` is not positive, as `sanitize_nestContainer` leaves it,
`check_paternity` makes no check and returns 0. -/
theorem check_paternity_unset (nest : nestContainer) (h : ¬ nest.level 1 > 0) (fuel : Nat) :
    check_paternity (fuel + 1) nest = some 0 := by
  unfold check_paternity check_paternity_loop
  rw [if_neg h]

/-- C18 (the code at the failing input): in `startup2` the nested grid is misaligned, since
the check of its lower left corner by `check_binning` itself fails (-1), the container is as
`main` prepares it (`level[1] = -1`, `initialize_nestum` has not run), and `check_paternity`
returns 0: the loop `while (nest->level[k] > 0)` is not entered. -/
theorem check_paternity_accepts_misaligned :
    (check_binning (startup2.hdr 0).x_min (startup2.hdr 1).x_min (startup2.hdr 0).x_inc
      (startup2.hdr 1).x_inc ((startup2.hdr 0).x_inc / 4)).1 = -1 ∧
    startup2.level 1 = -1 ∧
    ∀ fuel, check_paternity (fuel + 1) startup2 = some 0 := by
  have e1 : irint 1 = 1 := irint_one
  refine ⟨?_, rfl, fun fuel => check_paternity_unset startup2 (by decide) fuel⟩
  have h0 : (startup2.hdr 0).x_min = 0 := rfl
  have h1 : (startup2.hdr 1).x_min = 2 := rfl
  have h2 : (startup2.hdr 0).x_inc = 2 := rfl
  have h3 : (startup2.hdr 1).x_inc = 1 := by
    norm_num [startup2, load_nested_grid]
  rw [h0, h1, h2, h3]
  have e : ((2 : ℚ) - 0) / 2 = 1 := by norm_num
  unfold check_binning
  simp only [e, e1]
  norm_num [lt_abs]
/-- C19: whenever `dt > ds / sqrt(g * |z_min|)`, with `ds = min(dx, dy)` of the base grid in
metres (times 111000 for geographical coordinates), `z_min` the minimum of the base grid and
`g` the constant 9.8 of this test, `main` returns -1 at the CFL test: whatever the errors found
before and whatever follows (reading the nested grids, allocation, time steps), nothing of
it is run and the world is left as it was. -/
theorem cfl_violation_rejected {W : Type} (E : Env) (hdr_b : srf_header) (isGeog covers : Bool)
    (dt : ℚ) (error : Nat) (rest : W → Int × W) (w : W)
    (h : dt > min ((hdr_b.x_max - hdr_b.x_min) / ((hdr_b.nx : ℚ) - 1))
                  ((hdr_b.y_max - hdr_b.y_min) / ((hdr_b.ny : ℚ) - 1))
              * (if isGeog then 111000 else 1)
              / E.sqrt (9.8 * |hdr_b.z_min|)) :
    main_cfl E hdr_b isGeog covers dt error rest w = (-1, w) := by
  unfold main_cfl
  simp only []
  have e : (if isGeog = true then
        (if (hdr_b.x_max - hdr_b.x_min) / ((hdr_b.nx : ℚ) - 1)
            < (hdr_b.y_max - hdr_b.y_min) / ((hdr_b.ny : ℚ) - 1) then
          (hdr_b.x_max - hdr_b.x_min) / ((hdr_b.nx : ℚ) - 1)
        else (hdr_b.y_max - hdr_b.y_min) / ((hdr_b.ny : ℚ) - 1)) * 111000
      else
        (if (hdr_b.x_max - hdr_b.x_min) / ((hdr_b.nx : ℚ) - 1)
            < (hdr_b.y_max - hdr_b.y_min) / ((hdr_b.ny : ℚ) - 1) then
          (hdr_b.x_max - hdr_b.x_min) / ((hdr_b.nx : ℚ) - 1)
        else (hdr_b.y_max - hdr_b.y_min) / ((hdr_b.ny : ℚ) - 1)))
      / E.sqrt (|hdr_b.z_min| * 9.8)
      = min ((hdr_b.x_max - hdr_b.x_min) / ((hdr_b.nx : ℚ) - 1))
            ((hdr_b.y_max - hdr_b.y_min) / ((hdr_b.ny : ℚ) - 1))
          * (if isGeog then 111000 else 1) / E.sqrt (9.8 * |hdr_b.z_min|) := by
    have e1 : (if (hdr_b.x_max - hdr_b.x_min) / ((hdr_b.nx : ℚ) - 1)
            < (hdr_b.y_max - hdr_b.y_min) / ((hdr_b.ny : ℚ) - 1) then
          (hdr_b.x_max - hdr_b.x_min) / ((hdr_b.nx : ℚ) - 1)
        else (hdr_b.y_max - hdr_b.y_min) / ((hdr_b.ny : ℚ) - 1))
        = min ((hdr_b.x_max - hdr_b.x_min) / ((hdr_b.nx : ℚ) - 1))
            ((hdr_b.y_max - hdr_b.y_min) / ((hdr_b.ny : ℚ) - 1)) := by
      split_ifs with hc
      · rw [min_eq_left (le_of_lt hc)]
      · rw [min_eq_right (not_lt.mp hc)]
    rw [e1, mul_comm (|hdr_b.z_min|) 9.8]
    cases isGeog <;> simp
  rw [e, if_pos h]

/-- Witness of C19: for the base grid `base_hdr` (`ds = 10`, `sqrt(9.8 * 5) = 7`) the time
step 2 exceeds `10 / 7` and the run is rejected; the rest of `main`, which would return 0 and
count one step, is not run. -/
theorem cfl_violation_rejected_witness :
    main_cfl env0 base_hdr false true 2 0 (fun n : Nat => ((0 : Int), n + 1)) 0 = (-1, 0) := by
  refine cfl_violation_rejected env0 base_hdr false true 2 0 _ 0 ?_
  have hs : env0.sqrt (9.8 * |base_hdr.z_min|) = 7 := by
    have e : (9.8 : ℚ) * |base_hdr.z_min| = 7 * 7 := by
      norm_num [base_hdr, abs_of_neg]
    rw [e]
    show Rat.sqrt (7 * 7) = 7
    rw [Rat.sqrt_eq]
    norm_num
  rw [hs]
  norm_num [base_hdr]
/-! ## The open boundary -/

theorem call_openb_etad (E : Env) (nest : nestContainer) :
    (call_openb E nest).etad 0
      = openb E (nest.hdr 0) (nest.bat 0) (nest.fluxm_d 0) (nest.fluxn_d 0) (nest.etad 0)
          nest := by
  unfold call_openb
  exact Function.update_same 0 _ nest.etad

theorem openb_flat3 (nest : nestContainer) (hdr : grd_header) (hx : hdr.nx = 3)
    (hy : hdr.ny = 3) (hbc : nest.bnc_border 1 = 0) :
    openb env0 hdr (fun _ => 10) (fun _ => 0) (fun _ => 0) (fun _ => 1) nest
      = fun k => if k = 2 ∨ k = 4 then 1 else if k < 9 then 0 else 1 := by
  have hz : openb_zz env0 0 0 10 = 0 := by
    unfold openb_zz
    rw [mul_zero, add_zero, env0_sqrt_zero, zero_div]
  have hr : forRange 1 (3 - 1) = fun (body : Nat → (Nat → ℚ) → (Nat → ℚ)) x => body 1 x := rfl
  have h5 : EPS5 < (10 : ℚ) := by norm_num [EPS5]
  have h5' : ¬ (10 : ℚ) < EPS5 := not_lt.mpr h5.le
  unfold openb
  simp only [hx, hy, hr, hbc, if_true, gt_iff_lt, h5, h5', hz, lt_self_iff_false, or_self,
    if_false, openb_clip_zero, ij_grd, add_zero, zero_mul, zero_add,
    show (3 : Nat) - 1 = 2 from rfl, show (3 : Nat) - 2 = 1 from rfl,
    show (2 : Nat) - 1 = 1 from rfl, show (1 : Nat) - 1 = 0 from rfl]
  funext k
  simp only [Function.update_apply]
  norm_num
  by_cases h9 : k < 9
  · interval_cases k <;> simp
  · have : ¬ k = 8 := by omega
    have : ¬ k = 6 := by omega
    have : ¬ k = 0 := by omega
    have : ¬ k = 5 := by omega
    have : ¬ k = 3 := by omega
    have : ¬ k = 7 := by omega
    have : ¬ k = 1 := by omega
    have : ¬ k = 2 := by omega
    have : ¬ k = 4 := by omega
    simp [*]

/-- C20 (the code at the failing input): on the 3 x 3 pond `flat3` (wet everywhere, no flux,
`eta_d = 1`, no wave-maker border) `openb` assigns the radiation value 0 to the cells of the
four edges and to three corners (cells 0, 6 and 8), leaves the interior cell 4 as it is, and
does not assign the corner cell 2 (last column of the first row), which keeps `eta_d = 1`
although it is wet and its radiation value is 0 too. -/
theorem openb_skips_a_corner :
    flat3.bnc_border 1 = 0 ∧ flat3.bat 0 2 > EPS5 ∧
    openb_clip (openb_zz env0 (flat3.fluxm_d 0 1) (flat3.fluxn_d 0 2) (flat3.bat 0 2)) = 0 ∧
    (call_openb env0 flat3).etad 0 0 = 0 ∧ (call_openb env0 flat3).etad 0 1 = 0 ∧
    (call_openb env0 flat3).etad 0 3 = 0 ∧ (call_openb env0 flat3).etad 0 5 = 0 ∧
    (call_openb env0 flat3).etad 0 6 = 0 ∧ (call_openb env0 flat3).etad 0 7 = 0 ∧
    (call_openb env0 flat3).etad 0 8 = 0 ∧ (call_openb env0 flat3).etad 0 4 = 1 ∧
    (call_openb env0 flat3).etad 0 2 = 1 := by
  have hz : openb_zz env0 0 0 10 = 0 := by
    unfold openb_zz
    rw [mul_zero, add_zero, env0_sqrt_zero, zero_div]
  have h5 : EPS5 < (10 : ℚ) := by norm_num [EPS5]
  have key := call_openb_etad env0 flat3
  have hb : flat3.bat 0 = fun _ => 10 := rfl
  have hm : flat3.fluxm_d 0 = fun _ => 0 := rfl
  have hn : flat3.fluxn_d 0 = fun _ => 0 := rfl
  have he : flat3.etad 0 = fun _ => 1 := rfl
  rw [hb, hm, hn, he, openb_flat3 flat3 (flat3.hdr 0) rfl rfl rfl] at key
  refine ⟨rfl, h5, ?_, ?_, ?_, ?_, ?_, ?_, ?_, ?_, ?_, ?_⟩
  · show openb_clip (openb_zz env0 0 0 10) = 0
    rw [hz, openb_clip_zero]
  all_goals rw [key]
  all_goals norm_num

/-! ## The nesting checks -/

/-- The macro `irint` at a point less than half a unit away from an integer. -/
theorem irint_add_small (k : Int) (d : ℚ) (h1 : -(1 / 2) < d) (h2 : d < 1 / 2) :
    irint (k + d) = k := by
  unfold irint
  rw [Int.floor_eq_iff]
  constructor
  · norm_num
    linarith
  · norm_num
    linarith

/-- With a negative nested increment (east and north edges), `check_binning` accepts the
location that it suggests. -/
theorem check_binning_accepts_east (x0P dxP dxD : ℚ) (k : Int) (hP : 0 < dxP) (hD : dxD < 0)
    (hlt : -dxP < dxD) :
    check_binning x0P (x0P + k * dxP + dxP / 2 + dxD / 2) dxP dxD (dxP / 4) = (0, none) := by
  have hx : (x0P + k * dxP + dxP / 2 + dxD / 2 - x0P) / dxP = k + (1 / 2 + dxD / dxP / 2) := by
    field_simp
    ring
  have hq1 : -1 < dxD / dxP := by
    rw [lt_div_iff₀ hP]
    linarith
  have hq2 : dxD / dxP < 0 := div_neg_of_neg_of_pos hD hP
  have hr : irint ((x0P + k * dxP + dxP / 2 + dxD / 2 - x0P) / dxP) = k := by
    rw [hx]
    exact irint_add_small k _ (by linarith) (by linarith)
  unfold check_binning
  simp only [hr]
  rw [if_neg]
  have e : x0P + k * dxP + dxP / 2 + dxD / 2 - (x0P + k * dxP) - (dxP / 2 + dxD / 2) = 0 := by
    ring
  rw [e, abs_zero]
  linarith

/-- With a positive nested increment (west and south edges), `check_binning` rejects the
location that it suggests: `rint` rounds the quotient up to the next parent node. -/
theorem check_binning_rejects_west (x0P dxP dxD : ℚ) (k : Int) (hD : 0 < dxD)
    (hlt : dxD < dxP) :
    (check_binning x0P (x0P + k * dxP + dxP / 2 + dxD / 2) dxP dxD (dxP / 4)).1 = -1 := by
  have hP : 0 < dxP := lt_trans hD hlt
  have hx : (x0P + k * dxP + dxP / 2 + dxD / 2 - x0P) / dxP
      = ((k + 1 : Int) : ℚ) + (dxD / dxP / 2 - 1 / 2) := by
    push_cast
    field_simp
    ring
  have hq1 : 0 < dxD / dxP := div_pos hD hP
  have hq2 : dxD / dxP < 1 := by
    rw [div_lt_iff₀ hP]
    linarith
  have hr : irint ((x0P + k * dxP + dxP / 2 + dxD / 2 - x0P) / dxP) = k + 1 := by
    rw [hx]
    exact irint_add_small (k + 1) _ (by linarith) (by linarith)
  unfold check_binning
  simp only [hr]
  rw [if_pos]
  have e : x0P + k * dxP + dxP / 2 + dxD / 2 - (x0P + ((k + 1 : Int) : ℚ) * dxP)
      - (dxP / 2 + dxD / 2) = -dxP := by
    push_cast
    ring
  rw [e, abs_neg, abs_of_pos hP]
  linarith

/-- C27 (the code at the failing input): for the parent origin 0, the parent step 2 and the
nested step 1, the lower left corner placed at `0 + 0 * 2 + 2 / 2 + 1 / 2 = 3/2`, the
location that `check_binning` suggests, is rejected (-1) with the tolerance `2 / 4`, and the
location suggested then, `7/2`, is rejected in turn. -/
theorem check_binning_rejects_own_suggestion :
    check_binning 0 (0 + (0 : Int) * 2 + 2 / 2 + 1 / 2) 2 1 (2 / 4) = (-1, some (7 / 2)) ∧
    check_binning 0 (7 / 2) 2 1 (2 / 4) = (-1, some (11 / 2)) := by
  have e1 : irint (3 / 4) = 1 := by
    have h := irint_add_small 1 (-(1 / 4)) (by norm_num) (by norm_num)
    norm_num at h
    exact h
  have e2 : irint (7 / 4) = 2 := by
    have h := irint_add_small 2 (-(1 / 4)) (by norm_num) (by norm_num)
    norm_num at h
    exact h
  have a1 : ((0 : ℚ) + ((0 : Int) : ℚ) * 2 + 2 / 2 + 1 / 2 - 0) / 2 = 3 / 4 := by norm_num
  have a2 : ((7 : ℚ) / 2 - 0) / 2 = 7 / 4 := by norm_num
  constructor
  · unfold check_binning
    simp only [a1, e1]
    norm_num [lt_abs]
  · unfold check_binning
    simp only [a2, e2]
    norm_num [lt_abs]

/-- When a nested level is registered and its four checks pass, the loop of `check_paternity`
never ends: no number of passes gives a result. -/
theorem check_paternity_hangs (nest : nestContainer) (h : nest.level 1 > 0)
    (hp : check_paternity_pass nest 1 0 = 0) (fuel : Nat) :
    check_paternity fuel nest = none := by
  unfold check_paternity
  induction fuel with
  | zero => rfl
  | succ n ih =>
    unfold check_paternity_loop
    rw [if_pos h, hp]
    simpa using ih

/-- C28 (the code at the failing input): in `aligned2` the nested level 1 is registered
(`level[1] = 1`) and its four corner checks pass, and `check_paternity` returns nothing,
whatever the number of passes of its loop `while (nest->level[k] > 0)` allowed: `k` is not
incremented and the loop is left only by an error. -/
theorem check_paternity_never_returns :
    aligned2.level 1 = 1 ∧
    (check_binning (aligned2.hdr 0).x_min (aligned2.hdr 1).x_min (aligned2.hdr 0).x_inc
      (aligned2.hdr 1).x_inc ((aligned2.hdr 0).x_inc / 4)).1 = 0 ∧
    (check_binning (aligned2.hdr 0).y_min (aligned2.hdr 1).y_min (aligned2.hdr 0).y_inc
      (aligned2.hdr 1).y_inc ((aligned2.hdr 0).y_inc / 4)).1 = 0 ∧
    (check_binning (aligned2.hdr 0).x_min (aligned2.hdr 1).x_max (aligned2.hdr 0).x_inc
      (-(aligned2.hdr 1).x_inc) ((aligned2.hdr 0).x_inc / 4)).1 = 0 ∧
    (check_binning (aligned2.hdr 0).y_min (aligned2.hdr 1).y_max (aligned2.hdr 0).y_inc
      (-(aligned2.hdr 1).y_inc) ((aligned2.hdr 0).y_inc / 4)).1 = 0 ∧
    ∀ fuel, check_paternity fuel aligned2 = none := by
  have e1 : irint (7 / 16) = 0 := by
    have h := irint_add_small 0 (7 / 16) (by norm_num) (by norm_num)
    norm_num at h
    exact h
  have e2 : irint (23 / 16) = 1 := by
    have h := irint_add_small 1 (7 / 16) (by norm_num) (by norm_num)
    norm_num at h
    exact h
  have c1 : (check_binning 0 (7 / 4) 4 1 (4 / 4)).1 = 0 := by
    have a : ((7 : ℚ) / 4 - 0) / 4 = 7 / 16 := by norm_num
    unfold check_binning
    simp only [a, e1]
    norm_num [lt_abs]
  have c2 : (check_binning 0 (23 / 4) 4 (-1) (4 / 4)).1 = 0 := by
    have a : ((23 : ℚ) / 4 - 0) / 4 = 23 / 16 := by norm_num
    unfold check_binning
    simp only [a, e2]
    norm_num [lt_abs]
  have x0 : (aligned2.hdr 0).x_min = 0 := rfl
  have y0 : (aligned2.hdr 0).y_min = 0 := rfl
  have dx0 : (aligned2.hdr 0).x_inc = 4 := rfl
  have dy0 : (aligned2.hdr 0).y_inc = 4 := rfl
  have x1 : (aligned2.hdr 1).x_min = 7 / 4 := rfl
  have y1 : (aligned2.hdr 1).y_min = 7 / 4 := rfl
  have X1 : (aligned2.hdr 1).x_max = 23 / 4 := rfl
  have Y1 : (aligned2.hdr 1).y_max = 23 / 4 := rfl
  have dx1 : (aligned2.hdr 1).x_inc = 1 := rfl
  have dy1 : (aligned2.hdr 1).y_inc = 1 := rfl
  have hpass : check_paternity_pass aligned2 1 0 = 0 := by
    unfold check_paternity_pass
    simp only [Nat.sub_self, x0, y0, dx0, dy0, x1, y1, X1, Y1, dx1, dy1, c1, c2]
    rfl
  refine ⟨rfl, ?_, ?_, ?_, ?_, fun fuel => check_paternity_hangs aligned2 (by decide) hpass fuel⟩
  · rw [x0, x1, dx0, dx1]; exact c1
  · rw [y0, y1, dy0, dy1]; exact c1
  · rw [x0, X1, dx0, dx1]; exact c2
  · rw [y0, Y1, dy0, dy1]; exact c2

/-! ## The frame of upscale_ -/

/-- The beach masks after `mass_sp` on the write level, both masks requested, at a cell that
is not permanently dry: each flag is 1 iff it was 1 or its condition on the depth
`d = etan + bat` holds. -/
theorem mass_sp_beach_flags (nest : nestContainer) (lev row col : Nat)
    (hrow : row < (nest.hdr lev).ny) (hcol : col < (nest.hdr lev).nx)
    (hw : lev = nest.writeLevel) (hl : nest.do_long_beach = true)
    (hs : nest.do_short_beach = true)
    (hb : nest.bat lev (row * (nest.hdr lev).nx + col) > MAXRUNUP) :
    ((mass_sp nest lev).long_beach lev (row * (nest.hdr lev).nx + col) = 1 ↔
      nest.long_beach lev (row * (nest.hdr lev).nx + col) = 1 ∨
      (nest.bat lev (row * (nest.hdr lev).nx + col) > 0 ∧
        mass_sp_etan nest lev (row, col) + nest.bat lev (row * (nest.hdr lev).nx + col)
          < EPS1)) ∧
    ((mass_sp nest lev).short_beach lev (row * (nest.hdr lev).nx + col) = 1 ↔
      nest.short_beach lev (row * (nest.hdr lev).nx + col) = 1 ∨
      (nest.bat lev (row * (nest.hdr lev).nx + col) < 0 ∧
        mass_sp_etan nest lev (row, col) + nest.bat lev (row * (nest.hdr lev).nx + col)
          > EPS1)) := by
  have h := (mass_sp_spec nest lev).2.2.1 row col hrow hcol
  have hlb : (mass_sp nest lev).long_beach lev (row * (nest.hdr lev).nx + col)
      = (mass_sp_val nest lev (row, col)
          (mass_get lev nest (row * (nest.hdr lev).nx + col))).2.2.1 :=
    congrArg (fun p : ℚ × ℚ × Int × Int => p.2.2.1) h
  have hsb : (mass_sp nest lev).short_beach lev (row * (nest.hdr lev).nx + col)
      = (mass_sp_val nest lev (row, col)
          (mass_get lev nest (row * (nest.hdr lev).nx + col))).2.2.2 :=
    congrArg (fun p : ℚ × ℚ × Int × Int => p.2.2.2) h
  rw [hlb, hsb]
  unfold mass_sp_val mass_get
  simp only []
  rw [if_pos hb]
  have hw' : (lev = nest.writeLevel) = True := eq_true hw
  simp only [hl, hs, hw', true_and]
  constructor
  · by_cases hc : nest.bat lev (row * (nest.hdr lev).nx + col) > 0 ∧
        mass_sp_etan nest lev (row, col) + nest.bat lev (row * (nest.hdr lev).nx + col) < EPS1
    · rw [if_pos hc]
      exact ⟨fun _ => Or.inr hc, fun _ => rfl⟩
    · rw [if_neg hc]
      exact ⟨Or.inl, fun h1 => h1.elim id (fun h2 => absurd h2 hc)⟩
  · by_cases hc : nest.bat lev (row * (nest.hdr lev).nx + col) < 0 ∧
        mass_sp_etan nest lev (row, col) + nest.bat lev (row * (nest.hdr lev).nx + col) > EPS1
    · rw [if_pos hc]
      exact ⟨fun _ => Or.inr hc, fun _ => rfl⟩
    · rw [if_neg hc]
      exact ⟨Or.inl, fun h1 => h1.elim id (fun h2 => absurd h2 hc)⟩

/-- The beach masks after the Cartesian `mass` on the write level, both masks requested, at a
cell that is not permanently dry: the flag of `long_beach` follows the depth
`d = zzz + bat`, that of `short_beach` follows the elevation `zzz` alone. -/
theorem mass_beach_flags (nest : nestContainer) (lev row col : Nat)
    (hrow : row < (nest.hdr lev).ny) (hcol : col < (nest.hdr lev).nx)
    (hw : lev = nest.writeLevel) (hl : nest.do_long_beach = true)
    (hs : nest.do_short_beach = true)
    (hb : nest.bat lev (row * (nest.hdr lev).nx + col) > MAXRUNUP) :
    ((mass nest lev).long_beach lev (row * (nest.hdr lev).nx + col) = 1 ↔
      nest.long_beach lev (row * (nest.hdr lev).nx + col) = 1 ∨
      (nest.bat lev (row * (nest.hdr lev).nx + col) > 0 ∧
        mass_zzz nest lev (row, col) + nest.bat lev (row * (nest.hdr lev).nx + col)
          < EPS1)) ∧
    ((mass nest lev).short_beach lev (row * (nest.hdr lev).nx + col) = 1 ↔
      nest.short_beach lev (row * (nest.hdr lev).nx + col) = 1 ∨
      (nest.bat lev (row * (nest.hdr lev).nx + col) < 0 ∧
        mass_zzz nest lev (row, col) > EPS1)) := by
  have h := (mass_spec nest lev).2.2.1 row col hrow hcol
  have hlb : (mass nest lev).long_beach lev (row * (nest.hdr lev).nx + col)
      = (mass_val nest lev (row, col)
          (mass_get lev nest (row * (nest.hdr lev).nx + col))).2.2.1 :=
    congrArg (fun p : ℚ × ℚ × Int × Int => p.2.2.1) h
  have hsb : (mass nest lev).short_beach lev (row * (nest.hdr lev).nx + col)
      = (mass_val nest lev (row, col)
          (mass_get lev nest (row * (nest.hdr lev).nx + col))).2.2.2 :=
    congrArg (fun p : ℚ × ℚ × Int × Int => p.2.2.2) h
  rw [hlb, hsb]
  unfold mass_val mass_get
  simp only []
  rw [if_pos hb]
  have hw' : (lev = nest.writeLevel) = True := eq_true hw
  simp only [hl, hs, hw', true_and]
  constructor
  · by_cases hc : nest.bat lev (row * (nest.hdr lev).nx + col) > 0 ∧
        mass_zzz nest lev (row, col) + nest.bat lev (row * (nest.hdr lev).nx + col) < EPS1
    · rw [if_pos hc]
      exact ⟨fun _ => Or.inr hc, fun _ => rfl⟩
    · rw [if_neg hc]
      exact ⟨Or.inl, fun h1 => h1.elim id (fun h2 => absurd h2 hc)⟩
  · by_cases hc : nest.bat lev (row * (nest.hdr lev).nx + col) < 0 ∧
        mass_zzz nest lev (row, col) > EPS1
    · rw [if_pos hc]
      exact ⟨fun _ => Or.inr hc, fun _ => rfl⟩
    · rw [if_neg hc]
      exact ⟨Or.inl, fun h1 => h1.elim id (fun h2 => absurd h2 hc)⟩

/-- C25 (the code at the failing input): on `dryland1` the only cell is dry land 1 m high, not
permanently dry, with `short_beach = 0` and the depth `d = zzz + bat = 0`, which is not above
0.1; the Cartesian `mass` sets `short_beach` to 1 there (its test is `zzz > EPS1`), while
`mass_sp` on the same cell leaves 0 (its test is `dd > EPS1`). -/
theorem mass_short_beach_on_dry_land :
    dryland1.bat 0 0 > MAXRUNUP ∧ dryland1.bat 0 0 < 0 ∧ dryland1.short_beach 0 0 = 0 ∧
    mass_zzz dryland1 0 (0, 0) + dryland1.bat 0 0 = 0 ∧
    (mass dryland1 0).short_beach 0 0 = 1 ∧
    (mass_sp dryland1 0).short_beach 0 0 = 0 := by
  have h1 : mass_get 0 (mass dryland1 0) 0 = mass_val dryland1 0 (0, 0) (mass_get 0 dryland1 0) :=
    (mass_spec dryland1 0).2.2.1 0 0 (by decide) (by decide)
  have h2 : mass_get 0 (mass_sp dryland1 0) 0
      = mass_sp_val dryland1 0 (0, 0) (mass_get 0 dryland1 0) :=
    (mass_sp_spec dryland1 0).2.2.1 0 0 (by decide) (by decide)
  have v1 : mass_val dryland1 0 (0, 0) (mass_get 0 dryland1 0) = (1, 0, 0, 1) := by
    norm_num [mass_val, mass_zzz, mass_get, dryland1, nest0, hdr0, MAXRUNUP, EPS10, EPS1]
  have v2 : mass_sp_val dryland1 0 (0, 0) (mass_get 0 dryland1 0) = (1, 0, 0, 0) := by
    norm_num [mass_sp_val, mass_sp_etan, mass_get, dryland1, nest0, hdr0, MAXRUNUP, EPS10, EPS1,
      abs_lt]
  rw [v1] at h1
  rw [v2] at h2
  refine ⟨by norm_num [dryland1, nest0, MAXRUNUP], by norm_num [dryland1, nest0], rfl, ?_,
    congrArg (fun p : ℚ × ℚ × Int × Int => p.2.2.2) h1,
    congrArg (fun p : ℚ × ℚ × Int × Int => p.2.2.2) h2⟩
  norm_num [mass_zzz, dryland1, nest0, hdr0]

/-- C23 (as stated) fails: on `flood1` the only cell is land (`bat = -1`) under 2 m of water
(`eta_a + bat = 2`) with `wmax = 0`; `update_max` stores `wmax = 2`, the depth of the water over
the ground, whereas `max(wmax, min(0, eta_a + bat))` is 0. -/
theorem update_max_land_counterexample :
    flood1.nest.bat flood1.nest.writeLevel 0 < 0 ∧
    (update_max host0 flood1).nest.wmax 0 = 2 ∧
    max (flood1.nest.wmax 0)
      (min 0 (flood1.nest.etaa flood1.nest.writeLevel 0
        + flood1.nest.bat flood1.nest.writeLevel 0)) = 0 := by
  refine ⟨by norm_num [flood1, nest0], ?_, by norm_num [flood1, nest0]⟩
  rw [(update_max_spec host0 flood1).2.2 0]
  norm_num [update_max_work, flood1, nest0, hdr0, host0]

/-- C23 (amended): `update_max` sets, for every cell of the write level, `wmax` to
`max(wmax, v)` with `v = eta_d` on ocean cells (`bat >= 0`) and `v = max(0, eta_a + bat)` on
land cells (`bat < 0`), the two values being taken exactly by the conversion to `float`. -/
theorem update_max_sets_running_maximum (H : Host) (s : nestState) (ij : Nat)
    (hij : ij < (s.nest.hdr s.nest.writeLevel).nm)
    (hf1 : H.toFloat (s.nest.etad s.nest.writeLevel ij) = s.nest.etad s.nest.writeLevel ij)
    (hf2 : H.toFloat (s.nest.etaa s.nest.writeLevel ij + s.nest.bat s.nest.writeLevel ij)
      = s.nest.etaa s.nest.writeLevel ij + s.nest.bat s.nest.writeLevel ij) :
    (update_max H s).nest.wmax ij
      = max (s.nest.wmax ij)
          (if s.nest.bat s.nest.writeLevel ij < 0 then
             max 0 (s.nest.etaa s.nest.writeLevel ij + s.nest.bat s.nest.writeLevel ij)
           else s.nest.etad s.nest.writeLevel ij) := by
  rw [(update_max_spec H s).2.2 ij]
  have hw : update_max_work H s.nest ij
      = (if s.nest.bat s.nest.writeLevel ij < 0 then
           max 0 (s.nest.etaa s.nest.writeLevel ij + s.nest.bat s.nest.writeLevel ij)
         else s.nest.etad s.nest.writeLevel ij) := by
    unfold update_max_work
    rw [hf1, hf2]
    by_cases hb : s.nest.bat s.nest.writeLevel ij < 0
    · rw [if_pos hb, if_pos hb]
      by_cases hn : s.nest.etaa s.nest.writeLevel ij + s.nest.bat s.nest.writeLevel ij < 0
      · rw [if_pos hn, max_eq_left (le_of_lt hn)]
      · rw [if_neg hn, max_eq_right (not_lt.mp hn)]
    · rw [if_neg hb, if_neg hb]
  rw [← hw]
  by_cases hc : s.nest.wmax ij < update_max_work H s.nest ij
  · rw [if_pos ⟨hij, hc⟩, max_eq_right (le_of_lt hc)]
  · rw [if_neg (fun h => hc h.2), max_eq_left (not_lt.mp hc)]

/-- Witness of C23 (amended): on `flood1` the maximum of the flooded land cell becomes
`max(0, max(0, 3 + -1)) = 2`. -/
theorem update_max_sets_running_maximum_witness :
    (update_max host0 flood1).nest.wmax 0 = 2 := by
  have h := update_max_sets_running_maximum host0 flood1 0 (by decide) rfl rfl
  rw [h]
  norm_num [flood1, nest0]

/-- C24: for every state and every cell, `update_max` never lowers `wmax` and
`update_max_velocity` never lowers `vmax`: the value stored after the call is at least the
value stored before it. -/
theorem max_arrays_never_decrease (H : Host) (s : nestState) (ij : Nat) :
    s.nest.wmax ij ≤ (update_max H s).nest.wmax ij ∧
    s.nest.vmax ij ≤ (update_max_velocity H s).nest.vmax ij := by
  rw [(update_max_spec H s).2.2 ij, (update_max_velocity_spec H s).2.2.2 ij]
  constructor
  · split_ifs with h
    · exact le_of_lt h.2
    · exact le_refl _
  · split_ifs with h
    · exact le_of_lt h.2
    · exact le_refl _

/-! ## Walls -/

theorem cells_pairwise_col (r0 r1 c0 c1 nx a c : Nat) (h : r0 < r1 → a + r1 ≤ nx) :
    (cells r0 r1 c0 c1).Pairwise
      (fun p q => (a + p.1) + (c + p.2) * nx ≠ (a + q.1) + (c + q.2) * nx) := by
  have hnd : (cells r0 r1 c0 c1).Nodup := by
    unfold cells
    rw [List.nodup_flatMap]
    refine ⟨fun r _ => ?_, ?_⟩
    · exact (List.nodup_range' c0 (c1 - c0)).map (fun a b hab => by simpa using hab)
    · refine (List.nodup_range' r0 (r1 - r0)).imp ?_
      intro a b hab
      simp only [Function.onFun, List.disjoint_left, List.mem_map, not_exists, not_and]
      rintro p ⟨c, _, rfl⟩ c' _ h'
      exact hab (congrArg Prod.fst h').symm
  refine hnd.imp_of_mem ?_
  intro p q hp hq hpq heq
  rw [mem_cells] at hp hq
  have hle : a + r1 ≤ nx := h (by omega)
  have heq' : (c + p.2) * nx + (a + p.1) = (c + q.2) * nx + (a + q.1) := by omega
  obtain ⟨h1, h2⟩ := idx_inj (by omega) (by omega) heq'
  exact hpq (Prod.ext (by omega) (by omega))

/-- The function `wall_two` cell by cell, for a wall of columns `a <= i < b` and rows
`c <= j < d` with `b <= nx`: the bathymetry of the base level becomes `wall_height_of` in the
cells of the wall, and nothing else changes. -/
theorem wall_two_spec (nest : nestContainer) (a b c d : Nat) (hb : b ≤ (nest.hdr 0).nx) :
    { wall_two nest a b c d with bat := nest.bat } = nest ∧
    (∀ l, l ≠ 0 → (wall_two nest a b c d).bat l = nest.bat l) ∧
    (∀ i j, a ≤ i → i < b → c ≤ j → j < d →
      (wall_two nest a b c d).bat 0 (i + j * (nest.hdr 0).nx)
        = wall_height_of (nest.hdr 0).z_max (nest.bat 0 (i + j * (nest.hdr 0).nx))) ∧
    (∀ k, (∀ i j, a ≤ i → i < b → c ≤ j → j < d → i + j * (nest.hdr 0).nx ≠ k) →
      (wall_two nest a b c d).bat 0 k = nest.bat 0 k) := by
  have e1 : Int.toNat ((b : Int) - (a : Int)) = b - a := by omega
  have e2 : Int.toNat ((d : Int) - (c : Int)) = d - c := by omega
  have eidx : ∀ ti tj : Nat, ij_grdI ((a : Int) + ti) ((c : Int) + tj) (nest.hdr 0)
      = (a + ti) + (c + tj) * (nest.hdr 0).nx := by
    intro ti tj
    unfold ij_grdI
    have : ((a : Int) + ti) + ((c : Int) + tj) * ((nest.hdr 0).nx : Int)
        = (((a + ti) + (c + tj) * (nest.hdr 0).nx : Nat) : Int) := by
      push_cast
      ring
    rw [this, Int.toNat_natCast]
  have hpw := cells_pairwise_col 0 (b - a) 0 (d - c) (nest.hdr 0).nx a c (by omega)
  have key : ∀ wh : ℚ, _ := fun wh => foldl_pointwise (fun (s : Nat → ℚ) k => s k)
    (fun _ => True)
    (fun (p : Nat × Nat) (bat : Nat → ℚ) =>
      if bat ((a + p.1) + (c + p.2) * (nest.hdr 0).nx) < MAXRUNUP then bat
      else Function.update bat ((a + p.1) + (c + p.2) * (nest.hdr 0).nx) wh)
    (fun p => (a + p.1) + (c + p.2) * (nest.hdr 0).nx)
    (fun _ old => if old < MAXRUNUP then old else wh)
    (cells 0 (b - a) 0 (d - c)) hpw (fun _ _ _ => trivial)
    (fun p s k _ hk => by
      by_cases hc : s ((a + p.1) + (c + p.2) * (nest.hdr 0).nx) < MAXRUNUP
      · simp only [if_pos hc]
      · simp only [if_neg hc]
        exact Function.update_noteq hk _ _)
    (fun p s _ _ => by
      by_cases hc : s ((a + p.1) + (c + p.2) * (nest.hdr 0).nx) < MAXRUNUP
      · simp only [if_pos hc]
      · simp only [if_neg hc]
        exact Function.update_same _ _ _)
    (nest.bat 0) trivial
  have key := key (-(if (nest.hdr 0).z_max < -MAXRUNUP then (nest.hdr 0).z_max else -MAXRUNUP))
  obtain ⟨-, k2, k3⟩ := key
  have hw : (wall_two nest a b c d).bat 0
      = (cells 0 (b - a) 0 (d - c)).foldl (fun (bat : Nat → ℚ) (p : Nat × Nat) =>
          if bat ((a + p.1) + (c + p.2) * (nest.hdr 0).nx) < MAXRUNUP then bat
          else Function.update bat ((a + p.1) + (c + p.2) * (nest.hdr 0).nx)
            (-(if (nest.hdr 0).z_max < -MAXRUNUP then (nest.hdr 0).z_max else -MAXRUNUP)))
          (nest.bat 0) := by
    unfold wall_two
    simp only [e1, e2, eidx, Function.update_same]
    exact forRange2_eq_foldl 0 (b - a) 0 (d - c) _ _
  refine ⟨rfl, fun l hl => ?_, fun i j h1 h2 h3 h4 => ?_, fun k hk => ?_⟩
  · unfold wall_two
    simp only []
    rw [Function.update_noteq hl]
  · rw [hw]
    have h := k2 (i - a, j - c) (mem_cells.mpr ⟨⟨Nat.zero_le _, by omega⟩,
      ⟨Nat.zero_le _, by omega⟩⟩)
    have ei : a + (i - a) = i := by omega
    have ej : c + (j - c) = j := by omega
    simp only [ei, ej] at h
    unfold wall_height_of
    exact h
  · rw [hw]
    refine k3 k (fun p hp => ?_)
    rw [mem_cells] at hp
    exact hk (a + p.1) (c + p.2) (by omega) (by omega) (by omega) (by omega)

theorem wall_two_hdr (nest : nestContainer) (a b c d : Int) :
    (wall_two nest a b c d).hdr = nest.hdr := rfl

theorem wall_two_frame (nest : nestContainer) (a b c d : Int) (f : Nat → Nat → ℚ) :
    { wall_two nest a b c d with bat := f } = { nest with bat := f } := rfl

theorem wall_two_bat_other (nest : nestContainer) (a b c d : Int) (l : Nat) (hl : l ≠ 0) :
    (wall_two nest a b c d).bat l = nest.bat l := by
  unfold wall_two
  simp only []
  rw [Function.update_noteq hl]

theorem wall_height_of_idem (z old : ℚ) :
    wall_height_of z (wall_height_of z old) = wall_height_of z old := by
  unfold wall_height_of
  by_cases h : old < MAXRUNUP
  · rw [if_pos h, if_pos h]
  · rw [if_neg h]
    split_ifs <;> rfl

/-- The bathymetry that `wall_two` leaves in the cell `(col, row)` of the base grid. -/
theorem wall_two_cell (nest : nestContainer) (a b c d : Nat) (hb : b ≤ (nest.hdr 0).nx)
    (col row : Nat) (hcol : col < (nest.hdr 0).nx) :
    (wall_two nest a b c d).bat 0 (col + row * (nest.hdr 0).nx)
      = if (a ≤ col ∧ col < b) ∧ (c ≤ row ∧ row < d) then
          wall_height_of (nest.hdr 0).z_max (nest.bat 0 (col + row * (nest.hdr 0).nx))
        else nest.bat 0 (col + row * (nest.hdr 0).nx) := by
  obtain ⟨-, -, h3, h4⟩ := wall_two_spec nest a b c d hb
  by_cases hin : (a ≤ col ∧ col < b) ∧ (c ≤ row ∧ row < d)
  · rw [if_pos hin]
    exact h3 col row hin.1.1 hin.1.2 hin.2.1 hin.2.2
  · rw [if_neg hin]
    refine h4 _ (fun i j h1 h2 h5 h6 heq => hin ?_)
    have heq' : j * (nest.hdr 0).nx + i = row * (nest.hdr 0).nx + col := by omega
    obtain ⟨e1, e2⟩ := idx_inj (by omega) hcol heq'
    subst e1 e2
    exact ⟨⟨h1, h2⟩, ⟨h5, h6⟩⟩

/-- The bathymetry that three successive calls of `wall_two` leave in a cell of the base
grid. -/
theorem wall_two3_cell (nest : nestContainer) (a1 b1 c1 d1 a2 b2 c2 d2 a3 b3 c3 d3 : Nat)
    (h1 : b1 ≤ (nest.hdr 0).nx) (h2 : b2 ≤ (nest.hdr 0).nx) (h3 : b3 ≤ (nest.hdr 0).nx)
    (col row : Nat) (hcol : col < (nest.hdr 0).nx) :
    (wall_two (wall_two (wall_two nest a1 b1 c1 d1) a2 b2 c2 d2) a3 b3 c3 d3).bat 0
        (col + row * (nest.hdr 0).nx)
      = if ((a1 ≤ col ∧ col < b1) ∧ (c1 ≤ row ∧ row < d1)) ∨
           ((a2 ≤ col ∧ col < b2) ∧ (c2 ≤ row ∧ row < d2)) ∨
           ((a3 ≤ col ∧ col < b3) ∧ (c3 ≤ row ∧ row < d3)) then
          wall_height_of (nest.hdr 0).z_max (nest.bat 0 (col + row * (nest.hdr 0).nx))
        else nest.bat 0 (col + row * (nest.hdr 0).nx) := by
  have g1 := wall_two_cell nest a1 b1 c1 d1 h1 col row hcol
  have g2 := wall_two_cell (wall_two nest a1 b1 c1 d1) a2 b2 c2 d2 h2 col row hcol
  have g3 := wall_two_cell (wall_two (wall_two nest a1 b1 c1 d1) a2 b2 c2 d2) a3 b3 c3 d3 h3
    col row hcol
  simp only [wall_two_hdr] at g2 g3
  rw [g3, g2, g1]
  by_cases p1 : (a1 ≤ col ∧ col < b1) ∧ (c1 ≤ row ∧ row < d1) <;>
    by_cases p2 : (a2 ≤ col ∧ col < b2) ∧ (c2 ≤ row ∧ row < d2) <;>
    by_cases p3 : (a3 ≤ col ∧ col < b3) ∧ (c3 ≤ row ∧ row < d3) <;>
    simp [p1, p2, p3, wall_height_of_idem]

/-- What three successive calls of `wall_two` leave outside the bathymetry of the base
level. -/
theorem wall_two3_frame (nest : nestContainer) (a1 b1 c1 d1 a2 b2 c2 d2 a3 b3 c3 d3 : Int) :
    { wall_two (wall_two (wall_two nest a1 b1 c1 d1) a2 b2 c2 d2) a3 b3 c3 d3 with
        bat := nest.bat } = nest ∧
    (∀ l, l ≠ 0 →
      (wall_two (wall_two (wall_two nest a1 b1 c1 d1) a2 b2 c2 d2) a3 b3 c3 d3).bat l
        = nest.bat l) := by
  refine ⟨?_, fun l hl => ?_⟩
  · exact (wall_two_frame _ a3 b3 c3 d3 nest.bat).trans
      ((wall_two_frame _ a2 b2 c2 d2 nest.bat).trans (wall_two_frame nest a1 b1 c1 d1 nest.bat))
  · rw [wall_two_bat_other _ a3 b3 c3 d3 l hl, wall_two_bat_other _ a2 b2 c2 d2 l hl,
      wall_two_bat_other nest a1 b1 c1 d1 l hl]

/-- The function `wall_it` cell by cell, when the border `b` is the only one marked as
active: the bathymetry of the base level becomes `wall_height_of` in the cells of the ribbons
along the other three borders and is unchanged in the other cells. -/
theorem wall_it_cell (nest : nestContainer) (b : Nat) (hnx : 2 ≤ (nest.hdr 0).nx)
    (hny : 2 ≤ (nest.hdr 0).ny) (hb : b < 4) (hact : nest.bnc_border b ≠ 0)
    (hone : ∀ b', b' < 4 → b' ≠ b → nest.bnc_border b' = 0)
    (col row : Nat) (hcol : col < (nest.hdr 0).nx) (hrow : row < (nest.hdr 0).ny) :
    (wall_it nest).bat 0 (col + row * (nest.hdr 0).nx)
      = if in_wall_ribbon (nest.hdr 0).nx (nest.hdr 0).ny b col row then
          wall_height_of (nest.hdr 0).z_max (nest.bat 0 (col + row * (nest.hdr 0).nx))
        else nest.bat 0 (col + row * (nest.hdr 0).nx) := by
  have ex : (((nest.hdr 0).nx : Nat) : Int) - 2 = (((nest.hdr 0).nx - 2 : Nat) : Int) := by
    omega
  have ey : (((nest.hdr 0).ny : Nat) : Int) - 2 = (((nest.hdr 0).ny - 2 : Nat) : Int) := by
    omega
  unfold wall_it
  simp only []
  have hW := wall_two3_cell nest 0 (nest.hdr 0).nx ((nest.hdr 0).ny - 2) (nest.hdr 0).ny
    0 (nest.hdr 0).nx 0 2 ((nest.hdr 0).nx - 2) (nest.hdr 0).nx 0 (nest.hdr 0).ny
    (Nat.le_refl _) (Nat.le_refl _) (Nat.le_refl _) col row hcol
  have hS := wall_two3_cell nest 0 2 0 (nest.hdr 0).ny
    ((nest.hdr 0).nx - 2) (nest.hdr 0).nx 0 (nest.hdr 0).ny
    0 (nest.hdr 0).nx ((nest.hdr 0).ny - 2) (nest.hdr 0).ny
    hnx (Nat.le_refl _) (Nat.le_refl _) col row hcol
  have hE := wall_two3_cell nest 0 (nest.hdr 0).nx ((nest.hdr 0).ny - 2) (nest.hdr 0).ny
    0 (nest.hdr 0).nx 0 2 0 2 0 (nest.hdr 0).ny
    (Nat.le_refl _) (Nat.le_refl _) hnx col row hcol
  have hN := wall_two3_cell nest 0 2 0 (nest.hdr 0).ny 0 (nest.hdr 0).nx 0 2
    ((nest.hdr 0).nx - 2) (nest.hdr 0).nx 0 (nest.hdr 0).ny
    hnx (Nat.le_refl _) (Nat.le_refl _) col row hcol
  simp only [Nat.cast_zero, Nat.cast_ofNat, ← ex, ← ey] at hW hS hE hN
  have b1 : b = 0 ∨ b = 1 ∨ b = 2 ∨ b = 3 := by omega
  rcases b1 with rfl | rfl | rfl | rfl
  · rw [if_pos hact, hW]
    refine if_congr ?_ rfl rfl
    unfold in_wall_ribbon
    omega
  · rw [if_neg (not_not.mpr (hone 0 (by omega) (by omega))), if_pos hact, hS]
    refine if_congr ?_ rfl rfl
    unfold in_wall_ribbon
    omega
  · rw [if_neg (not_not.mpr (hone 0 (by omega) (by omega))),
      if_neg (not_not.mpr (hone 1 (by omega) (by omega))), if_pos hact, hE]
    refine if_congr ?_ rfl rfl
    unfold in_wall_ribbon
    omega
  · rw [if_neg (not_not.mpr (hone 0 (by omega) (by omega))),
      if_neg (not_not.mpr (hone 1 (by omega) (by omega))),
      if_neg (not_not.mpr (hone 2 (by omega) (by omega))), if_pos hact, hN]
    refine if_congr ?_ rfl rfl
    unfold in_wall_ribbon
    omega

/-- What `wall_it` leaves outside the bathymetry of the base level. -/
theorem wall_it_frame (nest : nestContainer) :
    { wall_it nest with bat := nest.bat } = nest ∧
    (∀ l, l ≠ 0 → (wall_it nest).bat l = nest.bat l) := by
  unfold wall_it
  simp only []
  split_ifs
  · exact wall_two3_frame nest _ _ _ _ _ _ _ _ _ _ _ _
  · exact wall_two3_frame nest _ _ _ _ _ _ _ _ _ _ _ _
  · exact wall_two3_frame nest _ _ _ _ _ _ _ _ _ _ _ _
  · exact wall_two3_frame nest _ _ _ _ _ _ _ _ _ _ _ _
  · exact ⟨rfl, fun _ _ => rfl⟩

/-- C21 (as stated) fails: `shallow6` has the west border active and `z_max = 10`; the cell
`(0, 0)` lies in the ribbon of the south border, and after `wall_it` its bathymetry is
`-MIN(10, 50) = -10`, which is above `MAXRUNUP = -50`: the cell is not permanently dry. -/
theorem wall_it_low_wall_counterexample :
    shallow6.bnc_border 0 ≠ 0 ∧
    in_wall_ribbon (shallow6.hdr 0).nx (shallow6.hdr 0).ny 0 0 0 ∧
    (wall_it shallow6).bat 0 (ij_grd 0 0 (shallow6.hdr 0)) = -10 ∧
    ¬ (wall_it shallow6).bat 0 (ij_grd 0 0 (shallow6.hdr 0)) ≤ MAXRUNUP := by
  have hr : in_wall_ribbon (shallow6.hdr 0).nx (shallow6.hdr 0).ny 0 0 0 := by decide
  have h := wall_it_cell shallow6 0 (by decide) (by decide) (by decide) (by decide)
    (fun b' h1 h2 => by
      have : shallow6.bnc_border b' = if b' = 0 then 1 else 0 := rfl
      rw [this, if_neg h2])
    0 0 (by decide) (by decide)
  rw [if_pos hr] at h
  have hv : wall_height_of (shallow6.hdr 0).z_max (shallow6.bat 0 (0 + 0 * (shallow6.hdr 0).nx))
      = -10 := by
    norm_num [wall_height_of, shallow6, nest0, hdr0, MAXRUNUP]
  rw [hv] at h
  have e : ij_grd 0 0 (shallow6.hdr 0) = 0 + 0 * (shallow6.hdr 0).nx := rfl
  rw [e, h]
  exact ⟨by decide, hr, rfl, by norm_num [MAXRUNUP]⟩

/-- C21 (amended): for a base grid of at least 2 x 2 cells whose header has
`z_max >= -MAXRUNUP` (50) and with exactly one border `b` marked as active, after `wall_it`
every cell in the 2-cell-thick ribbon along each of the other three borders has a bathymetry
`<= MAXRUNUP`, so `mass` and `mass_sp` treat it as permanently dry (`etad = -bat`) and the
four momentum functions leave a zero flux there; the bathymetry of the cells outside those
ribbons and of the other levels is unchanged, and so is everything but the bathymetry. -/
theorem wall_it_makes_walls (E : Env) (nest : nestContainer) (b : Nat) (d f : ℚ)
    (hnx : 2 ≤ (nest.hdr 0).nx) (hny : 2 ≤ (nest.hdr 0).ny)
    (hnm : (nest.hdr 0).nm = (nest.hdr 0).nx * (nest.hdr 0).ny)
    (hb : b < 4) (hact : nest.bnc_border b ≠ 0)
    (hone : ∀ b', b' < 4 → b' ≠ b → nest.bnc_border b' = 0)
    (hz : -MAXRUNUP ≤ (nest.hdr 0).z_max) :
    (∀ col row, col < (nest.hdr 0).nx → row < (nest.hdr 0).ny →
      in_wall_ribbon (nest.hdr 0).nx (nest.hdr 0).ny b col row →
      (wall_it nest).bat 0 (ij_grd col row (nest.hdr 0)) ≤ MAXRUNUP ∧
      (mass (wall_it nest) 0).etad 0 (ij_grd col row (nest.hdr 0))
        = -(wall_it nest).bat 0 (ij_grd col row (nest.hdr 0)) ∧
      (mass_sp (wall_it nest) 0).etad 0 (ij_grd col row (nest.hdr 0))
        = -(wall_it nest).bat 0 (ij_grd col row (nest.hdr 0)) ∧
      (moment_M E (wall_it nest) 0 d f).fluxm_d 0 (ij_grd col row (nest.hdr 0)) = 0 ∧
      (moment_N E (wall_it nest) 0 d f).fluxn_d 0 (ij_grd col row (nest.hdr 0)) = 0 ∧
      (moment_sp_M E (wall_it nest) 0 d f).fluxm_d 0 (ij_grd col row (nest.hdr 0)) = 0 ∧
      (moment_sp_N E (wall_it nest) 0 d f).fluxn_d 0 (ij_grd col row (nest.hdr 0)) = 0) ∧
    (∀ col row, col < (nest.hdr 0).nx → row < (nest.hdr 0).ny →
      ¬ in_wall_ribbon (nest.hdr 0).nx (nest.hdr 0).ny b col row →
      (wall_it nest).bat 0 (ij_grd col row (nest.hdr 0))
        = nest.bat 0 (ij_grd col row (nest.hdr 0))) ∧
    (∀ l, l ≠ 0 → (wall_it nest).bat l = nest.bat l) ∧
    { wall_it nest with bat := nest.bat } = nest := by
  obtain ⟨fr1, fr2⟩ := wall_it_frame nest
  have hh : (wall_it nest).hdr = nest.hdr := (congrArg nestContainer.hdr fr1 :)
  refine ⟨fun col row hcol hrow hin => ?_, fun col row hcol hrow hout => ?_, fr2, fr1⟩
  · have hc := wall_it_cell nest b hnx hny hb hact hone col row hcol hrow
    rw [if_pos hin] at hc
    have hle : (wall_it nest).bat 0 (ij_grd col row (nest.hdr 0)) ≤ MAXRUNUP := by
      show (wall_it nest).bat 0 (col + row * (nest.hdr 0).nx) ≤ MAXRUNUP
      rw [hc]
      unfold wall_height_of
      by_cases ho : nest.bat 0 (col + row * (nest.hdr 0).nx) < MAXRUNUP
      · rw [if_pos ho]
        exact le_of_lt ho
      · rw [if_neg ho, if_neg (not_lt.mpr hz)]
        norm_num
    have hk : ij_grd col row (nest.hdr 0) < ((wall_it nest).hdr 0).nm := by
      rw [hh, hnm]
      unfold ij_grd
      calc col + row * (nest.hdr 0).nx < (nest.hdr 0).nx + row * (nest.hdr 0).nx := by omega
        _ = (row + 1) * (nest.hdr 0).nx := by ring
        _ ≤ (nest.hdr 0).ny * (nest.hdr 0).nx := Nat.mul_le_mul_right _ hrow
        _ = (nest.hdr 0).nx * (nest.hdr 0).ny := Nat.mul_comm _ _
    have hidx : ij_grd col row (nest.hdr 0) = row * ((wall_it nest).hdr 0).nx + col := by
      rw [hh]
      unfold ij_grd
      omega
    have hm := (mass_spec (wall_it nest) 0).2.2.1 row col (by rw [hh]; exact hrow)
      (by rw [hh]; exact hcol)
    have hms := (mass_sp_spec (wall_it nest) 0).2.2.1 row col (by rw [hh]; exact hrow)
      (by rw [hh]; exact hcol)
    rw [← hidx] at hm hms
    have hnot : ¬ (wall_it nest).bat 0 (ij_grd col row (nest.hdr 0)) > MAXRUNUP :=
      not_lt.mpr hle
    refine ⟨hle, ?_, ?_, moment_M_flux_dry E _ 0 d f _ hk hle,
      moment_N_flux_dry E _ 0 d f _ hk hle, moment_sp_M_flux_dry E _ 0 d f _ hk hle,
      moment_sp_N_flux_dry E _ 0 d f _ hk hle⟩
    · have h1 := congrArg Prod.fst hm
      unfold mass_val at h1
      simp only [← hidx, if_neg hnot] at h1
      exact h1
    · have h1 := congrArg Prod.fst hms
      unfold mass_sp_val at h1
      simp only [← hidx, if_neg hnot] at h1
      exact h1
  · have hc := wall_it_cell nest b hnx hny hb hact hone col row hcol hrow
    rw [if_neg hout] at hc
    exact hc

/-- Witness of C21 (amended): on `high6` (`z_max = 60`, west border active) the cell `(0, 0)`
of the ribbon of the south border ends with the bathymetry `MAXRUNUP`, and the cell `(1, 2)`,
outside the three ribbons, keeps its depth of 5 m. -/
theorem wall_it_makes_walls_witness :
    (wall_it high6).bat 0 (ij_grd 0 0 (high6.hdr 0)) ≤ MAXRUNUP ∧
    (moment_M env0 (wall_it high6) 0 0 0).fluxm_d 0 (ij_grd 0 0 (high6.hdr 0)) = 0 ∧
    (wall_it high6).bat 0 (ij_grd 1 2 (high6.hdr 0)) = high6.bat 0 (ij_grd 1 2 (high6.hdr 0)) := by
  have h := wall_it_makes_walls env0 high6 0 0 0 (by decide) (by decide) rfl (by decide)
    (by decide)
    (fun b' h1 h2 => by
      have : high6.bnc_border b' = if b' = 0 then 1 else 0 := rfl
      rw [this, if_neg h2])
    (by norm_num [high6, hdr0, MAXRUNUP])
  have h1 := h.1 0 0 (by decide) (by decide) (by decide)
  exact ⟨h1.1, h1.2.2.2.1, h.2.1 1 2 (by decide) (by decide) (by decide)⟩

/-! ## The boundary condition in time -/

/-- The loop of `interp_bnc` when the pair `n` is the first that brackets `t` and no pass before
it returns TRUE. -/
theorem interp_bnc_scan_bracket (b : bncArrays) (t : ℚ) (n : Nat)
    (hlo : b.bnc_var_t n ≤ t) (hhi : t < b.bnc_var_t (n + 1)) :
    ∀ fuel k, k ≤ n → n < k + fuel →
      (∀ m, k ≤ m → m < n → ¬ (b.bnc_var_t m ≤ t ∧ t < b.bnc_var_t (m + 1))) →
      (k < n → t ≤ (b.bnc_var_nTimes : ℚ)) →
      interp_bnc_scan b t fuel k
        = (false, forRange 0 b.bnc_pos_nPts (fun i z =>
            Function.update z i
              (b.bnc_var_z n i + (t - b.bnc_var_t n) / (b.bnc_var_t (n + 1) - b.bnc_var_t n)
                * (b.bnc_var_z (n + 1) i - b.bnc_var_z n i))) b.bnc_var_zTmp) := by
  intro fuel
  induction fuel with
  | zero =>
    intro k h1 h2
    omega
  | succ fuel ih =>
    intro k h1 h2 hfirst hsmall
    unfold interp_bnc_scan
    by_cases hk : k = n
    · subst hk
      rw [if_pos ⟨hlo, hhi⟩]
    · have hkn : k < n := by omega
      rw [if_neg (hfirst k (Nat.le_refl k) hkn), if_neg (not_lt.mpr (hsmall hkn))]
      exact ih (k + 1) (by omega) (by omega)
        (fun m hm1 hm2 => hfirst m (by omega) hm2) (fun _ => hsmall hkn)

/-- For a time `t` in the pair `n` of the series, the first that brackets it, `interp_bnc`
returns FALSE and sets the profile to the linear interpolation of the two samples, provided
that `n = 0` or `t` does not exceed the number of samples `bnc_var_nTimes`. -/
theorem interp_bnc_bracket (nest : nestContainer) (eb : edgeArrays) (b : bncArrays) (t : ℚ)
    (n : Nat) (hn : n + 1 < b.bnc_var_nTimes)
    (hlo : b.bnc_var_t n ≤ t) (hhi : t < b.bnc_var_t (n + 1))
    (hfirst : ∀ m, m < n → ¬ (b.bnc_var_t m ≤ t ∧ t < b.bnc_var_t (m + 1)))
    (hsmall : 0 < n → t ≤ (b.bnc_var_nTimes : ℚ)) :
    (interp_bnc nest eb b t).1 = false ∧
    ∀ i, i < b.bnc_pos_nPts →
      (interp_bnc nest eb b t).2.bnc_var_zTmp i
        = b.bnc_var_z n i + (t - b.bnc_var_t n) / (b.bnc_var_t (n + 1) - b.bnc_var_t n)
            * (b.bnc_var_z (n + 1) i - b.bnc_var_z n i) := by
  have hs := interp_bnc_scan_bracket b t n hlo hhi (b.bnc_var_nTimes - 1) 0 (Nat.zero_le n)
    (by omega) (fun m _ hm => hfirst m hm) hsmall
  unfold interp_bnc
  simp only [hs, Bool.false_eq_true, if_false]
  refine ⟨trivial, fun i hi => ?_⟩
  exact (forRange_update 0 b.bnc_pos_nPts (fun i => i)
    (fun i => b.bnc_var_z n i + (t - b.bnc_var_t n) / (b.bnc_var_t (n + 1) - b.bnc_var_t n)
      * (b.bnc_var_z (n + 1) i - b.bnc_var_z n i)) b.bnc_var_zTmp
    (fun _ _ _ _ _ _ h => h)).1 i (Nat.zero_le i) hi

/-- C22 (the code at the failing input): in the series `tide3` (samples at `t = 0, 100, 200`) the
time `t = 150` lies in the pair of consecutive samples 1 and 2, and `interp_bnc` returns TRUE
(series exhausted) and leaves the profile as it was: the pass for the pair 0 does not bracket
`t` and its test `t > nest->bnc_var_nTimes` compares the time 150 with the number of
samples 3. -/
theorem interp_bnc_drops_bracketed_time :
    tide3.bnc_var_t 1 ≤ 150 ∧ (150 : ℚ) < tide3.bnc_var_t 2 ∧ 2 < tide3.bnc_var_nTimes ∧
    interp_bnc shallow6 edges2 tide3 150 = (true, tide3) := by
  have hs : interp_bnc_scan tide3 150 (tide3.bnc_var_nTimes - 1) 0
      = (true, tide3.bnc_var_zTmp) := by
    have e : tide3.bnc_var_nTimes - 1 = 1 + 1 := rfl
    rw [e]
    unfold interp_bnc_scan
    norm_num [tide3]
  refine ⟨by norm_num [tide3], by norm_num [tide3], by decide, ?_⟩
  unfold interp_bnc
  simp only [hs, if_true]

/-! ## intp_lin with its arrays -/

/-- A loop that replaces each entry `a[i]`, `lo <= i < hi`, by `f(a[i])`. -/
theorem forRange_map (lo hi : Nat) (f : ℚ → ℚ) (a : Nat → ℚ) :
    forRange lo hi (fun i (a : Nat → ℚ) => Function.update a i (f (a i))) a
      = fun k => if lo ≤ k ∧ k < hi then f (a k) else a k := by
  have hmem : ∀ i, i ∈ List.range' lo (hi - lo) ↔ lo ≤ i ∧ i < hi := by
    intro i
    rw [List.mem_range'_1]
    omega
  have key := foldl_pointwise (fun (s : Nat → ℚ) k => s k) (fun _ => True)
    (fun (i : Nat) (s : Nat → ℚ) => Function.update s i (f (s i))) id (fun _ old => f old)
    (List.range' lo (hi - lo)) ((List.nodup_range' _ _).imp (fun h => h))
    (fun _ _ _ => trivial)
    (fun c s k _ hk => Function.update_noteq hk _ _)
    (fun c s _ _ => Function.update_same _ _ _) a trivial
  obtain ⟨-, k2, k3⟩ := key
  funext k
  by_cases hk : lo ≤ k ∧ k < hi
  · rw [if_pos hk]
    exact k2 k ((hmem k).mpr hk)
  · rw [if_neg hk]
    exact k3 k (fun c hc he => hk (by
      have h1 := (hmem c).mp hc
      have he' : c = k := he
      rw [← he']
      exact h1))

theorem intp_lin_no_error_down (x : Nat → ℚ) (n : Nat)
    (hx : ∀ i j, i < j → j < n → x j < x i) :
    forRange 2 n (fun i e => if e = 0 then (if x i - x (i - 1) > 0 then i else e) else e) 0
      = 0 := by
  unfold forRange
  have hmem : ∀ i, i ∈ List.range' 2 (n - 2) → 1 ≤ i ∧ i < n := by
    intro i hi
    rw [List.mem_range'_1] at hi
    omega
  generalize List.range' 2 (n - 2) = l at hmem
  induction l with
  | nil => rfl
  | cons i l ih =>
    rw [List.foldl_cons]
    have h1 := hmem i (List.mem_cons_self _ _)
    have h2 : ¬ x i - x (i - 1) > 0 := by
      have := hx (i - 1) i (by omega) h1.2
      linarith
    simp only [if_true, if_neg h2]
    exact ih (fun k hk => hmem k (List.mem_cons_of_mem _ hk))

/-- The vectors `x` and `u` are given back by `intp_lin` as it received them, and the vector `v`
and the value returned are those of the model `intp_lin`, which works on negated copies. -/
theorem intp_lin_arrays_eq (x y : Nat → ℚ) (n m : Nat) (u v : Nat → ℚ) :
    intp_lin_arrays x y n m u v
      = (x, u, (intp_lin x y n m u v).1, (intp_lin x y n m u v).2) := by
  have neg1 : ∀ (a : Nat → ℚ) (k : Nat),
      forRange 0 k (fun i (a : Nat → ℚ) => Function.update a i (-a i)) a
        = fun i => if i < k then -a i else a i := by
    intro a k
    rw [forRange_map 0 k (fun q => -q) a]
    funext i
    simp only [Nat.zero_le, true_and]
  have neg2 : ∀ (a : Nat → ℚ) (k : Nat),
      forRange 0 k (fun i (a : Nat → ℚ) => Function.update a i (-a i))
        (fun i => if i < k then -a i else a i) = a := by
    intro a k
    rw [forRange_map 0 k (fun q => -q)]
    funext i
    by_cases h : i < k
    · simp only [Nat.zero_le, true_and, if_pos h, neg_neg]
    · simp only [Nat.zero_le, true_and, if_neg h]
  unfold intp_lin_arrays intp_lin
  simp only []
  by_cases herr : (if x 1 - x 0 > 0 then
      forRange 2 n (fun i e => if e = 0 then (if x i - x (i - 1) < 0 then i else e) else e) 0
    else
      forRange 2 n (fun i e => if e = 0 then (if x i - x (i - 1) > 0 then i else e) else e) 0)
      ≠ 0
  · rw [if_pos herr, if_pos herr]
  · rw [if_neg herr, if_neg herr]
    by_cases hdx : x 1 - x 0 > 0
    · have hd : decide (¬ x 1 - x 0 > 0) = false := decide_eq_false (not_not.mpr hdx)
      rw [hd]
      simp only [Bool.false_eq_true, if_false, if_pos hdx]
    · have hd : decide (¬ x 1 - x 0 > 0) = true := decide_eq_true hdx
      rw [hd]
      simp only [if_true, if_neg hdx]
      rw [neg1 x n, neg1 u m, neg2 x n, neg2 u m]

/-- On strictly decreasing sample positions `intp_lin` computes what it computes on the negated
positions and points, which are increasing. -/
theorem intp_lin_down_eq (x y : Nat → ℚ) (n m : Nat) (u v : Nat → ℚ) (hn : 2 ≤ n)
    (hx : ∀ i j, i < j → j < n → x j < x i) :
    intp_lin x y n m u v
      = intp_lin (fun i => if i < n then -x i else x i) y n m
          (fun i => if i < m then -u i else u i) v := by
  have hdx : ¬ x 1 - x 0 > 0 := by
    have := hx 0 1 (by omega) (by omega)
    linarith
  have hinc : ∀ i j, i < j → j < n →
      (fun i => if i < n then -x i else x i) i < (fun i => if i < n then -x i else x i) j := by
    intro i j hij hj
    have hi : i < n := by omega
    simp only [if_pos hi, if_pos hj]
    have := hx i j hij hj
    linarith
  have hdx' : (fun i => if i < n then -x i else x i) 1
      - (fun i => if i < n then -x i else x i) 0 > 0 := by
    have := hinc 0 1 (by omega) (by omega)
    linarith
  have L : intp_lin x y n m u v
      = ((forRange 0 m (fun i (s : (Nat → ℚ) × Nat) =>
          (Function.update s.1 i
            ((y (intp_lin_j (fun i => if i < n then -x i else x i)
                  ((fun i => if i < m then -u i else u i) i) n s.2 + 1)
                - y (intp_lin_j (fun i => if i < n then -x i else x i)
                  ((fun i => if i < m then -u i else u i) i) n s.2))
              * ((fun i => if i < m then -u i else u i) i
                - (fun i => if i < n then -x i else x i)
                    (intp_lin_j (fun i => if i < n then -x i else x i)
                      ((fun i => if i < m then -u i else u i) i) n s.2))
              / ((fun i => if i < n then -x i else x i)
                    (intp_lin_j (fun i => if i < n then -x i else x i)
                      ((fun i => if i < m then -u i else u i) i) n s.2 + 1)
                - (fun i => if i < n then -x i else x i)
                    (intp_lin_j (fun i => if i < n then -x i else x i)
                      ((fun i => if i < m then -u i else u i) i) n s.2))
              + y (intp_lin_j (fun i => if i < n then -x i else x i)
                  ((fun i => if i < m then -u i else u i) i) n s.2)),
           intp_lin_j (fun i => if i < n then -x i else x i)
             ((fun i => if i < m then -u i else u i) i) n s.2)) (v, 0)).1, 0) := by
    unfold intp_lin
    simp only [if_neg hdx, intp_lin_no_error_down x n hx, ne_eq, not_true_eq_false, if_false]
  have R : intp_lin (fun i => if i < n then -x i else x i) y n m
        (fun i => if i < m then -u i else u i) v
      = ((forRange 0 m (fun i (s : (Nat → ℚ) × Nat) =>
          (Function.update s.1 i
            ((y (intp_lin_j (fun i => if i < n then -x i else x i)
                  ((fun i => if i < m then -u i else u i) i) n s.2 + 1)
                - y (intp_lin_j (fun i => if i < n then -x i else x i)
                  ((fun i => if i < m then -u i else u i) i) n s.2))
              * ((fun i => if i < m then -u i else u i) i
                - (fun i => if i < n then -x i else x i)
                    (intp_lin_j (fun i => if i < n then -x i else x i)
                      ((fun i => if i < m then -u i else u i) i) n s.2))
              / ((fun i => if i < n then -x i else x i)
                    (intp_lin_j (fun i => if i < n then -x i else x i)
                      ((fun i => if i < m then -u i else u i) i) n s.2 + 1)
                - (fun i => if i < n then -x i else x i)
                    (intp_lin_j (fun i => if i < n then -x i else x i)
                      ((fun i => if i < m then -u i else u i) i) n s.2))
              + y (intp_lin_j (fun i => if i < n then -x i else x i)
                  ((fun i => if i < m then -u i else u i) i) n s.2)),
           intp_lin_j (fun i => if i < n then -x i else x i)
             ((fun i => if i < m then -u i else u i) i) n s.2)) (v, 0)).1, 0) := by
    unfold intp_lin
    simp only [if_pos hdx', intp_lin_no_error _ n hinc, ne_eq, not_true_eq_false, if_false]
  rw [L, R]

/-- The value interpolated in the bracketing segment at a point that is a sample position is
the sample (increasing positions). -/
theorem interp_at_node_inc (x y : Nat → ℚ) (n j k : Nat) (ui : ℚ)
    (hx : ∀ i j, i < j → j < n → x i < x j) (hj : j + 1 < n)
    (b1 : j = 0 ∨ x j ≤ ui) (b2 : j + 2 = n ∨ ui < x (j + 1)) (hk : k < n) (hu : ui = x k) :
    y j + (y (j + 1) - y j) * (ui - x j) / (x (j + 1) - x j) = y k := by
  have hmono : ∀ a b, a < n → b < n → x a ≤ x b → a ≤ b := by
    intro a b ha hb hab
    by_contra hlt
    have := hx b a (by omega) ha
    linarith
  have hne : x (j + 1) - x j ≠ 0 := by
    have := hx j (j + 1) (by omega) hj
    linarith
  subst hu
  have hjk : j ≤ k := by
    rcases b1 with h | h
    · omega
    · exact hmono j k (by omega) hk h
  rcases Nat.eq_or_lt_of_le hjk with h | h
  · subst h
    simp
  · have hk1 : k = j + 1 := by
      rcases b2 with h2 | h2
      · omega
      · have := hx (j + 1) k
        by_contra hne'
        have := this (by omega) hk
        linarith
    subst hk1
    field_simp

/-- The same for decreasing positions. -/
theorem interp_at_node_dec (x y : Nat → ℚ) (n j k : Nat) (ui : ℚ)
    (hx : ∀ i j, i < j → j < n → x j < x i) (hj : j + 1 < n)
    (b1 : j = 0 ∨ ui ≤ x j) (b2 : j + 2 = n ∨ x (j + 1) < ui) (hk : k < n) (hu : ui = x k) :
    y j + (y (j + 1) - y j) * (ui - x j) / (x (j + 1) - x j) = y k := by
  have hmono : ∀ a b, a < n → b < n → x b ≤ x a → a ≤ b := by
    intro a b ha hb hab
    by_contra hlt
    have := hx b a (by omega) ha
    linarith
  have hne : x (j + 1) - x j ≠ 0 := by
    have := hx j (j + 1) (by omega) hj
    linarith
  subst hu
  have hjk : j ≤ k := by
    rcases b1 with h | h
    · omega
    · exact hmono j k (by omega) hk h
  rcases Nat.eq_or_lt_of_le hjk with h | h
  · subst h
    simp
  · have hk1 : k = j + 1 := by
      rcases b2 with h2 | h2
      · omega
      · have := hx (j + 1) k
        by_contra hne'
        have := this (by omega) hk
        linarith
    subst hk1
    field_simp

/-- The segment that the reference resampling uses brackets the point (increasing
positions). -/
theorem findGreatest_brackets (x : Nat → ℚ) (n : Nat) (ui : ℚ) (hn : 2 ≤ n) :
    Nat.findGreatest (fun k => x k ≤ ui) (n - 2) + 1 < n ∧
    (Nat.findGreatest (fun k => x k ≤ ui) (n - 2) = 0
      ∨ x (Nat.findGreatest (fun k => x k ≤ ui) (n - 2)) ≤ ui) ∧
    (Nat.findGreatest (fun k => x k ≤ ui) (n - 2) + 2 = n
      ∨ ui < x (Nat.findGreatest (fun k => x k ≤ ui) (n - 2) + 1)) := by
  have h1 := Nat.findGreatest_le (P := fun k => x k ≤ ui) (n - 2)
  refine ⟨by omega, ?_, ?_⟩
  · by_cases h0 : Nat.findGreatest (fun k => x k ≤ ui) (n - 2) = 0
    · exact Or.inl h0
    · exact Or.inr (Nat.findGreatest_of_ne_zero rfl h0)
  · by_cases h2 : Nat.findGreatest (fun k => x k ≤ ui) (n - 2) + 2 = n
    · exact Or.inl h2
    · refine Or.inr (not_le.mp ?_)
      exact Nat.findGreatest_is_greatest (P := fun k => x k ≤ ui) (Nat.lt_succ_self _)
        (by omega)

/-- C26: for `n >= 2` and strictly increasing or strictly decreasing `x`, `intp_lin` returns 0,
gives back `x` and `u` with their original values and sets, for every `i < m`,
`v[i] = y[j] + (y[j+1] - y[j]) * (u[i] - x[j]) / (x[j+1] - x[j])` with `j` the segment of `x`
that brackets `u[i]` (the first or last segment when `u[i]` lies outside the range of `x`); in
particular `v[i] = y[k]` whenever `u[i] = x[k]`. -/
theorem intp_lin_interpolates (x y : Nat → ℚ) (n m : Nat) (u v : Nat → ℚ) (hn : 2 ≤ n)
    (hx : (∀ i j, i < j → j < n → x i < x j) ∨ (∀ i j, i < j → j < n → x j < x i)) :
    (intp_lin_arrays x y n m u v).2.2.2 = 0 ∧
    (intp_lin_arrays x y n m u v).1 = x ∧
    (intp_lin_arrays x y n m u v).2.1 = u ∧
    (∀ i, i < m → ∃ j, segment_brackets x n j (u i) ∧
      (intp_lin_arrays x y n m u v).2.2.1 i
        = y j + (y (j + 1) - y j) * (u i - x j) / (x (j + 1) - x j)) ∧
    (∀ i k, i < m → k < n → u i = x k → (intp_lin_arrays x y n m u v).2.2.1 i = y k) := by
  rw [intp_lin_arrays_eq]
  show (intp_lin x y n m u v).2 = 0 ∧ x = x ∧ u = u ∧
    (∀ i, i < m → ∃ j, segment_brackets x n j (u i) ∧
      (intp_lin x y n m u v).1 i
        = y j + (y (j + 1) - y j) * (u i - x j) / (x (j + 1) - x j)) ∧
    (∀ i k, i < m → k < n → u i = x k → (intp_lin x y n m u v).1 i = y k)
  rcases hx with hinc | hdec
  · obtain ⟨s1, s2, -⟩ := intp_lin_spec x y n m u v hn hinc
    have h01 : x 0 < x 1 := hinc 0 1 (by omega) (by omega)
    have hb : ∀ i, i < m → ∃ j, (j + 1 < n ∧ (j = 0 ∨ x j ≤ u i) ∧
        (j + 2 = n ∨ u i < x (j + 1))) ∧
        (intp_lin x y n m u v).1 i
          = y j + (y (j + 1) - y j) * (u i - x j) / (x (j + 1) - x j) := by
      intro i hi
      exact ⟨_, findGreatest_brackets x n (u i) hn, s2 i hi⟩
    refine ⟨s1, rfl, rfl, fun i hi => ?_, fun i k hi hk hu => ?_⟩
    · obtain ⟨j, hj, hv⟩ := hb i hi
      refine ⟨j, ?_, hv⟩
      unfold segment_brackets
      simp only [if_pos h01]
      exact hj
    · obtain ⟨j, hj, hv⟩ := hb i hi
      rw [hv]
      exact interp_at_node_inc x y n j k (u i) hinc hj.1 hj.2.1 hj.2.2 hk hu
  · have h01 : ¬ x 0 < x 1 := by
      have := hdec 0 1 (by omega) (by omega)
      linarith
    have hinc : ∀ i j, i < j → j < n →
        (fun i => if i < n then -x i else x i) i
          < (fun i => if i < n then -x i else x i) j := by
      intro i j hij hj
      have hi : i < n := by omega
      simp only [if_pos hi, if_pos hj]
      have := hdec i j hij hj
      linarith
    rw [intp_lin_down_eq x y n m u v hn hdec]
    obtain ⟨s1, s2, -⟩ := intp_lin_spec (fun i => if i < n then -x i else x i) y n m
      (fun i => if i < m then -u i else u i) v hn hinc
    have hb : ∀ i, i < m → ∃ j, (j + 1 < n ∧ (j = 0 ∨ u i ≤ x j) ∧
        (j + 2 = n ∨ x (j + 1) < u i)) ∧
        (intp_lin (fun i => if i < n then -x i else x i) y n m
          (fun i => if i < m then -u i else u i) v).1 i
          = y j + (y (j + 1) - y j) * (u i - x j) / (x (j + 1) - x j) := by
      intro i hi
      obtain ⟨f1, f2, f3⟩ := findGreatest_brackets (fun i => if i < n then -x i else x i) n
        ((fun i => if i < m then -u i else u i) i) hn
      have hv := s2 i hi
      unfold lin_resample_ref at hv
      simp only [] at hv
      generalize Nat.findGreatest (fun k => (fun i => if i < n then -x i else x i) k
        ≤ (fun i => if i < m then -u i else u i) i) (n - 2) = j at f1 f2 f3 hv
      have hj0 : j < n := by omega
      simp only [if_pos hi, if_pos hj0, if_pos f1] at f2 f3 hv
      refine ⟨j, ⟨f1, ?_, ?_⟩, ?_⟩
      · rcases f2 with h | h
        · exact Or.inl h
        · exact Or.inr (by linarith)
      · rcases f3 with h | h
        · exact Or.inl h
        · exact Or.inr (by linarith)
      · rw [hv]
        have e1 : -u i - -x j = -(u i - x j) := by ring
        have e2 : -x (j + 1) - -x j = -(x (j + 1) - x j) := by ring
        rw [e1, e2, mul_neg, neg_div_neg_eq]
    refine ⟨s1, rfl, rfl, fun i hi => ?_, fun i k hi hk hu => ?_⟩
    · obtain ⟨j, hj, hv⟩ := hb i hi
      refine ⟨j, ?_, hv⟩
      unfold segment_brackets
      simp only [if_neg h01]
      exact hj
    · obtain ⟨j, hj, hv⟩ := hb i hi
      rw [hv]
      exact interp_at_node_dec x y n j k (u i) hdec hj.1 hj.2.1 hj.2.2 hk hu

/-- Witness of C26: three samples `y = 10, 20, 40` at the decreasing positions `x = 3, 2, 1`,
resampled at the two points `u = 2, 3/2`: the function returns 0, gives `x` back, and the
value at the point `u[0] = x[1]` is the sample `y[1] = 20`. -/
theorem intp_lin_interpolates_witness :
    (intp_lin_arrays down3_x down3_y 3 2 down3_u (fun _ => 0)).2.2.2 = 0 ∧
    (intp_lin_arrays down3_x down3_y 3 2 down3_u (fun _ => 0)).1 = down3_x ∧
    (intp_lin_arrays down3_x down3_y 3 2 down3_u (fun _ => 0)).2.2.1 0 = 20 := by
  have h := intp_lin_interpolates down3_x down3_y 3 2 down3_u (fun _ => 0) (by decide)
    (Or.inr (fun i j hij _ => by
      show (3 : ℚ) - (j : ℚ) < 3 - (i : ℚ)
      have : (i : ℚ) < (j : ℚ) := by exact_mod_cast hij
      linarith))
  refine ⟨h.1, h.2.1, ?_⟩
  have h2 := h.2.2.2.2 0 1 (by decide) (by decide) (by norm_num [down3_u, down3_x])
  rw [h2]
  norm_num [down3_y]

/-! ## moment_M and moment_N under the exchange of the axes -/

theorem thin4_M_val (old : ℚ × ℚ) :
    (moment_M_val env0 thin4 1 (1, 1) old).1 = -1601 / 20010 := by
  norm_num [moment_M_val, moment_M_face, moment_M_wetdry, moment_M_xp, moment_M_adv, mean_depth,
    face_vel, limit_discharge, jupe_of, in_buffer, thin4, nest0, hdr0, env0,
    MAXRUNUP, EPS5, EPS4_, EPS3, EPS10, NORMAL_GRAV, V_LIMIT, abs_lt]

theorem thin4_N_val (old : ℚ × ℚ) :
    (moment_N_val env0 (transposed thin4) 1 (1, 1) old).1 = -2001 / 200 := by
  norm_num [moment_N_val, moment_N_face, moment_N_wetdry, moment_N_xp, moment_N_adv, mean_depth,
    face_vel, limit_discharge, jupe_of, in_buffer, transposed, transpose_array, transpose_hdr,
    thin4, nest0, hdr0, env0,
    MAXRUNUP, EPS5, EPS4_, EPS3, EPS10, NORMAL_GRAV, V_LIMIT, abs_lt]

/-- C29 (the code at the failing input): `thin4` is a Cartesian state without Coriolis term;
at its level 1, `moment_M` stores the flux -1601/20010 at the face east of the cell
`(row 1, col 1)` (index 5), and so does the transpose of its `fluxm_d` at the cell
`(row 1, col 1)` of the transposed grid (index 4),
whereas `moment_N` on the transposed state stores -2001/200 there: the mean depth 1/2000 of
the next face lies between EPS5 and EPS3, `moment_M` tests `dpa_ij_cp1 < EPS3` and drops the
upwind term, `moment_N` tests `dqa_ij_rp1 < EPS5` and keeps it. -/
theorem moment_N_not_transpose_of_moment_M :
    thin4.do_Coriolis = false ∧ thin4.isGeog = false ∧
    (moment_M env0 thin4 1 0 0).fluxm_d 1 5 = -1601 / 20010 ∧
    transpose_array (thin4.hdr 1) ((moment_M env0 thin4 1 0 0).fluxm_d 1) 4 = -1601 / 20010 ∧
    (moment_N env0 (transposed thin4) 1 0 0).fluxn_d 1 4 = -2001 / 200 := by
  have hM := (moment_M_spec env0 thin4 1 0 0).2.2.1 1 1 (by decide) (by decide) (by decide)
    (by decide)
  have hN := (moment_N_spec env0 (transposed thin4) 1 0 0).2.2.1 1 1 (by decide) (by decide)
    (by decide) (by decide)
  have eM : 1 * (thin4.hdr 1).nx + 1 = 5 := rfl
  have eN : 1 * ((transposed thin4).hdr 1).nx + 1 = 4 := rfl
  rw [eM] at hM
  rw [eN] at hN
  have vM : (moment_M env0 thin4 1 0 0).fluxm_d 1 5 = -1601 / 20010 := by
    have h := congrArg Prod.fst hM
    rw [thin4_M_val] at h
    exact h
  have vN : (moment_N env0 (transposed thin4) 1 0 0).fluxn_d 1 4 = -2001 / 200 := by
    have h := congrArg Prod.fst hN
    rw [thin4_N_val] at h
    exact h
  have eT : transpose_array (thin4.hdr 1) ((moment_M env0 thin4 1 0 0).fluxm_d 1) 4
      = (moment_M env0 thin4 1 0 0).fluxm_d 1 5 := by
    unfold transpose_array
    have e : (4 % (thin4.hdr 1).ny) * (thin4.hdr 1).nx + 4 / (thin4.hdr 1).ny = 5 := rfl
    rw [e]
  exact ⟨rfl, rfl, vM, eT.trans vM, vN⟩

end NSWING
